import Mathlib

/-!
# capnpc-parquet: schema mapping and traversal

A shallow embedding of `capnpparquet.h` (the AST builder and the mapping
engine) and of `capnpgeneric.h` (the generic traversal engine).

Conventions of the embedding:

* machine integers are `Int` (signed) or `Nat` (unsigned); a `static_cast`
  that can change the value is written as an explicit wrap;
* an `ASTNode*` is an index into an arena (`List ASTNode`); dereferencing a
  null or invalid pointer, which is undefined behaviour in C++, makes the
  operation return `none`;
* a `parquet::schema::NodePtr` is the immutable record of the arguments
  that were given to `PrimitiveNode::Make` or `GroupNode::Make`; the checks
  that the parquet library, which is not part of this repository, makes on
  these arguments are not modelled.
-/

namespace capnpparquet

/-! ## External enumerations -/

/-- Type kinds of the interface-definition schema (`capnp::schema::Type::Which`). -/
inductive TypeWhich where
  | VOID | BOOL | INT8 | INT16 | INT32 | INT64
  | UINT8 | UINT16 | UINT32 | UINT64
  | FLOAT32 | FLOAT64 | TEXT | DATA
  | LIST | ENUM | STRUCT | INTERFACE | ANY_POINTER
deriving DecidableEq, Repr, Inhabited

/-- Repetition kinds of the target schema (`parquet::Repetition::type`). -/
inductive Repetition where
  | REQUIRED | OPTIONAL | REPEATED
deriving DecidableEq, Repr, Inhabited

/-- Physical storage types of the target schema (`parquet::Type::type`). -/
inductive PhysicalType where
  | BOOLEAN | INT32 | INT64 | INT96 | FLOAT | DOUBLE
  | BYTE_ARRAY | FIXED_LEN_BYTE_ARRAY
deriving DecidableEq, Repr, Inhabited

/-- Logical types of the target schema (`parquet::LogicalType::type`). -/
inductive LogicalType where
  | NONE | UTF8 | MAP | MAP_KEY_VALUE | LIST | ENUM | DECIMAL | DATE
  | TIME_MILLIS | TIME_MICROS | TIMESTAMP_MILLIS | TIMESTAMP_MICROS
  | UINT_8 | UINT_16 | UINT_32 | UINT_64 | INT_8 | INT_16 | INT_32 | INT_64
  | JSON | BSON | INTERVAL | NA
deriving DecidableEq, Repr, Inhabited

/-- Structural kinds of a target node (`parquet::schema::Node::type`). -/
inductive ParquetNodeType where
  | PRIMITIVE | GROUP
deriving DecidableEq, Repr, Inhabited

/-- Target-schema node (`parquet::schema::Node`), as the record of the
arguments of the `Make` call that created it. `PrimitiveNode::Make` has the
default arguments `length = -1`, `precision = -1`, `scale = -1`. -/
inductive ParquetNode where
  | primitive (name : String) (repetition : Repetition)
      (physical_type : PhysicalType) (logical_type : LogicalType)
      (length : Int) (precision : Int) (scale : Int)
  | group (name : String) (repetition : Repetition)
      (fields : List ParquetNode) (logical_type : LogicalType)
deriving Repr, Inhabited

namespace ParquetNode

/-- The C++ accessor `Node::is_group()`. -/
def is_group : ParquetNode → Bool
  | .group .. => true
  | .primitive .. => false

/-- The C++ accessor `Node::name()`. -/
def name : ParquetNode → String
  | .primitive n .. => n
  | .group n .. => n

/-- The C++ accessor `Node::repetition()`. -/
def repetition : ParquetNode → Repetition
  | .primitive _ r .. => r
  | .group _ r .. => r

/-- The C++ accessor `Node::logical_type()`. -/
def logical_type : ParquetNode → LogicalType
  | .primitive _ _ _ l .. => l
  | .group _ _ _ l => l

/-- The C++ accessor `PrimitiveNode::physical_type()`; `none` on a group. -/
def physical_type : ParquetNode → Option PhysicalType
  | .primitive _ _ p .. => some p
  | .group .. => none

/-- The length argument a primitive node was made with; `none` on a group. -/
def type_length : ParquetNode → Option Int
  | .primitive _ _ _ _ len _ _ => some len
  | .group .. => none

/-- The precision argument a primitive node was made with; `none` on a group. -/
def precision : ParquetNode → Option Int
  | .primitive _ _ _ _ _ p _ => some p
  | .group .. => none

/-- The scale argument a primitive node was made with; `none` on a group. -/
def scale : ParquetNode → Option Int
  | .primitive _ _ _ _ _ _ s => some s
  | .group .. => none

/-- The fields of a group node (`GroupNode::field(0 .. field_count()-1)`).
A primitive node is not a `GroupNode`; the `static_cast` to one is undefined
behaviour, hence `none`. -/
def group_fields : ParquetNode → Option (List ParquetNode)
  | .group _ _ fs _ => some fs
  | .primitive .. => none

end ParquetNode

/-! ## The AST node -/

/-- Categories of an AST node (`ASTNode::type`). -/
inductive ASTNodeType where
  | NONE | STRUCT | INTERFACE | GROUP | ENUM | FILE | FIELD | UNION
  | ANNOTATION | CONST | PARAM | METHOD | ENUMERANT | TYPE | VALUE
deriving DecidableEq, Repr, Inhabited

/-- The is-set bits of an AST node (`_ASTNode__isset`), all initially false. -/
structure ASTNodeIsset where
  node_type : Bool := false
  name : Bool := false
  capnp_type : Bool := false
  type_length : Bool := false
  repetition_type : Bool := false
  physical_type : Bool := false
  logical_type : Bool := false
  parquet_node_type : Bool := false
  scale : Bool := false
  precision : Bool := false
  node_id : Bool := false
  scope_id : Bool := false
  ordinal : Bool := false
  offset : Bool := false
  index : Bool := false
  default_value_offset : Bool := false
  had_default_value : Bool := false
  unconstrained : Bool := false
  type_id : Bool := false
  type_name : Bool := false
  enumerant_name : Bool := false
  schema_name : Bool := false
  parent : Bool := false
  node : Bool := false
  decl : Bool := false
  decimal : Bool := false
  date : Bool := false
  time_millis : Bool := false
  time_micros : Bool := false
  timestamp_millis : Bool := false
  timestamp_micros : Bool := false
  bson : Bool := false
  json : Bool := false
  interval : Bool := false
  fixed_len_byte_array : Bool := false
  map : Bool := false
  map_key_value : Bool := false
  list : Bool := false
  value : Bool := false
deriving DecidableEq, Repr, Inhabited

/-- The literal slots of an AST node (`_ASTNodeValue`). The C++ struct is not
a union: every slot exists side by side. A scalar slot that was never written
is indeterminate in C++; here it reads as zero. Floating-point payloads are kept
as their bit patterns. -/
structure ASTNodeValue where
  b : Bool := false
  i8 : Int := 0
  i16 : Int := 0
  i32 : Int := 0
  i64 : Int := 0
  ui8 : Nat := 0
  ui16 : Nat := 0
  ui32 : Nat := 0
  ui64 : Nat := 0
  f : Nat := 0
  d : Nat := 0
  string : String := ""
  binary : List Nat := []
deriving DecidableEq, Repr, Inhabited

/-- One AST node (`class ASTNode`). The defaults are those of the C++
constructor `ASTNode(type, name)`. `parent_` and the entries of `children_`
are pointers, that is, arena indices. -/
structure ASTNode where
  node_type_ : ASTNodeType
  name_ : String
  capnp_type_ : TypeWhich := .VOID
  type_length_ : Int := -1
  repetition_type_ : Repetition := .OPTIONAL
  physical_type_ : PhysicalType := .BYTE_ARRAY
  logical_type_ : LogicalType := .NONE
  parquet_node_type_ : ParquetNodeType := .PRIMITIVE
  scale_ : Int := -1
  precision_ : Int := -1
  node_id_ : Nat := 0
  scope_id_ : Nat := 0
  ordinal_ : Nat := 0
  offset_ : Nat := 0
  index_ : Nat := 0
  default_value_offset_ : Nat := 0
  type_id_ : Nat := 0
  type_name_ : String := ""
  enumerant_name_ : String := ""
  schema_name_ : String := ""
  parent_ : Option Nat := none
  node_ : Option ParquetNode := none
  value_ : ASTNodeValue := {}
  isset : ASTNodeIsset := {}
  children_ : List Nat := []
  targets_ : List String := []
deriving Repr, Inhabited

namespace ASTNode

/-- The C++ constructor `ASTNode(type, name)`. -/
def new (type : ASTNodeType) (name : String) : ASTNode :=
  { node_type_ := type, name_ := name }

/-! ### Methods to check if a property is set -/

def is_capnp_type (n : ASTNode) : Bool := n.isset.capnp_type
def is_type_length (n : ASTNode) : Bool := n.isset.type_length
def is_type_name (n : ASTNode) : Bool := n.isset.type_name
def is_enumerant_name (n : ASTNode) : Bool := n.isset.enumerant_name
def is_schema_name (n : ASTNode) : Bool := n.isset.schema_name
def is_decl (n : ASTNode) : Bool := n.isset.decl
def is_decimal (n : ASTNode) : Bool := n.isset.decimal
def is_date (n : ASTNode) : Bool := n.isset.date
def is_time_millis (n : ASTNode) : Bool := n.isset.time_millis
def is_time_micros (n : ASTNode) : Bool := n.isset.time_micros
def is_timestamp_millis (n : ASTNode) : Bool := n.isset.timestamp_millis
def is_timestamp_micros (n : ASTNode) : Bool := n.isset.timestamp_micros
def is_bson (n : ASTNode) : Bool := n.isset.bson
def is_json (n : ASTNode) : Bool := n.isset.json
def is_interval (n : ASTNode) : Bool := n.isset.interval
def is_fixed_len_byte_array (n : ASTNode) : Bool := n.isset.fixed_len_byte_array
def is_map (n : ASTNode) : Bool := n.isset.map
def is_map_key_value (n : ASTNode) : Bool := n.isset.map_key_value
def is_list (n : ASTNode) : Bool := n.isset.list
def is_value (n : ASTNode) : Bool := n.isset.value

/-- The C++ method `is_target`. -/
def is_target (n : ASTNode) (target : String) : Bool := n.targets_.contains target

/-- The C++ method `is_parquet_primitive`. -/
def is_parquet_primitive (n : ASTNode) : Bool := n.parquet_node_type_ == .PRIMITIVE

/-- The C++ method `is_parquet_group`. -/
def is_parquet_group (n : ASTNode) : Bool := n.parquet_node_type_ == .GROUP

/-! ### Methods to set a property -/

def setNodeType (n : ASTNode) (type : ASTNodeType) : ASTNode :=
  { n with node_type_ := type, isset := { n.isset with node_type := true } }

def setName (n : ASTNode) (name : String) : ASTNode :=
  { n with name_ := name, isset := { n.isset with name := true } }

def setCapnpType (n : ASTNode) (type : TypeWhich) : ASTNode :=
  { n with capnp_type_ := type, isset := { n.isset with capnp_type := true } }

def setTypeLength (n : ASTNode) (length : Int) : ASTNode :=
  { n with type_length_ := length, isset := { n.isset with type_length := true } }

def setPhysicalType (n : ASTNode) (type : PhysicalType) : ASTNode :=
  { n with physical_type_ := type, isset := { n.isset with physical_type := true } }

def setLogicalType (n : ASTNode) (type : LogicalType) : ASTNode :=
  { n with logical_type_ := type, isset := { n.isset with logical_type := true } }

def setScale (n : ASTNode) (scale : Int) : ASTNode :=
  { n with scale_ := scale, isset := { n.isset with scale := true } }

def setPrecision (n : ASTNode) (precision : Int) : ASTNode :=
  { n with precision_ := precision, isset := { n.isset with precision := true } }

def setNodeId (n : ASTNode) (node_id : Nat) : ASTNode :=
  { n with node_id_ := node_id, isset := { n.isset with node_id := true } }

def setScopeId (n : ASTNode) (scope_id : Nat) : ASTNode :=
  { n with scope_id_ := scope_id, isset := { n.isset with scope_id := true } }

def setOrdinal (n : ASTNode) (ordinal : Nat) : ASTNode :=
  { n with ordinal_ := ordinal, isset := { n.isset with ordinal := true } }

def setOffset (n : ASTNode) (offset : Nat) : ASTNode :=
  { n with offset_ := offset, isset := { n.isset with offset := true } }

def setIndex (n : ASTNode) (index : Nat) : ASTNode :=
  { n with index_ := index, isset := { n.isset with index := true } }

def setDefaultValueOffset (n : ASTNode) (offset : Nat) : ASTNode :=
  { n with default_value_offset_ := offset,
           isset := { n.isset with default_value_offset := true } }

def setHadDefaultValue (n : ASTNode) : ASTNode :=
  { n with isset := { n.isset with had_default_value := true } }

def setIsUnconstrained (n : ASTNode) : ASTNode :=
  { n with isset := { n.isset with unconstrained := true } }

def setTypeId (n : ASTNode) (type_id : Nat) : ASTNode :=
  { n with type_id_ := type_id, isset := { n.isset with type_id := true } }

def setTypeName (n : ASTNode) (name : String) : ASTNode :=
  { n with type_name_ := name, isset := { n.isset with type_name := true } }

def setEnumerantName (n : ASTNode) (name : String) : ASTNode :=
  { n with enumerant_name_ := name, isset := { n.isset with enumerant_name := true } }

def setSchemaName (n : ASTNode) (name : String) : ASTNode :=
  { n with schema_name_ := name, isset := { n.isset with schema_name := true } }

def setParent (n : ASTNode) (parent : Option Nat) : ASTNode :=
  { n with parent_ := parent, isset := { n.isset with parent := true } }

def setNode (n : ASTNode) (node : Option ParquetNode) : ASTNode :=
  { n with node_ := node, isset := { n.isset with node := true } }

def setIsDecl (n : ASTNode) : ASTNode :=
  { n with isset := { n.isset with decl := true } }

def setIsDecimal (n : ASTNode) : ASTNode :=
  { n with isset := { n.isset with decimal := true } }

def setIsDate (n : ASTNode) : ASTNode :=
  { n with isset := { n.isset with date := true } }

def setIsTimeMillis (n : ASTNode) : ASTNode :=
  { n with isset := { n.isset with time_millis := true } }

def setIsTimeMicros (n : ASTNode) : ASTNode :=
  { n with isset := { n.isset with time_micros := true } }

def setIsTimestampMillis (n : ASTNode) : ASTNode :=
  { n with isset := { n.isset with timestamp_millis := true } }

def setIsTimestampMicros (n : ASTNode) : ASTNode :=
  { n with isset := { n.isset with timestamp_micros := true } }

def setIsBson (n : ASTNode) : ASTNode :=
  { n with isset := { n.isset with bson := true } }

def setIsJson (n : ASTNode) : ASTNode :=
  { n with isset := { n.isset with json := true } }

def setIsInterval (n : ASTNode) : ASTNode :=
  { n with isset := { n.isset with interval := true } }

def setIsFixedLenByteArray (n : ASTNode) : ASTNode :=
  { n with isset := { n.isset with fixed_len_byte_array := true } }

def setIsMap (n : ASTNode) : ASTNode :=
  { n with isset := { n.isset with map := true } }

def setIsMapKeyValue (n : ASTNode) : ASTNode :=
  { n with isset := { n.isset with map_key_value := true } }

def setIsList (n : ASTNode) : ASTNode :=
  { n with isset := { n.isset with list := true } }

def setIsValue (n : ASTNode) : ASTNode :=
  { n with isset := { n.isset with value := true } }

/-! ### Methods to set repetition type -/

def setIsRequired (n : ASTNode) : ASTNode :=
  { n with repetition_type_ := .REQUIRED, isset := { n.isset with repetition_type := true } }

def setIsOptional (n : ASTNode) : ASTNode :=
  { n with repetition_type_ := .OPTIONAL, isset := { n.isset with repetition_type := true } }

def setIsRepeated (n : ASTNode) : ASTNode :=
  { n with repetition_type_ := .REPEATED, isset := { n.isset with repetition_type := true } }

/-! ### Methods to set Parquet node type -/

def setIsParquetPRIMITIVE (n : ASTNode) : ASTNode :=
  { n with parquet_node_type_ := .PRIMITIVE,
           isset := { n.isset with parquet_node_type := true } }

def setIsParquetGROUP (n : ASTNode) : ASTNode :=
  { n with parquet_node_type_ := .GROUP,
           isset := { n.isset with parquet_node_type := true } }

/-! ### Methods to set value -/

def setValueBOOL (n : ASTNode) (value : Bool) : ASTNode :=
  { n with value_ := { n.value_ with b := value }, isset := { n.isset with value := true } }

def setValueI8 (n : ASTNode) (value : Int) : ASTNode :=
  { n with value_ := { n.value_ with i8 := value }, isset := { n.isset with value := true } }

def setValueI16 (n : ASTNode) (value : Int) : ASTNode :=
  { n with value_ := { n.value_ with i16 := value }, isset := { n.isset with value := true } }

def setValueI32 (n : ASTNode) (value : Int) : ASTNode :=
  { n with value_ := { n.value_ with i32 := value }, isset := { n.isset with value := true } }

def setValueI64 (n : ASTNode) (value : Int) : ASTNode :=
  { n with value_ := { n.value_ with i64 := value }, isset := { n.isset with value := true } }

def setValueUI8 (n : ASTNode) (value : Nat) : ASTNode :=
  { n with value_ := { n.value_ with ui8 := value }, isset := { n.isset with value := true } }

def setValueUI16 (n : ASTNode) (value : Nat) : ASTNode :=
  { n with value_ := { n.value_ with ui16 := value }, isset := { n.isset with value := true } }

def setValueUI32 (n : ASTNode) (value : Nat) : ASTNode :=
  { n with value_ := { n.value_ with ui32 := value }, isset := { n.isset with value := true } }

def setValueUI64 (n : ASTNode) (value : Nat) : ASTNode :=
  { n with value_ := { n.value_ with ui64 := value }, isset := { n.isset with value := true } }

def setValueFLOAT (n : ASTNode) (value : Nat) : ASTNode :=
  { n with value_ := { n.value_ with f := value }, isset := { n.isset with value := true } }

def setValueDOUBLE (n : ASTNode) (value : Nat) : ASTNode :=
  { n with value_ := { n.value_ with d := value }, isset := { n.isset with value := true } }

def setValueSTRING (n : ASTNode) (value : String) : ASTNode :=
  { n with value_ := { n.value_ with string := value }, isset := { n.isset with value := true } }

def setValueBINARY (n : ASTNode) (value : List Nat) : ASTNode :=
  { n with value_ := { n.value_ with binary := value }, isset := { n.isset with value := true } }

/-- The C++ method `appendValueBINARY(value, length)`: pushes the bytes one by one. -/
def appendValueBINARY (n : ASTNode) (value : List Nat) : ASTNode :=
  { n with value_ := { n.value_ with binary := n.value_.binary ++ value },
           isset := { n.isset with value := true } }

/-- The C++ method `addTarget`. -/
def addTarget (n : ASTNode) (target : String) : ASTNode :=
  { n with targets_ := if n.targets_.contains target then n.targets_ else n.targets_ ++ [target] }

/-- The C++ method `num_children`. -/
def num_children (n : ASTNode) : Nat := n.children_.length

/-- The statement `children_.push_back(child)` of the C++ method `addChild`. -/
def push_back_child (n : ASTNode) (child : Nat) : ASTNode :=
  { n with children_ := n.children_ ++ [child] }

/-- The body of the C++ method `removeChild`, on the node itself: the child at
`index` is erased when `index < children_.size()`. -/
def erase_child (n : ASTNode) (index : Nat) : ASTNode :=
  if index < n.children_.length then { n with children_ := n.children_.eraseIdx index }
  else n

end ASTNode

/-! ## Decimal byte width -/

/-- The number of binary digits of a whole number `n` below `2 ^ 2 ^ i`, by
halving the range: when `n` has more than `2 ^ i` digits, these are `2 ^ i`
more than the digits of `n / 2 ^ 2 ^ i`. -/
def bitLengthBelow : Nat → Nat → Nat
  | 0, n => if n = 0 then 0 else 1
  | i + 1, n =>
    if n < 2 ^ 2 ^ i then bitLengthBelow i n
    else 2 ^ i + bitLengthBelow i (n / 2 ^ 2 ^ i)

/-- The search of `bitLength` for a range that holds `n`: the first `i` from
the given one on with `n < 2 ^ 2 ^ i`. The first argument is fuel, one unit
per step. -/
def bitLengthFrom (n : Nat) : Nat → Nat → Nat
  | 0, i => bitLengthBelow i n
  | fuel + 1, i =>
    if n < 2 ^ 2 ^ i then bitLengthBelow i n else bitLengthFrom n fuel (i + 1)

/-- The number of binary digits of `n`: the least `k` with `n < 2 ^ k` (see
`bitLength_spec`). The search gets `n` units of fuel, more than it needs as
`n < 2 ^ 2 ^ n`. -/
def bitLength (n : Nat) : Nat := bitLengthFrom n n 0

/-- The value of type `double` nearest to the whole number `n` (ties to even),
as a whole number; `none` is plus infinity, the result when the rounded value
does not fit the exponent range (from `2 ^ 1024` on). A double has 53
significant bits, so a whole number below `2 ^ 53` is a double itself; a
longer one keeps its 53 leading digits `q` and rounds on the `e` digits `r`
that follow (see `roundToDouble_spec` and `roundToDouble_checks`). -/
def roundToDouble (n : Nat) : Option Nat :=
  if n < 2 ^ 53 then some n
  else
    let e := bitLength n - 53
    let q := n / 2 ^ e
    let r := n % 2 ^ e
    let q := if 2 ^ (e - 1) < r ∨ (r = 2 ^ (e - 1) ∧ q % 2 = 1) then q + 1 else q
    if 2 ^ 1024 ≤ q * 2 ^ e then none else some (q * 2 ^ e)

/-- The C library call `pow(base, exponent)` for a whole base and a whole
exponent that is not negative, read as the double nearest to the exact power:
plus infinity when the power does not fit a double. -/
def doublePow (base exponent : Nat) : Option Nat := roundToDouble (base ^ exponent)

/-- The comparison `a < b` of two doubles that are whole numbers or plus
infinity. -/
def doubleLt : Option Nat → Option Nat → Bool
  | some a, some b => a < b
  | some _, none => true
  | none, _ => false

/-- The `while` loop of `minBytesForPrecision`: `numBytes` grows while
`pow(2.0, 8.0 * numBytes - 1.0) < pow(10.0, precision)` holds in double
arithmetic. The first argument is fuel, one unit per iteration, so that the
loop is a structural recursion. -/
def minBytesLoop (precision : Nat) : Nat → Nat → Nat
  | 0, numBytes => numBytes
  | fuel + 1, numBytes =>
    if doubleLt (doublePow 2 (8 * numBytes - 1)) (doublePow 10 precision) then
      minBytesLoop precision fuel (numBytes + 1)
    else
      numBytes

/-- The C++ method `minBytesForPrecision(precision)`: `numBytes` starts at 1.
The parameter is an `int32_t` in C++; the only call site passes a precision
above 18, so it is a natural number here. The loop gets 129 units of fuel,
which it never exhausts: `pow(2.0, 8.0 * 129 - 1.0)` is plus infinity, which is
below nothing, so the loop always stops by its own condition with `numBytes`
at most 129 (see `minBytesLoop_first` and `minBytesLoop_more_fuel`). -/
def minBytesForPrecision (precision : Nat) : Nat :=
  minBytesLoop precision 129 1

/-! ## Classification (steps 2 to 4 of the mapping engine) -/

/-- The C++ method `applyLogicalType`. -/
def applyLogicalType (node : ASTNode) : ASTNode :=
  let node :=
    if node.is_capnp_type then
      match node.capnp_type_ with
      | .VOID => node.setLogicalType .NONE
      | .BOOL => node.setLogicalType .NONE
      | .INT8 => node.setLogicalType .INT_8
      | .INT16 => node.setLogicalType .INT_16
      | .INT32 => node.setLogicalType .INT_32
      | .INT64 => node.setLogicalType .INT_64
      | .UINT8 => node.setLogicalType .UINT_8
      | .UINT16 => node.setLogicalType .UINT_16
      | .UINT32 => node.setLogicalType .UINT_32
      | .UINT64 => node.setLogicalType .UINT_64
      | .FLOAT32 => node.setLogicalType .NONE
      | .FLOAT64 => node.setLogicalType .NONE
      | .TEXT => node.setLogicalType .UTF8
      | .DATA => node.setLogicalType .NONE
      | .LIST => node.setLogicalType .LIST
      | .ENUM => node.setLogicalType .ENUM
      | .STRUCT =>
        if node.is_map then node.setLogicalType .MAP
        else if node.is_map_key_value then node.setLogicalType .MAP_KEY_VALUE
        else if node.is_list then node.setLogicalType .LIST
        else node.setLogicalType .NONE
      | .INTERFACE => node.setLogicalType .NONE
      | .ANY_POINTER => node.setLogicalType .NONE
    else node
  if node.is_decimal then node.setLogicalType .DECIMAL
  else if node.is_date then node.setLogicalType .DATE
  else if node.is_time_millis then node.setLogicalType .TIME_MILLIS
  else if node.is_time_micros then node.setLogicalType .TIME_MICROS
  else if node.is_timestamp_millis then node.setLogicalType .TIMESTAMP_MILLIS
  else if node.is_timestamp_micros then node.setLogicalType .TIMESTAMP_MICROS
  else if node.is_bson then node.setLogicalType .BSON
  else if node.is_json then node.setLogicalType .JSON
  else if node.is_interval then node.setLogicalType .INTERVAL
  else node

/-- The C++ method `applyPhysicalType`. -/
def applyPhysicalType (node : ASTNode) : ASTNode :=
  let node :=
    if node.is_capnp_type then
      match node.capnp_type_ with
      | .VOID => node.setPhysicalType .BYTE_ARRAY
      | .BOOL => node.setPhysicalType .BOOLEAN
      | .INT8 => node.setPhysicalType .INT32
      | .INT16 => node.setPhysicalType .INT32
      | .INT32 => node.setPhysicalType .INT32
      | .INT64 => node.setPhysicalType .INT64
      | .UINT8 => node.setPhysicalType .INT32
      | .UINT16 => node.setPhysicalType .INT32
      | .UINT32 => node.setPhysicalType .INT32
      | .UINT64 => node.setPhysicalType .INT64
      | .FLOAT32 => node.setPhysicalType .FLOAT
      | .FLOAT64 => node.setPhysicalType .DOUBLE
      | .TEXT => node.setPhysicalType .BYTE_ARRAY
      | .DATA => node.setPhysicalType .BYTE_ARRAY
      | .LIST => node
      | .ENUM => node.setPhysicalType .BYTE_ARRAY
      | .STRUCT => node
      | .INTERFACE => node
      | .ANY_POINTER => node
    else node
  if node.is_decimal then
    let precision := node.precision_
    if precision ≤ 9 then node.setPhysicalType .INT32
    else if precision ≤ 18 then node.setPhysicalType .INT64
    else
      let node := node.setPhysicalType .FIXED_LEN_BYTE_ARRAY
      let numBytes : Int := minBytesForPrecision precision.toNat
      node.setTypeLength numBytes
  else if node.is_date then node.setPhysicalType .INT32
  else if node.is_time_millis then node.setPhysicalType .INT32
  else if node.is_time_micros then node.setPhysicalType .INT32
  else if node.is_timestamp_millis then node.setPhysicalType .INT64
  else if node.is_timestamp_micros then node.setPhysicalType .INT64
  else if node.is_bson then node.setPhysicalType .BYTE_ARRAY
  else if node.is_json then node.setPhysicalType .BYTE_ARRAY
  else if node.is_interval then
    (node.setPhysicalType .FIXED_LEN_BYTE_ARRAY).setTypeLength 12
  else if node.is_fixed_len_byte_array then node.setPhysicalType .FIXED_LEN_BYTE_ARRAY
  else node

/-- The C++ method `applyParquetNodeType`. -/
def applyParquetNodeType (node : ASTNode) : ASTNode :=
  let node :=
    if node.is_capnp_type then
      match node.capnp_type_ with
      | .VOID => node.setIsParquetPRIMITIVE
      | .BOOL => node.setIsParquetPRIMITIVE
      | .INT8 => node.setIsParquetPRIMITIVE
      | .INT16 => node.setIsParquetPRIMITIVE
      | .INT32 => node.setIsParquetPRIMITIVE
      | .INT64 => node.setIsParquetPRIMITIVE
      | .UINT8 => node.setIsParquetPRIMITIVE
      | .UINT16 => node.setIsParquetPRIMITIVE
      | .UINT32 => node.setIsParquetPRIMITIVE
      | .UINT64 => node.setIsParquetPRIMITIVE
      | .FLOAT32 => node.setIsParquetPRIMITIVE
      | .FLOAT64 => node.setIsParquetPRIMITIVE
      | .TEXT => node.setIsParquetPRIMITIVE
      | .DATA => node.setIsParquetPRIMITIVE
      | .LIST => node.setIsParquetGROUP
      | .ENUM => node.setIsParquetPRIMITIVE
      | .STRUCT => node.setIsParquetGROUP
      | .INTERFACE => node.setIsParquetPRIMITIVE
      | .ANY_POINTER => node.setIsParquetPRIMITIVE
    else node
  if node.is_decimal then node.setIsParquetPRIMITIVE
  else if node.is_date then node.setIsParquetPRIMITIVE
  else if node.is_time_millis then node.setIsParquetPRIMITIVE
  else if node.is_time_micros then node.setIsParquetPRIMITIVE
  else if node.is_timestamp_millis then node.setIsParquetPRIMITIVE
  else if node.is_timestamp_micros then node.setIsParquetPRIMITIVE
  else if node.is_bson then node.setIsParquetPRIMITIVE
  else if node.is_json then node.setIsParquetPRIMITIVE
  else if node.is_interval then node.setIsParquetPRIMITIVE
  else if node.is_fixed_len_byte_array then node.setIsParquetPRIMITIVE
  else node


/-- Steps 2 to 4 of the mapping engine, in the order in which `buildParquetNode`
runs them. -/
def classify (n : ASTNode) : ASTNode :=
  applyParquetNodeType (applyPhysicalType (applyLogicalType n))

/-! ## Name normalisation -/

/-- The `for` loop of `convertCamelCase`: `prev` is `*(it-1)`, the list is what
remains from `it` on; the result is what the loop appends to `str`. -/
def convertCamelCaseLoop : Char → List Char → List Char
  | _, [] => []
  | prev, c :: rest =>
    (if c.isDigit && prev != '_' && prev.isLower then ['_']
     else if c.isUpper && prev != '_' && (prev.isDigit || prev.isLower) then ['_']
     else []) ++ c :: convertCamelCaseLoop c rest

/-- The C++ function `convertCamelCase`. `isdigit`, `islower`, `isupper` and
`tolower` are those of the C locale. On the empty string the C++ loop starts
past the end of the string, which is undefined behaviour: `none`. -/
def convertCamelCase (camelCase : String) : Option String :=
  match camelCase.data with
  | [] => none
  | c0 :: rest =>
    some (String.mk ((c0.toLower :: convertCamelCaseLoop c0 rest).map Char.toLower))

/-! ## The arena of AST nodes -/

/-- The heap of AST nodes: an `ASTNode*` is an index into it. Nodes are never
freed in the model; a node removed from its parent just becomes unreachable. -/
abbrev Heap := List ASTNode

namespace Heap

/-- Dereference a pointer: `*p`. -/
def get (h : Heap) (p : Nat) : Option ASTNode := h[p]?

/-- Apply a setter through a pointer: `p->set...(...)`. -/
def update (h : Heap) (p : Nat) (f : ASTNode → ASTNode) : Option Heap :=
  match h[p]? with
  | some n => some (h.set p (f n))
  | none => none

/-- The C++ expression `new ASTNode(...)`: the new pointer and the new heap. -/
def alloc (h : Heap) (n : ASTNode) : Nat × Heap := (h.length, h ++ [n])

/-- The C++ method `parent->addChild(child)` for a non-null child. -/
def addChild (h : Heap) (parent child : Nat) : Option Heap := do
  let h ← h.update child (fun c => c.setParent (some parent))
  h.update parent (fun p => p.push_back_child child)

/-- The C++ method `parent->removeChild(index)`. -/
def removeChild (h : Heap) (parent index : Nat) : Option Heap :=
  h.update parent (fun p => p.erase_child index)

end Heap

/-! ## Annotation values -/

/-- The C++ conversion `static_cast<int32_t>(v)`: reduction modulo `2^32` into
the signed range. -/
def toInt32 (v : Int) : Int := (v + 2 ^ 31) % 2 ^ 32 - 2 ^ 31

/-- The `switch` of `getAnnotationValueI32` on one qualifying child. -/
def annotationValueI32Of (child : ASTNode) : Int :=
  match child.capnp_type_ with
  | .INT64 => toInt32 child.value_.i64
  | .UINT64 => toInt32 child.value_.ui64
  | .INT8 => toInt32 child.value_.i8
  | .INT16 => toInt32 child.value_.i16
  | .INT32 => child.value_.i32
  | .UINT8 => toInt32 child.value_.ui8
  | .UINT16 => toInt32 child.value_.ui16
  | .UINT32 => toInt32 child.value_.ui32
  | _ => 0

/-- The C++ method `getAnnotationValueI32`. -/
def getAnnotationValueI32 (h : Heap) (node : Nat) : Option Int := do
  let n ← h.get node
  n.children_.foldlM (fun value c => do
    let child ← h.get c
    if child.node_.isSome && child.node_type_ == .VALUE && child.is_value then
      pure (annotationValueI32Of child)
    else
      pure value) (0 : Int)

/-- The C++ method `getAnnotationValueTEXT`. -/
def getAnnotationValueTEXT (h : Heap) (node : Nat) : Option String := do
  let n ← h.get node
  n.children_.foldlM (fun value c => do
    let child ← h.get c
    if child.node_.isSome && child.node_type_ == .VALUE && child.is_value then
      match child.capnp_type_ with
      | .TEXT => pure child.value_.string
      | _ => pure value
    else
      pure value) ""

/-- The body of the `for` loop of `applyAnnotations` for the child `c`. -/
def applyAnnotationsStep (node : Nat) (h : Heap) (c : Nat) : Option Heap := do
  let child ← h.get c
  if !child.is_decl && child.node_type_ == .ANNOTATION then
    if child.name_ == "schema" then do
      let v ← getAnnotationValueTEXT h c
      h.update node (fun n => n.setSchemaName v)
    else if child.name_ == "required" then h.update node ASTNode.setIsRequired
    else if child.name_ == "optional" then h.update node ASTNode.setIsOptional
    else if child.name_ == "repeated" then h.update node ASTNode.setIsRepeated
    else if child.name_ == "length" then do
      let v ← getAnnotationValueI32 h c
      h.update node (fun n => n.setTypeLength v)
    else if child.name_ == "scale" then do
      let v ← getAnnotationValueI32 h c
      h.update node (fun n => n.setScale v)
    else if child.name_ == "precision" then do
      let v ← getAnnotationValueI32 h c
      h.update node (fun n => n.setPrecision v)
    else if child.name_ == "decimal" then h.update node ASTNode.setIsDecimal
    else if child.name_ == "date" then h.update node ASTNode.setIsDate
    else if child.name_ == "timeMillis" then h.update node ASTNode.setIsTimeMillis
    else if child.name_ == "timeMicros" then h.update node ASTNode.setIsTimeMicros
    else if child.name_ == "timestampMillis" then h.update node ASTNode.setIsTimestampMillis
    else if child.name_ == "timestampMicros" then h.update node ASTNode.setIsTimestampMicros
    else if child.name_ == "bson" then h.update node ASTNode.setIsBson
    else if child.name_ == "json" then h.update node ASTNode.setIsJson
    else if child.name_ == "interval" then h.update node ASTNode.setIsInterval
    else if child.name_ == "fixed" then h.update node ASTNode.setIsFixedLenByteArray
    else if child.name_ == "map" then h.update node ASTNode.setIsMap
    else if child.name_ == "mapKeyValue" then h.update node ASTNode.setIsMapKeyValue
    else if child.name_ == "list" then h.update node ASTNode.setIsList
    else pure h
  else
    pure h

/-- The C++ method `applyAnnotations`. -/
def applyAnnotations (h : Heap) (node : Nat) : Option Heap := do
  let n ← h.get node
  n.children_.foldlM (applyAnnotationsStep node) h

/-! ## Target-node construction -/

/-- The file-root branch of `buildParquetNode`: the first child, in child order,
that has a target node, a schema name, a group target node and is not an
annotation node; `none` inside when there is no such child. -/
def findSchemaChild (h : Heap) : List Nat → Option (Option ParquetNode)
  | [] => some none
  | c :: rest => do
    let child ← h.get c
    match child.node_ with
    | some pn =>
      if child.is_schema_name && pn.is_group && child.node_type_ != .ANNOTATION then
        pure (some pn)
      else findSchemaChild h rest
    | none => findSchemaChild h rest

/-- The loop over `k` in `buildParquetNode`: the last child of the field that is a
TYPE node, or a null pointer (the inner `none`). -/
def findTypeChild (h : Heap) (field : ASTNode) : Option (Option Nat) :=
  field.children_.foldlM (fun type k => do
    let c ← h.get k
    pure (if c.node_type_ == .TYPE then some k else type)) none

/-- The loop over `j` in `buildParquetNode`, for the field child `i`: it looks
among the children `js` of the element for a declaration with the category and
name of the field's type. On a match the field gets a fresh group node made of
the fields of the declaration's target node, and the declaration's id is
returned. Reading through a null `type`, through a null target node of the
declaration, or the fields of a target node that is not a group is undefined
behaviour in C++: `none`. -/
def flattenSearch (h : Heap) (i : Nat) (type : Option Nat) :
    List Nat → Option (Heap × Option Nat)
  | [] => some (h, none)
  | j :: js => do
    let cj ← h.get j
    if cj.is_decl then
      let t ← type
      let tn ← h.get t
      if cj.capnp_type_ == tn.capnp_type_ && cj.name_ == tn.type_name_ then
        let child_node ← cj.node_
        let decl_children ← child_node.group_fields
        let ci ← h.get i
        let name ← convertCamelCase ci.name_
        let made := ParquetNode.group name child_node.repetition decl_children
          child_node.logical_type
        let h ← h.update i (fun n => n.setNode (some made))
        pure (h, some cj.node_id_)
      else flattenSearch h i type js
    else flattenSearch h i type js

/-- The first loop over `i` in `buildParquetNode` (named-type flattening), over
the children `is` that remain to be visited; `js` is the full child list of the
element and `decl_nodeid` the ids collected so far. -/
def flattenLoop (js : List Nat) :
    Heap → List Nat → List Nat → Option (Heap × List Nat)
  | h, decl_nodeid, [] => some (h, decl_nodeid)
  | h, decl_nodeid, i :: rest => do
    let ci ← h.get i
    if ci.node_.isSome && ci.node_type_ != .ANNOTATION then
      if ci.node_type_ == .FIELD then
        let type ← findTypeChild h ci
        let (h, found) ← flattenSearch h i type js
        match found with
        | some id => flattenLoop js h (decl_nodeid ++ [id]) rest
        | none => flattenLoop js h decl_nodeid rest
      else flattenLoop js h decl_nodeid rest
    else flattenLoop js h decl_nodeid rest

/-- The index of the first child whose `node_id` is `node_id`, if any. -/
def findChildWithId (h : Heap) (node_id : Nat) : List Nat → Nat → Option (Option Nat)
  | [], _ => some none
  | c :: rest, j => do
    let child ← h.get c
    if child.node_id_ == node_id then pure (some j)
    else findChildWithId h node_id rest (j + 1)

/-- The removal loop of `buildParquetNode`: for every collected id, the first
child of the element with that `node_id` is removed. -/
def removeDecls (element : Nat) : Heap → List Nat → Option Heap
  | h, [] => some h
  | h, node_id :: rest => do
    let e ← h.get element
    match ← findChildWithId h node_id e.children_ 0 with
    | some j => do
      let h ← h.removeChild element j
      removeDecls element h rest
    | none => removeDecls element h rest

/-- The last loop of `buildParquetNode`: the target nodes of the children that
have one and are not annotation nodes, in child order. -/
def collectChildren (h : Heap) : List Nat → Option (List ParquetNode)
  | [] => some []
  | c :: rest => do
    let child ← h.get c
    let tail ← collectChildren h rest
    match child.node_ with
    | some pn => if child.node_type_ != .ANNOTATION then pure (pn :: tail) else pure tail
    | none => pure tail

/-- The name selection of `buildParquetNode`, before `convertCamelCase`. -/
def targetName (element : ASTNode) : String :=
  if element.is_enumerant_name then element.enumerant_name_
  else if element.is_type_name then element.type_name_
  else if element.is_schema_name then element.schema_name_
  else element.name_

/-- The `Make` call at the end of `buildParquetNode`. -/
def makeParquetNode (e : ASTNode) (name : String) (children : List ParquetNode) : ParquetNode :=
  if e.is_parquet_group then
    ParquetNode.group name e.repetition_type_ children e.logical_type_
  else if e.is_decimal then
    ParquetNode.primitive name e.repetition_type_ e.physical_type_ e.logical_type_
      (-1) e.precision_ e.scale_
  else
    ParquetNode.primitive name e.repetition_type_ e.physical_type_ e.logical_type_
      e.type_length_ (-1) (-1)

/-- The part of `buildParquetNode` after the file-root branch: classification,
flattening, removal of the flattened declarations, and the `Make` call. -/
def buildParquetNodeBody (h : Heap) (element : Nat) : Option Heap := do
  let h ← h.update element applyLogicalType
  let h ← h.update element applyPhysicalType
  let h ← h.update element applyParquetNodeType
  let e ← h.get element
  let (h, decl_nodeid) ← flattenLoop e.children_ h [] e.children_
  let h ← removeDecls element h decl_nodeid
  let e ← h.get element
  let children ← collectChildren h e.children_
  let name ← convertCamelCase (targetName e)
  h.update element (fun n => n.setNode (some (makeParquetNode e name children)))

/-- The C++ method `buildParquetNode`. -/
def buildParquetNode (h : Heap) (element : Nat) : Option Heap := do
  let h ← applyAnnotations h element
  let e ← h.get element
  if e.node_type_ == .FILE then
    match ← findSchemaChild h e.children_ with
    | some pn => h.update element (fun n => n.setNode (some pn))
    | none => pure h
  else
    buildParquetNodeBody h element

/-- True when one of the ten flags that override the source category in
`applyPhysicalType` and `applyParquetNodeType` is set. -/
def ASTNode.has_override_flag (n : ASTNode) : Bool :=
  n.is_decimal || n.is_date || n.is_time_millis || n.is_time_micros ||
  n.is_timestamp_millis || n.is_timestamp_micros || n.is_bson || n.is_json ||
  n.is_interval || n.is_fixed_len_byte_array

/-- The tags after `applyLogicalType` and `applyPhysicalType`, run in the order
of `buildParquetNode`. -/
def classifiedPair (n : ASTNode) : LogicalType × PhysicalType :=
  ((applyPhysicalType (applyLogicalType n)).logical_type_,
   (applyPhysicalType (applyLogicalType n)).physical_type_)

/-- The attributes that classification reads and never writes. -/
def ASTNode.same_inputs (a b : ASTNode) : Prop :=
    a.is_capnp_type = b.is_capnp_type ∧
    a.capnp_type_ = b.capnp_type_ ∧
    a.is_decimal = b.is_decimal ∧
    a.is_date = b.is_date ∧
    a.is_time_millis = b.is_time_millis ∧
    a.is_time_micros = b.is_time_micros ∧
    a.is_timestamp_millis = b.is_timestamp_millis ∧
    a.is_timestamp_micros = b.is_timestamp_micros ∧
    a.is_bson = b.is_bson ∧
    a.is_json = b.is_json ∧
    a.is_interval = b.is_interval ∧
    a.is_fixed_len_byte_array = b.is_fixed_len_byte_array ∧
    a.is_map = b.is_map ∧
    a.is_map_key_value = b.is_map_key_value ∧
    a.is_list = b.is_list ∧
    a.precision_ = b.precision_

/-! ## The schema model (external, read-only)

The loaded schema graph is given as resolved values: a type reference carries the
id and the short display name of the declaration it refers to, an applied
annotation carries the name and value type of its declaration, and the nested
declarations of a node are held by the node (`schemaLoader.getUnbound(id)` is
already applied). -/

/-- What the hooks read of a `capnp::Schema`: `getProto().getId()`,
`getProto().getScopeId()`, `getProto().getDisplayName()` and
`getShortDisplayName()`. -/
structure SchemaInfo where
  id : Nat
  scopeId : Nat := 0
  displayName : String
  shortDisplayName : String
deriving DecidableEq, Repr, Inhabited

/-- A type of the schema (`capnp::schema::Type::Reader`, references resolved). -/
inductive SchemaType where
  | VOID | BOOL | INT8 | INT16 | INT32 | INT64
  | UINT8 | UINT16 | UINT32 | UINT64
  | FLOAT32 | FLOAT64 | TEXT | DATA
  | LIST (elementType : SchemaType)
  | ENUM (typeId : Nat) (shortDisplayName : String)
  | STRUCT (typeId : Nat) (shortDisplayName : String)
  | INTERFACE (typeId : Nat) (shortDisplayName : String)
  | ANY_POINTER (unconstrained : Bool)
deriving DecidableEq, Repr, Inhabited

/-- The C++ accessor `type.which()`. -/
def SchemaType.which : SchemaType → TypeWhich
  | .VOID => .VOID | .BOOL => .BOOL
  | .INT8 => .INT8 | .INT16 => .INT16 | .INT32 => .INT32 | .INT64 => .INT64
  | .UINT8 => .UINT8 | .UINT16 => .UINT16 | .UINT32 => .UINT32 | .UINT64 => .UINT64
  | .FLOAT32 => .FLOAT32 | .FLOAT64 => .FLOAT64 | .TEXT => .TEXT | .DATA => .DATA
  | .LIST _ => .LIST | .ENUM .. => .ENUM | .STRUCT .. => .STRUCT
  | .INTERFACE .. => .INTERFACE | .ANY_POINTER _ => .ANY_POINTER

/-- A dynamically typed value (`capnp::DynamicValue::Reader`). Integers are
held as `INT` or `UINT` whatever their width, floating-point numbers as their
bit pattern. A struct value lists, for every field of its struct type in field
order, the field's type and the field's value when the value has that field. -/
inductive DynamicValue where
  | VOID
  | BOOL (value : Bool)
  | INT (value : Int)
  | UINT (value : Nat)
  | FLOAT (bits : Nat)
  | TEXT (value : String)
  | DATA (bytes : List Nat)
  | LIST (elements : List DynamicValue)
  | ENUM (raw : Nat) (enumerant : Option String)
  | STRUCT (fields : List (SchemaType × Option DynamicValue))
  | CAPABILITY
  | ANY_POINTER
deriving Repr, Inhabited

namespace DynamicValue

/-- The conversion `value.as<bool>()`; it throws on another kind of value. -/
def asBool : DynamicValue → Option Bool
  | .BOOL b => some b
  | _ => none

/-- The conversion `value.as<intN_t>()` for a signed width `bits`: it throws when
the value does not fit. Conversions from a floating-point value are not modelled. -/
def asInt (bits : Nat) : DynamicValue → Option Int
  | .INT v => if -(2 : Int) ^ (bits - 1) ≤ v ∧ v < (2 : Int) ^ (bits - 1) then some v else none
  | .UINT v => if (v : Int) < (2 : Int) ^ (bits - 1) then some v else none
  | _ => none

/-- The conversion `value.as<uintN_t>()` for an unsigned width `bits`. -/
def asUInt (bits : Nat) : DynamicValue → Option Nat
  | .INT v => if 0 ≤ v ∧ v < (2 : Int) ^ bits then some v.toNat else none
  | .UINT v => if v < 2 ^ bits then some v else none
  | _ => none

/-- The conversions `value.as<float>()` and `value.as<double>()`, on a
floating-point value only. -/
def asFloat : DynamicValue → Option Nat
  | .FLOAT bits => some bits
  | _ => none

/-- The conversion `value.as<Text>()`. -/
def asText : DynamicValue → Option String
  | .TEXT s => some s
  | _ => none

/-- The conversion `value.as<Data>()`. -/
def asData : DynamicValue → Option (List Nat)
  | .DATA d => some d
  | _ => none

/-- The conversion `value.as<DynamicEnum>()`: the raw ordinal and the enumerant's
name when the ordinal names one. -/
def asEnum : DynamicValue → Option (Nat × Option String)
  | .ENUM raw e => some (raw, e)
  | _ => none

end DynamicValue

/-- A value of the schema (`capnp::schema::Value::Reader`), with list, enum and
struct payloads already read against their type. -/
inductive SchemaValue where
  | VOID
  | BOOL (value : Bool)
  | INT8 (value : Int) | INT16 (value : Int) | INT32 (value : Int) | INT64 (value : Int)
  | UINT8 (value : Nat) | UINT16 (value : Nat) | UINT32 (value : Nat) | UINT64 (value : Nat)
  | FLOAT32 (bits : Nat) | FLOAT64 (bits : Nat)
  | TEXT (value : String)
  | DATA (bytes : List Nat)
  | LIST (elements : List DynamicValue)
  | ENUM (raw : Nat) (enumerant : Option String)
  | STRUCT (fields : List (SchemaType × Option DynamicValue))
  | INTERFACE
  | ANY_POINTER
deriving Repr, Inhabited

/-- An applied annotation (`capnp::schema::Annotation::Reader`) together with
what `schemaLoader.get(annotation.getId(), ...)` gives for its declaration: the
short display name, the declared value type, and the scope and the display name
of the declaration. -/
structure AnnotationReader where
  id : Nat
  declName : String
  declType : SchemaType
  value : SchemaValue
  declScopeId : Nat := 0
  declDisplayName : String := ""
deriving Repr, Inhabited

/-- The schema of the declaration of an applied annotation,
`schemaLoader.get(ann.getId(), ann.getBrand(), schema)`, as far as the identity
of a schema goes. -/
def AnnotationReader.declSchema (ann : AnnotationReader) : SchemaInfo :=
  { id := ann.id, scopeId := ann.declScopeId, displayName := ann.declDisplayName,
    shortDisplayName := ann.declName }

/-- The slot part of a field (`capnp::schema::Field::Slot::Reader`). -/
structure Slot where
  offset : Nat
  type : SchemaType
  hadExplicitDefault : Bool := false
  defaultValue : SchemaValue
deriving Repr, Inhabited

/-- The part of a field common to slots and groups: `getName()`, the explicit
ordinal when there is one, and the applied annotations. -/
structure FieldProto where
  name : String
  ordinal : Option Nat := none
  annotations : List AnnotationReader := []
deriving Repr, Inhabited

mutual
/-- A field of a struct (`capnp::StructSchema::Field`). -/
inductive Field where
  | SLOT (proto : FieldProto) (slot : Slot)
  | GROUP (proto : FieldProto) (groupSchema : StructSchema)
/-- A struct schema as the traversal of fields reads it: its identity, its
applied annotations, `getUnionFields()` and `getNonUnionFields()`. -/
inductive StructSchema where
  | mk (info : SchemaInfo) (annotations : List AnnotationReader)
      (unionFields : List Field) (nonUnionFields : List Field)
end

/-- The C++ accessor `field.getProto()`. -/
def Field.proto : Field → FieldProto
  | .SLOT p _ => p
  | .GROUP p _ => p

/-- The identity of a struct schema. -/
def StructSchema.info : StructSchema → SchemaInfo
  | .mk i _ _ _ => i

/-- An enumerant (`capnp::EnumSchema::Enumerant`). -/
structure Enumerant where
  name : String
  ordinal : Nat
  annotations : List AnnotationReader := []

/-- A method (`capnp::InterfaceSchema::Method`) with its parameter and result
structs resolved; `implicitParameters` is empty when the method is not generic. -/
structure Method where
  name : String
  ordinal : Nat
  implicitParameters : List String := []
  paramType : StructSchema
  resultType : StructSchema
  annotations : List AnnotationReader := []

/-- The applicability flags of an annotation declaration
(`getTargetsStruct()` and so on). -/
structure AnnotationTargets where
  targetsStruct : Bool := false
  targetsInterface : Bool := false
  targetsGroup : Bool := false
  targetsEnum : Bool := false
  targetsFile : Bool := false
  targetsField : Bool := false
  targetsUnion : Bool := false
  targetsEnumerant : Bool := false
  targetsAnnotation : Bool := false
  targetsConst : Bool := false
  targetsParam : Bool := false
  targetsMethod : Bool := false
deriving DecidableEq, Repr, Inhabited

/-- A declaration node of the schema with its nested declarations, by category
(`capnp::schema::Node::Which`). -/
inductive Schema where
  | FILE (info : SchemaInfo) (annotations : List AnnotationReader)
      (nestedNodes : List Schema)
  | STRUCT (info : SchemaInfo) (annotations : List AnnotationReader)
      (nestedNodes : List Schema) (unionFields : List Field) (nonUnionFields : List Field)
  | ENUM (info : SchemaInfo) (annotations : List AnnotationReader)
      (nestedNodes : List Schema) (enumerants : List Enumerant)
  | INTERFACE (info : SchemaInfo) (annotations : List AnnotationReader)
      (nestedNodes : List Schema) (methods : List Method)
  | CONST (info : SchemaInfo) (annotations : List AnnotationReader)
      (nestedNodes : List Schema) (type : SchemaType) (value : SchemaValue)
  | ANNOTATION (info : SchemaInfo) (annotations : List AnnotationReader)
      (nestedNodes : List Schema) (type : SchemaType) (targets : AnnotationTargets)

namespace Schema

/-- The identity of a declaration. -/
def info : Schema → SchemaInfo
  | .FILE i .. => i | .STRUCT i .. => i | .ENUM i .. => i
  | .INTERFACE i .. => i | .CONST i .. => i | .ANNOTATION i .. => i

/-- The C++ accessor `getProto().getAnnotations()`. -/
def annotations : Schema → List AnnotationReader
  | .FILE _ a .. => a | .STRUCT _ a .. => a | .ENUM _ a .. => a
  | .INTERFACE _ a .. => a | .CONST _ a .. => a | .ANNOTATION _ a .. => a

/-- The C++ accessor `getProto().getNestedNodes()`, each already loaded. -/
def nestedNodes : Schema → List Schema
  | .FILE _ _ n => n | .STRUCT _ _ n .. => n | .ENUM _ _ n .. => n
  | .INTERFACE _ _ n .. => n | .CONST _ _ n .. => n | .ANNOTATION _ _ n .. => n

end Schema

/-- An import of a requested file. -/
structure Import where
  id : Nat
  name : String
deriving DecidableEq, Repr, Inhabited

/-- A requested file (`CodeGeneratorRequest::RequestedFile::Reader`). -/
structure RequestedFile where
  id : Nat
  filename : String
  imports : List Import := []
deriving DecidableEq, Repr, Inhabited

/-! ## The traversal engine (`BaseGenerator`)

A traversal step runs on the state `σ` of the generator, may fail, and returns the
`bool` of the C++ method. The macros `PRE_VISIT` and `POST_VISIT` return `true`
from the enclosing method when the hook returns `true`; `TRAVERSE` calls a
traversal method and discards its result. -/

/-- The monad of hooks and traversal methods: a step on the generator state `σ`
that may fail (`none`). -/
abbrev Step (σ : Type) := StateT σ Option

/-- The virtual hooks of `BaseGenerator`, each defaulting to `return false`.
The hook `pre_visit_type` can call back into the engine; the one call the
generator makes, the traversal of the element type of a list type, is passed to
it as `traverseElement`. -/
structure Hooks (σ : Type) where
  pre_visit_file : Schema → RequestedFile → Step σ Bool := fun _ _ => pure false
  pre_visit_imports : Schema → List Import → Step σ Bool := fun _ _ => pure false
  pre_visit_import : Schema → Import → Step σ Bool := fun _ _ => pure false
  pre_visit_nested_decls : Schema → Step σ Bool := fun _ => pure false
  pre_visit_decl : Schema → Step σ Bool := fun _ => pure false
  pre_visit_struct_decl : Schema → Step σ Bool := fun _ => pure false
  pre_visit_enum_decl : Schema → Step σ Bool := fun _ => pure false
  pre_visit_const_decl : Schema → Step σ Bool := fun _ => pure false
  pre_visit_annotation_decl : Schema → Step σ Bool := fun _ => pure false
  pre_visit_annotation : AnnotationReader → SchemaInfo → Step σ Bool := fun _ _ => pure false
  pre_visit_annotations : SchemaInfo → Step σ Bool := fun _ => pure false
  pre_visit_type : SchemaInfo → SchemaType → (traverseElement : Step σ Bool) → Step σ Bool :=
    fun _ _ _ => pure false
  pre_visit_dynamic_value : SchemaInfo → SchemaType → DynamicValue → Step σ Bool :=
    fun _ _ _ => pure false
  pre_visit_struct_fields : StructSchema → Step σ Bool := fun _ => pure false
  pre_visit_struct_default_value : StructSchema → Field → Step σ Bool := fun _ _ => pure false
  pre_visit_struct_field : StructSchema → Field → Step σ Bool := fun _ _ => pure false
  pre_visit_struct_field_slot : StructSchema → Field → Slot → Step σ Bool :=
    fun _ _ _ => pure false
  pre_visit_struct_field_group : StructSchema → Field → StructSchema → Step σ Bool :=
    fun _ _ _ => pure false
  pre_visit_struct_field_union : StructSchema → Step σ Bool := fun _ => pure false
  pre_visit_interface_decl : Schema → Step σ Bool := fun _ => pure false
  pre_visit_param_list : Schema → String → StructSchema → Step σ Bool := fun _ _ _ => pure false
  pre_visit_method : Schema → Method → Step σ Bool := fun _ _ => pure false
  pre_visit_methods : Schema → Step σ Bool := fun _ => pure false
  pre_visit_method_implicit_params : Schema → Method → List String → Step σ Bool :=
    fun _ _ _ => pure false
  pre_visit_enumerant : Schema → Enumerant → Step σ Bool := fun _ _ => pure false
  pre_visit_enumerants : Schema → List Enumerant → Step σ Bool := fun _ _ => pure false
  post_visit_file : Schema → RequestedFile → Step σ Bool := fun _ _ => pure false
  post_visit_imports : Schema → List Import → Step σ Bool := fun _ _ => pure false
  post_visit_import : Schema → Import → Step σ Bool := fun _ _ => pure false
  post_visit_nested_decls : Schema → Step σ Bool := fun _ => pure false
  post_visit_decl : Schema → Step σ Bool := fun _ => pure false
  post_visit_struct_decl : Schema → Step σ Bool := fun _ => pure false
  post_visit_enum_decl : Schema → Step σ Bool := fun _ => pure false
  post_visit_const_decl : Schema → Step σ Bool := fun _ => pure false
  post_visit_annotation_decl : Schema → Step σ Bool := fun _ => pure false
  post_visit_annotation : AnnotationReader → SchemaInfo → Step σ Bool := fun _ _ => pure false
  post_visit_annotations : SchemaInfo → Step σ Bool := fun _ => pure false
  post_visit_type : SchemaInfo → SchemaType → Step σ Bool := fun _ _ => pure false
  post_visit_dynamic_value : SchemaInfo → SchemaType → DynamicValue → Step σ Bool :=
    fun _ _ _ => pure false
  post_visit_struct_fields : StructSchema → Step σ Bool := fun _ => pure false
  post_visit_struct_default_value : StructSchema → Field → Step σ Bool := fun _ _ => pure false
  post_visit_struct_field : StructSchema → Field → Step σ Bool := fun _ _ => pure false
  post_visit_struct_field_slot : StructSchema → Field → Slot → Step σ Bool :=
    fun _ _ _ => pure false
  post_visit_struct_field_group : StructSchema → Field → StructSchema → Step σ Bool :=
    fun _ _ _ => pure false
  post_visit_struct_field_union : StructSchema → Step σ Bool := fun _ => pure false
  post_visit_interface_decl : Schema → Step σ Bool := fun _ => pure false
  post_visit_param_list : Schema → String → StructSchema → Step σ Bool := fun _ _ _ => pure false
  post_visit_method : Schema → Method → Step σ Bool := fun _ _ => pure false
  post_visit_methods : Schema → Step σ Bool := fun _ => pure false
  post_visit_method_implicit_params : Schema → Method → List String → Step σ Bool :=
    fun _ _ _ => pure false
  post_visit_enumerant : Schema → Enumerant → Step σ Bool := fun _ _ => pure false
  post_visit_enumerants : Schema → List Enumerant → Step σ Bool := fun _ _ => pure false

section Engine

variable {σ : Type} (hk : Hooks σ)

/-- The loop of `traverse_imports`; it returns `true` as soon as a hook of
an import does. -/
def traverse_imports_loop (schema : Schema) : List Import → Step σ Bool
  | [] => pure false
  | imp :: rest => do
    if ← hk.pre_visit_import schema imp then return true
    if ← hk.post_visit_import schema imp then return true
    traverse_imports_loop schema rest

/-- The C++ method `traverse_imports`. -/
def traverse_imports (schema : Schema) (imports : List Import) : Step σ Bool := do
  if ← hk.pre_visit_imports schema imports then return true
  if ← traverse_imports_loop hk schema imports then return true
  if ← hk.post_visit_imports schema imports then return true
  return false

/-- The C++ method `traverse_type`. -/
def traverse_type (schema : SchemaInfo) : SchemaType → Step σ Bool
  | .LIST elementType => do
    if ← hk.pre_visit_type schema (.LIST elementType) (traverse_type schema elementType) then
      return true
    let _ ← traverse_type schema elementType
    if ← hk.post_visit_type schema (.LIST elementType) then return true
    return false
  | type => do
    if ← hk.pre_visit_type schema type (pure false) then return true
    if ← hk.post_visit_type schema type then return true
    return false

mutual
/-- The C++ method `traverse_dynamic_value`. Reading a value as a list or as a
struct when it is none throws in the schema library: failure. -/
def traverse_dynamic_value (schema : SchemaInfo) (type : SchemaType) :
    DynamicValue → Step σ Bool
  | .LIST elements => do
    if ← hk.pre_visit_dynamic_value schema type (.LIST elements) then return true
    match type with
    | .LIST elementType => traverse_dynamic_list schema elementType elements
    | .STRUCT .. => failure
    | _ => pure ()
    if ← hk.post_visit_dynamic_value schema type (.LIST elements) then return true
    return false
  | .STRUCT fields => do
    if ← hk.pre_visit_dynamic_value schema type (.STRUCT fields) then return true
    match type with
    | .LIST _ => failure
    | .STRUCT .. => traverse_dynamic_fields schema fields
    | _ => pure ()
    if ← hk.post_visit_dynamic_value schema type (.STRUCT fields) then return true
    return false
  | value => do
    if ← hk.pre_visit_dynamic_value schema type value then return true
    match type with
    | .LIST _ => failure
    | .STRUCT .. => failure
    | _ => pure ()
    if ← hk.post_visit_dynamic_value schema type value then return true
    return false
/-- The loop of `traverse_dynamic_value` over the elements of a list value. -/
def traverse_dynamic_list (schema : SchemaInfo) (elementType : SchemaType) :
    List DynamicValue → Step σ Unit
  | [] => pure ()
  | element :: rest => do
    let _ ← traverse_dynamic_value schema elementType element
    traverse_dynamic_list schema elementType rest
/-- The loop of `traverse_dynamic_value` over the fields of a struct value. -/
def traverse_dynamic_fields (schema : SchemaInfo) :
    List (SchemaType × Option DynamicValue) → Step σ Unit
  | [] => pure ()
  | (_, none) :: rest => traverse_dynamic_fields schema rest
  | (fieldType, some fieldValue) :: rest => do
    let _ ← traverse_dynamic_value schema fieldType fieldValue
    traverse_dynamic_fields schema rest
end

/-- The C++ method `traverse_value`. -/
def traverse_value (schema : SchemaInfo) (type : SchemaType) (value : SchemaValue) :
    Step σ Bool := do
  match value with
  | .VOID => let _ ← traverse_dynamic_value hk schema type .VOID
  | .TEXT s => let _ ← traverse_dynamic_value hk schema type (.TEXT s)
  | .DATA d => let _ ← traverse_dynamic_value hk schema type (.DATA d)
  | .FLOAT32 b => let _ ← traverse_dynamic_value hk schema type (.FLOAT b)
  | .FLOAT64 b => let _ ← traverse_dynamic_value hk schema type (.FLOAT b)
  | .BOOL b => let _ ← traverse_dynamic_value hk schema type (.BOOL b)
  | .INT8 v => let _ ← traverse_dynamic_value hk schema type (.INT v)
  | .INT16 v => let _ ← traverse_dynamic_value hk schema type (.INT v)
  | .INT32 v => let _ ← traverse_dynamic_value hk schema type (.INT v)
  | .INT64 v => let _ ← traverse_dynamic_value hk schema type (.INT v)
  | .UINT8 v => let _ ← traverse_dynamic_value hk schema type (.UINT v)
  | .UINT16 v => let _ ← traverse_dynamic_value hk schema type (.UINT v)
  | .UINT32 v => let _ ← traverse_dynamic_value hk schema type (.UINT v)
  | .UINT64 v => let _ ← traverse_dynamic_value hk schema type (.UINT v)
  | .LIST elements =>
    match type with
    | .LIST _ => let _ ← traverse_dynamic_value hk schema type (.LIST elements)
    | _ => failure
  | .ENUM raw e =>
    match type with
    | .ENUM .. => let _ ← traverse_dynamic_value hk schema type (.ENUM raw e)
    | _ => failure
  | .STRUCT fields =>
    match type with
    | .STRUCT .. => let _ ← traverse_dynamic_value hk schema type (.STRUCT fields)
    | _ => failure
  | .INTERFACE => pure ()
  | .ANY_POINTER => pure ()
  return false

/-- The C++ method `traverse_annotation`. -/
def traverse_annotation (ann : AnnotationReader) (parent : SchemaInfo) : Step σ Bool := do
  if ← hk.pre_visit_annotation ann parent then return true
  let _ ← traverse_value hk parent ann.declType ann.value
  if ← hk.post_visit_annotation ann parent then return true
  return false

/-- The loop of `traverse_annotations`: `traverse_annotation` is called with the
schema of the declaration of the annotation (`annSchema`), not with the schema
that carries the annotation. -/
def traverse_annotations_loop (schema : SchemaInfo) :
    List AnnotationReader → Step σ Unit
  | [] => pure ()
  | ann :: rest => do
    let _ ← traverse_annotation hk ann ann.declSchema
    traverse_annotations_loop schema rest

/-- The C++ method `traverse_annotations(schema, annotations)`; the overload
`traverse_annotations(schema)` passes `schema.getProto().getAnnotations()`. -/
def traverse_annotations (schema : SchemaInfo) (annotations : List AnnotationReader) :
    Step σ Bool := do
  if annotations.length == 0 then return false
  if ← hk.pre_visit_annotations schema then return true
  traverse_annotations_loop hk schema annotations
  if ← hk.post_visit_annotations schema then return true
  return false

mutual
/-- The C++ method `traverse_struct_fields`. -/
def traverse_struct_fields : StructSchema → Step σ Bool
  | .mk info annotations unionFields nonUnionFields => do
    if ← hk.pre_visit_struct_fields (.mk info annotations unionFields nonUnionFields) then
      return true
    if unionFields.length > 0 then
      if ← hk.pre_visit_struct_field_union (.mk info annotations unionFields nonUnionFields) then
        return true
      traverse_struct_field_list (.mk info annotations unionFields nonUnionFields) unionFields
      if ← hk.post_visit_struct_field_union (.mk info annotations unionFields nonUnionFields) then
        return true
    traverse_struct_field_list (.mk info annotations unionFields nonUnionFields) nonUnionFields
    if ← hk.post_visit_struct_fields (.mk info annotations unionFields nonUnionFields) then
      return true
    return false
/-- The loops of `traverse_struct_fields` over a list of fields. -/
def traverse_struct_field_list (schema : StructSchema) : List Field → Step σ Unit
  | [] => pure ()
  | field :: rest => do
    let _ ← traverse_struct_field schema field
    traverse_struct_field_list schema rest
/-- The C++ method `traverse_struct_field`. -/
def traverse_struct_field (schema : StructSchema) : Field → Step σ Bool
  | .SLOT proto slot => do
    if ← hk.pre_visit_struct_field schema (.SLOT proto slot) then return true
    if ← hk.pre_visit_struct_field_slot schema (.SLOT proto slot) slot then return true
    let _ ← traverse_type hk schema.info slot.type
    if slot.hadExplicitDefault then
      if ← hk.pre_visit_struct_default_value schema (.SLOT proto slot) then return true
      let _ ← traverse_value hk schema.info slot.type slot.defaultValue
      if ← hk.post_visit_struct_default_value schema (.SLOT proto slot) then return true
    if ← hk.post_visit_struct_field_slot schema (.SLOT proto slot) slot then return true
    let _ ← traverse_annotations hk schema.info proto.annotations
    if ← hk.post_visit_struct_field schema (.SLOT proto slot) then return true
    return false
  | .GROUP proto groupSchema => do
    if ← hk.pre_visit_struct_field schema (.GROUP proto groupSchema) then return true
    if ← hk.pre_visit_struct_field_group schema (.GROUP proto groupSchema) groupSchema then
      return true
    let _ ← traverse_annotations hk groupSchema.info
      (match groupSchema with | .mk _ a _ _ => a)
    let _ ← traverse_struct_fields groupSchema
    if ← hk.post_visit_struct_field_group schema (.GROUP proto groupSchema) groupSchema then
      return true
    let _ ← traverse_annotations hk schema.info proto.annotations
    if ← hk.post_visit_struct_field schema (.GROUP proto groupSchema) then return true
    return false
end

/-- The C++ method `traverse_param_list`. -/
def traverse_param_list (interface : Schema) (name : String) (schema : StructSchema) :
    Step σ Bool := do
  if ← hk.pre_visit_param_list interface name schema then return true
  let _ ← traverse_struct_fields hk schema
  if ← hk.post_visit_param_list interface name schema then return true
  return false

/-- The C++ method `traverse_method`. -/
def traverse_method (schema : Schema) (method : Method) : Step σ Bool := do
  if ← hk.pre_visit_method schema method then return true
  if method.implicitParameters.length > 0 then
    if ← hk.pre_visit_method_implicit_params schema method method.implicitParameters then
      return true
    let _ ← traverse_param_list hk schema "parameters" method.paramType
    let _ ← traverse_param_list hk schema "results" method.resultType
    if ← hk.post_visit_method_implicit_params schema method method.implicitParameters then
      return true
  else
    let _ ← traverse_param_list hk schema "parameters" method.paramType
    let _ ← traverse_param_list hk schema "results" method.resultType
  let _ ← traverse_annotations hk schema.info method.annotations
  if ← hk.post_visit_method schema method then return true
  return false

/-- The loop of `traverse_interface_decl` over the methods. -/
def traverse_methods_loop (schema : Schema) : List Method → Step σ Unit
  | [] => pure ()
  | method :: rest => do
    let _ ← traverse_method hk schema method
    traverse_methods_loop schema rest

/-- The loop of `traverse_enumerants`; it returns `true` as soon as a hook of an
enumerant does. -/
def traverse_enumerants_loop (schema : Schema) : List Enumerant → Step σ Bool
  | [] => pure false
  | enumerant :: rest => do
    if ← hk.pre_visit_enumerant schema enumerant then return true
    let _ ← traverse_annotations hk schema.info enumerant.annotations
    if ← hk.post_visit_enumerant schema enumerant then return true
    traverse_enumerants_loop schema rest

/-- The C++ method `traverse_enumerants`. -/
def traverse_enumerants (schema : Schema) (enumList : List Enumerant) : Step σ Bool := do
  if ← hk.pre_visit_enumerants schema enumList then return true
  if ← traverse_enumerants_loop hk schema enumList then return true
  if ← hk.post_visit_enumerants schema enumList then return true
  return false

mutual
/-- The C++ method `traverse_nested_decls`. -/
def traverse_nested_decls (schema : Schema) : Step σ Bool :=
  match schema with
  | .FILE info anns nodes => nested_decls_of (.FILE info anns nodes) nodes
  | .STRUCT info anns nodes u f => nested_decls_of (.STRUCT info anns nodes u f) nodes
  | .ENUM info anns nodes e => nested_decls_of (.ENUM info anns nodes e) nodes
  | .INTERFACE info anns nodes m => nested_decls_of (.INTERFACE info anns nodes m) nodes
  | .CONST info anns nodes t v => nested_decls_of (.CONST info anns nodes t v) nodes
  | .ANNOTATION info anns nodes t g => nested_decls_of (.ANNOTATION info anns nodes t g) nodes
/-- The body of `traverse_nested_decls` for the nested nodes `nodes` of `schema`. -/
def nested_decls_of (schema : Schema) (nodes : List Schema) : Step σ Bool := do
  if nodes.length == 0 then return false
  if ← hk.pre_visit_nested_decls schema then return true
  if ← traverse_nested_decls_loop nodes then return true
  if ← hk.post_visit_nested_decls schema then return true
  return false
/-- The loop of `traverse_nested_decls`: the decl hooks around the dispatch by
category; it returns `true` as soon as a decl hook does. -/
def traverse_nested_decls_loop : List Schema → Step σ Bool
  | [] => pure false
  | decl :: rest => do
    if ← hk.pre_visit_decl decl then return true
    let _ ← traverse_decl decl
    if ← hk.post_visit_decl decl then return true
    traverse_nested_decls_loop rest
/-- The `switch` of `traverse_nested_decls` on the category of the nested node,
with the methods `traverse_struct_decl`, `traverse_enum_decl`,
`traverse_interface_decl`, `traverse_const_decl` and `traverse_annotation_decl`
as its branches. -/
def traverse_decl : Schema → Step σ Bool
  | .FILE .. => pure false
  | .STRUCT info anns nodes unionFields nonUnionFields => do
    if ← hk.pre_visit_struct_decl (.STRUCT info anns nodes unionFields nonUnionFields) then
      return true
    let _ ← nested_decls_of (.STRUCT info anns nodes unionFields nonUnionFields) nodes
    let _ ← traverse_struct_fields hk (.mk info anns unionFields nonUnionFields)
    let _ ← traverse_annotations hk info anns
    if ← hk.post_visit_struct_decl (.STRUCT info anns nodes unionFields nonUnionFields) then
      return true
    return false
  | .ENUM info anns nodes enumerants => do
    if ← hk.pre_visit_enum_decl (.ENUM info anns nodes enumerants) then return true
    let _ ← nested_decls_of (.ENUM info anns nodes enumerants) nodes
    let _ ← traverse_enumerants hk (.ENUM info anns nodes enumerants) enumerants
    let _ ← traverse_annotations hk info anns
    if ← hk.post_visit_enum_decl (.ENUM info anns nodes enumerants) then return true
    return false
  | .INTERFACE info anns nodes methods => do
    if ← hk.pre_visit_interface_decl (.INTERFACE info anns nodes methods) then return true
    let _ ← nested_decls_of (.INTERFACE info anns nodes methods) nodes
    if ← hk.pre_visit_methods (.INTERFACE info anns nodes methods) then return true
    traverse_methods_loop hk (.INTERFACE info anns nodes methods) methods
    if ← hk.post_visit_methods (.INTERFACE info anns nodes methods) then return true
    let _ ← traverse_annotations hk info anns
    if ← hk.post_visit_interface_decl (.INTERFACE info anns nodes methods) then return true
    return false
  | .CONST info anns nodes type value => do
    if ← hk.pre_visit_const_decl (.CONST info anns nodes type value) then return true
    let _ ← traverse_type hk info type
    let _ ← traverse_value hk info type value
    let _ ← traverse_annotations hk info anns
    if ← hk.post_visit_const_decl (.CONST info anns nodes type value) then return true
    return false
  | .ANNOTATION info anns nodes type targets => do
    if ← hk.pre_visit_annotation_decl (.ANNOTATION info anns nodes type targets) then
      return true
    let _ ← traverse_type hk info type
    let _ ← traverse_annotations hk info anns
    if ← hk.post_visit_annotation_decl (.ANNOTATION info anns nodes type targets) then
      return true
    return false
end

/-- The C++ method `traverse_file`. -/
def traverse_file (file : Schema) (requestedFile : RequestedFile) : Step σ Bool := do
  if ← hk.pre_visit_file file requestedFile then return true
  let _ ← traverse_imports hk file requestedFile.imports
  let _ ← traverse_nested_decls hk file
  let _ ← traverse_annotations hk file.info file.annotations
  if ← hk.post_visit_file file requestedFile then return true
  return false

end Engine

/-! ## The AST builder (`class CapnpcParquet`) -/

/-- The state of the generator: the heap of AST nodes and the two pointers
`document_` and `currentParent_`. The members `struct_field_reason_`,
`value_reason_` and `type_reason_` are written by some hooks and read by none;
they are left out. -/
structure CapnpcParquet where
  heap : Heap := []
  document_ : Option Nat := none
  currentParent_ : Option Nat := none
deriving Repr, Inhabited

namespace CapnpcParquet

/-- The C++ method `getDocument`: the target node of the root. -/
def getDocument (g : CapnpcParquet) : Option ParquetNode := do
  let d ← g.document_
  let n ← g.heap.get d
  n.node_

/-- The C++ expression `(currentParent_ == nullptr) ? document_ : currentParent_`:
the node that is open. -/
def openNode (g : CapnpcParquet) : Option Nat :=
  match g.currentParent_ with
  | some cp => some cp
  | none => g.document_

/-- The lines that end the entry hooks: the new node `element` becomes the last
child of `currentParent_`, or of `document_` when `currentParent_` is null, and
then becomes `currentParent_`. -/
def attach (element : ASTNode) : Step CapnpcParquet Unit := do
  let g ← get
  let (p, h) := g.heap.alloc element
  let parent ← (g.openNode : Option Nat)
  let h ← (h.addChild parent p : Option Heap)
  set { g with heap := h, currentParent_ := some p }

/-- The lines that end the exit hooks: `currentParent_` moves to its parent,
unless it is null. -/
def leave : Step CapnpcParquet Unit := do
  let g ← get
  match g.currentParent_ with
  | some cp =>
    let n ← (g.heap.get cp : Option ASTNode)
    set { g with currentParent_ := n.parent_ }
  | none => pure ()

/-- The body shared by the exit hooks of files, declarations, types, values and
fields: build the target node of the open node, then leave it. -/
def buildAndLeave : Step CapnpcParquet Bool := do
  let g ← get
  let element ← (g.openNode : Option Nat)
  let h ← (buildParquetNode g.heap element : Option Heap)
  set { g with heap := h }
  leave
  return false

/-- The C++ hook `pre_visit_file`. -/
def pre_visit_file (schema : Schema) (_decl : RequestedFile) : Step CapnpcParquet Bool := do
  let element := (ASTNode.new .FILE schema.info.displayName).setNodeId schema.info.id
  let g ← get
  match g.document_ with
  | none =>
    let (p, h) := g.heap.alloc element
    set { g with heap := h, document_ := some p }
  | some _ => attach element
  return false

/-- The C++ hook `post_visit_file`. -/
def post_visit_file (_schema : Schema) (_decl : RequestedFile) : Step CapnpcParquet Bool :=
  buildAndLeave

/-- The C++ hook `pre_visit_decl`. -/
def pre_visit_decl (schema : Schema) : Step CapnpcParquet Bool := do
  let (node_type, capnp_type) : ASTNodeType × TypeWhich :=
    match schema with
    | .STRUCT .. => (.STRUCT, .STRUCT)
    | .ENUM .. => (.ENUM, .ENUM)
    | .INTERFACE .. => (.INTERFACE, .INTERFACE)
    | .FILE .. => (.FILE, .VOID)
    | .CONST .. => (.CONST, .VOID)
    | .ANNOTATION .. => (.ANNOTATION, .VOID)
  let element := (((ASTNode.new node_type schema.info.shortDisplayName).setNodeId
    schema.info.id).setScopeId schema.info.scopeId).setIsDecl
  let element := if capnp_type != .VOID then element.setCapnpType capnp_type else element
  attach element
  return false

/-- The C++ hook `post_visit_decl`. -/
def post_visit_decl (_schema : Schema) : Step CapnpcParquet Bool :=
  buildAndLeave

/-- The C++ hook `pre_visit_enumerant`. -/
def pre_visit_enumerant (_schema : Schema) (enumerant : Enumerant) :
    Step CapnpcParquet Bool := do
  attach ((ASTNode.new .ENUMERANT enumerant.name).setOrdinal enumerant.ordinal)
  return false

/-- The C++ hook `post_visit_enumerant`. -/
def post_visit_enumerant (_schema : Schema) (_enumerant : Enumerant) :
    Step CapnpcParquet Bool := do
  leave
  return false

/-- The C++ hook `pre_visit_annotation_decl`: it records the applicability
targets on the open node, through `currentParent_`. -/
def pre_visit_annotation_decl (schema : Schema) : Step CapnpcParquet Bool := do
  match schema with
  | .ANNOTATION _ _ _ _ proto =>
    let g ← get
    let cp ← (g.currentParent_ : Option Nat)
    let add (flag : Bool) (target : String) (n : ASTNode) : ASTNode :=
      if flag then n.addTarget target else n
    let h ← (g.heap.update cp (fun n =>
      add proto.targetsMethod "method" <| add proto.targetsParam "param" <|
      add proto.targetsConst "const" <| add proto.targetsAnnotation "annotation" <|
      add proto.targetsEnumerant "enumerant" <| add proto.targetsUnion "union" <|
      add proto.targetsField "field" <| add proto.targetsFile "file" <|
      add proto.targetsEnum "enum" <| add proto.targetsGroup "group" <|
      add proto.targetsInterface "interface" <| add proto.targetsStruct "struct" n) :
      Option Heap)
    set { g with heap := h }
    return false
  | _ => failure

/-- The names the C++ hook `pre_visit_type` gives to the TYPE nodes. -/
def typeNodeName : TypeWhich → String
  | .VOID => "void" | .BOOL => "bool" | .TEXT => "text" | .DATA => "data"
  | .FLOAT32 => "float32" | .FLOAT64 => "float64"
  | .INT8 => "int8" | .INT16 => "int16" | .INT32 => "int32" | .INT64 => "int64"
  | .UINT8 => "uint8" | .UINT16 => "uint16" | .UINT32 => "uint32" | .UINT64 => "uint64"
  | .LIST => "list" | .ENUM => "enum" | .STRUCT => "struct"
  | .INTERFACE => "interface" | .ANY_POINTER => "anypointer"

/-- The C++ hook `pre_visit_type`. For a list type it traverses the element type
itself and returns `true`. -/
def pre_visit_type (_schema : SchemaInfo) (type : SchemaType)
    (traverseElement : Step CapnpcParquet Bool) : Step CapnpcParquet Bool := do
  let element := ASTNode.new .TYPE (typeNodeName type.which)
  let element :=
    match type with
    | .ENUM typeId name => (element.setTypeId typeId).setTypeName name
    | .STRUCT typeId name => (element.setTypeId typeId).setTypeName name
    | .INTERFACE typeId name => (element.setTypeId typeId).setTypeName name
    | .ANY_POINTER unconstrained =>
      if unconstrained then element.setIsUnconstrained else element
    | _ => element
  let element := element.setCapnpType type.which
  attach element
  match type with
  | .LIST _ =>
    let _ ← traverseElement
    return true
  | _ => return false

/-- The C++ hook `post_visit_type`. -/
def post_visit_type (_schema : SchemaInfo) (_type : SchemaType) : Step CapnpcParquet Bool :=
  buildAndLeave

/-- The `switch` of the C++ hook `pre_visit_dynamic_value`: the literal is copied
into the slot of the declared type's kind. A conversion that throws makes the
result `none`. -/
def setDynamicValue (element : ASTNode) (type : TypeWhich) (value : DynamicValue) :
    Option ASTNode :=
  match type with
  | .BOOL => do pure (element.setValueBOOL (← value.asBool))
  | .INT64 => do pure (element.setValueI64 (← value.asInt 64))
  | .UINT64 => do pure (element.setValueUI64 (← value.asUInt 64))
  | .FLOAT32 => do pure (element.setValueFLOAT (← value.asFloat))
  | .FLOAT64 => do pure (element.setValueDOUBLE (← value.asFloat))
  | .INT8 => do pure (element.setValueI8 (← value.asInt 8))
  | .INT16 => do pure (element.setValueI16 (← value.asInt 16))
  | .INT32 => do pure (element.setValueI32 (← value.asInt 32))
  | .UINT8 => do pure (element.setValueUI8 (← value.asUInt 8))
  | .UINT16 => do pure (element.setValueUI16 (← value.asUInt 16))
  | .UINT32 => do pure (element.setValueUI32 (← value.asUInt 32))
  | .VOID => some element
  | .TEXT => do pure (element.setValueSTRING (← value.asText))
  | .DATA => do
    let bytes ← value.asData
    pure (bytes.foldl (fun e b => e.appendValueBINARY [b]) element)
  | .LIST => some element
  | .STRUCT => some element
  | .ENUM => do
    let (raw, enumerant) ← value.asEnum
    let element := element.setOrdinal raw
    match enumerant with
    | some name => pure (element.setEnumerantName name)
    | none => pure element
  | .INTERFACE => some element
  | .ANY_POINTER => some element

/-- The C++ hook `pre_visit_dynamic_value`. -/
def pre_visit_dynamic_value (schema : SchemaInfo) (type : SchemaType)
    (value : DynamicValue) : Step CapnpcParquet Bool := do
  let element := ASTNode.new .VALUE schema.shortDisplayName
  let element ← (setDynamicValue element type.which value : Option ASTNode)
  let element := element.setCapnpType type.which
  attach element
  return false

/-- The C++ hook `post_visit_dynamic_value`. -/
def post_visit_dynamic_value (_schema : SchemaInfo) (_type : SchemaType)
    (_value : DynamicValue) : Step CapnpcParquet Bool :=
  buildAndLeave

/-- The C++ hook `pre_visit_struct_field`. -/
def pre_visit_struct_field (_schema : StructSchema) (field : Field) :
    Step CapnpcParquet Bool := do
  let element := ASTNode.new .FIELD field.proto.name
  let element :=
    match field.proto.ordinal with
    | some ord => element.setOrdinal ord
    | none => element
  attach element
  return false

/-- The C++ hook `pre_visit_struct_field_slot`. -/
def pre_visit_struct_field_slot (_schema : StructSchema) (_field : Field) (slot : Slot) :
    Step CapnpcParquet Bool := do
  let g ← get
  let cp ← (g.currentParent_ : Option Nat)
  let h ← (g.heap.update cp (fun n =>
    let n := n.setOffset slot.offset
    let n := if slot.hadExplicitDefault then n.setHadDefaultValue else n
    n.setCapnpType slot.type.which) : Option Heap)
  set { g with heap := h }
  return false

/-- The C++ hook `post_visit_struct_field`. -/
def post_visit_struct_field (_schema : StructSchema) (_field : Field) :
    Step CapnpcParquet Bool :=
  buildAndLeave

/-- The C++ hook `pre_visit_annotation`. -/
def pre_visit_annotation (ann : AnnotationReader) (_schema : SchemaInfo) :
    Step CapnpcParquet Bool := do
  attach ((ASTNode.new .ANNOTATION ann.declName).setNodeId ann.id)
  return false

/-- The C++ hook `post_visit_annotation`. -/
def post_visit_annotation (_ann : AnnotationReader) (_schema : SchemaInfo) :
    Step CapnpcParquet Bool := do
  leave
  return false

/-- The hooks that `CapnpcParquet` overrides with a body; the other overrides
only return `false`, as the defaults do. -/
def hooks : Hooks CapnpcParquet where
  pre_visit_file := pre_visit_file
  post_visit_file := post_visit_file
  pre_visit_decl := pre_visit_decl
  post_visit_decl := post_visit_decl
  pre_visit_enumerant := pre_visit_enumerant
  post_visit_enumerant := post_visit_enumerant
  pre_visit_annotation_decl := pre_visit_annotation_decl
  pre_visit_type := pre_visit_type
  post_visit_type := post_visit_type
  pre_visit_dynamic_value := pre_visit_dynamic_value
  post_visit_dynamic_value := post_visit_dynamic_value
  pre_visit_struct_field := pre_visit_struct_field
  pre_visit_struct_field_slot := pre_visit_struct_field_slot
  post_visit_struct_field := post_visit_struct_field
  pre_visit_annotation := pre_visit_annotation
  post_visit_annotation := post_visit_annotation

end CapnpcParquet

/-- The annotation names that `applyAnnotations` compares the name of an applied
annotation with, in the order of its `if` chain. -/
def recognizedAnnotations : List String :=
  ["schema", "required", "optional", "repeated", "length", "scale",
    "precision", "decimal", "date", "timeMillis", "timeMicros", "timestampMillis",
    "timestampMicros", "bson", "json", "interval", "fixed", "map", "mapKeyValue", "list"]

/-- The attributes of a node that `applyAnnotations` never writes. -/
def ASTNode.same_identity (a b : ASTNode) : Prop :=
  a.node_type_ = b.node_type_ ∧ a.name_ = b.name_ ∧ a.children_ = b.children_ ∧
  a.node_ = b.node_ ∧ a.parent_ = b.parent_ ∧ a.capnp_type_ = b.capnp_type_ ∧
  a.is_capnp_type = b.is_capnp_type ∧ a.is_decl = b.is_decl ∧ a.node_id_ = b.node_id_ ∧
  a.is_type_name = b.is_type_name ∧ a.type_name_ = b.type_name_ ∧
  a.is_enumerant_name = b.is_enumerant_name ∧ a.enumerant_name_ = b.enumerant_name_ ∧
  a.is_value = b.is_value ∧ a.value_ = b.value_

/-! ## Helper definitions for the statements about `buildParquetNode` -/

/-- Two nodes that are equal, or of which the first is a FIELD node that has a
target node and the second is the first with a group named after the field as
its target node: what the flattening loop of `buildParquetNode` may change in
a child. -/
def ASTNode.same_but_handle (a b : ASTNode) : Prop :=
  b = a ∨ (a.node_type_ = .FIELD ∧ a.node_.isSome = true ∧
    ∃ nm rep fs lt, convertCamelCase a.name_ = some nm ∧
      b = a.setNode (some (.group nm rep fs lt)))

/-- Two heaps of the same length whose nodes are pairwise the same but for
the target node of FIELD nodes that have one. -/
def Heap.same_but_handles (h0 h : Heap) : Prop :=
  h.length = h0.length ∧
  ∀ x a, h0.get x = some a → ∃ b, h.get x = some b ∧ a.same_but_handle b

/-- What the searches of the flattening read of a node: two nodes that agree
on the category, the declaration flag, the source category, the name, the
referenced-type name, the children, the id, and on having a target node. -/
def ASTNode.same_for_search (a b : ASTNode) : Prop :=
  b.node_type_ = a.node_type_ ∧ b.is_decl = a.is_decl ∧ b.capnp_type_ = a.capnp_type_ ∧
  b.name_ = a.name_ ∧ b.type_name_ = a.type_name_ ∧ b.children_ = a.children_ ∧
  b.node_id_ = a.node_id_ ∧ b.node_.isSome = a.node_.isSome

/-- Two heaps of the same length whose nodes pairwise agree on what the
searches of the flattening read. -/
def Heap.same_for_search (h0 h : Heap) : Prop :=
  h.length = h0.length ∧
  ∀ x a, h0.get x = some a → ∃ b, h.get x = some b ∧ a.same_for_search b

/-- No child in `js` is a declaration with the category and the name of the
TYPE node `type`; the test of a declaration child reads the TYPE node, which
must be there. -/
def Heap.no_decl_match (h : Heap) (type : Option Nat) (js : List Nat) : Prop :=
  ∀ j ∈ js, ∃ cj, h.get j = some cj ∧
    (cj.is_decl = true → ∃ t tn, type = some t ∧ h.get t = some tn ∧
      ¬ (cj.capnp_type_ = tn.capnp_type_ ∧ cj.name_ = tn.type_name_))

/-- The test of the file-root branch of `buildParquetNode` on a child: it has
a target node, a schema name, its target node is a group, and it is not an
ANNOTATION node. -/
def ASTNode.is_root_candidate (c : ASTNode) : Bool :=
  match c.node_ with
  | some pn => c.is_schema_name && pn.is_group && c.node_type_ != .ANNOTATION
  | none => false

/-- The node with another child list: what calls of `removeChild` leave of a
node. -/
def ASTNode.with_children (n : ASTNode) (cs : List Nat) : ASTNode := { n with children_ := cs }

/-- The target node of a child as the collection loop of `buildParquetNode`
reads it: the handle of the node at `c`, unless the node has none or is an
ANNOTATION node. -/
def Heap.child_handle (h : Heap) (c : Nat) : Option ParquetNode :=
  (h.get c).bind (fun x => if x.node_type_ != .ANNOTATION then x.node_ else none)

/-- The node at `x` of the heap `h` is the FIELD node at `x` of `h0`, which had a
target node, with a fresh group as its target node: the group is named after
the field and has the repetition, the fields and the logical tag given. -/
def Heap.flattened_at (h0 h : Heap) (rep : Repetition) (fs : List ParquetNode)
    (lt : LogicalType) (x : Nat) : Prop :=
  ∃ cn nm, h0.get x = some cn ∧ cn.node_type_ = .FIELD ∧ cn.node_.isSome = true ∧
    convertCamelCase cn.name_ = some nm ∧
    h.get x = some (cn.setNode (some (.group nm rep fs lt)))

/-- The heap `h` is the heap `h0` but for nodes among `refs` that are
flattened. -/
def Heap.flattened_from (h0 h : Heap) (rep : Repetition) (fs : List ParquetNode)
    (lt : LogicalType) (refs : List Nat) : Prop :=
  h.length = h0.length ∧
  ∀ x, h.get x = h0.get x ∨ (x ∈ refs ∧ h0.flattened_at h rep fs lt x)

/-- A field that refers to the declaration `D`, the first match among the
children `pre ++ d :: post`. -/
def Heap.refers_to (h0 : Heap) (pre : List Nat) (D : ASTNode) (c : Nat) : Prop :=
  ∃ cn t tn nm, h0.get c = some cn ∧ cn.node_type_ = .FIELD ∧ cn.node_.isSome = true ∧
    findTypeChild h0 cn = some (some t) ∧ h0.get t = some tn ∧
    h0.no_decl_match (some t) pre ∧
    (D.capnp_type_ = tn.capnp_type_ ∧ D.name_ = tn.type_name_) ∧
    convertCamelCase cn.name_ = some nm

/-- A child that the flattening loop leaves as it is: it has no target node,
or is not a FIELD node, or its TYPE child matches no declaration among `js`. -/
def Heap.refers_to_none (h0 : Heap) (js : List Nat) (c : Nat) : Prop :=
  ∃ cn, h0.get c = some cn ∧ (cn.node_.isSome = false ∨ cn.node_type_ ≠ .FIELD ∨
    ∃ type, findTypeChild h0 cn = some type ∧ h0.no_decl_match type js)

mutual
/-- The names of a target node and of the nodes below it, as text: the name of
the node, followed for a group by the outlines of its fields in brackets. -/
def ParquetNode.outline : ParquetNode → String
  | .primitive n .. => n
  | .group n _ fs _ => n ++ "(" ++ ParquetNode.outlineList fs ++ ")"
/-- The outlines of the nodes of a list, separated by commas. -/
def ParquetNode.outlineList : List ParquetNode → String
  | [] => ""
  | [p] => p.outline
  | p :: q :: rest => p.outline ++ "," ++ ParquetNode.outlineList (q :: rest)
end

/-- The C++ accessor `logical_type()` of a target node. -/
def ParquetNode.logical : ParquetNode → LogicalType
  | .primitive _ _ _ lt _ _ _ => lt
  | .group _ _ _ lt => lt

/-! ## Observing the traversal: hooks that record the calls -/

/-- The hooks of the engine by the argument of `PRE_VISIT` and `POST_VISIT`. -/
inductive HookName where
  | FILE | IMPORTS | IMPORT | NESTED_DECLS | DECL
  | STRUCT_DECL | ENUM_DECL | CONST_DECL | ANNOTATION_DECL | INTERFACE_DECL
  | ANNOTATION | ANNOTATIONS | TYPE | DYNAMIC_VALUE
  | STRUCT_FIELDS | STRUCT_DEFAULT_VALUE | STRUCT_FIELD | STRUCT_FIELD_SLOT
  | STRUCT_FIELD_GROUP | STRUCT_FIELD_UNION
  | PARAM_LIST | METHOD | METHODS | METHOD_IMPLICIT_PARAMS
  | ENUMERANT | ENUMERANTS
deriving DecidableEq, Repr, Inhabited

/-- What a hook is called on, as far as the recorded calls tell nodes apart: the
identity of a file, declaration or struct; the name of an import, applied
annotation, field, method, parameter list or enumerant; a type. -/
inductive Subject where
  | schema (info : SchemaInfo)
  | named (name : String)
  | type (t : SchemaType)
deriving DecidableEq, Repr, Inhabited

/-- One recorded call of a hook: of the exit hook when `exit` is set, of the
entry hook otherwise. -/
structure Event where
  exit : Bool
  hook : HookName
  subject : Subject
deriving DecidableEq, Repr, Inhabited

/-- The call of the entry hook `hook` on `subject`. -/
def Event.pre (hook : HookName) (subject : Subject) : Event := ⟨false, hook, subject⟩

/-- The call of the exit hook `hook` on `subject`. -/
def Event.post (hook : HookName) (subject : Subject) : Event := ⟨true, hook, subject⟩

/-- A hook body that appends the call `e` to the log and returns `stop e`. -/
def record (stop : Event → Bool) (e : Event) : Step (List Event) Bool :=
  fun log => some (stop e, log ++ [e])

/-- Hooks that only record their calls; the hook whose call is `e` returns
`stop e`. The entry hook of a type does not traverse the element type. -/
def logHooks (stop : Event → Bool) : Hooks (List Event) where
  pre_visit_file := fun s _ => record stop (.pre .FILE (.schema s.info))
  pre_visit_imports := fun s _ => record stop (.pre .IMPORTS (.schema s.info))
  pre_visit_import := fun _ i => record stop (.pre .IMPORT (.named i.name))
  pre_visit_nested_decls := fun s => record stop (.pre .NESTED_DECLS (.schema s.info))
  pre_visit_decl := fun s => record stop (.pre .DECL (.schema s.info))
  pre_visit_struct_decl := fun s => record stop (.pre .STRUCT_DECL (.schema s.info))
  pre_visit_enum_decl := fun s => record stop (.pre .ENUM_DECL (.schema s.info))
  pre_visit_const_decl := fun s => record stop (.pre .CONST_DECL (.schema s.info))
  pre_visit_annotation_decl := fun s => record stop (.pre .ANNOTATION_DECL (.schema s.info))
  pre_visit_annotation := fun a _ => record stop (.pre .ANNOTATION (.named a.declName))
  pre_visit_annotations := fun i => record stop (.pre .ANNOTATIONS (.schema i))
  pre_visit_type := fun _ t _ => record stop (.pre .TYPE (.type t))
  pre_visit_dynamic_value := fun _ t _ => record stop (.pre .DYNAMIC_VALUE (.type t))
  pre_visit_struct_fields := fun s => record stop (.pre .STRUCT_FIELDS (.schema s.info))
  pre_visit_struct_default_value := fun _ f =>
    record stop (.pre .STRUCT_DEFAULT_VALUE (.named f.proto.name))
  pre_visit_struct_field := fun _ f => record stop (.pre .STRUCT_FIELD (.named f.proto.name))
  pre_visit_struct_field_slot := fun _ f _ =>
    record stop (.pre .STRUCT_FIELD_SLOT (.named f.proto.name))
  pre_visit_struct_field_group := fun _ f _ =>
    record stop (.pre .STRUCT_FIELD_GROUP (.named f.proto.name))
  pre_visit_struct_field_union := fun s => record stop (.pre .STRUCT_FIELD_UNION (.schema s.info))
  pre_visit_interface_decl := fun s => record stop (.pre .INTERFACE_DECL (.schema s.info))
  pre_visit_param_list := fun _ n _ => record stop (.pre .PARAM_LIST (.named n))
  pre_visit_method := fun _ m => record stop (.pre .METHOD (.named m.name))
  pre_visit_methods := fun s => record stop (.pre .METHODS (.schema s.info))
  pre_visit_method_implicit_params := fun _ m _ =>
    record stop (.pre .METHOD_IMPLICIT_PARAMS (.named m.name))
  pre_visit_enumerant := fun _ e => record stop (.pre .ENUMERANT (.named e.name))
  pre_visit_enumerants := fun s _ => record stop (.pre .ENUMERANTS (.schema s.info))
  post_visit_file := fun s _ => record stop (.post .FILE (.schema s.info))
  post_visit_imports := fun s _ => record stop (.post .IMPORTS (.schema s.info))
  post_visit_import := fun _ i => record stop (.post .IMPORT (.named i.name))
  post_visit_nested_decls := fun s => record stop (.post .NESTED_DECLS (.schema s.info))
  post_visit_decl := fun s => record stop (.post .DECL (.schema s.info))
  post_visit_struct_decl := fun s => record stop (.post .STRUCT_DECL (.schema s.info))
  post_visit_enum_decl := fun s => record stop (.post .ENUM_DECL (.schema s.info))
  post_visit_const_decl := fun s => record stop (.post .CONST_DECL (.schema s.info))
  post_visit_annotation_decl := fun s => record stop (.post .ANNOTATION_DECL (.schema s.info))
  post_visit_annotation := fun a _ => record stop (.post .ANNOTATION (.named a.declName))
  post_visit_annotations := fun i => record stop (.post .ANNOTATIONS (.schema i))
  post_visit_type := fun _ t => record stop (.post .TYPE (.type t))
  post_visit_dynamic_value := fun _ t _ => record stop (.post .DYNAMIC_VALUE (.type t))
  post_visit_struct_fields := fun s => record stop (.post .STRUCT_FIELDS (.schema s.info))
  post_visit_struct_default_value := fun _ f =>
    record stop (.post .STRUCT_DEFAULT_VALUE (.named f.proto.name))
  post_visit_struct_field := fun _ f => record stop (.post .STRUCT_FIELD (.named f.proto.name))
  post_visit_struct_field_slot := fun _ f _ =>
    record stop (.post .STRUCT_FIELD_SLOT (.named f.proto.name))
  post_visit_struct_field_group := fun _ f _ =>
    record stop (.post .STRUCT_FIELD_GROUP (.named f.proto.name))
  post_visit_struct_field_union := fun s =>
    record stop (.post .STRUCT_FIELD_UNION (.schema s.info))
  post_visit_interface_decl := fun s => record stop (.post .INTERFACE_DECL (.schema s.info))
  post_visit_param_list := fun _ n _ => record stop (.post .PARAM_LIST (.named n))
  post_visit_method := fun _ m => record stop (.post .METHOD (.named m.name))
  post_visit_methods := fun s => record stop (.post .METHODS (.schema s.info))
  post_visit_method_implicit_params := fun _ m _ =>
    record stop (.post .METHOD_IMPLICIT_PARAMS (.named m.name))
  post_visit_enumerant := fun _ e => record stop (.post .ENUMERANT (.named e.name))
  post_visit_enumerants := fun s _ => record stop (.post .ENUMERANTS (.schema s.info))

/-- Recording hooks that all return continue (`false`). -/
def continueHooks : Hooks (List Event) := logHooks (fun _ => false)

/-- The hooks of `BaseGenerator` itself, none overridden: each returns `false`
and there is no state. With them the traversal returns unless reading a value of
the schema throws. -/
def baseHooks : Hooks Unit := {}

/-- The step `m` returns `a` from every log and appends exactly the calls `t`. -/
def Runs {α : Type} (m : Step (List Event) α) (a : α) (t : List Event) : Prop :=
  ∀ log, m log = some (a, log ++ t)

/-- The calls that the step `m` records from the empty log; none when it does
not return. -/
def events {α : Type} (m : Step (List Event) α) : List Event :=
  match m [] with
  | some r => r.2
  | none => []

/-- The recording step `m` and the step `m0` of the hooks of `BaseGenerator`
return together: both fail when `o` is `none`; when `o` is `some t` both return
`a` and `m` appends exactly the calls `t` to every log. -/
structure SimAt {α : Type} (m : Step (List Event) α) (m0 : Step Unit α) (a : α)
    (o : Option (List Event)) : Prop where
  run : ∀ log, m log = o.map (fun t => (a, log ++ t))
  base : m0 () = o.map (fun _ => (a, ()))

/-- The recording step `m` and the step `m0` of the hooks of `BaseGenerator`
return together, with the result `a`, and `m` only appends to the log, the same
calls from every log. -/
def Sim {α : Type} (m : Step (List Event) α) (m0 : Step Unit α) (a : α) : Prop :=
  ∃ o : Option (List Event), SimAt m m0 a o

/-- The recording step `m` only appends to the log, and no call of a decl
hook. -/
def Quiet {α : Type} (m : Step (List Event) α) : Prop :=
  ∀ log r, m log = some r → ∃ t, r.2 = log ++ t ∧ ∀ e ∈ t, e.hook ≠ .DECL

mutual
/-- Modelled from the spec: the calls of the decl hooks for the declaration
`d`: its entry, the calls for the declarations nested in it, its exit. -/
def Schema.declCalls : Schema → List Event
  | .FILE i _ n =>
    Event.pre .DECL (.schema i) :: declCallsList n ++ [Event.post .DECL (.schema i)]
  | .STRUCT i _ n _ _ =>
    Event.pre .DECL (.schema i) :: declCallsList n ++ [Event.post .DECL (.schema i)]
  | .ENUM i _ n _ =>
    Event.pre .DECL (.schema i) :: declCallsList n ++ [Event.post .DECL (.schema i)]
  | .INTERFACE i _ n _ =>
    Event.pre .DECL (.schema i) :: declCallsList n ++ [Event.post .DECL (.schema i)]
  | .CONST i _ n _ _ =>
    Event.pre .DECL (.schema i) :: declCallsList n ++ [Event.post .DECL (.schema i)]
  | .ANNOTATION i _ n _ _ =>
    Event.pre .DECL (.schema i) :: declCallsList n ++ [Event.post .DECL (.schema i)]
/-- Modelled from the spec: the calls of the decl hooks for the declarations of
a list and everything nested in them, in declaration order: every declaration is
entered once and left once, around the calls for the declarations nested in it. -/
def declCallsList : List Schema → List Event
  | [] => []
  | d :: rest => d.declCalls ++ declCallsList rest
end

mutual
/-- The declaration nests as the schema language allows: a struct, an enum and
an interface hold properly nested declarations, and a constant, an annotation
declaration and a file node that is itself nested hold none. -/
def Schema.nestsProperly : Schema → Bool
  | .FILE _ _ n => n.isEmpty
  | .STRUCT _ _ n _ _ => allNestProperly n
  | .ENUM _ _ n _ => allNestProperly n
  | .INTERFACE _ _ n _ => allNestProperly n
  | .CONST _ _ n _ _ => n.isEmpty
  | .ANNOTATION _ _ n _ _ => n.isEmpty
/-- Every declaration of the list nests as the schema language allows. -/
def allNestProperly : List Schema → Bool
  | [] => true
  | d :: rest => d.nestsProperly && allNestProperly rest
end

/-! ## Definitions for the statements about names, values and the tree of nodes -/

/-- For each character that the `for` loop of `convertCamelCase` appends to
`str`: `true` for an underscore that the loop inserts, `false` for a character
that it copies from the input. -/
def convertCamelCaseMarks : Char → List Char → List Bool
  | _, [] => []
  | prev, c :: rest =>
    (if c.isDigit && prev != '_' && prev.isLower then [true]
     else if c.isUpper && prev != '_' && (prev.isDigit || prev.isLower) then [true]
     else []) ++ false :: convertCamelCaseMarks c rest

/-- Modelled from the spec: the characters `cs` in lower case, with an underscore
inserted between two neighbours exactly when `boundary` holds of them. -/
def withUnderscores (boundary : Char → Char → Bool) : List Char → List Char
  | [] => []
  | [c] => [c.toLower]
  | p :: c :: rest =>
    p.toLower :: ((if boundary p c then ['_'] else []) ++ withUnderscores boundary (c :: rest))

/-- Modelled from the spec: a camel-case boundary (a lower-case letter
immediately followed by an upper-case letter) or a digit/letter transition (a
digit next to a letter, in either order). -/
def claimedBoundary (p c : Char) : Bool :=
  (p.isLower && c.isUpper) || (p.isDigit && c.isAlpha) || (p.isAlpha && c.isDigit)

/-- Modelled from the spec: the boundaries of the amended statement: a
lower-case letter followed by an upper-case letter or by a digit, or a digit
followed by an upper-case letter. -/
def amendedBoundary (p c : Char) : Bool :=
  (p.isLower && (c.isUpper || c.isDigit)) || (p.isDigit && c.isUpper)

/-- Modelled from the spec: the child values into which the traversal of a value
recurses, each with the type it is traversed with: for a list value of a list
type every element, in order, with the element type; for a struct value of a
struct type every field that is present in the value, in field order, with the
field's type; none for every other type. -/
def dynamicChildren : SchemaType → DynamicValue → List (SchemaType × DynamicValue)
  | .LIST elementType, .LIST elements => elements.map (fun e => (elementType, e))
  | .STRUCT .., .STRUCT fields => fields.filterMap (fun f => f.2.map (fun v => (f.1, v)))
  | _, _ => []

mutual
/-- The value can be read as the type, so that no conversion of
`traverse_dynamic_value` throws: a value of a list type is a list value whose
elements can be read as the element type, and a value of a struct type is a
struct value whose present fields can be read as their types. -/
def DynamicValue.readableAs (type : SchemaType) : DynamicValue → Bool
  | .LIST elements =>
    match type with
    | .LIST elementType => readableList elementType elements
    | .STRUCT .. => false
    | _ => true
  | .STRUCT fields =>
    match type with
    | .LIST _ => false
    | .STRUCT .. => readableFields fields
    | _ => true
  | _ =>
    match type with
    | .LIST _ => false
    | .STRUCT .. => false
    | _ => true
/-- Every element can be read as the element type. -/
def readableList (elementType : SchemaType) : List DynamicValue → Bool
  | [] => true
  | element :: rest => element.readableAs elementType && readableList elementType rest
/-- Every field that is present can be read as its type. -/
def readableFields : List (SchemaType × Option DynamicValue) → Bool
  | [] => true
  | (_, none) :: rest => readableFields rest
  | (fieldType, some fieldValue) :: rest =>
    fieldValue.readableAs fieldType && readableFields rest
end

/-- Modelled from the spec: the state of the builder after the new node
`element` has been attached under the open node `p`, which is `P`: the new node
is the last node of the heap and has `p` as its parent back-reference, the node
`p` has the new node as its new last child, and the new node is the open node. -/
def CapnpcParquet.attached (g : CapnpcParquet) (p : Nat) (P element : ASTNode) :
    CapnpcParquet :=
  { heap := g.heap.set p (P.push_back_child g.heap.length) ++ [element.setParent (some p)],
    document_ := g.document_,
    currentParent_ := some g.heap.length }

/-- The C++ method `parent->addChild(child)` with its test for a null child. -/
def Heap.addChildPtr (h : Heap) (parent : Nat) (child : Option Nat) : Option Heap :=
  match child with
  | some c => h.addChild parent c
  | none => some h

/-- One call on a node of the heap: `parent->addChild(child)` or
`parent->removeChild(index)`. -/
inductive TreeCall where
  | addChild (parent : Nat) (child : Option Nat)
  | removeChild (parent index : Nat)
deriving DecidableEq, Repr, Inhabited

/-- The heap after one call. -/
def Heap.call (h : Heap) : TreeCall → Option Heap
  | .addChild parent child => h.addChildPtr parent child
  | .removeChild parent index => h.removeChild parent index

/-- The heap after a sequence of calls. -/
def Heap.calls : Heap → List TreeCall → Option Heap
  | h, [] => some h
  | h, c :: rest => (h.call c).bind (fun h1 => Heap.calls h1 rest)

/-- Modelled from the spec: every node of the heap is a single node, without
children and without a parent. -/
def Heap.singles (h : Heap) : Prop :=
  ∀ n ∈ h, n.children_ = [] ∧ n.parent_ = none

/-- Modelled from the spec: each child's parent back-reference is the node
whose child list contains it. -/
def Heap.backReferencesOk (h : Heap) : Prop :=
  ∀ p ∈ List.range h.length, ∀ c ∈ ((h.get p).map (fun n => n.children_)).getD [],
    (h.get c).map (fun n => n.parent_) = some (some p)

/-- Modelled from the spec: the node `c` is in the child list of some node. -/
def Heap.isChild (h : Heap) (c : Nat) : Bool :=
  h.any (fun n => n.children_.contains c)

/-- Modelled from the spec: in every `addChild` call of the sequence the child
is, at the time of the call, in the child list of no node. -/
def Heap.addsFreshChildren : Heap → List TreeCall → Bool
  | _, [] => true
  | h, .addChild parent (some c) :: rest =>
    !h.isChild c &&
      match h.addChild parent c with
      | some h1 => Heap.addsFreshChildren h1 rest
      | none => true
  | h, call :: rest =>
    match h.call call with
    | some h1 => Heap.addsFreshChildren h1 rest
    | none => true

/-- Whether every node of a heap is a single node can be decided. -/
instance Heap.decidableSingles (h : Heap) : Decidable h.singles := by
  unfold Heap.singles; infer_instance

/-- Whether the back-references of a heap are right can be decided. -/
instance Heap.decidableBackReferencesOk (h : Heap) : Decidable h.backReferencesOk := by
  unfold Heap.backReferencesOk; infer_instance

/-- The is-set bits that `applyAnnotations` may set, compared between two
nodes: each of them that is set on `a` is set on `b`. -/
def ASTNode.flags_within (a b : ASTNode) : Prop :=
  (a.isset.schema_name = true → b.isset.schema_name = true) ∧
  (a.isset.repetition_type = true → b.isset.repetition_type = true) ∧
  (a.isset.type_length = true → b.isset.type_length = true) ∧
  (a.isset.scale = true → b.isset.scale = true) ∧
  (a.isset.precision = true → b.isset.precision = true) ∧
  (a.isset.decimal = true → b.isset.decimal = true) ∧
  (a.isset.date = true → b.isset.date = true) ∧
  (a.isset.time_millis = true → b.isset.time_millis = true) ∧
  (a.isset.time_micros = true → b.isset.time_micros = true) ∧
  (a.isset.timestamp_millis = true → b.isset.timestamp_millis = true) ∧
  (a.isset.timestamp_micros = true → b.isset.timestamp_micros = true) ∧
  (a.isset.bson = true → b.isset.bson = true) ∧
  (a.isset.json = true → b.isset.json = true) ∧
  (a.isset.interval = true → b.isset.interval = true) ∧
  (a.isset.fixed_len_byte_array = true → b.isset.fixed_len_byte_array = true) ∧
  (a.isset.map = true → b.isset.map = true) ∧
  (a.isset.map_key_value = true → b.isset.map_key_value = true) ∧
  (a.isset.list = true → b.isset.list = true)

/-- The is-set bit that the setter called for the recognized annotation `name`
sets (l.1329-1395 with the setters of `ASTNode`), read on the node `n`; `true`
for any other name. -/
def ASTNode.has_annotation_flag (n : ASTNode) (name : String) : Bool :=
  if name = "schema" then n.isset.schema_name
  else if name = "required" ∨ name = "optional" ∨ name = "repeated" then
    n.isset.repetition_type
  else if name = "length" then n.isset.type_length
  else if name = "scale" then n.isset.scale
  else if name = "precision" then n.isset.precision
  else if name = "decimal" then n.isset.decimal
  else if name = "date" then n.isset.date
  else if name = "timeMillis" then n.isset.time_millis
  else if name = "timeMicros" then n.isset.time_micros
  else if name = "timestampMillis" then n.isset.timestamp_millis
  else if name = "timestampMicros" then n.isset.timestamp_micros
  else if name = "bson" then n.isset.bson
  else if name = "json" then n.isset.json
  else if name = "interval" then n.isset.interval
  else if name = "fixed" then n.isset.fixed_len_byte_array
  else if name = "map" then n.isset.map
  else if name = "mapKeyValue" then n.isset.map_key_value
  else if name = "list" then n.isset.list
  else true

/-! ## Example inputs -/

/-- Example context: a generator whose heap holds one open node, the node of a
struct declaration `Person`. -/
def exampleContext : CapnpcParquet :=
  { heap := [((ASTNode.new .STRUCT "Person").setIsDecl).setCapnpType .STRUCT],
    document_ := none, currentParent_ := some 0 }

/-- Example schema of the struct that holds the example fields. -/
def exampleStruct : StructSchema :=
  .mk { id := 1, displayName := "person.capnp:Person", shortDisplayName := "Person" } [] [] []

/-- Example node: the field `age :UInt8` after the slot hook. -/
def exampleScalarNode : ASTNode := (ASTNode.new .FIELD "age").setCapnpType .UINT8

/-- Example node: the TYPE node of a `UInt8` type. -/
def exampleTypeNode : ASTNode := (ASTNode.new .TYPE "uint8").setCapnpType .UINT8

/-- Example node: a `Data` field with the decimal flag and precision 20. -/
def exampleDecimalNode : ASTNode :=
  (((ASTNode.new .FIELD "amount").setCapnpType .DATA).setPrecision 20).setIsDecimal

/-- Example node: a `Data` field with the interval flag. -/
def exampleIntervalNode : ASTNode :=
  ((ASTNode.new .FIELD "elapsed").setCapnpType .DATA).setIsInterval

/-- Example node: the node of a struct declaration. -/
def exampleStructNode : ASTNode := (ASTNode.new .STRUCT "Person").setCapnpType .STRUCT

/-- Example declaration: `struct Point { x @0 :Int32; y @1 :Int32; }`, declared
in the scope `scope`. -/
def examplePoint (scope : Nat) : Schema :=
  .STRUCT ⟨101, scope, "shape.capnp:Point", "Point"⟩ [] [] []
    [.SLOT { name := "x", ordinal := some 0 }
      { offset := 0, type := .INT32, defaultValue := .INT32 0 },
     .SLOT { name := "y", ordinal := some 1 }
      { offset := 1, type := .INT32, defaultValue := .INT32 0 }]

/-- Example declaration: `struct Shape $schema("shape") { origin @0 :Point; }`
with the nested declarations `nested` and the applied annotations `anns` on
the field `origin`. -/
def exampleShape (nested : List Schema) (anns : List AnnotationReader) : Schema :=
  .STRUCT ⟨102, 100, "shape.capnp:Shape", "Shape"⟩
    [{ id := 7, declName := "schema", declType := .TEXT, value := .TEXT "shape" }] nested []
    [.SLOT { name := "origin", ordinal := some 0, annotations := anns }
      { offset := 0, type := .STRUCT 101 "Point", defaultValue := .STRUCT [] }]

/-- Example file: `Point` and `Shape` both declared at file scope. -/
def exampleFlatFile : Schema :=
  .FILE { id := 100, displayName := "shape.capnp", shortDisplayName := "shape.capnp" } []
    [examplePoint 100, exampleShape [] []]

/-- Example file: `Point` declared inside `Shape`. -/
def exampleNestedFile : Schema :=
  .FILE { id := 100, displayName := "shape.capnp", shortDisplayName := "shape.capnp" } []
    [exampleShape [examplePoint 102] []]

/-- Example file: `Point` declared inside `Shape`, and the field `origin`
carries an applied annotation named `schema` with the value `"pt"`. -/
def exampleRenamedFile : Schema :=
  .FILE { id := 100, displayName := "shape.capnp", shortDisplayName := "shape.capnp" } []
    [exampleShape [examplePoint 102]
      [{ id := 7, declName := "schema", declType := .TEXT, value := .TEXT "pt" }]]

/-- Example file: `struct Palette { enum Color { red @0; } favorite @0 :Color; }`. -/
def examplePaletteFile : Schema :=
  .FILE { id := 200, displayName := "palette.capnp", shortDisplayName := "palette.capnp" } []
    [.STRUCT ⟨201, 200, "palette.capnp:Palette", "Palette"⟩ []
      [.ENUM ⟨202, 201, "palette.capnp:Palette.Color", "Color"⟩ [] []
        [{ name := "red", ordinal := 0 }]]
      []
      [.SLOT { name := "favorite", ordinal := some 0 }
        { offset := 0, type := .ENUM 202 "Color", defaultValue := .ENUM 0 (some "red") }]]

/-- Example request: the file of the example schemas. -/
def exampleRequest : RequestedFile := { id := 100, filename := "shape.capnp" }

/-- Example target node: the group made for the declaration `Point`. -/
def examplePointGroup : ParquetNode :=
  .group "point" .OPTIONAL
    [.primitive "x" .OPTIONAL .INT32 .INT_32 (-1) (-1) (-1),
     .primitive "y" .OPTIONAL .INT32 .INT_32 (-1) (-1) (-1)] .NONE

/-- Example node: the declaration `Shape` with its nested declaration `Point`
(node 1) and its field `origin` (node 2) as children, before its exit hook. -/
def exampleShapeDecl : ASTNode :=
  ((((ASTNode.new .STRUCT "Shape").setIsDecl).setCapnpType .STRUCT).push_back_child
    1).push_back_child 2

/-- Example node: the declaration `Point` after its exit hook. -/
def examplePointDecl : ASTNode :=
  (((((ASTNode.new .STRUCT "Point").setNodeId 101).setIsDecl).setCapnpType .STRUCT).setParent
    (some 0)).setNode (some examplePointGroup)

/-- Example node: the field `origin :Point` after its exit hook, with its TYPE
node (node 3) as child. -/
def exampleOriginField : ASTNode :=
  ((((ASTNode.new .FIELD "origin").setCapnpType .STRUCT).setParent (some 0)).push_back_child
    3).setNode (some (.group "origin" .OPTIONAL [.group "point" .OPTIONAL [] .NONE] .NONE))

/-- Example node: the TYPE node of the field `origin :Point` after its exit
hook. -/
def exampleOriginType : ASTNode :=
  (((((ASTNode.new .TYPE "struct").setTypeId 101).setTypeName "Point").setCapnpType
    .STRUCT).setParent (some 2)).setNode (some (.group "point" .OPTIONAL [] .NONE))

/-- Example heap: the declaration `Shape` before its exit hook. -/
def exampleShapeHeap : Heap :=
  [exampleShapeDecl, examplePointDecl, exampleOriginField, exampleOriginType]

/-- Example heap: the example heap of `Shape` after the exit hook of `Shape`
(the empty heap if the hook did not return). -/
def exampleShapeBuilt : Heap := (buildParquetNode exampleShapeHeap 0).getD []

/-- Example node: the declaration `Palette` with its nested declaration
`Color` (node 1) and its field `favorite` (node 2) as children, before its
exit hook. -/
def examplePaletteDecl : ASTNode :=
  ((((ASTNode.new .STRUCT "Palette").setIsDecl).setCapnpType .STRUCT).push_back_child
    1).push_back_child 2

/-- Example node: the enum declaration `Color` after its exit hook. -/
def exampleColorDecl : ASTNode :=
  (((((ASTNode.new .ENUM "Color").setNodeId 202).setIsDecl).setCapnpType .ENUM).setParent
    (some 0)).setNode (some (.primitive "color" .OPTIONAL .BYTE_ARRAY .ENUM (-1) (-1) (-1)))

/-- Example node: the field `favorite :Color` after its exit hook, with its
TYPE node (node 3) as child. -/
def exampleFavoriteField : ASTNode :=
  ((((ASTNode.new .FIELD "favorite").setCapnpType .ENUM).setParent (some 0)).push_back_child
    3).setNode (some (.primitive "favorite" .OPTIONAL .BYTE_ARRAY .ENUM (-1) (-1) (-1)))

/-- Example node: the TYPE node of the field `favorite :Color` after its exit
hook. -/
def exampleFavoriteType : ASTNode :=
  (((((ASTNode.new .TYPE "enum").setTypeId 202).setTypeName "Color").setCapnpType
    .ENUM).setParent (some 2)).setNode
    (some (.primitive "color" .OPTIONAL .BYTE_ARRAY .ENUM (-1) (-1) (-1)))

/-- Example heap: the declaration `Palette` before its exit hook. -/
def examplePaletteHeap : Heap :=
  [examplePaletteDecl, exampleColorDecl, exampleFavoriteField, exampleFavoriteType]

/-- Example node: a FILE node with the declarations `Point` (node 1) and
`Shape` (node 2) as children, before its exit hook. -/
def exampleFileNode : ASTNode :=
  ((ASTNode.new .FILE "shape.capnp").push_back_child 1).push_back_child 2

/-- Example heap: a FILE node and two declarations after their exit hooks;
the second one has a schema name. -/
def exampleFileHeap : Heap :=
  [exampleFileNode, examplePointDecl,
   (((((ASTNode.new .STRUCT "Shape").setIsDecl).setCapnpType .STRUCT).setParent
     (some 0)).setSchemaName "shape").setNode
     (some (.group "shape" .OPTIONAL [examplePointGroup] .NONE))]

/-- Example request: the file of the example schemas with two imports. -/
def exampleImportingRequest : RequestedFile :=
  ⟨100, "shape.capnp", [⟨300, "/capnp/c++.capnp"⟩, ⟨301, "parquet.capnp"⟩]⟩

/-- Example file without declarations. -/
def exampleEmptyFile : Schema := .FILE ⟨100, 0, "shape.capnp", "shape.capnp"⟩ [] []

/-- Example group field `address :group $schema("addr") { street @4 :Text; }`
of the struct `Person`, with the applied annotation on the group's schema. -/
def exampleAddress : Field :=
  .GROUP ⟨"address", none, []⟩
    (.mk ⟨111, 110, "shape.capnp:Person.address", "address"⟩
      [⟨7, "schema", .TEXT, .TEXT "addr", 90, "parquet.capnp:schema"⟩] []
      [.SLOT ⟨"street", some 4, []⟩ ⟨4, .TEXT, false, .TEXT ""⟩])

/-- Example struct `Person`: the union fields `email` and `phone`, the field
`age` with the explicit default 18 and the group field `address`. -/
def examplePerson : StructSchema :=
  .mk ⟨110, 100, "shape.capnp:Person", "Person"⟩ []
    [.SLOT ⟨"email", some 2, []⟩ ⟨2, .TEXT, false, .TEXT ""⟩,
     .SLOT ⟨"phone", some 3, []⟩ ⟨3, .TEXT, false, .TEXT ""⟩]
    [.SLOT ⟨"age", some 0, []⟩ ⟨0, .UINT8, true, .UINT8 18⟩, exampleAddress]

/-- Example file with a declaration of every category: the struct `Point`, the
enum `Color`, the constant `limit`, the annotation declaration `schema` and the
interface `Svc` with the method `ping`. -/
def exampleMixedFile : Schema :=
  .FILE ⟨100, 0, "shape.capnp", "shape.capnp"⟩ []
    [examplePoint 100,
     .ENUM ⟨120, 100, "shape.capnp:Color", "Color"⟩ [] [] [⟨"red", 0, []⟩, ⟨"green", 1, []⟩],
     .CONST ⟨121, 100, "shape.capnp:limit", "limit"⟩ [] [] .INT32 (.INT32 5),
     .ANNOTATION ⟨122, 100, "shape.capnp:schema", "schema"⟩ [] [] .TEXT
       ⟨true, false, false, false, false, true, false, false, false, false, false, false⟩,
     .INTERFACE ⟨123, 100, "shape.capnp:Svc", "Svc"⟩ [] []
       [⟨"ping", 0, [], .mk ⟨124, 123, "shape.capnp:Svc.ping$Params", "ping$Params"⟩ [] [] [],
         .mk ⟨125, 123, "shape.capnp:Svc.ping$Results", "ping$Results"⟩ [] [] [], []⟩]]

/-- Example file: `struct Node { value @0 :Int32; next @1 :Node; }`, a struct
with a field of its own type. -/
def exampleLinkedFile : Schema :=
  .FILE ⟨100, 0, "shape.capnp", "shape.capnp"⟩ []
    [.STRUCT ⟨130, 100, "shape.capnp:Node", "Node"⟩ [] [] []
      [.SLOT ⟨"value", some 0, []⟩ ⟨0, .INT32, false, .INT32 0⟩,
       .SLOT ⟨"next", some 1, []⟩ ⟨1, .STRUCT 130 "Node", false, .STRUCT []⟩]]

/-- Example file:
`struct Poly $schema("poly") { xs @0 :T $required; n @1 :Int32; }` for the type
`T` of the field `xs`. -/
def examplePolyFile (t : SchemaType) : Schema :=
  .FILE ⟨100, 0, "shape.capnp", "shape.capnp"⟩ []
    [.STRUCT ⟨140, 100, "shape.capnp:Poly", "Poly"⟩
      [⟨7, "schema", .TEXT, .TEXT "poly", 90, "parquet.capnp:schema"⟩] [] []
      [.SLOT ⟨"xs", some 0, [⟨8, "required", .VOID, .VOID, 90, "parquet.capnp:required"⟩]⟩
        ⟨0, t, false, .VOID⟩,
       .SLOT ⟨"n", some 1, []⟩ ⟨1, .INT32, false, .INT32 0⟩]]

/-- Example state of the builder: the node of a field `xs` is the root and is
open. -/
def exampleOpenField : CapnpcParquet := ⟨[ASTNode.new .FIELD "xs"], some 0, some 0⟩

/-- Example value of the type `List(Pair)` for a struct `Pair` with an `Int32`
field, a `Text` field and a `List(Int32)` field: two elements, the first with
the first and the third field present, the second with the second field. -/
def examplePairs : DynamicValue :=
  .LIST [.STRUCT [(.INT32, some (.INT 1)), (.TEXT, none), (.LIST .INT32, some (.LIST [.INT 2]))],
    .STRUCT [(.INT32, none), (.TEXT, some (.TEXT "a")), (.LIST .INT32, none)]]

/-- Example state of the builder right after the entry hook of the file: the
FILE node is the root and no node is open. -/
def exampleRootOnly : CapnpcParquet := ⟨[ASTNode.new .FILE "shape.capnp"], some 0, none⟩

/-- Example heap: three single nodes. -/
def exampleSingles : Heap :=
  [ASTNode.new .STRUCT "A", ASTNode.new .STRUCT "B", ASTNode.new .FIELD "c"]

/-- Example node: a field `count :UInt32` after the slot hook. -/
def exampleCountNode : ASTNode := (ASTNode.new .FIELD "count").setCapnpType .UINT32

/-- Example heap: an applied annotation node with three children: a VALUE node
of category Int32 holding 7, a VALUE node of category Int64 holding
4294967301 (that is `2 ^ 32 + 5`), both with a target node, and a TYPE node. -/
def exampleValueHeap : Heap :=
  [ { (ASTNode.new .ANNOTATION "length") with children_ := [1, 2, 3] },
    { (((ASTNode.new .VALUE "length").setValueI32 7).setCapnpType .INT32) with
        parent_ := some 0,
        node_ := some (.primitive "length" .OPTIONAL .INT32 .INT_32 (-1) (-1) (-1)) },
    { (((ASTNode.new .VALUE "length").setValueI64 4294967301).setCapnpType .INT64) with
        parent_ := some 0,
        node_ := some (.primitive "length" .OPTIONAL .INT64 .INT_64 (-1) (-1) (-1)) },
    { ((ASTNode.new .TYPE "int64").setCapnpType .INT64) with parent_ := some 0 } ]

/-- Example heap: the declaration `Shape` before its exit hook, as in the example
heap of `Shape`, but with the field `origin` marked as required: its own
repetition kind is REQUIRED, the one of the target node of `Point` is OPTIONAL. -/
def exampleRequiredHeap : Heap :=
  [exampleShapeDecl, examplePointDecl, exampleOriginField.setIsRequired, exampleOriginType]

/-- Example declaration: `struct Tag {}` nested in the struct `Person`. -/
def exampleTag : Schema :=
  .STRUCT ⟨152, 150, "shape.capnp:Person.Tag", "Tag"⟩ [] [] [] []

/-- Example declaration: `struct Person { address :group { street @0 :Text; } }`
with the nested declarations `nested`. The group has a schema node of its own,
which is not among the nested declarations of `Person`. -/
def exampleGroupStruct (nested : List Schema) : Schema :=
  .STRUCT ⟨150, 100, "shape.capnp:Person", "Person"⟩ [] nested []
    [.GROUP ⟨"address", none, []⟩
      (.mk ⟨151, 150, "shape.capnp:Person.address", "address"⟩ [] []
        [.SLOT ⟨"street", some 0, []⟩ ⟨0, .TEXT, false, .TEXT ""⟩])]

/-- Example file: the struct `Person` with a group field and the nested
declarations `nested`. -/
def exampleGroupFile (nested : List Schema) : Schema :=
  .FILE ⟨100, 0, "shape.capnp", "shape.capnp"⟩ [] [exampleGroupStruct nested]

/-- Example node: a field node with three children, at the indices 1, 2 and
4. -/
def exampleAmountField : ASTNode :=
  { (ASTNode.new .FIELD "amount") with children_ := [1, 2, 4] }

/-- Example heap: the example field `amount` and its three applied
annotations: `decimal`, `precision` with a VALUE child of category Int32
holding 20, and `remark`, which is not a recognized name. -/
def exampleAmountHeap : Heap :=
  [ exampleAmountField,
    (ASTNode.new .ANNOTATION "decimal").setParent (some 0),
    { ((ASTNode.new .ANNOTATION "precision").setParent (some 0)) with children_ := [3] },
    { (((ASTNode.new .VALUE "precision").setValueI32 20).setCapnpType .INT32) with
        parent_ := some 2,
        node_ := some (.primitive "precision" .OPTIONAL .INT32 .INT_32 (-1) (-1) (-1)) },
    (ASTNode.new .ANNOTATION "remark").setParent (some 0) ]

theorem ASTNode.setLogicalType_proj (n : ASTNode) (t : LogicalType) :
    (n.setLogicalType t).is_capnp_type = n.is_capnp_type ∧
    (n.setLogicalType t).capnp_type_ = n.capnp_type_ ∧
    (n.setLogicalType t).is_decimal = n.is_decimal ∧
    (n.setLogicalType t).is_date = n.is_date ∧
    (n.setLogicalType t).is_time_millis = n.is_time_millis ∧
    (n.setLogicalType t).is_time_micros = n.is_time_micros ∧
    (n.setLogicalType t).is_timestamp_millis = n.is_timestamp_millis ∧
    (n.setLogicalType t).is_timestamp_micros = n.is_timestamp_micros ∧
    (n.setLogicalType t).is_bson = n.is_bson ∧
    (n.setLogicalType t).is_json = n.is_json ∧
    (n.setLogicalType t).is_interval = n.is_interval ∧
    (n.setLogicalType t).is_fixed_len_byte_array = n.is_fixed_len_byte_array ∧
    (n.setLogicalType t).is_map = n.is_map ∧
    (n.setLogicalType t).is_map_key_value = n.is_map_key_value ∧
    (n.setLogicalType t).is_list = n.is_list ∧
    (n.setLogicalType t).precision_ = n.precision_ ∧
    (n.setLogicalType t).scale_ = n.scale_ ∧
    (n.setLogicalType t).logical_type_ = t ∧
    (n.setLogicalType t).physical_type_ = n.physical_type_ ∧
    (n.setLogicalType t).type_length_ = n.type_length_ ∧
    (n.setLogicalType t).parquet_node_type_ = n.parquet_node_type_ :=
  ⟨rfl, rfl, rfl, rfl, rfl, rfl, rfl, rfl, rfl, rfl, rfl, rfl, rfl, rfl, rfl, rfl, rfl, rfl, rfl, rfl, rfl⟩

theorem ASTNode.setPhysicalType_proj (n : ASTNode) (t : PhysicalType) :
    (n.setPhysicalType t).is_capnp_type = n.is_capnp_type ∧
    (n.setPhysicalType t).capnp_type_ = n.capnp_type_ ∧
    (n.setPhysicalType t).is_decimal = n.is_decimal ∧
    (n.setPhysicalType t).is_date = n.is_date ∧
    (n.setPhysicalType t).is_time_millis = n.is_time_millis ∧
    (n.setPhysicalType t).is_time_micros = n.is_time_micros ∧
    (n.setPhysicalType t).is_timestamp_millis = n.is_timestamp_millis ∧
    (n.setPhysicalType t).is_timestamp_micros = n.is_timestamp_micros ∧
    (n.setPhysicalType t).is_bson = n.is_bson ∧
    (n.setPhysicalType t).is_json = n.is_json ∧
    (n.setPhysicalType t).is_interval = n.is_interval ∧
    (n.setPhysicalType t).is_fixed_len_byte_array = n.is_fixed_len_byte_array ∧
    (n.setPhysicalType t).is_map = n.is_map ∧
    (n.setPhysicalType t).is_map_key_value = n.is_map_key_value ∧
    (n.setPhysicalType t).is_list = n.is_list ∧
    (n.setPhysicalType t).precision_ = n.precision_ ∧
    (n.setPhysicalType t).scale_ = n.scale_ ∧
    (n.setPhysicalType t).logical_type_ = n.logical_type_ ∧
    (n.setPhysicalType t).physical_type_ = t ∧
    (n.setPhysicalType t).type_length_ = n.type_length_ ∧
    (n.setPhysicalType t).parquet_node_type_ = n.parquet_node_type_ :=
  ⟨rfl, rfl, rfl, rfl, rfl, rfl, rfl, rfl, rfl, rfl, rfl, rfl, rfl, rfl, rfl, rfl, rfl, rfl, rfl, rfl, rfl⟩

theorem ASTNode.setTypeLength_proj (n : ASTNode) (t : Int) :
    (n.setTypeLength t).is_capnp_type = n.is_capnp_type ∧
    (n.setTypeLength t).capnp_type_ = n.capnp_type_ ∧
    (n.setTypeLength t).is_decimal = n.is_decimal ∧
    (n.setTypeLength t).is_date = n.is_date ∧
    (n.setTypeLength t).is_time_millis = n.is_time_millis ∧
    (n.setTypeLength t).is_time_micros = n.is_time_micros ∧
    (n.setTypeLength t).is_timestamp_millis = n.is_timestamp_millis ∧
    (n.setTypeLength t).is_timestamp_micros = n.is_timestamp_micros ∧
    (n.setTypeLength t).is_bson = n.is_bson ∧
    (n.setTypeLength t).is_json = n.is_json ∧
    (n.setTypeLength t).is_interval = n.is_interval ∧
    (n.setTypeLength t).is_fixed_len_byte_array = n.is_fixed_len_byte_array ∧
    (n.setTypeLength t).is_map = n.is_map ∧
    (n.setTypeLength t).is_map_key_value = n.is_map_key_value ∧
    (n.setTypeLength t).is_list = n.is_list ∧
    (n.setTypeLength t).precision_ = n.precision_ ∧
    (n.setTypeLength t).scale_ = n.scale_ ∧
    (n.setTypeLength t).logical_type_ = n.logical_type_ ∧
    (n.setTypeLength t).physical_type_ = n.physical_type_ ∧
    (n.setTypeLength t).type_length_ = t ∧
    (n.setTypeLength t).parquet_node_type_ = n.parquet_node_type_ :=
  ⟨rfl, rfl, rfl, rfl, rfl, rfl, rfl, rfl, rfl, rfl, rfl, rfl, rfl, rfl, rfl, rfl, rfl, rfl, rfl, rfl, rfl⟩

theorem ASTNode.setIsParquetPRIMITIVE_proj (n : ASTNode)  :
    n.setIsParquetPRIMITIVE.is_capnp_type = n.is_capnp_type ∧
    n.setIsParquetPRIMITIVE.capnp_type_ = n.capnp_type_ ∧
    n.setIsParquetPRIMITIVE.is_decimal = n.is_decimal ∧
    n.setIsParquetPRIMITIVE.is_date = n.is_date ∧
    n.setIsParquetPRIMITIVE.is_time_millis = n.is_time_millis ∧
    n.setIsParquetPRIMITIVE.is_time_micros = n.is_time_micros ∧
    n.setIsParquetPRIMITIVE.is_timestamp_millis = n.is_timestamp_millis ∧
    n.setIsParquetPRIMITIVE.is_timestamp_micros = n.is_timestamp_micros ∧
    n.setIsParquetPRIMITIVE.is_bson = n.is_bson ∧
    n.setIsParquetPRIMITIVE.is_json = n.is_json ∧
    n.setIsParquetPRIMITIVE.is_interval = n.is_interval ∧
    n.setIsParquetPRIMITIVE.is_fixed_len_byte_array = n.is_fixed_len_byte_array ∧
    n.setIsParquetPRIMITIVE.is_map = n.is_map ∧
    n.setIsParquetPRIMITIVE.is_map_key_value = n.is_map_key_value ∧
    n.setIsParquetPRIMITIVE.is_list = n.is_list ∧
    n.setIsParquetPRIMITIVE.precision_ = n.precision_ ∧
    n.setIsParquetPRIMITIVE.scale_ = n.scale_ ∧
    n.setIsParquetPRIMITIVE.logical_type_ = n.logical_type_ ∧
    n.setIsParquetPRIMITIVE.physical_type_ = n.physical_type_ ∧
    n.setIsParquetPRIMITIVE.type_length_ = n.type_length_ ∧
    n.setIsParquetPRIMITIVE.parquet_node_type_ = .PRIMITIVE :=
  ⟨rfl, rfl, rfl, rfl, rfl, rfl, rfl, rfl, rfl, rfl, rfl, rfl, rfl, rfl, rfl, rfl, rfl, rfl, rfl, rfl, rfl⟩

theorem ASTNode.setIsParquetGROUP_proj (n : ASTNode)  :
    n.setIsParquetGROUP.is_capnp_type = n.is_capnp_type ∧
    n.setIsParquetGROUP.capnp_type_ = n.capnp_type_ ∧
    n.setIsParquetGROUP.is_decimal = n.is_decimal ∧
    n.setIsParquetGROUP.is_date = n.is_date ∧
    n.setIsParquetGROUP.is_time_millis = n.is_time_millis ∧
    n.setIsParquetGROUP.is_time_micros = n.is_time_micros ∧
    n.setIsParquetGROUP.is_timestamp_millis = n.is_timestamp_millis ∧
    n.setIsParquetGROUP.is_timestamp_micros = n.is_timestamp_micros ∧
    n.setIsParquetGROUP.is_bson = n.is_bson ∧
    n.setIsParquetGROUP.is_json = n.is_json ∧
    n.setIsParquetGROUP.is_interval = n.is_interval ∧
    n.setIsParquetGROUP.is_fixed_len_byte_array = n.is_fixed_len_byte_array ∧
    n.setIsParquetGROUP.is_map = n.is_map ∧
    n.setIsParquetGROUP.is_map_key_value = n.is_map_key_value ∧
    n.setIsParquetGROUP.is_list = n.is_list ∧
    n.setIsParquetGROUP.precision_ = n.precision_ ∧
    n.setIsParquetGROUP.scale_ = n.scale_ ∧
    n.setIsParquetGROUP.logical_type_ = n.logical_type_ ∧
    n.setIsParquetGROUP.physical_type_ = n.physical_type_ ∧
    n.setIsParquetGROUP.type_length_ = n.type_length_ ∧
    n.setIsParquetGROUP.parquet_node_type_ = .GROUP :=
  ⟨rfl, rfl, rfl, rfl, rfl, rfl, rfl, rfl, rfl, rfl, rfl, rfl, rfl, rfl, rfl, rfl, rfl, rfl, rfl, rfl, rfl⟩



theorem ASTNode.setLogicalType_twice (n : ASTNode) (a b : LogicalType) :
    (n.setLogicalType a).setLogicalType b = n.setLogicalType b := rfl

theorem ASTNode.setPhysicalType_twice (n : ASTNode) (a b : PhysicalType) :
    (n.setPhysicalType a).setPhysicalType b = n.setPhysicalType b := rfl

theorem ASTNode.setIsParquet_twice (n : ASTNode) :
    n.setIsParquetPRIMITIVE.setIsParquetPRIMITIVE = n.setIsParquetPRIMITIVE ∧
    n.setIsParquetGROUP.setIsParquetPRIMITIVE = n.setIsParquetPRIMITIVE := ⟨rfl, rfl⟩

theorem ite_induction {α : Type} {P : α → Prop} {c : Prop} [Decidable c] {a b : α}
    (ha : P a) (hb : P b) : P (if c then a else b) := by
  split <;> assumption

theorem applyLogicalType_ind (n : ASTNode) (P : ASTNode → Prop) (h0 : P n)
    (h1 : ∀ t, P (n.setLogicalType t)) : P (applyLogicalType n) := by
  unfold applyLogicalType
  lift_lets
  intro node
  have hP : P node ∧ ∀ t, P (node.setLogicalType t) := by
    cases hi : n.is_capnp_type <;> cases hc : n.capnp_type_ <;>
      simp only [node, hi, hc, if_true, if_false, Bool.false_eq_true,
        ASTNode.setLogicalType_twice] <;>
      first
        | exact ⟨h0, h1⟩
        | exact ⟨h1 _, h1⟩
        | (cases n.is_map <;> cases n.is_map_key_value <;> cases n.is_list <;>
            simp only [if_true, if_false, Bool.false_eq_true, ASTNode.setLogicalType_twice] <;>
            exact ⟨h1 _, h1⟩)
  clear_value node
  repeat' apply ite_induction
  all_goals first | exact hP.2 _ | exact hP.1

theorem applyPhysicalType_ind (n : ASTNode) (P : ASTNode → Prop) (h0 : P n)
    (h1 : ∀ t, P (n.setPhysicalType t))
    (h2 : ∀ t l, P ((n.setPhysicalType t).setTypeLength l)) : P (applyPhysicalType n) := by
  unfold applyPhysicalType
  lift_lets
  intro node precision node2 numBytes
  have hP : P node ∧ (∀ t, P (node.setPhysicalType t)) ∧
      ∀ t l, P ((node.setPhysicalType t).setTypeLength l) := by
    cases hi : n.is_capnp_type <;> cases hc : n.capnp_type_ <;>
      simp only [node, hi, hc, if_true, if_false, Bool.false_eq_true,
        ASTNode.setPhysicalType_twice] <;>
      first
        | exact ⟨h0, h1, h2⟩
        | exact ⟨h1 _, h1, h2⟩
  clear_value node
  repeat' apply ite_induction
  all_goals first | exact hP.2.1 _ | exact hP.2.2 _ _ | exact hP.1

theorem applyParquetNodeType_ind (n : ASTNode) (P : ASTNode → Prop) (h0 : P n)
    (h1 : P n.setIsParquetPRIMITIVE) (h2 : P n.setIsParquetGROUP) :
    P (applyParquetNodeType n) := by
  unfold applyParquetNodeType
  lift_lets
  intro node
  have hP : P node ∧ P node.setIsParquetPRIMITIVE := by
    cases hi : n.is_capnp_type <;> cases hc : n.capnp_type_ <;>
      simp only [node, hi, hc, if_true, if_false, Bool.false_eq_true,
        ASTNode.setIsParquet_twice] <;>
      first
        | exact ⟨h0, h1⟩
        | exact ⟨h1, h1⟩
        | exact ⟨h2, h1⟩
  clear_value node
  repeat' apply ite_induction
  all_goals first | exact hP.2 | exact hP.1


theorem applyLogicalType_logical_type (n : ASTNode) :
    (applyLogicalType n).logical_type_ =
      if n.is_decimal = true then .DECIMAL
      else if n.is_date = true then .DATE
      else if n.is_time_millis = true then .TIME_MILLIS
      else if n.is_time_micros = true then .TIME_MICROS
      else if n.is_timestamp_millis = true then .TIMESTAMP_MILLIS
      else if n.is_timestamp_micros = true then .TIMESTAMP_MICROS
      else if n.is_bson = true then .BSON
      else if n.is_json = true then .JSON
      else if n.is_interval = true then .INTERVAL
      else if n.is_capnp_type = true then
        match n.capnp_type_ with
        | .INT8 => .INT_8 | .INT16 => .INT_16 | .INT32 => .INT_32 | .INT64 => .INT_64
        | .UINT8 => .UINT_8 | .UINT16 => .UINT_16 | .UINT32 => .UINT_32 | .UINT64 => .UINT_64
        | .TEXT => .UTF8 | .LIST => .LIST | .ENUM => .ENUM
        | .STRUCT =>
          if n.is_map = true then .MAP
          else if n.is_map_key_value = true then .MAP_KEY_VALUE
          else if n.is_list = true then .LIST
          else .NONE
        | _ => .NONE
      else n.logical_type_ := by
  unfold applyLogicalType
  lift_lets
  intro node
  have hf : node.is_decimal = n.is_decimal ∧ node.is_date = n.is_date ∧
      node.is_time_millis = n.is_time_millis ∧ node.is_time_micros = n.is_time_micros ∧
      node.is_timestamp_millis = n.is_timestamp_millis ∧
      node.is_timestamp_micros = n.is_timestamp_micros ∧ node.is_bson = n.is_bson ∧
      node.is_json = n.is_json ∧ node.is_interval = n.is_interval ∧
      node.logical_type_ =
        if n.is_capnp_type = true then
          match n.capnp_type_ with
          | .INT8 => .INT_8 | .INT16 => .INT_16 | .INT32 => .INT_32 | .INT64 => .INT_64
          | .UINT8 => .UINT_8 | .UINT16 => .UINT_16 | .UINT32 => .UINT_32 | .UINT64 => .UINT_64
          | .TEXT => .UTF8 | .LIST => .LIST | .ENUM => .ENUM
          | .STRUCT =>
            if n.is_map = true then .MAP
            else if n.is_map_key_value = true then .MAP_KEY_VALUE
            else if n.is_list = true then .LIST
            else .NONE
          | _ => .NONE
        else n.logical_type_ := by
    cases hi : n.is_capnp_type <;> cases hc : n.capnp_type_ <;>
      simp only [node, hi, hc, if_true, if_false, Bool.false_eq_true,
        apply_ite ASTNode.is_decimal, apply_ite ASTNode.is_date,
        apply_ite ASTNode.is_time_millis, apply_ite ASTNode.is_time_micros,
        apply_ite ASTNode.is_timestamp_millis, apply_ite ASTNode.is_timestamp_micros,
        apply_ite ASTNode.is_bson, apply_ite ASTNode.is_json, apply_ite ASTNode.is_interval,
        apply_ite ASTNode.logical_type_, ASTNode.setLogicalType_proj, ite_self, and_self]
  clear_value node
  simp only [apply_ite ASTNode.logical_type_, ASTNode.setLogicalType_proj, hf]


theorem applyPhysicalType_physical_type (n : ASTNode) :
    (applyPhysicalType n).physical_type_ =
      if n.is_decimal = true then
        (if n.precision_ ≤ 9 then .INT32
         else if n.precision_ ≤ 18 then .INT64
         else .FIXED_LEN_BYTE_ARRAY)
      else if n.is_date = true then .INT32
      else if n.is_time_millis = true then .INT32
      else if n.is_time_micros = true then .INT32
      else if n.is_timestamp_millis = true then .INT64
      else if n.is_timestamp_micros = true then .INT64
      else if n.is_bson = true then .BYTE_ARRAY
      else if n.is_json = true then .BYTE_ARRAY
      else if n.is_interval = true then .FIXED_LEN_BYTE_ARRAY
      else if n.is_fixed_len_byte_array = true then .FIXED_LEN_BYTE_ARRAY
      else if n.is_capnp_type = true then
          match n.capnp_type_ with
          | .VOID => .BYTE_ARRAY | .BOOL => .BOOLEAN
          | .INT8 => .INT32 | .INT16 => .INT32 | .INT32 => .INT32 | .INT64 => .INT64
          | .UINT8 => .INT32 | .UINT16 => .INT32 | .UINT32 => .INT32 | .UINT64 => .INT64
          | .FLOAT32 => .FLOAT | .FLOAT64 => .DOUBLE
          | .TEXT => .BYTE_ARRAY | .DATA => .BYTE_ARRAY | .ENUM => .BYTE_ARRAY
          | _ => n.physical_type_
        else n.physical_type_ := by
  unfold applyPhysicalType
  lift_lets
  intro node precision node2 numBytes
  have hf : node.is_decimal = n.is_decimal ∧
      node.is_date = n.is_date ∧
      node.is_time_millis = n.is_time_millis ∧
      node.is_time_micros = n.is_time_micros ∧
      node.is_timestamp_millis = n.is_timestamp_millis ∧
      node.is_timestamp_micros = n.is_timestamp_micros ∧
      node.is_bson = n.is_bson ∧
      node.is_json = n.is_json ∧
      node.is_interval = n.is_interval ∧
      node.is_fixed_len_byte_array = n.is_fixed_len_byte_array ∧
      node.precision_ = n.precision_ ∧
      node.physical_type_ =
        if n.is_capnp_type = true then
          match n.capnp_type_ with
          | .VOID => .BYTE_ARRAY | .BOOL => .BOOLEAN
          | .INT8 => .INT32 | .INT16 => .INT32 | .INT32 => .INT32 | .INT64 => .INT64
          | .UINT8 => .INT32 | .UINT16 => .INT32 | .UINT32 => .INT32 | .UINT64 => .INT64
          | .FLOAT32 => .FLOAT | .FLOAT64 => .DOUBLE
          | .TEXT => .BYTE_ARRAY | .DATA => .BYTE_ARRAY | .ENUM => .BYTE_ARRAY
          | _ => n.physical_type_
        else n.physical_type_ := by
    cases hi : n.is_capnp_type <;> cases hc : n.capnp_type_ <;>
      simp only [node, hi, hc, if_true, if_false, Bool.false_eq_true,
        ASTNode.setPhysicalType_proj, and_self]
  simp only [precision, node2, numBytes]
  clear_value node
  simp only [apply_ite ASTNode.physical_type_, ASTNode.setPhysicalType_proj,
    ASTNode.setTypeLength_proj, hf]

theorem applyPhysicalType_type_length (n : ASTNode) :
    (applyPhysicalType n).type_length_ =
      if n.is_decimal = true then
        (if n.precision_ ≤ 9 then n.type_length_
         else if n.precision_ ≤ 18 then n.type_length_
         else (minBytesForPrecision n.precision_.toNat : Int))
      else if n.is_date = true then n.type_length_
      else if n.is_time_millis = true then n.type_length_
      else if n.is_time_micros = true then n.type_length_
      else if n.is_timestamp_millis = true then n.type_length_
      else if n.is_timestamp_micros = true then n.type_length_
      else if n.is_bson = true then n.type_length_
      else if n.is_json = true then n.type_length_
      else if n.is_interval = true then 12
      else n.type_length_ := by
  unfold applyPhysicalType
  lift_lets
  intro node precision node2 numBytes
  have hf : node.is_decimal = n.is_decimal ∧
      node.is_date = n.is_date ∧
      node.is_time_millis = n.is_time_millis ∧
      node.is_time_micros = n.is_time_micros ∧
      node.is_timestamp_millis = n.is_timestamp_millis ∧
      node.is_timestamp_micros = n.is_timestamp_micros ∧
      node.is_bson = n.is_bson ∧
      node.is_json = n.is_json ∧
      node.is_interval = n.is_interval ∧
      node.is_fixed_len_byte_array = n.is_fixed_len_byte_array ∧
      node.precision_ = n.precision_ ∧ node.type_length_ = n.type_length_ := by
    cases hi : n.is_capnp_type <;> cases hc : n.capnp_type_ <;>
      simp only [node, hi, hc, if_true, if_false, Bool.false_eq_true,
        ASTNode.setPhysicalType_proj, and_self]
  simp only [precision, node2, numBytes]
  clear_value node
  simp only [apply_ite ASTNode.type_length_, ASTNode.setPhysicalType_proj,
    ASTNode.setTypeLength_proj, hf, ite_self]

theorem applyParquetNodeType_node_type (n : ASTNode) :
    (applyParquetNodeType n).parquet_node_type_ =
      if n.is_decimal = true then .PRIMITIVE
      else if n.is_date = true then .PRIMITIVE
      else if n.is_time_millis = true then .PRIMITIVE
      else if n.is_time_micros = true then .PRIMITIVE
      else if n.is_timestamp_millis = true then .PRIMITIVE
      else if n.is_timestamp_micros = true then .PRIMITIVE
      else if n.is_bson = true then .PRIMITIVE
      else if n.is_json = true then .PRIMITIVE
      else if n.is_interval = true then .PRIMITIVE
      else if n.is_fixed_len_byte_array = true then .PRIMITIVE
      else if n.is_capnp_type = true then
          match n.capnp_type_ with
          | .LIST => .GROUP | .STRUCT => .GROUP
          | _ => .PRIMITIVE
        else n.parquet_node_type_ := by
  unfold applyParquetNodeType
  lift_lets
  intro node
  have hf : node.is_decimal = n.is_decimal ∧
      node.is_date = n.is_date ∧
      node.is_time_millis = n.is_time_millis ∧
      node.is_time_micros = n.is_time_micros ∧
      node.is_timestamp_millis = n.is_timestamp_millis ∧
      node.is_timestamp_micros = n.is_timestamp_micros ∧
      node.is_bson = n.is_bson ∧
      node.is_json = n.is_json ∧
      node.is_interval = n.is_interval ∧
      node.is_fixed_len_byte_array = n.is_fixed_len_byte_array ∧
      node.parquet_node_type_ =
        if n.is_capnp_type = true then
          match n.capnp_type_ with
          | .LIST => .GROUP | .STRUCT => .GROUP
          | _ => .PRIMITIVE
        else n.parquet_node_type_ := by
    cases hi : n.is_capnp_type <;> cases hc : n.capnp_type_ <;>
      simp only [node, hi, hc, if_true, if_false, Bool.false_eq_true,
        ASTNode.setIsParquetPRIMITIVE_proj, ASTNode.setIsParquetGROUP_proj, and_self]
  clear_value node
  simp only [apply_ite ASTNode.parquet_node_type_, ASTNode.setIsParquetPRIMITIVE_proj, hf]


theorem applyLogicalType_frame (n : ASTNode) :
    (applyLogicalType n).same_inputs n ∧
    (applyLogicalType n).physical_type_ = n.physical_type_ ∧
    (applyLogicalType n).type_length_ = n.type_length_ ∧
    (applyLogicalType n).parquet_node_type_ = n.parquet_node_type_ :=
  applyLogicalType_ind n
    (fun x => x.same_inputs n ∧ x.physical_type_ = n.physical_type_ ∧
      x.type_length_ = n.type_length_ ∧ x.parquet_node_type_ = n.parquet_node_type_)
    ⟨⟨rfl, rfl, rfl, rfl, rfl, rfl, rfl, rfl, rfl, rfl, rfl, rfl, rfl, rfl, rfl, rfl⟩, rfl, rfl, rfl⟩ (fun _ => ⟨⟨rfl, rfl, rfl, rfl, rfl, rfl, rfl, rfl, rfl, rfl, rfl, rfl, rfl, rfl, rfl, rfl⟩, rfl, rfl, rfl⟩)

theorem applyPhysicalType_frame (n : ASTNode) :
    (applyPhysicalType n).same_inputs n ∧
    (applyPhysicalType n).logical_type_ = n.logical_type_ ∧
    (applyPhysicalType n).parquet_node_type_ = n.parquet_node_type_ :=
  applyPhysicalType_ind n
    (fun x => x.same_inputs n ∧ x.logical_type_ = n.logical_type_ ∧
      x.parquet_node_type_ = n.parquet_node_type_)
    ⟨⟨rfl, rfl, rfl, rfl, rfl, rfl, rfl, rfl, rfl, rfl, rfl, rfl, rfl, rfl, rfl, rfl⟩, rfl, rfl⟩ (fun _ => ⟨⟨rfl, rfl, rfl, rfl, rfl, rfl, rfl, rfl, rfl, rfl, rfl, rfl, rfl, rfl, rfl, rfl⟩, rfl, rfl⟩) (fun _ _ => ⟨⟨rfl, rfl, rfl, rfl, rfl, rfl, rfl, rfl, rfl, rfl, rfl, rfl, rfl, rfl, rfl, rfl⟩, rfl, rfl⟩)

theorem applyParquetNodeType_frame (n : ASTNode) :
    (applyParquetNodeType n).same_inputs n ∧
    (applyParquetNodeType n).logical_type_ = n.logical_type_ ∧
    (applyParquetNodeType n).physical_type_ = n.physical_type_ ∧
    (applyParquetNodeType n).type_length_ = n.type_length_ :=
  applyParquetNodeType_ind n
    (fun x => x.same_inputs n ∧ x.logical_type_ = n.logical_type_ ∧
      x.physical_type_ = n.physical_type_ ∧ x.type_length_ = n.type_length_)
    ⟨⟨rfl, rfl, rfl, rfl, rfl, rfl, rfl, rfl, rfl, rfl, rfl, rfl, rfl, rfl, rfl, rfl⟩, rfl, rfl, rfl⟩ ⟨⟨rfl, rfl, rfl, rfl, rfl, rfl, rfl, rfl, rfl, rfl, rfl, rfl, rfl, rfl, rfl, rfl⟩, rfl, rfl, rfl⟩ ⟨⟨rfl, rfl, rfl, rfl, rfl, rfl, rfl, rfl, rfl, rfl, rfl, rfl, rfl, rfl, rfl, rfl⟩, rfl, rfl, rfl⟩

theorem ASTNode.same_inputs_trans {a b c : ASTNode} (h1 : a.same_inputs b)
    (h2 : b.same_inputs c) : a.same_inputs c := by
  unfold ASTNode.same_inputs at *
  simp only [h1, h2, and_self]

theorem classify_frame (n : ASTNode) :
    (classify n).same_inputs n ∧
    (classify n).logical_type_ = (applyLogicalType n).logical_type_ ∧
    (classify n).physical_type_ = (applyPhysicalType (applyLogicalType n)).physical_type_ ∧
    (classify n).type_length_ = (applyPhysicalType (applyLogicalType n)).type_length_ := by
  unfold classify
  have h1 := applyLogicalType_frame n
  have h2 := applyPhysicalType_frame (applyLogicalType n)
  have h3 := applyParquetNodeType_frame (applyPhysicalType (applyLogicalType n))
  exact ⟨ASTNode.same_inputs_trans h3.1 (ASTNode.same_inputs_trans h2.1 h1.1),
    h3.2.1.trans h2.2.1, h3.2.2.1, h3.2.2.2⟩


theorem has_override_flag_false {n : ASTNode} (h : n.has_override_flag = false) :
    n.is_decimal = false ∧ n.is_date = false ∧ n.is_time_millis = false ∧
    n.is_time_micros = false ∧ n.is_timestamp_millis = false ∧
    n.is_timestamp_micros = false ∧ n.is_bson = false ∧ n.is_json = false ∧
    n.is_interval = false ∧ n.is_fixed_len_byte_array = false := by
  simp only [ASTNode.has_override_flag, Bool.or_eq_false_iff] at h
  obtain ⟨⟨⟨⟨⟨⟨⟨⟨⟨h1, h2⟩, h3⟩, h4⟩, h5⟩, h6⟩, h7⟩, h8⟩, h9⟩, h10⟩ := h
  exact ⟨h1, h2, h3, h4, h5, h6, h7, h8, h9, h10⟩

theorem classifiedPair_of_category (n : ASTNode) (hn : n.is_capnp_type = true)
    (hnf : n.has_override_flag = false) :
    classifiedPair n =
      ((match n.capnp_type_ with
        | .INT8 => .INT_8 | .INT16 => .INT_16 | .INT32 => .INT_32 | .INT64 => .INT_64
        | .UINT8 => .UINT_8 | .UINT16 => .UINT_16 | .UINT32 => .UINT_32 | .UINT64 => .UINT_64
        | .TEXT => .UTF8 | .LIST => .LIST | .ENUM => .ENUM
        | .STRUCT =>
          if n.is_map = true then .MAP
          else if n.is_map_key_value = true then .MAP_KEY_VALUE
          else if n.is_list = true then .LIST
          else .NONE
        | _ => .NONE),
       (match n.capnp_type_ with
        | .VOID => .BYTE_ARRAY | .BOOL => .BOOLEAN
        | .INT8 => .INT32 | .INT16 => .INT32 | .INT32 => .INT32 | .INT64 => .INT64
        | .UINT8 => .INT32 | .UINT16 => .INT32 | .UINT32 => .INT32 | .UINT64 => .INT64
        | .FLOAT32 => .FLOAT | .FLOAT64 => .DOUBLE
        | .TEXT => .BYTE_ARRAY | .DATA => .BYTE_ARRAY | .ENUM => .BYTE_ARRAY
        | _ => n.physical_type_)) := by
  obtain ⟨h1, h2, h3, h4, h5, h6, h7, h8, h9, h10⟩ := has_override_flag_false hnf
  have hL := applyLogicalType_frame n
  unfold ASTNode.same_inputs at hL
  unfold classifiedPair
  rw [(applyPhysicalType_frame _).2.1, applyLogicalType_logical_type,
    applyPhysicalType_physical_type]
  simp only [hL, hn, h1, h2, h3, h4, h5, h6, h7, h8, h9, h10, if_true, if_false,
    Bool.false_eq_true]

/-- C1. Without override flags, the (logical tag, physical slot) pair of a node
with a scalar source category is the one of the table, and two such nodes of the
same category get the same pair whatever their other attributes are. -/
theorem C1_scalar_table (n m : ASTNode)
    (hn : n.is_capnp_type = true) (hnf : n.has_override_flag = false) :
    (n.capnp_type_ = .BOOL → classifiedPair n = (.NONE, .BOOLEAN)) ∧
    (n.capnp_type_ = .INT8 → classifiedPair n = (.INT_8, .INT32)) ∧
    (n.capnp_type_ = .INT16 → classifiedPair n = (.INT_16, .INT32)) ∧
    (n.capnp_type_ = .INT32 → classifiedPair n = (.INT_32, .INT32)) ∧
    (n.capnp_type_ = .INT64 → classifiedPair n = (.INT_64, .INT64)) ∧
    (n.capnp_type_ = .UINT8 → classifiedPair n = (.UINT_8, .INT32)) ∧
    (n.capnp_type_ = .UINT16 → classifiedPair n = (.UINT_16, .INT32)) ∧
    (n.capnp_type_ = .UINT64 → classifiedPair n = (.UINT_64, .INT64)) ∧
    (n.capnp_type_ = .FLOAT32 → classifiedPair n = (.NONE, .FLOAT)) ∧
    (n.capnp_type_ = .FLOAT64 → classifiedPair n = (.NONE, .DOUBLE)) ∧
    (n.capnp_type_ = .TEXT → classifiedPair n = (.UTF8, .BYTE_ARRAY)) ∧
    (n.capnp_type_ = .DATA → classifiedPair n = (.NONE, .BYTE_ARRAY)) ∧
    (n.capnp_type_ = .ENUM → classifiedPair n = (.ENUM, .BYTE_ARRAY)) ∧
    (m.is_capnp_type = true → m.has_override_flag = false →
      m.capnp_type_ = n.capnp_type_ →
      n.capnp_type_ ≠ .LIST → n.capnp_type_ ≠ .STRUCT →
      n.capnp_type_ ≠ .INTERFACE → n.capnp_type_ ≠ .ANY_POINTER →
      classifiedPair m = classifiedPair n) := by
  have hN := classifiedPair_of_category n hn hnf
  refine ⟨?_, ?_, ?_, ?_, ?_, ?_, ?_, ?_, ?_, ?_, ?_, ?_, ?_, ?_⟩
  all_goals first
    | (intro hc; rw [hN, hc])
    | skip
  intro hm hmf hmc hL hS hI hA
  rw [hN, classifiedPair_of_category m hm hmf, hmc]
  cases hc : n.capnp_type_ <;> first | rfl | exact absurd hc ‹_›

/-- C2. With the decimal flag set, the physical slot depends on the precision
alone: INT32 up to 9, INT64 from 10 to 18, and above 18 a fixed-length byte
array whose recorded length is `minBytesForPrecision`. -/
theorem C2_decimal_physical (n : ASTNode) (hd : n.is_decimal = true) :
    (n.precision_ ≤ 9 → (applyPhysicalType n).physical_type_ = .INT32) ∧
    (10 ≤ n.precision_ → n.precision_ ≤ 18 →
      (applyPhysicalType n).physical_type_ = .INT64) ∧
    (18 < n.precision_ →
      (applyPhysicalType n).physical_type_ = .FIXED_LEN_BYTE_ARRAY ∧
      (applyPhysicalType n).type_length_ = minBytesForPrecision n.precision_.toNat) := by
  rw [applyPhysicalType_physical_type, applyPhysicalType_type_length]
  simp only [hd, if_true]
  refine ⟨fun h => ?_, fun h1 h2 => ?_, fun h => ?_⟩
  · rw [if_pos h]
  · rw [if_neg (by omega), if_pos h2]
  · rw [if_neg (by omega), if_neg (by omega), if_neg (by omega), if_neg (by omega)]
    exact ⟨rfl, rfl⟩


/-- C5. Without the decimal flag, the first set flag in the order date,
time-millis, time-micros, timestamp-millis, timestamp-micros, bson, json,
interval, fixed decides the physical slot; interval forces length 12 and fixed
leaves the recorded length unchanged. -/
theorem C5_flag_physical (n : ASTNode) (hd : n.is_decimal = false) :
    (n.is_date = true → (applyPhysicalType n).physical_type_ = .INT32) ∧
    (n.is_date = false → n.is_time_millis = true →
      (applyPhysicalType n).physical_type_ = .INT32) ∧
    (n.is_date = false → n.is_time_millis = false → n.is_time_micros = true →
      (applyPhysicalType n).physical_type_ = .INT32) ∧
    (n.is_date = false → n.is_time_millis = false → n.is_time_micros = false →
      n.is_timestamp_millis = true →
      (applyPhysicalType n).physical_type_ = .INT64) ∧
    (n.is_date = false → n.is_time_millis = false → n.is_time_micros = false →
      n.is_timestamp_millis = false → n.is_timestamp_micros = true →
      (applyPhysicalType n).physical_type_ = .INT64) ∧
    (n.is_date = false → n.is_time_millis = false → n.is_time_micros = false →
      n.is_timestamp_millis = false → n.is_timestamp_micros = false → n.is_bson = true →
      (applyPhysicalType n).physical_type_ = .BYTE_ARRAY) ∧
    (n.is_date = false → n.is_time_millis = false → n.is_time_micros = false →
      n.is_timestamp_millis = false → n.is_timestamp_micros = false → n.is_bson = false →
      n.is_json = true →
      (applyPhysicalType n).physical_type_ = .BYTE_ARRAY) ∧
    (n.is_date = false → n.is_time_millis = false → n.is_time_micros = false →
      n.is_timestamp_millis = false → n.is_timestamp_micros = false → n.is_bson = false →
      n.is_json = false → n.is_interval = true →
      (applyPhysicalType n).physical_type_ = .FIXED_LEN_BYTE_ARRAY ∧
      (applyPhysicalType n).type_length_ = 12) ∧
    (n.is_date = false → n.is_time_millis = false → n.is_time_micros = false →
      n.is_timestamp_millis = false → n.is_timestamp_micros = false → n.is_bson = false →
      n.is_json = false → n.is_interval = false → n.is_fixed_len_byte_array = true →
      (applyPhysicalType n).physical_type_ = .FIXED_LEN_BYTE_ARRAY ∧
      (applyPhysicalType n).type_length_ = n.type_length_) := by
  rw [applyPhysicalType_physical_type, applyPhysicalType_type_length]
  refine ⟨?_, ?_, ?_, ?_, ?_, ?_, ?_, ?_, ?_⟩ <;> intros <;>
    simp only [*, if_true, if_false, Bool.false_eq_true, and_self]

/-- C6. For a node whose structural kind is still the constructor's PRIMITIVE,
`applyParquetNodeType` yields GROUP exactly when the source category is LIST or
STRUCT and none of the ten override flags is set, and PRIMITIVE otherwise; a
STRUCT node with such a flag is primitive. -/
theorem C6_node_type (n : ASTNode) (hfresh : n.parquet_node_type_ = .PRIMITIVE) :
    ((applyParquetNodeType n).parquet_node_type_ = .GROUP ↔
      (n.is_capnp_type = true ∧ (n.capnp_type_ = .LIST ∨ n.capnp_type_ = .STRUCT) ∧
        n.has_override_flag = false)) ∧
    (¬ (n.is_capnp_type = true ∧ (n.capnp_type_ = .LIST ∨ n.capnp_type_ = .STRUCT) ∧
        n.has_override_flag = false) →
      (applyParquetNodeType n).parquet_node_type_ = .PRIMITIVE) ∧
    (n.is_capnp_type = true → n.capnp_type_ = .STRUCT → n.has_override_flag = true →
      (applyParquetNodeType n).parquet_node_type_ = .PRIMITIVE) := by
  have main : (applyParquetNodeType n).parquet_node_type_ = .GROUP ↔
      (n.is_capnp_type = true ∧ (n.capnp_type_ = .LIST ∨ n.capnp_type_ = .STRUCT) ∧
        n.has_override_flag = false) := by
    rw [applyParquetNodeType_node_type]
    unfold ASTNode.has_override_flag
    generalize n.is_decimal = b1
    generalize n.is_date = b2
    generalize n.is_time_millis = b3
    generalize n.is_time_micros = b4
    generalize n.is_timestamp_millis = b5
    generalize n.is_timestamp_micros = b6
    generalize n.is_bson = b7
    generalize n.is_json = b8
    generalize n.is_interval = b9
    generalize n.is_fixed_len_byte_array = b10
    have hno : ¬ (ParquetNodeType.PRIMITIVE = ParquetNodeType.GROUP) := by decide
    cases b1
    case true => exact ⟨fun h => absurd h hno, fun h => absurd h.2.2 (by simp)⟩
    cases b2
    case true => exact ⟨fun h => absurd h hno, fun h => absurd h.2.2 (by simp)⟩
    cases b3
    case true => exact ⟨fun h => absurd h hno, fun h => absurd h.2.2 (by simp)⟩
    cases b4
    case true => exact ⟨fun h => absurd h hno, fun h => absurd h.2.2 (by simp)⟩
    cases b5
    case true => exact ⟨fun h => absurd h hno, fun h => absurd h.2.2 (by simp)⟩
    cases b6
    case true => exact ⟨fun h => absurd h hno, fun h => absurd h.2.2 (by simp)⟩
    cases b7
    case true => exact ⟨fun h => absurd h hno, fun h => absurd h.2.2 (by simp)⟩
    cases b8
    case true => exact ⟨fun h => absurd h hno, fun h => absurd h.2.2 (by simp)⟩
    cases b9
    case true => exact ⟨fun h => absurd h hno, fun h => absurd h.2.2 (by simp)⟩
    cases b10
    case true => exact ⟨fun h => absurd h hno, fun h => absurd h.2.2 (by simp)⟩
    cases n.is_capnp_type <;> cases hc : n.capnp_type_ <;>
      simp only [if_true, if_false, Bool.false_eq_true, hfresh, reduceCtorEq, false_and,
        true_and, and_true, or_false, false_or, or_true, true_or, Bool.or_self]
  have prim : ∀ t : ParquetNodeType, t ≠ .GROUP → t = .PRIMITIVE := by
    intro t ht; cases t
    · rfl
    · exact absurd rfl ht
  refine ⟨main, fun h => prim _ (fun hg => h (main.1 hg)), fun h1 h2 h3 => ?_⟩
  refine prim _ (fun hg => ?_)
  have := (main.1 hg).2.2
  rw [h3] at this
  exact Bool.noConfusion this



/-- C7. In `applyLogicalType` the nine semantic flags take priority, in their
order, over the source-category table; without them LIST gives LIST, STRUCT
gives MAP, MAP_KEY_VALUE, LIST or NONE by its map flags, and a node with no
source category keeps its tag (NONE for a node that had NONE). -/
theorem C7_logical_priority (n : ASTNode) :
    (n.is_decimal = true → (applyLogicalType n).logical_type_ = .DECIMAL) ∧
    (n.is_decimal = false → n.is_date = true →
      (applyLogicalType n).logical_type_ = .DATE) ∧
    (n.is_decimal = false → n.is_date = false → n.is_time_millis = true →
      (applyLogicalType n).logical_type_ = .TIME_MILLIS) ∧
    (n.is_decimal = false → n.is_date = false → n.is_time_millis = false →
      n.is_time_micros = true →
      (applyLogicalType n).logical_type_ = .TIME_MICROS) ∧
    (n.is_decimal = false → n.is_date = false → n.is_time_millis = false →
      n.is_time_micros = false → n.is_timestamp_millis = true →
      (applyLogicalType n).logical_type_ = .TIMESTAMP_MILLIS) ∧
    (n.is_decimal = false → n.is_date = false → n.is_time_millis = false →
      n.is_time_micros = false → n.is_timestamp_millis = false →
      n.is_timestamp_micros = true →
      (applyLogicalType n).logical_type_ = .TIMESTAMP_MICROS) ∧
    (n.is_decimal = false → n.is_date = false → n.is_time_millis = false →
      n.is_time_micros = false → n.is_timestamp_millis = false →
      n.is_timestamp_micros = false → n.is_bson = true →
      (applyLogicalType n).logical_type_ = .BSON) ∧
    (n.is_decimal = false → n.is_date = false → n.is_time_millis = false →
      n.is_time_micros = false → n.is_timestamp_millis = false →
      n.is_timestamp_micros = false → n.is_bson = false → n.is_json = true →
      (applyLogicalType n).logical_type_ = .JSON) ∧
    (n.is_decimal = false → n.is_date = false → n.is_time_millis = false →
      n.is_time_micros = false → n.is_timestamp_millis = false →
      n.is_timestamp_micros = false → n.is_bson = false → n.is_json = false →
      n.is_interval = true →
      (applyLogicalType n).logical_type_ = .INTERVAL) ∧
    (n.is_decimal = false → n.is_date = false → n.is_time_millis = false →
      n.is_time_micros = false → n.is_timestamp_millis = false →
      n.is_timestamp_micros = false → n.is_bson = false → n.is_json = false →
      n.is_interval = false →
      (n.is_capnp_type = true → n.capnp_type_ = .LIST →
        (applyLogicalType n).logical_type_ = .LIST) ∧
      (n.is_capnp_type = true → n.capnp_type_ = .STRUCT →
        (applyLogicalType n).logical_type_ =
          if n.is_map = true then .MAP
          else if n.is_map_key_value = true then .MAP_KEY_VALUE
          else if n.is_list = true then .LIST
          else .NONE) ∧
      (n.is_capnp_type = false →
        (applyLogicalType n).logical_type_ = n.logical_type_ ∧
        (n.logical_type_ = .NONE → (applyLogicalType n).logical_type_ = .NONE))) := by
  rw [applyLogicalType_logical_type]
  refine ⟨?_, ?_, ?_, ?_, ?_, ?_, ?_, ?_, ?_, ?_⟩
  case refine_10 =>
    intro h1 h2 h3 h4 h5 h6 h7 h8 h9
    simp only [h1, h2, h3, h4, h5, h6, h7, h8, h9, if_false, Bool.false_eq_true]
    refine ⟨fun hc hl => ?_, fun hc hs => ?_, fun hc => ?_⟩
    · simp only [hc, hl, if_true]
    · simp only [hc, hs, if_true]
    · simp only [hc, if_false, Bool.false_eq_true, true_and, imp_self]
  all_goals
    intros
    simp only [*, if_true, if_false, Bool.false_eq_true]

theorem classify_values (n : ASTNode) :
    (classify n).same_inputs n ∧
    (classify n).logical_type_ = (applyLogicalType n).logical_type_ ∧
    (classify n).physical_type_ = (applyPhysicalType n).physical_type_ ∧
    (classify n).type_length_ = (applyPhysicalType n).type_length_ ∧
    (classify n).parquet_node_type_ = (applyParquetNodeType n).parquet_node_type_ := by
  have h1 := applyLogicalType_frame n
  have h2 := applyPhysicalType_frame (applyLogicalType n)
  have h3 := applyParquetNodeType_frame (applyPhysicalType (applyLogicalType n))
  have h12 := ASTNode.same_inputs_trans h2.1 h1.1
  refine ⟨ASTNode.same_inputs_trans h3.1 h12, h3.2.1.trans h2.2.1, ?_, ?_, ?_⟩
  · unfold classify
    rw [h3.2.2.1, applyPhysicalType_physical_type, applyPhysicalType_physical_type]
    unfold ASTNode.same_inputs at h1
    simp only [h1]
  · unfold classify
    rw [h3.2.2.2, applyPhysicalType_type_length, applyPhysicalType_type_length]
    unfold ASTNode.same_inputs at h1
    simp only [h1]
  · unfold classify
    rw [applyParquetNodeType_node_type, applyParquetNodeType_node_type]
    unfold ASTNode.same_inputs at h12
    simp only [h12, h2.2.2, h1.2.2.2]

/-- C8. Classification is idempotent on the logical tag, the physical slot, the
structural kind and the byte length. -/
theorem C8_classify_idempotent (n : ASTNode) :
    (classify (classify n)).logical_type_ = (classify n).logical_type_ ∧
    (classify (classify n)).physical_type_ = (classify n).physical_type_ ∧
    (classify (classify n)).parquet_node_type_ = (classify n).parquet_node_type_ ∧
    (classify (classify n)).type_length_ = (classify n).type_length_ := by
  obtain ⟨hi, hl, hp, ht, hk⟩ := classify_values n
  obtain ⟨-, hl2, hp2, ht2, hk2⟩ := classify_values (classify n)
  unfold ASTNode.same_inputs at hi
  rw [hl2, hp2, ht2, hk2, applyLogicalType_logical_type, applyPhysicalType_physical_type,
    applyPhysicalType_type_length, applyParquetNodeType_node_type]
  simp only [hi]
  rw [hl, hp, ht, hk, applyLogicalType_logical_type, applyPhysicalType_physical_type,
    applyPhysicalType_type_length, applyParquetNodeType_node_type]
  generalize n.is_decimal = b1
  generalize n.is_date = b2
  generalize n.is_time_millis = b3
  generalize n.is_time_micros = b4
  generalize n.is_timestamp_millis = b5
  generalize n.is_timestamp_micros = b6
  generalize n.is_bson = b7
  generalize n.is_json = b8
  generalize n.is_interval = b9
  generalize n.is_fixed_len_byte_array = b10
  generalize n.is_capnp_type = bc
  cases b1
  case true =>
    refine ⟨rfl, rfl, rfl, ?_⟩
    simp only [if_true]
    split_ifs <;> rfl
  cases b2
  case true => exact ⟨rfl, rfl, rfl, rfl⟩
  cases b3
  case true => exact ⟨rfl, rfl, rfl, rfl⟩
  cases b4
  case true => exact ⟨rfl, rfl, rfl, rfl⟩
  cases b5
  case true => exact ⟨rfl, rfl, rfl, rfl⟩
  cases b6
  case true => exact ⟨rfl, rfl, rfl, rfl⟩
  cases b7
  case true => exact ⟨rfl, rfl, rfl, rfl⟩
  cases b8
  case true => exact ⟨rfl, rfl, rfl, rfl⟩
  cases b9
  case true => exact ⟨rfl, rfl, rfl, rfl⟩
  cases bc <;> cases b10 <;> cases n.capnp_type_ <;> exact ⟨rfl, rfl, rfl, rfl⟩


/-- Checks of `roundToDouble` and `doublePow` against known doubles: ties go
to the even significand, `10 ^ 23` is not a double and rounds down, `10 ^ 308`
is finite, and the overflow threshold is the midpoint `2 ^ 1024 - 2 ^ 970`
between the largest double and `2 ^ 1024`. -/
theorem roundToDouble_checks :
    roundToDouble (2 ^ 53 + 1) = some (2 ^ 53) ∧
    roundToDouble (2 ^ 53 + 3) = some (2 ^ 53 + 4) ∧
    doublePow 10 22 = some (10 ^ 22) ∧
    doublePow 10 23 = some 99999999999999991611392 ∧
    (doublePow 10 308).isSome = true ∧
    roundToDouble (2 ^ 1024 - 2 ^ 970 - 1) = some (2 ^ 1024 - 2 ^ 971) ∧
    roundToDouble (2 ^ 1024 - 2 ^ 970) = none := by
  decide!

/-- The digits counted by `bitLengthBelow` are there: a positive `n` is at
least `2 ^ (b - 1)` for its count `b`. -/
theorem bitLengthBelow_le (i n : Nat) (hn : n ≠ 0) :
    1 ≤ bitLengthBelow i n ∧ 2 ^ (bitLengthBelow i n - 1) ≤ n := by
  induction i generalizing n with
  | zero =>
    rw [bitLengthBelow, if_neg hn]
    exact ⟨le_refl _, by simpa using Nat.pos_of_ne_zero hn⟩
  | succ i ih =>
    rw [bitLengthBelow]
    by_cases hlt : n < 2 ^ 2 ^ i
    · rw [if_pos hlt]
      exact ih n hn
    · rw [if_neg hlt]
      have hpos : 0 < 2 ^ 2 ^ i := Nat.two_pow_pos _
      have hq : 1 ≤ n / 2 ^ 2 ^ i := (Nat.le_div_iff_mul_le hpos).2 (by omega)
      obtain ⟨h1, h2⟩ := ih (n / 2 ^ 2 ^ i) (by omega)
      refine ⟨le_trans h1 (Nat.le_add_left _ _), ?_⟩
      have he : 2 ^ i + bitLengthBelow i (n / 2 ^ 2 ^ i) - 1 =
          (bitLengthBelow i (n / 2 ^ 2 ^ i) - 1) + 2 ^ i := by
        generalize bitLengthBelow i (n / 2 ^ 2 ^ i) = b at h1
        generalize 2 ^ i = t
        omega
      rw [he, Nat.pow_add]
      calc 2 ^ (bitLengthBelow i (n / 2 ^ 2 ^ i) - 1) * 2 ^ 2 ^ i
          ≤ (n / 2 ^ 2 ^ i) * 2 ^ 2 ^ i := Nat.mul_le_mul_right _ h2
        _ ≤ n := Nat.div_mul_le_self _ _

/-- A positive `n` is at least `2 ^ (bitLength n - 1)`. -/
theorem bitLength_le (n : Nat) (hn : n ≠ 0) : 2 ^ (bitLength n - 1) ≤ n := by
  have h : ∀ fuel i, 2 ^ (bitLengthFrom n fuel i - 1) ≤ n := by
    intro fuel
    induction fuel with
    | zero =>
      intro i
      rw [bitLengthFrom]
      exact (bitLengthBelow_le i n hn).2
    | succ fuel ih =>
      intro i
      rw [bitLengthFrom]
      split
      · exact (bitLengthBelow_le i n hn).2
      · exact ih (i + 1)
  exact h n 0

/-- The count of `bitLengthBelow` is large enough: a whole number below
`2 ^ 2 ^ i` is below `2 ^ b` for its count `b`. -/
theorem bitLengthBelow_lt (i n : Nat) (hn : n < 2 ^ 2 ^ i) :
    n < 2 ^ bitLengthBelow i n := by
  induction i generalizing n with
  | zero =>
    rw [bitLengthBelow]
    have h2 : n < 2 := hn
    by_cases h0 : n = 0
    · rw [if_pos h0, h0]
      exact Nat.one_pos
    · rw [if_neg h0]
      exact h2
  | succ i ih =>
    rw [bitLengthBelow]
    by_cases hlt : n < 2 ^ 2 ^ i
    · rw [if_pos hlt]
      exact ih n hlt
    · rw [if_neg hlt]
      have hpos : 0 < 2 ^ 2 ^ i := Nat.two_pow_pos _
      have hsq : 2 ^ 2 ^ (i + 1) = 2 ^ 2 ^ i * 2 ^ 2 ^ i := by
        rw [← Nat.pow_add, Nat.pow_succ, Nat.mul_two]
      rw [hsq] at hn
      have hq : n / 2 ^ 2 ^ i < 2 ^ 2 ^ i := Nat.div_lt_of_lt_mul hn
      have h1 := ih (n / 2 ^ 2 ^ i) hq
      rw [Nat.pow_add]
      rw [Nat.mul_comm]
      exact (Nat.div_lt_iff_lt_mul hpos).1 h1

/-- The number `bitLength n` is the number of binary digits of `n`: `n` is
below `2 ^ bitLength n`, and a positive `n` is at least
`2 ^ (bitLength n - 1)`. -/
theorem bitLength_spec (n : Nat) :
    n < 2 ^ bitLength n ∧ (n ≠ 0 → 2 ^ (bitLength n - 1) ≤ n) := by
  refine ⟨?_, bitLength_le n⟩
  have h : ∀ fuel i, n < 2 ^ 2 ^ (i + fuel) → n < 2 ^ bitLengthFrom n fuel i := by
    intro fuel
    induction fuel with
    | zero =>
      intro i hi
      rw [bitLengthFrom]
      exact bitLengthBelow_lt i n hi
    | succ fuel ih =>
      intro i hi
      rw [bitLengthFrom]
      split
      · exact bitLengthBelow_lt i n (by assumption)
      · exact ih (i + 1) (by rw [show i + 1 + fuel = i + (fuel + 1) by omega]; exact hi)
  apply h n 0
  rw [Nat.zero_add]
  exact lt_of_lt_of_le (Nat.lt_two_pow n) (Nat.pow_le_pow_right (Nat.succ_pos 1)
    (le_of_lt (Nat.lt_two_pow n)))

/-- What `roundToDouble` returns when the result is finite: a whole number
below `2 ^ 53` itself, and for a longer one a multiple `q * 2 ^ e` of the unit
`2 ^ e` in the last place, with a significand `q` of at most 53 binary digits
(or `2 ^ 53`, the next power of two), at a distance of at most half a unit
from the number. -/
theorem roundToDouble_spec (n m : Nat) (h : roundToDouble n = some m) :
    (n < 2 ^ 53 → m = n) ∧
    (2 ^ 53 ≤ n → ∃ q, m = q * 2 ^ (bitLength n - 53) ∧ 2 ^ 52 ≤ q ∧ q ≤ 2 ^ 53 ∧
      2 * m ≤ 2 * n + 2 ^ (bitLength n - 53) ∧ 2 * n ≤ 2 * m + 2 ^ (bitLength n - 53)) := by
  constructor
  · intro hlt
    rw [roundToDouble, if_pos hlt] at h
    exact (Option.some.inj h).symm
  · intro hge
    have hnlt : ¬ n < 2 ^ 53 := Nat.not_lt.2 hge
    have hn0 : n ≠ 0 := Nat.pos_iff_ne_zero.1 (lt_of_lt_of_le (Nat.two_pow_pos _) hge)
    obtain ⟨hb1, hb2⟩ := bitLength_spec n
    have hb2 := hb2 hn0
    have hb : 54 ≤ bitLength n := by
      by_contra hcon
      have : 2 ^ bitLength n ≤ 2 ^ 53 :=
        Nat.pow_le_pow_right (Nat.succ_pos 1) (by omega)
      omega
    unfold roundToDouble at h
    rw [if_neg hnlt] at h
    simp only [] at h
    generalize 2 ^ 1024 = top at h
    generalize bitLength n = b at h hb hb1 hb2 ⊢
    obtain ⟨e, rfl⟩ : ∃ e, b = e + 54 := ⟨b - 54, by omega⟩
    have he : e + 54 - 53 = e + 1 := by omega
    have he1 : e + 54 - 1 = e + 53 := by omega
    rw [he] at h ⊢
    rw [he1] at hb2
    have he0 : e + 1 - 1 = e := by omega
    rw [he0] at h
    have hU : 2 ^ (e + 1) = 2 * 2 ^ e := by rw [Nat.pow_succ, Nat.mul_comm]
    have hpos : 0 < 2 ^ (e + 1) := Nat.two_pow_pos _
    have hlo : 2 ^ (e + 53) = 2 ^ 52 * 2 ^ (e + 1) := by
      rw [show e + 53 = 52 + (e + 1) by omega, Nat.pow_add]
    have hhi : 2 ^ (e + 54) = 2 ^ 53 * 2 ^ (e + 1) := by
      rw [show e + 54 = 53 + (e + 1) by omega, Nat.pow_add]
    have hq1 : 2 ^ 52 ≤ n / 2 ^ (e + 1) := by
      rw [Nat.le_div_iff_mul_le hpos, ← hlo]
      exact hb2
    have hq2 : n / 2 ^ (e + 1) < 2 ^ 53 := by
      rw [Nat.div_lt_iff_lt_mul hpos, ← hhi]
      exact hb1
    have hdm : 2 ^ (e + 1) * (n / 2 ^ (e + 1)) + n % 2 ^ (e + 1) = n := Nat.div_add_mod n _
    have hr : n % 2 ^ (e + 1) < 2 ^ (e + 1) := Nat.mod_lt n hpos
    generalize n / 2 ^ (e + 1) = q at h hq1 hq2 hdm
    generalize n % 2 ^ (e + 1) = r at h hdm hr
    generalize 2 ^ e = u at h hU
    generalize 2 ^ (e + 1) = v at h hU hdm hr hpos
    subst hU
    by_cases hup : u < r ∨ (r = u ∧ q % 2 = 1)
    · rw [if_pos hup] at h
      by_cases htop : top ≤ (q + 1) * (2 * u)
      · rw [if_pos htop] at h
        cases h
      · rw [if_neg htop] at h
        have hm := (Option.some.inj h).symm
        refine ⟨q + 1, hm, by omega, by omega, ?_, ?_⟩
        · rw [hm, Nat.add_mul, Nat.one_mul, Nat.mul_comm q (2 * u)]
          omega
        · rw [hm, Nat.add_mul, Nat.one_mul, Nat.mul_comm q (2 * u)]
          omega
    · rw [if_neg hup] at h
      by_cases htop : top ≤ q * (2 * u)
      · rw [if_pos htop] at h
        cases h
      · rw [if_neg htop] at h
        have hm := (Option.some.inj h).symm
        refine ⟨q, hm, hq1, le_of_lt hq2, ?_, ?_⟩
        · rw [hm, Nat.mul_comm q (2 * u)]
          omega
        · rw [hm, Nat.mul_comm q (2 * u)]
          omega

/-- A whole number from `2 ^ 1024` on rounds to plus infinity. -/
theorem roundToDouble_overflow (n : Nat) (h : 2 ^ 1024 ≤ n) : roundToDouble n = none := by
  have hn0 : n ≠ 0 := Nat.pos_iff_ne_zero.1 (lt_of_lt_of_le (Nat.two_pow_pos _) h)
  have hmono : ∀ a b : Nat, a ≤ b → 2 ^ a ≤ 2 ^ b := fun a b hab =>
    Nat.pow_le_pow_right (Nat.succ_pos 1) hab
  have h53 : ¬ n < 2 ^ 53 := fun hlt =>
    absurd (lt_of_le_of_lt (le_trans (hmono 53 1024 (by decide)) h) hlt) (lt_irrefl _)
  have hb := bitLength_le n hn0
  unfold roundToDouble
  rw [if_neg h53]
  simp only []
  generalize bitLength n = b at hb ⊢
  have hpos : 0 < 2 ^ (b - 53) := Nat.two_pow_pos _
  have hq : 2 ^ 1024 ≤ n / 2 ^ (b - 53) * 2 ^ (b - 53) := by
    by_cases he : b - 53 ≤ 1024
    · have h2 : 2 ^ 1024 = 2 ^ (1024 - (b - 53)) * 2 ^ (b - 53) := by
        rw [← Nat.pow_add]
        congr 1
        omega
      have h3 : 2 ^ (1024 - (b - 53)) ≤ n / 2 ^ (b - 53) := by
        rw [Nat.le_div_iff_mul_le hpos, ← h2]
        exact h
      rw [h2]
      exact Nat.mul_le_mul_right _ h3
    · have h2 : 2 ^ (b - 1) = 2 ^ 52 * 2 ^ (b - 53) := by
        rw [← Nat.pow_add]
        congr 1
        omega
      have h3 : 2 ^ 52 ≤ n / 2 ^ (b - 53) := by
        rw [Nat.le_div_iff_mul_le hpos, ← h2]
        exact hb
      calc 2 ^ 1024 ≤ 2 ^ (b - 53) := hmono 1024 (b - 53) (by omega)
        _ = 1 * 2 ^ (b - 53) := (Nat.one_mul _).symm
        _ ≤ n / 2 ^ (b - 53) * 2 ^ (b - 53) :=
          Nat.mul_le_mul_right _ (le_trans (Nat.one_le_two_pow) h3)
  split
  · rw [if_pos]
    exact le_trans hq (Nat.mul_le_mul_right _ (Nat.le_succ _))
  · rfl

/-- In double arithmetic `pow(10.0, p)` is plus infinity from `p = 309` on. -/
theorem doublePow_ten_overflow (p : Nat) (h : 309 ≤ p) : doublePow 10 p = none := by
  unfold doublePow
  apply roundToDouble_overflow
  calc 2 ^ 1024 ≤ 10 ^ 309 := by decide!
    _ ≤ 10 ^ p := Nat.pow_le_pow_right (by decide) h

/-- The powers of two that the loop of `minBytesForPrecision` compares are
doubles themselves up to `numBytes = 128`, and plus infinity at 129. -/
theorem doublePow_two_exact :
    (∀ m, m < 129 → 1 ≤ m → doublePow 2 (8 * m - 1) = some (2 ^ (8 * m - 1))) ∧
    doublePow 2 (8 * 129 - 1) = none := by
  decide!

/-- The loop of `minBytesForPrecision` returns the first `numBytes` at which
its condition fails, when the fuel reaches that far. -/
theorem minBytesLoop_first (p w fuel n : Nat) (hn : n ≤ w) (hf : w < fuel + n)
    (hlt : ∀ m, n ≤ m → m < w →
      doubleLt (doublePow 2 (8 * m - 1)) (doublePow 10 p) = true)
    (hw : doubleLt (doublePow 2 (8 * w - 1)) (doublePow 10 p) = false) :
    minBytesLoop p fuel n = w := by
  induction fuel generalizing n with
  | zero => omega
  | succ fuel ih =>
    rw [minBytesLoop]
    by_cases hnw : n = w
    · subst hnw
      rw [hw]
      rfl
    · rw [hlt n (le_refl _) (by omega), if_pos rfl]
      exact ih (n + 1) (by omega) (by omega) (fun m h1 h2 => hlt m (by omega) h2)

/-- When the condition of the loop holds at a `numBytes` up to 128, it holds
at every smaller one. -/
theorem minBytes_condition_mono (p m k : Nat) (h1 : 1 ≤ m) (hmk : m ≤ k) (hk : k < 129)
    (h : doubleLt (doublePow 2 (8 * k - 1)) (doublePow 10 p) = true) :
    doubleLt (doublePow 2 (8 * m - 1)) (doublePow 10 p) = true := by
  rw [doublePow_two_exact.1 k hk (by omega)] at h
  rw [doublePow_two_exact.1 m (by omega) h1]
  cases hx : doublePow 10 p with
  | none => rfl
  | some x =>
    rw [hx] at h
    simp only [doubleLt, decide_eq_true_eq] at h ⊢
    have : 2 ^ (8 * m - 1) ≤ 2 ^ (8 * k - 1) := Nat.pow_le_pow_right (by decide) (by omega)
    omega

/-- The widths for the precisions up to 310, checked one by one at the width
`w` computed from the number of binary digits of `10 ^ p - 1`: the condition
of the loop fails at `w` and holds right before it, `2 ^ (8 w - 1)` reaches
`10 ^ p`, and the width before `w` does not. -/
theorem minBytes_table : ∀ p < 311,
    1 ≤ (bitLength (10 ^ p - 1) + 8) / 8 ∧ (bitLength (10 ^ p - 1) + 8) / 8 ≤ 129 ∧
    doubleLt (doublePow 2 (8 * ((bitLength (10 ^ p - 1) + 8) / 8) - 1)) (doublePow 10 p) =
      false ∧
    ((bitLength (10 ^ p - 1) + 8) / 8 = 1 ∨
      doubleLt (doublePow 2 (8 * ((bitLength (10 ^ p - 1) + 8) / 8 - 1) - 1))
        (doublePow 10 p) = true) ∧
    10 ^ p ≤ 2 ^ (8 * ((bitLength (10 ^ p - 1) + 8) / 8) - 1) ∧
    ((bitLength (10 ^ p - 1) + 8) / 8 = 1 ∨
      2 ^ (8 * ((bitLength (10 ^ p - 1) + 8) / 8 - 1) - 1) < 10 ^ p) := by
  decide!

/-- The result of `minBytesForPrecision` for a precision up to 310: the
condition of the loop fails at it, it is between 1 and 129, `2 ^ (8 w - 1)`
reaches `10 ^ p` at it and not at the width before it. -/
theorem minBytesForPrecision_small (p : Nat) (hp : p < 311) :
    doubleLt (doublePow 2 (8 * minBytesForPrecision p - 1)) (doublePow 10 p) = false ∧
    1 ≤ minBytesForPrecision p ∧ minBytesForPrecision p ≤ 129 ∧
    10 ^ p ≤ 2 ^ (8 * minBytesForPrecision p - 1) ∧
    (minBytesForPrecision p = 1 ∨ 2 ^ (8 * (minBytesForPrecision p - 1) - 1) < 10 ^ p) := by
  obtain ⟨h1, h2, h3, h4, h5, h6⟩ := minBytes_table p hp
  generalize (bitLength (10 ^ p - 1) + 8) / 8 = w at h1 h2 h3 h4 h5 h6
  have hw : minBytesForPrecision p = w := by
    apply minBytesLoop_first p w 129 1 h1 (by omega) _ h3
    intro m hm1 hmw
    rcases h4 with h4 | h4
    · omega
    · exact minBytes_condition_mono p m (w - 1) hm1 (by omega) (by omega) h4
  rw [hw]
  exact ⟨h3, h1, h2, h5, h6⟩

/-- From precision 309 on `minBytesForPrecision` returns 129, whatever fuel of
at least 129 units the loop gets. -/
theorem minBytesLoop_overflow (p fuel : Nat) (h : 309 ≤ p) (hf : 129 ≤ fuel) :
    minBytesLoop p fuel 1 = 129 := by
  have hinf := doublePow_ten_overflow p h
  apply minBytesLoop_first p 129 fuel 1 (by omega) (by omega)
  · intro m hm1 hmw
    rw [hinf, doublePow_two_exact.1 m hmw hm1]
    rfl
  · rw [hinf, doublePow_two_exact.2]
    rfl

/-- More fuel does not change the result of the loop of `minBytesForPrecision`
once the loop has stopped by its own condition. -/
theorem minBytesLoop_more_fuel (p : Nat) (fuel n k : Nat)
    (h : doubleLt (doublePow 2 (8 * minBytesLoop p fuel n - 1)) (doublePow 10 p) = false) :
    minBytesLoop p (fuel + k) n = minBytesLoop p fuel n := by
  induction fuel generalizing n with
  | zero =>
    rw [minBytesLoop] at h ⊢
    cases k with
    | zero => rfl
    | succ k =>
      rw [Nat.zero_add, minBytesLoop, h]
      rfl
  | succ fuel ih =>
    rw [show fuel + 1 + k = (fuel + k) + 1 by omega]
    rw [minBytesLoop] at h ⊢
    by_cases hc : doubleLt (doublePow 2 (8 * n - 1)) (doublePow 10 p) = true
    · rw [if_pos hc] at h ⊢
      rw [minBytesLoop, if_pos hc]
      exact ih (n + 1) h
    · rw [if_neg hc] at h ⊢
      rw [minBytesLoop, if_neg hc]

/-- C3, counterexample: at precision 311 `pow(10.0, 311)` is plus infinity and
`minBytesForPrecision` returns 129, but `2 ^ (8 * 129 - 1)` is below `10 ^ 311`:
the least width `w` with `10 ^ 311 ≤ 2 ^ (8 w - 1)` is 130. -/
theorem C3_width_at_precision_311 :
    doublePow 10 311 = none ∧ minBytesForPrecision 311 = 129 ∧
    2 ^ (8 * 129 - 1) < 10 ^ 311 ∧ 10 ^ 311 ≤ 2 ^ (8 * 130 - 1) :=
  ⟨doublePow_ten_overflow 311 (by decide), minBytesLoop_overflow 311 129 (by decide) (le_refl _),
    by decide!, by decide!⟩

/-- C3, amended: in the double arithmetic of the code, for every precision `p`
up to 310 `minBytesForPrecision p` is the least `w ≥ 1` with
`10 ^ p ≤ 2 ^ (8 w - 1)`; it is 9 for `p = 19` and for `p = 20`; for every
`p` from 309 on it is 129, as `pow(10.0, p)` is plus infinity. For every `p`
the loop stops by its own condition with a result of at most 129, whatever
fuel of at least 129 units it gets. -/
theorem C3_minBytes (p : Nat) :
    (p ≤ 310 → 1 ≤ minBytesForPrecision p ∧
      10 ^ p ≤ 2 ^ (8 * minBytesForPrecision p - 1) ∧
      ∀ w, 1 ≤ w → 10 ^ p ≤ 2 ^ (8 * w - 1) → minBytesForPrecision p ≤ w) ∧
    minBytesForPrecision 19 = 9 ∧ minBytesForPrecision 20 = 9 ∧
    (309 ≤ p → minBytesForPrecision p = 129) ∧
    doubleLt (doublePow 2 (8 * minBytesForPrecision p - 1)) (doublePow 10 p) = false ∧
    minBytesForPrecision p ≤ 129 ∧
    (∀ fuel, 129 ≤ fuel → minBytesLoop p fuel 1 = minBytesForPrecision p) := by
  have hbig : 309 ≤ p → minBytesForPrecision p = 129 := fun h =>
    minBytesLoop_overflow p 129 h (le_refl _)
  have hexit : doubleLt (doublePow 2 (8 * minBytesForPrecision p - 1)) (doublePow 10 p) =
      false := by
    by_cases hp : p < 311
    · exact (minBytesForPrecision_small p hp).1
    · rw [hbig (by omega), doublePow_ten_overflow p (by omega), doublePow_two_exact.2]
      rfl
  have hle : minBytesForPrecision p ≤ 129 := by
    by_cases hp : p < 311
    · exact (minBytesForPrecision_small p hp).2.2.1
    · rw [hbig (by omega)]
  refine ⟨?_, by decide!, by decide!, hbig, hexit, hle, ?_⟩
  · intro hp
    obtain ⟨_, h1, _, h2, h3⟩ := minBytesForPrecision_small p (by omega)
    refine ⟨h1, h2, ?_⟩
    intro w hw hpow
    by_contra hcon
    rcases h3 with h3 | h3
    · omega
    · have hmono : 2 ^ (8 * w - 1) ≤ 2 ^ (8 * (minBytesForPrecision p - 1) - 1) :=
        Nat.pow_le_pow_right (by decide) (by omega)
      omega
  · intro fuel hf
    obtain ⟨k, rfl⟩ : ∃ k, fuel = 129 + k := ⟨fuel - 129, by omega⟩
    exact minBytesLoop_more_fuel p 129 1 k hexit

/-- C3, amended, at concrete precisions: the width for precision 38 is at
least 1, reaches `10 ^ 38` and is at most the width 16, which reaches it; the
width for precision 400 is 129. -/
theorem C3_minBytes_witness :
    1 ≤ minBytesForPrecision 38 ∧ 10 ^ 38 ≤ 2 ^ (8 * minBytesForPrecision 38 - 1) ∧
    minBytesForPrecision 38 ≤ 16 ∧ minBytesForPrecision 400 = 129 :=
  ⟨((C3_minBytes 38).1 (by decide)).1, ((C3_minBytes 38).1 (by decide)).2.1,
    ((C3_minBytes 38).1 (by decide)).2.2 16 (by decide) (by decide!),
    (C3_minBytes 400).2.2.2.1 (by decide)⟩

/-! ## Symbolic execution of the traversal -/

/-! ### Step monad calculus -/

theorem Step.pure_apply {σ α : Type} (a : α) (s : σ) : (pure a : Step σ α) s = some (a, s) := rfl

theorem Step.lift_some {σ α : Type} (a : α) (s : σ) :
    (liftM (some a) : Step σ α) s = some (a, s) := rfl

/-! ### Heap lemmas -/

theorem Heap.get_tail (H t : Heap) (q : Nat) (hn : H.length ≤ q) :
    Heap.get (H ++ t) q = t[q - H.length]? := by
  simp [Heap.get, List.getElem?_append_right hn]

theorem Heap.update_tail (H t : Heap) (q : Nat) (f : ASTNode → ASTNode)
    (hn : H.length ≤ q) :
    Heap.update (H ++ t) q f = (Heap.update t (q - H.length) f).map (H ++ ·) := by
  simp only [Heap.update, List.getElem?_append_right hn]
  cases h : t[q - H.length]? with
  | none => rfl
  | some x =>
    simp only [Option.map_some', Option.some.injEq]
    rw [List.set_append_right _ _ hn]

theorem Heap.update_head (H t : Heap) (p : Nat) (f : ASTNode → ASTNode) (P : ASTNode)
    (hp : H.get p = some P) :
    Heap.update (H ++ t) p f = some (H.set p (f P) ++ t) := by
  have hlt : p < H.length := by
    unfold Heap.get at hp
    exact (List.getElem?_eq_some_iff.1 hp).1
  unfold Heap.get at hp
  simp only [Heap.update, List.getElem?_append_left hlt, hp, List.set_append_left _ _ hlt]

theorem Heap.update_of_get (h : Heap) (q : Nat) (f : ASTNode → ASTNode) (c : ASTNode)
    (hc : h.get q = some c) : h.update q f = some (h.set q (f c)) := by
  unfold Heap.get at hc
  simp only [Heap.update, hc]

theorem Heap.get_set_self (h : Heap) (q : Nat) (c x : ASTNode) (hc : h.get q = some c) :
    Heap.get (h.set q x) q = some x := by
  unfold Heap.get at *
  have hlt : q < h.length := (List.getElem?_eq_some_iff.1 hc).1
  simp [List.getElem?_set_self hlt]

theorem Heap.set_set (h : Heap) (q : Nat) (x y : ASTNode) :
    (h.set q x).set q y = h.set q y := List.set_set _ _ _ _

/-! ### Builder steps -/

theorem CapnpcParquet.attach_head (g : CapnpcParquet) (p : Nat) (P : ASTNode) (F : ASTNode)
    (ho : g.openNode = some p) (hP : g.heap.get p = some P) :
    CapnpcParquet.attach F g = some ((), {
      heap := g.heap.set p (P.push_back_child g.heap.length) ++ [F.setParent (some p)],
      document_ := g.document_,
      currentParent_ := some g.heap.length }) := by
  have h1 : Heap.update (g.heap ++ [F]) g.heap.length (fun c => c.setParent (some p)) =
      some (g.heap ++ [F.setParent (some p)]) := by
    rw [Heap.update_tail _ _ _ _ (le_refl _)]
    simp [Heap.update]
  simp only [CapnpcParquet.attach, bind, StateT.bind, get, getThe, MonadStateOf.get, StateT.get,
    pure, StateT.pure, set, StateT.set, Heap.alloc, ho, liftM, monadLift, MonadLift.monadLift,
    StateT.lift, Option.bind, Heap.addChild, h1, Heap.update_head _ _ _ _ _ hP]

theorem CapnpcParquet.leave_of_get (h : Heap) (d : Option Nat) (q : Nat) (c : ASTNode)
    (hc : h.get q = some c) :
    CapnpcParquet.leave { heap := h, document_ := d, currentParent_ := some q } =
      some ((), { heap := h, document_ := d, currentParent_ := c.parent_ }) := by
  simp only [CapnpcParquet.leave, bind, StateT.bind, get, getThe, MonadStateOf.get, StateT.get,
    pure, StateT.pure, set, StateT.set, liftM, monadLift, MonadLift.monadLift, StateT.lift,
    Option.bind, hc]

theorem CapnpcParquet.buildAndLeave_of (h0 h : Heap) (d : Option Nat) (q : Nat) (c : ASTNode)
    (hb : buildParquetNode h0 q = some h) (hc : h.get q = some c) :
    CapnpcParquet.buildAndLeave { heap := h0, document_ := d, currentParent_ := some q } =
      some (false, { heap := h, document_ := d, currentParent_ := c.parent_ }) := by
  simp only [CapnpcParquet.buildAndLeave, bind, StateT.bind, get, getThe, MonadStateOf.get,
    StateT.get, pure, StateT.pure, set, StateT.set, liftM, monadLift, MonadLift.monadLift,
    StateT.lift, Option.bind, CapnpcParquet.openNode, hb,
    CapnpcParquet.leave_of_get h d q c hc]


theorem classify_children (c : ASTNode) :
    (classify c).children_ = c.children_ ∧ (classify c).node_type_ = c.node_type_ ∧
    (classify c).parent_ = c.parent_ ∧ (classify c).name_ = c.name_ := by
  unfold classify
  have h1 := applyLogicalType_ind c
    (fun x => x.children_ = c.children_ ∧ x.node_type_ = c.node_type_ ∧
      x.parent_ = c.parent_ ∧ x.name_ = c.name_)
    ⟨rfl, rfl, rfl, rfl⟩ (fun _ => ⟨rfl, rfl, rfl, rfl⟩)
  have h2 := applyPhysicalType_ind (applyLogicalType c)
    (fun x => x.children_ = c.children_ ∧ x.node_type_ = c.node_type_ ∧
      x.parent_ = c.parent_ ∧ x.name_ = c.name_)
    h1 (fun _ => h1) (fun _ _ => h1)
  exact applyParquetNodeType_ind (applyPhysicalType (applyLogicalType c))
    (fun x => x.children_ = c.children_ ∧ x.node_type_ = c.node_type_ ∧
      x.parent_ = c.parent_ ∧ x.name_ = c.name_)
    h2 h2 h2

theorem flattenLoop_skip (js : List Nat) (h : Heap) (acc : List Nat) (is : List Nat)
    (hs : ∀ i ∈ is, ∃ ci, h.get i = some ci ∧ ci.node_type_ ≠ .FIELD) :
    flattenLoop js h acc is = some (h, acc) := by
  induction is with
  | nil => rfl
  | cons i rest ih =>
    obtain ⟨ci, hci, hne⟩ := hs i (List.mem_cons_self _ _)
    have hrest := ih (fun j hj => hs j (List.mem_cons_of_mem _ hj))
    have hb : (ci.node_type_ == ASTNodeType.FIELD) = false := by
      cases hx : ci.node_type_ <;> first | rfl | exact absurd hx hne
    simp only [flattenLoop, hci, Option.bind_eq_bind, Option.some_bind, hb, hrest,
      Bool.false_eq_true, if_false, ite_self]

theorem buildParquetNode_of (h h1 : Heap) (q : Nat) (c : ASTNode) (kids : List ParquetNode)
    (nm : String)
    (hann : applyAnnotations h q = some h1)
    (hc : h1.get q = some c)
    (hty : c.node_type_ ≠ .FILE)
    (hflat : ∀ i ∈ c.children_, ∃ ci, Heap.get (h1.set q (classify c)) i = some ci ∧
      ci.node_type_ ≠ .FIELD)
    (hkids : collectChildren (h1.set q (classify c)) c.children_ = some kids)
    (hnm : convertCamelCase (targetName (classify c)) = some nm) :
    buildParquetNode h q =
      some (h1.set q ((classify c).setNode (some (makeParquetNode (classify c) nm kids)))) := by
  have hb : (c.node_type_ == ASTNodeType.FILE) = false := by
    cases hx : c.node_type_ <;> first | rfl | exact absurd hx hty
  have u1 := Heap.update_of_get h1 q applyLogicalType c hc
  have g1 := Heap.get_set_self h1 q c (applyLogicalType c) hc
  have u2 := Heap.update_of_get _ q applyPhysicalType _ g1
  have g2 := Heap.get_set_self _ q _ (applyPhysicalType (applyLogicalType c)) g1
  have u3 := Heap.update_of_get _ q applyParquetNodeType _ g2
  have g3 := Heap.get_set_self _ q _
    (applyParquetNodeType (applyPhysicalType (applyLogicalType c))) g2
  simp only [Heap.set_set] at u2 u3 g2 g3
  have u4 := Heap.update_of_get _ q
    (fun n => n.setNode (some (makeParquetNode (classify c) nm kids))) _ g3
  simp only [Heap.set_set] at u4
  have hcc := (classify_children c).1
  unfold classify at hcc hflat hkids hnm
  have hfl := flattenLoop_skip c.children_ _ [] c.children_ hflat
  simp only [buildParquetNode, buildParquetNodeBody, hann, hc, hb, Option.bind_eq_bind,
    Option.some_bind, Bool.false_eq_true, if_false, u1, u2, u3, g3, hcc, hfl, removeDecls,
    hkids, hnm, classify]
  exact u4


theorem Step.bind_run {σ α β : Type} (x : Step σ α) (f : α → Step σ β) (s : σ) :
    (x >>= f) s = (x s).bind (fun r => f r.1 r.2) := by
  show StateT.bind x f s = _
  unfold StateT.bind
  cases x s <;> rfl

theorem Heap.get_last (h : Heap) (x : ASTNode) (n : Nat) (hn : h.length = n) :
    Heap.get (h ++ [x]) n = some x := by
  subst hn
  simp [Heap.get]

theorem Heap.set_last (h : Heap) (x y : ASTNode) (n : Nat) (hn : h.length = n) :
    (h ++ [x]).set n y = h ++ [y] := by
  subst hn
  simp

theorem CapnpcParquet.attach_of_get (h : Heap) (d : Option Nat) (q : Nat) (c F : ASTNode)
    (hc : h.get q = some c) :
    CapnpcParquet.attach F ⟨h, d, some q⟩ =
      some ((), ⟨h.set q (c.push_back_child h.length) ++ [F.setParent (some q)], d,
        some h.length⟩) :=
  CapnpcParquet.attach_head ⟨h, d, some q⟩ q c F rfl hc

theorem applyAnnotations_nil (h : Heap) (q : Nat) (c : ASTNode) (hc : h.get q = some c)
    (hch : c.children_ = []) : applyAnnotations h q = some h := by
  simp only [applyAnnotations, hc, hch, Option.bind_eq_bind, Option.some_bind, List.foldlM_nil]
  rfl

theorem classify_targetName (c : ASTNode) : targetName (classify c) = targetName c := by
  unfold classify
  have h1 := applyLogicalType_ind c (fun x => targetName x = targetName c) rfl (fun _ => rfl)
  have h2 := applyPhysicalType_ind (applyLogicalType c) (fun x => targetName x = targetName c)
    h1 (fun _ => h1) (fun _ _ => h1)
  exact applyParquetNodeType_ind (applyPhysicalType (applyLogicalType c))
    (fun x => targetName x = targetName c) h2 h2 h2

theorem buildParquetNode_leaf (h : Heap) (q : Nat) (c : ASTNode) (nm : String)
    (hc : h.get q = some c) (hch : c.children_ = []) (hty : c.node_type_ ≠ .FILE)
    (hnm : convertCamelCase (targetName c) = some nm) :
    buildParquetNode h q =
      some (h.set q ((classify c).setNode (some (makeParquetNode (classify c) nm [])))) := by
  refine buildParquetNode_of h h q c [] nm (applyAnnotations_nil h q c hc hch) hc hty ?_ ?_ ?_
  · rw [hch]; intro i hi; cases hi
  · rw [hch]; rfl
  · rw [classify_targetName]; exact hnm

/-- A node that has just been attached as the last node of the heap and has no
child is built and left: the heap keeps its shape and the parent is open again. -/
theorem CapnpcParquet.buildAndLeave_leaf (h : Heap) (d : Option Nat) (c : ASTNode)
    (nm : String) (hch : c.children_ = []) (hty : c.node_type_ ≠ .FILE)
    (hnm : convertCamelCase (targetName c) = some nm) :
    CapnpcParquet.buildAndLeave ⟨h ++ [c], d, some h.length⟩ =
      some (false, ⟨h ++ [(classify c).setNode (some (makeParquetNode (classify c) nm []))], d,
        c.parent_⟩) := by
  have hg := Heap.get_last h c h.length rfl
  have hb := buildParquetNode_leaf (h ++ [c]) h.length c nm hg hch hty hnm
  rw [Heap.set_last h c _ h.length rfl] at hb
  have := CapnpcParquet.buildAndLeave_of (h ++ [c]) _ d h.length _ hb
    (Heap.get_last h _ h.length rfl)
  rw [this]
  have hp := (classify_children c).2.2.1
  simp only [ASTNode.setNode, hp]


theorem ASTNode.parent_setParent (n : ASTNode) (p : Option Nat) :
    (n.setParent p).parent_ = p := rfl

theorem ASTNode.setNode_proj (n : ASTNode) (v : ParquetNode) :
    (n.setNode (some v)).node_type_ = n.node_type_ ∧
    (n.setNode (some v)).parent_ = n.parent_ ∧
    (n.setNode (some v)).node_.isSome = true ∧
    (n.setNode (some v)).node_ = some v ∧
    (n.setNode (some v)).children_ = n.children_ ∧
    (n.setNode (some v)).name_ = n.name_ ∧
    (n.setNode (some v)).is_decl = n.is_decl ∧
    (n.setNode (some v)).is_value = n.is_value ∧
    (n.setNode (some v)).capnp_type_ = n.capnp_type_ ∧
    (n.setNode (some v)).value_ = n.value_ :=
  ⟨rfl, rfl, rfl, rfl, rfl, rfl, rfl, rfl, rfl, rfl⟩

/-- The slot hook rewrites the open node in place. -/
theorem CapnpcParquet.pre_visit_struct_field_slot_of (schema : StructSchema) (field : Field)
    (slot : Slot) (h : Heap) (d : Option Nat) (q : Nat) (c : ASTNode)
    (hc : h.get q = some c) (hd : slot.hadExplicitDefault = false) :
    CapnpcParquet.pre_visit_struct_field_slot schema field slot ⟨h, d, some q⟩ =
      some (false, ⟨h.set q ((c.setOffset slot.offset).setCapnpType slot.type.which), d,
        some q⟩) := by
  have hu := Heap.update_of_get h q (fun n =>
    let n := n.setOffset slot.offset
    let n := if slot.hadExplicitDefault then n.setHadDefaultValue else n
    n.setCapnpType slot.type.which) c hc
  simp only [hd, Bool.false_eq_true, if_false] at hu
  simp only [CapnpcParquet.pre_visit_struct_field_slot, bind, StateT.bind, get, getThe,
    MonadStateOf.get, StateT.get, pure, StateT.pure, set, StateT.set, liftM, monadLift,
    MonadLift.monadLift, StateT.lift, Option.bind, hd, Bool.false_eq_true, if_false, hu]




theorem applyAnnotationsStep_skip (node : Nat) (h : Heap) (c : Nat) (child : ASTNode)
    (hc : h.get c = some child) (hn : child.node_type_ ≠ .ANNOTATION) :
    applyAnnotationsStep node h c = some h := by
  have hb : (child.node_type_ == ASTNodeType.ANNOTATION) = false := by
    cases hx : child.node_type_ <;> first | rfl | exact absurd hx hn
  simp only [applyAnnotationsStep, hc, Option.bind_eq_bind, Option.some_bind, hb,
    Bool.and_false, Bool.false_eq_true, if_false]
  rfl


theorem Heap.get_tail_zero (H t : Heap) : Heap.get (H ++ t) H.length = t[0]? := by
  rw [Heap.get_tail H t _ (le_refl _), Nat.sub_self]

theorem Heap.get_tail_add (H t : Heap) (k : Nat) :
    Heap.get (H ++ t) (H.length + k) = t[k]? := by
  rw [Heap.get_tail H t _ (Nat.le_add_right _ _), Nat.add_sub_cancel_left]

theorem Heap.set_tail_zero (H t : Heap) (x : ASTNode) :
    (H ++ t).set H.length x = H ++ t.set 0 x := by
  rw [List.set_append_right _ _ (le_refl _), Nat.sub_self]

/-- The exit hook of a field whose only child is its TYPE node. -/
theorem CapnpcParquet.buildAndLeave_field (H : Heap) (d : Option Nat) (F T : ASTNode)
    (nm : String) (pn : ParquetNode)
    (hch : F.children_ = [H.length + 1]) (hty : F.node_type_ = .FIELD)
    (hT1 : T.node_type_ = .TYPE) (hT2 : T.node_ = some pn)
    (hnm : convertCamelCase (targetName F) = some nm) :
    CapnpcParquet.buildAndLeave ⟨H ++ [F, T], d, some H.length⟩ =
      some (false, ⟨H ++ [(classify F).setNode (some (makeParquetNode (classify F) nm [pn])), T],
        d, F.parent_⟩) := by
  have hgF : Heap.get (H ++ [F, T]) H.length = some F := by
    rw [Heap.get_tail_zero]; rfl
  have hgT : Heap.get (H ++ [F, T]) (H.length + 1) = some T := by
    rw [Heap.get_tail_add]; rfl
  have hann : applyAnnotations (H ++ [F, T]) H.length = some (H ++ [F, T]) := by
    simp only [applyAnnotations, hgF, Option.bind_eq_bind, Option.some_bind, hch,
      List.foldlM_cons, List.foldlM_nil,
      applyAnnotationsStep_skip _ _ _ T hgT (by rw [hT1]; decide)]
    rfl
  have hgT2 : Heap.get ((H ++ [F, T]).set H.length (classify F)) (H.length + 1) = some T := by
    rw [Heap.set_tail_zero, Heap.get_tail_add]; rfl
  have hb := buildParquetNode_of (H ++ [F, T]) (H ++ [F, T]) H.length F [pn] nm hann hgF
    (by rw [hty]; decide)
    (by
      rw [hch]; intro i hi
      rw [List.mem_singleton] at hi
      subst hi
      exact ⟨T, hgT2, by rw [hT1]; decide⟩)
    (by
      rw [hch]
      have hne : (T.node_type_ != ASTNodeType.ANNOTATION) = true := by rw [hT1]; rfl
      simp only [collectChildren, hgT2, Option.bind_eq_bind, Option.some_bind, hT2, hne,
        if_true]
      rfl)
    (by rw [classify_targetName]; exact hnm)
  rw [Heap.set_tail_zero, List.set_cons_zero] at hb
  have hfin := CapnpcParquet.buildAndLeave_of (H ++ [F, T]) _ d H.length
    ((classify F).setNode (some (makeParquetNode (classify F) nm [pn]))) hb
    (by rw [Heap.get_tail_zero]; rfl)
  rw [hfin, (ASTNode.setNode_proj _ _).2.1, (classify_children F).2.2.1]


theorem classify_repetition (c : ASTNode) :
    (classify c).repetition_type_ = c.repetition_type_ ∧ (classify c).scale_ = c.scale_ := by
  unfold classify
  have h1 := applyLogicalType_ind c
    (fun x => x.repetition_type_ = c.repetition_type_ ∧ x.scale_ = c.scale_)
    ⟨rfl, rfl⟩ (fun _ => ⟨rfl, rfl⟩)
  have h2 := applyPhysicalType_ind (applyLogicalType c)
    (fun x => x.repetition_type_ = c.repetition_type_ ∧ x.scale_ = c.scale_)
    h1 (fun _ => h1) (fun _ _ => h1)
  exact applyParquetNodeType_ind (applyPhysicalType (applyLogicalType c))
    (fun x => x.repetition_type_ = c.repetition_type_ ∧ x.scale_ = c.scale_) h2 h2 h2

/-- The `Make` call on a classified node whose structural kind is primitive. -/
theorem makeParquetNode_classify_primitive (n : ASTNode) (nm : String)
    (kids : List ParquetNode)
    (hp : (applyParquetNodeType n).parquet_node_type_ = .PRIMITIVE) :
    makeParquetNode (classify n) nm kids =
      if n.is_decimal = true then
        .primitive nm n.repetition_type_ (applyPhysicalType n).physical_type_
          (applyLogicalType n).logical_type_ (-1) n.precision_ n.scale_
      else
        .primitive nm n.repetition_type_ (applyPhysicalType n).physical_type_
          (applyLogicalType n).logical_type_ (applyPhysicalType n).type_length_ (-1) (-1) := by
  have hv := classify_values n
  have hr := classify_repetition n
  have hs := hv.1
  unfold ASTNode.same_inputs at hs
  have hg : (classify n).is_parquet_group = false := by
    unfold ASTNode.is_parquet_group
    rw [hv.2.2.2.2, hp]
    rfl
  simp only [makeParquetNode, hg, Bool.false_eq_true, if_false, hs.2.2.1, hs.2.2.2.2.2.2.2.2.2.2.2.2.2.2.2,
    hr.1, hr.2, hv.2.1, hv.2.2.1, hv.2.2.2.1]

/-- The target node of a field of category UInt8 without any flag. -/
theorem makeParquetNode_uint8 (n : ASTNode) (nm : String) (kids : List ParquetNode)
    (hn : n.is_capnp_type = true) (hc : n.capnp_type_ = .UINT8)
    (hnf : n.has_override_flag = false) :
    makeParquetNode (classify n) nm kids =
      .primitive nm n.repetition_type_ .INT32 .UINT_8 n.type_length_ (-1) (-1) := by
  obtain ⟨f1, f2, f3, f4, f5, f6, f7, f8, f9, f10⟩ := has_override_flag_false hnf
  have hp : (applyParquetNodeType n).parquet_node_type_ = .PRIMITIVE := by
    rw [applyParquetNodeType_node_type]
    simp only [f1, f2, f3, f4, f5, f6, f7, f8, f9, f10, hn, hc, Bool.false_eq_true, if_false,
      if_true]
  rw [makeParquetNode_classify_primitive n nm kids hp, applyPhysicalType_physical_type,
    applyLogicalType_logical_type, applyPhysicalType_type_length]
  simp only [f1, f2, f3, f4, f5, f6, f7, f8, f9, f10, hn, hc, Bool.false_eq_true, if_false,
    if_true]


theorem CapnpcParquet.hooks_field :
    CapnpcParquet.hooks.pre_visit_struct_field = CapnpcParquet.pre_visit_struct_field ∧
    CapnpcParquet.hooks.pre_visit_struct_field_slot =
      CapnpcParquet.pre_visit_struct_field_slot ∧
    CapnpcParquet.hooks.post_visit_struct_field_slot = (fun _ _ _ => pure false) ∧
    CapnpcParquet.hooks.post_visit_struct_field = CapnpcParquet.post_visit_struct_field :=
  ⟨rfl, rfl, rfl, rfl⟩

theorem CapnpcParquet.hooks_ann :
    CapnpcParquet.hooks.pre_visit_annotations = (fun _ => pure false) ∧
    CapnpcParquet.hooks.post_visit_annotations = (fun _ => pure false) ∧
    CapnpcParquet.hooks.pre_visit_annotation = CapnpcParquet.pre_visit_annotation ∧
    CapnpcParquet.hooks.post_visit_annotation = CapnpcParquet.post_visit_annotation ∧
    CapnpcParquet.hooks.pre_visit_dynamic_value = CapnpcParquet.pre_visit_dynamic_value ∧
    CapnpcParquet.hooks.post_visit_dynamic_value = CapnpcParquet.post_visit_dynamic_value :=
  ⟨rfl, rfl, rfl, rfl, rfl, rfl⟩




theorem classify_payload (c : ASTNode) :
    (classify c).is_value = c.is_value ∧ (classify c).value_ = c.value_ ∧
    (classify c).is_decl = c.is_decl ∧ (classify c).capnp_type_ = c.capnp_type_ := by
  unfold classify
  have h1 := applyLogicalType_ind c
    (fun x => x.is_value = c.is_value ∧ x.value_ = c.value_ ∧
      x.is_decl = c.is_decl ∧ x.capnp_type_ = c.capnp_type_)
    ⟨rfl, rfl, rfl, rfl⟩ (fun _ => ⟨rfl, rfl, rfl, rfl⟩)
  have h2 := applyPhysicalType_ind (applyLogicalType c)
    (fun x => x.is_value = c.is_value ∧ x.value_ = c.value_ ∧
      x.is_decl = c.is_decl ∧ x.capnp_type_ = c.capnp_type_)
    h1 (fun _ => h1) (fun _ _ => h1)
  exact applyParquetNodeType_ind (applyPhysicalType (applyLogicalType c))
    (fun x => x.is_value = c.is_value ∧ x.value_ = c.value_ ∧
      x.is_decl = c.is_decl ∧ x.capnp_type_ = c.capnp_type_) h2 h2 h2

/-- The traversal of an `Int32` literal under an open node `q`: one VALUE node
holding the literal is appended to the heap as the last child of `q`, it gets a
target node, and `q` is open again. -/
theorem traverse_value_int32 (info : SchemaInfo) (v : Int) (snm : String) (h : Heap)
    (d : Option Nat) (q : Nat) (c : ASTNode)
    (hv : -(2 : Int) ^ 31 ≤ v ∧ v < (2 : Int) ^ 31)
    (hs : convertCamelCase info.shortDisplayName = some snm) (hc : h.get q = some c) :
    ∃ V : ASTNode,
      traverse_value CapnpcParquet.hooks info .INT32 (.INT32 v) ⟨h, d, some q⟩ =
        some (false, ⟨h.set q (c.push_back_child h.length) ++ [V], d, some q⟩) ∧
      V.node_type_ = .VALUE ∧ V.node_.isSome = true ∧ V.is_value = true ∧
      V.capnp_type_ = .INT32 ∧ V.value_.i32 = v := by
  have hlen : (h.set q (c.push_back_child h.length)).length = h.length := List.length_set _ _ _
  have hA := CapnpcParquet.attach_of_get h d q c
    (((ASTNode.new .VALUE info.shortDisplayName).setValueI32 v).setCapnpType .INT32) hc
  have hB := CapnpcParquet.buildAndLeave_leaf (h.set q (c.push_back_child h.length)) d
    ((((ASTNode.new .VALUE info.shortDisplayName).setValueI32 v).setCapnpType .INT32).setParent
      (some q)) snm rfl
    (by show ASTNodeType.VALUE ≠ ASTNodeType.FILE; decide) hs
  rw [hlen] at hB
  have hconv : DynamicValue.asInt 32 (.INT v) = some v := by
    simp only [DynamicValue.asInt]
    exact if_pos hv
  refine ⟨(classify ((((ASTNode.new .VALUE info.shortDisplayName).setValueI32 v).setCapnpType
      .INT32).setParent (some q))).setNode (some (makeParquetNode (classify
      ((((ASTNode.new .VALUE info.shortDisplayName).setValueI32 v).setCapnpType
      .INT32).setParent (some q))) snm [])), ?_, ?_, ?_, ?_, ?_, ?_⟩
  · simp only [traverse_value, traverse_dynamic_value, CapnpcParquet.hooks_ann,
      CapnpcParquet.pre_visit_dynamic_value, CapnpcParquet.post_visit_dynamic_value,
      CapnpcParquet.setDynamicValue, hconv,
      SchemaType.which, Step.bind_run, Step.pure_apply, hA, hB, Option.some_bind,
      Bool.false_eq_true, if_false, ASTNode.parent_setParent, Option.bind_eq_bind,
      Option.pure_def, Step.lift_some]
  · rw [(ASTNode.setNode_proj _ _).1, (classify_children _).2.1]; rfl
  · exact (ASTNode.setNode_proj _ _).2.2.1
  · rw [(ASTNode.setNode_proj _ _).2.2.2.2.2.2.2.1, (classify_payload _).1]; rfl
  · rw [(ASTNode.setNode_proj _ _).2.2.2.2.2.2.2.2.1, (classify_payload _).2.2.2]; rfl
  · rw [(ASTNode.setNode_proj _ _).2.2.2.2.2.2.2.2.2, (classify_payload _).2.1]; rfl


/-- The traversal of a `Void` literal under an open node `q`: one VALUE node is
appended to the heap as the last child of `q`, it gets a target node, and `q` is
open again. -/
theorem traverse_value_void (info : SchemaInfo) (snm : String) (h : Heap)
    (d : Option Nat) (q : Nat) (c : ASTNode)
    (hs : convertCamelCase info.shortDisplayName = some snm) (hc : h.get q = some c) :
    ∃ V : ASTNode,
      traverse_value CapnpcParquet.hooks info .VOID .VOID ⟨h, d, some q⟩ =
        some (false, ⟨h.set q (c.push_back_child h.length) ++ [V], d, some q⟩) ∧
      V.node_type_ = .VALUE ∧ V.node_.isSome = true := by
  have hlen : (h.set q (c.push_back_child h.length)).length = h.length := List.length_set _ _ _
  have hA := CapnpcParquet.attach_of_get h d q c
    ((ASTNode.new .VALUE info.shortDisplayName).setCapnpType .VOID) hc
  have hB := CapnpcParquet.buildAndLeave_leaf (h.set q (c.push_back_child h.length)) d
    (((ASTNode.new .VALUE info.shortDisplayName).setCapnpType .VOID).setParent
      (some q)) snm rfl
    (by show ASTNodeType.VALUE ≠ ASTNodeType.FILE; decide) hs
  rw [hlen] at hB
  refine ⟨(classify (((ASTNode.new .VALUE info.shortDisplayName).setCapnpType
      .VOID).setParent (some q))).setNode (some (makeParquetNode (classify
      (((ASTNode.new .VALUE info.shortDisplayName).setCapnpType
      .VOID).setParent (some q))) snm [])), ?_, ?_, ?_⟩
  · simp only [traverse_value, traverse_dynamic_value, CapnpcParquet.hooks_ann,
      CapnpcParquet.pre_visit_dynamic_value, CapnpcParquet.post_visit_dynamic_value,
      CapnpcParquet.setDynamicValue,
      SchemaType.which, Step.bind_run, Step.pure_apply, hA, hB, Option.some_bind,
      Bool.false_eq_true, if_false, ASTNode.parent_setParent, Option.bind_eq_bind,
      Option.pure_def, Step.lift_some]
  · rw [(ASTNode.setNode_proj _ _).1, (classify_children _).2.1]; rfl
  · exact (ASTNode.setNode_proj _ _).2.2.1




theorem CapnpcParquet.leave_tail (H : Heap) (d : Option Nat) (A : ASTNode) (t : List ASTNode) :
    CapnpcParquet.leave ⟨H ++ A :: t, d, some H.length⟩ =
      some ((), ⟨H ++ A :: t, d, A.parent_⟩) :=
  CapnpcParquet.leave_of_get _ d _ A (by rw [Heap.get_tail_zero, List.getElem?_cons_zero])

/-- The traversal of an applied annotation of declared type `Int32` under an
open node `q`: an ANNOTATION node named after the declaration and its VALUE
child holding the literal are appended to the heap, and `q` is open again. -/
theorem traverse_annotation_int32 (ann : AnnotationReader) (info : SchemaInfo) (v : Int)
    (snm : String) (h : Heap) (d : Option Nat) (q : Nat) (c : ASTNode)
    (hty : ann.declType = .INT32) (hval : ann.value = .INT32 v)
    (hv : -(2 : Int) ^ 31 ≤ v ∧ v < (2 : Int) ^ 31)
    (hs : convertCamelCase info.shortDisplayName = some snm) (hc : h.get q = some c) :
    ∃ A V : ASTNode,
      ( traverse_annotation CapnpcParquet.hooks ann info) ⟨h, d, some q⟩ =
        some (false, ⟨h.set q (c.push_back_child h.length) ++ [A, V], d, some q⟩) ∧
      (A.node_type_ = .ANNOTATION ∧ A.is_decl = false ∧ A.name_ = ann.declName ∧
        A.children_ = [h.length + 1] ∧ A.node_ = none) ∧
      (V.node_type_ = .VALUE ∧ V.node_.isSome = true ∧ V.is_value = true ∧
        V.capnp_type_ = .INT32 ∧ V.value_.i32 = v) := by
  have hlen : (h.set q (c.push_back_child h.length)).length = h.length := List.length_set _ _ _
  have hA := CapnpcParquet.attach_of_get h d q c
    ((ASTNode.new .ANNOTATION ann.declName).setNodeId ann.id) hc
  generalize h.set q (c.push_back_child h.length) = h1 at hlen hA ⊢
  rw [← hlen] at hA ⊢
  obtain ⟨V, hB, hV⟩ := traverse_value_int32 info v snm
    (h1 ++ [((ASTNode.new .ANNOTATION ann.declName).setNodeId ann.id).setParent (some q)])
    d h1.length _ hv hs (Heap.get_last h1 _ _ rfl)
  rw [Heap.set_last h1 _ _ _ rfl] at hB
  simp only [List.length_append, List.length_singleton, List.append_assoc,
    List.singleton_append] at hB
  have hC := CapnpcParquet.leave_tail h1 d
    ((((ASTNode.new .ANNOTATION ann.declName).setNodeId ann.id).setParent
      (some q)).push_back_child (h1.length + 1)) [V]
  refine ⟨(((ASTNode.new .ANNOTATION ann.declName).setNodeId ann.id).setParent
      (some q)).push_back_child (h1.length + 1), V, ?_, ⟨rfl, rfl, rfl, rfl, rfl⟩, hV⟩
  simp only [ traverse_annotation, CapnpcParquet.hooks_ann, CapnpcParquet.pre_visit_annotation,
    CapnpcParquet.post_visit_annotation, hty, hval, Step.bind_run, Step.pure_apply, hA, hB, hC,
    Option.some_bind, Bool.false_eq_true, if_false]
  rfl

/-- The traversal of an applied annotation of declared type `Void`. -/
theorem traverse_annotation_void (ann : AnnotationReader) (info : SchemaInfo)
    (snm : String) (h : Heap) (d : Option Nat) (q : Nat) (c : ASTNode)
    (hty : ann.declType = .VOID) (hval : ann.value = .VOID)
    (hs : convertCamelCase info.shortDisplayName = some snm) (hc : h.get q = some c) :
    ∃ A V : ASTNode,
      ( traverse_annotation CapnpcParquet.hooks ann info) ⟨h, d, some q⟩ =
        some (false, ⟨h.set q (c.push_back_child h.length) ++ [A, V], d, some q⟩) ∧
      (A.node_type_ = .ANNOTATION ∧ A.is_decl = false ∧ A.name_ = ann.declName ∧
        A.children_ = [h.length + 1] ∧ A.node_ = none) ∧
      (V.node_type_ = .VALUE ∧ V.node_.isSome = true) := by
  have hlen : (h.set q (c.push_back_child h.length)).length = h.length := List.length_set _ _ _
  have hA := CapnpcParquet.attach_of_get h d q c
    ((ASTNode.new .ANNOTATION ann.declName).setNodeId ann.id) hc
  generalize h.set q (c.push_back_child h.length) = h1 at hlen hA ⊢
  rw [← hlen] at hA ⊢
  obtain ⟨V, hB, hV⟩ := traverse_value_void info snm
    (h1 ++ [((ASTNode.new .ANNOTATION ann.declName).setNodeId ann.id).setParent (some q)])
    d h1.length _ hs (Heap.get_last h1 _ _ rfl)
  rw [Heap.set_last h1 _ _ _ rfl] at hB
  simp only [List.length_append, List.length_singleton, List.append_assoc,
    List.singleton_append] at hB
  have hC := CapnpcParquet.leave_tail h1 d
    ((((ASTNode.new .ANNOTATION ann.declName).setNodeId ann.id).setParent
      (some q)).push_back_child (h1.length + 1)) [V]
  refine ⟨(((ASTNode.new .ANNOTATION ann.declName).setNodeId ann.id).setParent
      (some q)).push_back_child (h1.length + 1), V, ?_, ⟨rfl, rfl, rfl, rfl, rfl⟩, hV⟩
  simp only [ traverse_annotation, CapnpcParquet.hooks_ann, CapnpcParquet.pre_visit_annotation,
    CapnpcParquet.post_visit_annotation, hty, hval, Step.bind_run, Step.pure_apply, hA, hB, hC,
    Option.some_bind, Bool.false_eq_true, if_false]
  rfl




/-- The value of an annotation node whose only child is an `Int32` VALUE node. -/
theorem getAnnotationValueI32_of (h : Heap) (a k : Nat) (A V : ASTNode)
    (hA : h.get a = some A) (hch : A.children_ = [k]) (hV : h.get k = some V)
    (hV1 : V.node_type_ = .VALUE ∧ V.node_.isSome = true ∧ V.is_value = true ∧
      V.capnp_type_ = .INT32) :
    getAnnotationValueI32 h a = some V.value_.i32 := by
  obtain ⟨h1, h2, h3, h4⟩ := hV1
  simp only [getAnnotationValueI32, hA, hch, hV, Option.bind_eq_bind, Option.some_bind,
    List.foldlM_cons, List.foldlM_nil, h1, h2, h3, beq_self_eq_true, Bool.and_self, if_true,
    annotationValueI32Of, h4, Option.pure_def]

theorem applyAnnotationsStep_precision (node : Nat) (h : Heap) (a : Nat) (A : ASTNode) (v : Int)
    (hA : h.get a = some A)
    (hA1 : A.node_type_ = .ANNOTATION ∧ A.is_decl = false ∧ A.name_ = "precision")
    (hv : getAnnotationValueI32 h a = some v) :
    applyAnnotationsStep node h a = h.update node (fun n => n.setPrecision v) := by
  obtain ⟨h1, h2, h3⟩ := hA1
  simp only [applyAnnotationsStep, hA, Option.bind_eq_bind, Option.some_bind, h1, h2, h3, hv,
    beq_self_eq_true, Bool.not_false, Bool.and_self, if_true, String.reduceBEq,
    Bool.false_eq_true, if_false]

theorem applyAnnotationsStep_scale (node : Nat) (h : Heap) (a : Nat) (A : ASTNode) (v : Int)
    (hA : h.get a = some A)
    (hA1 : A.node_type_ = .ANNOTATION ∧ A.is_decl = false ∧ A.name_ = "scale")
    (hv : getAnnotationValueI32 h a = some v) :
    applyAnnotationsStep node h a = h.update node (fun n => n.setScale v) := by
  obtain ⟨h1, h2, h3⟩ := hA1
  simp only [applyAnnotationsStep, hA, Option.bind_eq_bind, Option.some_bind, h1, h2, h3, hv,
    beq_self_eq_true, Bool.not_false, Bool.and_self, if_true, String.reduceBEq,
    Bool.false_eq_true, if_false]

theorem applyAnnotationsStep_decimal (node : Nat) (h : Heap) (a : Nat) (A : ASTNode)
    (hA : h.get a = some A)
    (hA1 : A.node_type_ = .ANNOTATION ∧ A.is_decl = false ∧ A.name_ = "decimal") :
    applyAnnotationsStep node h a = h.update node ASTNode.setIsDecimal := by
  obtain ⟨h1, h2, h3⟩ := hA1
  simp only [applyAnnotationsStep, hA, Option.bind_eq_bind, Option.some_bind, h1, h2, h3,
    beq_self_eq_true, Bool.not_false, Bool.and_self, if_true, String.reduceBEq,
    Bool.false_eq_true, if_false]


theorem Heap.update_tail_zero (H : Heap) (X : ASTNode) (t : List ASTNode)
    (f : ASTNode → ASTNode) :
    Heap.update (H ++ X :: t) H.length f = some (H ++ f X :: t) := by
  rw [Heap.update_of_get _ _ f X (by rw [Heap.get_tail_zero, List.getElem?_cons_zero]),
    Heap.set_tail_zero, List.set_cons_zero]

/-- The exit hook of a field whose children are its TYPE node and three
annotation nodes `precision`, `scale` and `decimal`, in this order, the first
two with an `Int32` VALUE child: the precision and the scale are read from the
VALUE children, and the field gets its target node. -/
theorem CapnpcParquet.buildAndLeave_decimal_field (H : Heap) (d : Option Nat)
    (F T A1 V1 A2 V2 A3 V3 : ASTNode) (nm : String) (pn : ParquetNode)
    (hF : F.children_ = [H.length + 1, H.length + 2, H.length + 4, H.length + 6])
    (hFt : F.node_type_ = .FIELD)
    (hT1 : T.node_type_ = .TYPE) (hT2 : T.node_ = some pn)
    (hA1 : A1.node_type_ = .ANNOTATION ∧ A1.is_decl = false ∧ A1.name_ = "precision" ∧
      A1.children_ = [H.length + 3] ∧ A1.node_ = none)
    (hV1 : V1.node_type_ = .VALUE ∧ V1.node_.isSome = true ∧ V1.is_value = true ∧
      V1.capnp_type_ = .INT32)
    (hA2 : A2.node_type_ = .ANNOTATION ∧ A2.is_decl = false ∧ A2.name_ = "scale" ∧
      A2.children_ = [H.length + 5] ∧ A2.node_ = none)
    (hV2 : V2.node_type_ = .VALUE ∧ V2.node_.isSome = true ∧ V2.is_value = true ∧
      V2.capnp_type_ = .INT32)
    (hA3 : A3.node_type_ = .ANNOTATION ∧ A3.is_decl = false ∧ A3.name_ = "decimal" ∧
      A3.node_ = none)
    (hnm : convertCamelCase (targetName F) = some nm) :
    CapnpcParquet.buildAndLeave ⟨H ++ [F, T, A1, V1, A2, V2, A3, V3], d, some H.length⟩ =
      some (false, ⟨H ++ [(classify (((F.setPrecision V1.value_.i32).setScale
          V2.value_.i32).setIsDecimal)).setNode (some (makeParquetNode
          (classify (((F.setPrecision V1.value_.i32).setScale V2.value_.i32).setIsDecimal))
          nm [pn])), T, A1, V1, A2, V2, A3, V3], d, F.parent_⟩) := by
  have g0 : ∀ X : ASTNode, Heap.get (H ++ [X, T, A1, V1, A2, V2, A3, V3]) H.length = some X :=
    fun X => by rw [Heap.get_tail_zero]; rfl
  have g1 : ∀ X : ASTNode,
      Heap.get (H ++ [X, T, A1, V1, A2, V2, A3, V3]) (H.length + 1) = some T :=
    fun X => by rw [Heap.get_tail_add]; rfl
  have g2 : ∀ X : ASTNode,
      Heap.get (H ++ [X, T, A1, V1, A2, V2, A3, V3]) (H.length + 2) = some A1 :=
    fun X => by rw [Heap.get_tail_add]; rfl
  have g3 : ∀ X : ASTNode,
      Heap.get (H ++ [X, T, A1, V1, A2, V2, A3, V3]) (H.length + 3) = some V1 :=
    fun X => by rw [Heap.get_tail_add]; rfl
  have g4 : ∀ X : ASTNode,
      Heap.get (H ++ [X, T, A1, V1, A2, V2, A3, V3]) (H.length + 4) = some A2 :=
    fun X => by rw [Heap.get_tail_add]; rfl
  have g5 : ∀ X : ASTNode,
      Heap.get (H ++ [X, T, A1, V1, A2, V2, A3, V3]) (H.length + 5) = some V2 :=
    fun X => by rw [Heap.get_tail_add]; rfl
  have g6 : ∀ X : ASTNode,
      Heap.get (H ++ [X, T, A1, V1, A2, V2, A3, V3]) (H.length + 6) = some A3 :=
    fun X => by rw [Heap.get_tail_add]; rfl
  have s1 := applyAnnotationsStep_skip H.length _ _ T (g1 F) (by rw [hT1]; decide)
  have s2 := applyAnnotationsStep_precision H.length _ _ A1 _ (g2 F)
    ⟨hA1.1, hA1.2.1, hA1.2.2.1⟩
    (getAnnotationValueI32_of _ _ _ A1 V1 (g2 F) hA1.2.2.2.1 (g3 F) hV1)
  rw [Heap.update_tail_zero] at s2
  have s3 := applyAnnotationsStep_scale H.length _ _ A2 _ (g4 (F.setPrecision V1.value_.i32))
    ⟨hA2.1, hA2.2.1, hA2.2.2.1⟩
    (getAnnotationValueI32_of _ _ _ A2 V2 (g4 _) hA2.2.2.2.1 (g5 _) hV2)
  rw [Heap.update_tail_zero] at s3
  have s4 := applyAnnotationsStep_decimal H.length _ _ A3
    (g6 ((F.setPrecision V1.value_.i32).setScale V2.value_.i32))
    ⟨hA3.1, hA3.2.1, hA3.2.2.1⟩
  rw [Heap.update_tail_zero] at s4
  have hann : applyAnnotations (H ++ [F, T, A1, V1, A2, V2, A3, V3]) H.length =
      some (H ++ [((F.setPrecision V1.value_.i32).setScale V2.value_.i32).setIsDecimal,
        T, A1, V1, A2, V2, A3, V3]) := by
    simp only [applyAnnotations, g0, Option.bind_eq_bind, Option.some_bind, hF,
      List.foldlM_cons, List.foldlM_nil, s1, s2, s3, s4]
    rfl
  have hset : ∀ X Y : ASTNode, (H ++ [X, T, A1, V1, A2, V2, A3, V3]).set H.length Y =
      H ++ [Y, T, A1, V1, A2, V2, A3, V3] :=
    fun X Y => by rw [Heap.set_tail_zero, List.set_cons_zero]
  have hch : (((F.setPrecision V1.value_.i32).setScale V2.value_.i32).setIsDecimal).children_ =
      [H.length + 1, H.length + 2, H.length + 4, H.length + 6] := hF
  have hb := buildParquetNode_of _ _ H.length
    (((F.setPrecision V1.value_.i32).setScale V2.value_.i32).setIsDecimal) [pn] nm hann (g0 _)
    (by show F.node_type_ ≠ ASTNodeType.FILE; rw [hFt]; decide)
    (by
      rw [hch, hset]
      intro i hi
      simp only [List.mem_cons, List.mem_singleton, List.not_mem_nil, or_false] at hi
      rcases hi with rfl | rfl | rfl | rfl
      · exact ⟨T, g1 _, by rw [hT1]; decide⟩
      · exact ⟨A1, g2 _, by rw [hA1.1]; decide⟩
      · exact ⟨A2, g4 _, by rw [hA2.1]; decide⟩
      · exact ⟨A3, g6 _, by rw [hA3.1]; decide⟩)
    (by
      rw [hch, hset]
      have hne : (T.node_type_ != ASTNodeType.ANNOTATION) = true := by rw [hT1]; rfl
      simp only [collectChildren, g1, g2, g4, g6, Option.bind_eq_bind, Option.some_bind, hT2,
        hA1.2.2.2.2, hA2.2.2.2.2, hA3.2.2.2, hne, if_true, Option.pure_def])
    (by rw [classify_targetName]; exact hnm)
  rw [hset] at hb
  have hfin := CapnpcParquet.buildAndLeave_of _ _ d H.length _ hb (g0 _)
  rw [hfin, (ASTNode.setNode_proj _ _).2.1, (classify_children _).2.2.1]
  rfl




/-- The target node of a decimal node whose precision is between 10 and 18. -/
theorem makeParquetNode_decimal64 (n : ASTNode) (nm : String) (kids : List ParquetNode)
    (hd : n.is_decimal = true) (hp1 : 10 ≤ n.precision_) (hp2 : n.precision_ ≤ 18) :
    makeParquetNode (classify n) nm kids =
      .primitive nm n.repetition_type_ .INT64 .DECIMAL (-1) n.precision_ n.scale_ := by
  have hp : (applyParquetNodeType n).parquet_node_type_ = .PRIMITIVE := by
    rw [applyParquetNodeType_node_type]
    simp only [hd, if_true]
  have h9 : ¬ n.precision_ ≤ 9 := by omega
  rw [makeParquetNode_classify_primitive n nm kids hp, applyPhysicalType_physical_type,
    applyLogicalType_logical_type]
  simp only [hd, if_true, h9, hp2, if_false]

/-- The entry hook of a field under an open node `p`. -/
theorem CapnpcParquet.pre_visit_struct_field_of (schema : StructSchema) (field : Field)
    (g : CapnpcParquet) (p : Nat) (P : ASTNode)
    (ho : g.openNode = some p) (hP : g.heap.get p = some P) :
    ∃ F0 : ASTNode,
      (∃ ord, F0 = (ASTNode.new .FIELD field.proto.name).setOrdinal ord ∨
        F0 = ASTNode.new .FIELD field.proto.name) ∧
      CapnpcParquet.pre_visit_struct_field schema field g = some (false,
          ⟨g.heap.set p (P.push_back_child g.heap.length) ++ [F0.setParent (some p)],
            g.document_, some g.heap.length⟩) := by
  cases hord : field.proto.ordinal with
  | none =>
    refine ⟨ASTNode.new .FIELD field.proto.name, ⟨0, Or.inr rfl⟩, ?_⟩
    simp only [CapnpcParquet.pre_visit_struct_field, hord, Step.bind_run,
      CapnpcParquet.attach_head g p P _ ho hP, Option.some_bind, Step.pure_apply]
  | some ord =>
    refine ⟨(ASTNode.new .FIELD field.proto.name).setOrdinal ord, ⟨ord, Or.inl rfl⟩, ?_⟩
    simp only [CapnpcParquet.pre_visit_struct_field, hord, Step.bind_run,
      CapnpcParquet.attach_head g p P _ ho hP, Option.some_bind, Step.pure_apply]




theorem convertCamelCase_isSome (s : String) (h : s.data ≠ []) :
    ∃ nm, convertCamelCase s = some nm := by
  unfold convertCamelCase
  cases hd : s.data with
  | nil => exact absurd hd h
  | cons c0 rest => exact ⟨_, rfl⟩

theorem convertCamelCase_typeNodeName (w : TypeWhich) :
    ∃ nm, convertCamelCase (CapnpcParquet.typeNodeName w) = some nm :=
  convertCamelCase_isSome _ (by cases w <;> decide)

/-- The traversal of a type without payload under an open node `q`: one TYPE
node is appended to the heap as the last child of `q`, it gets a target node,
and `q` is open again. -/
theorem traverse_type_plain (info : SchemaInfo) (ty : SchemaType) (h : Heap) (d : Option Nat)
    (q : Nat) (c : ASTNode)
    (hty : ty ∈ [SchemaType.VOID, .BOOL, .INT8, .INT16, .INT32, .INT64, .UINT8, .UINT16,
      .UINT32, .UINT64, .FLOAT32, .FLOAT64, .TEXT, .DATA])
    (hc : h.get q = some c) :
    ∃ T : ASTNode,
      traverse_type CapnpcParquet.hooks info ty ⟨h, d, some q⟩ =
        some (false, ⟨h.set q (c.push_back_child h.length) ++ [T], d, some q⟩) ∧
      T.node_type_ = .TYPE ∧ T.node_.isSome = true := by
  have hlen : (h.set q (c.push_back_child h.length)).length = h.length := List.length_set _ _ _
  obtain ⟨tnm, htnm⟩ := convertCamelCase_typeNodeName ty.which
  have hA := CapnpcParquet.attach_of_get h d q c
    ((ASTNode.new .TYPE (CapnpcParquet.typeNodeName ty.which)).setCapnpType ty.which) hc
  have hB := CapnpcParquet.buildAndLeave_leaf (h.set q (c.push_back_child h.length)) d
    (((ASTNode.new .TYPE (CapnpcParquet.typeNodeName ty.which)).setCapnpType ty.which).setParent
      (some q)) tnm rfl
    (by show ASTNodeType.TYPE ≠ ASTNodeType.FILE; decide) htnm
  rw [hlen, ASTNode.parent_setParent] at hB
  refine ⟨(classify (((ASTNode.new .TYPE (CapnpcParquet.typeNodeName ty.which)).setCapnpType
      ty.which).setParent (some q))).setNode (some (makeParquetNode (classify
      (((ASTNode.new .TYPE (CapnpcParquet.typeNodeName ty.which)).setCapnpType
      ty.which).setParent (some q))) tnm [])), ?_, ?_, ?_⟩
  · simp only [List.mem_cons, List.mem_singleton, List.not_mem_nil, or_false] at hty
    rcases hty with rfl | rfl | rfl | rfl | rfl | rfl | rfl | rfl | rfl | rfl | rfl | rfl |
      rfl | rfl <;>
    · simp only [SchemaType.which] at hA hB ⊢
      simp only [traverse_type, CapnpcParquet.hooks, CapnpcParquet.pre_visit_type,
        CapnpcParquet.post_visit_type, SchemaType.which, Step.bind_run,
        Step.pure_apply, hA, hB, Option.some_bind, Bool.false_eq_true, if_false]
  · rw [(ASTNode.setNode_proj _ _).1, (classify_children _).2.1]; rfl
  · exact (ASTNode.setNode_proj _ _).2.2.1


theorem ASTNode.push_back_child_proj (n : ASTNode) (k : Nat) :
    (n.push_back_child k).children_ = n.children_ ++ [k] ∧
    (n.push_back_child k).node_type_ = n.node_type_ ∧
    (n.push_back_child k).parent_ = n.parent_ ∧
    (n.push_back_child k).repetition_type_ = n.repetition_type_ ∧
    targetName (n.push_back_child k) = targetName n :=
  ⟨rfl, rfl, rfl, rfl, rfl⟩

theorem ASTNode.decimal_setters_proj (n : ASTNode) (pv sv : Int) :
    (((n.setPrecision pv).setScale sv).setIsDecimal).repetition_type_ = n.repetition_type_ ∧
    (((n.setPrecision pv).setScale sv).setIsDecimal).is_decimal = true ∧
    (((n.setPrecision pv).setScale sv).setIsDecimal).precision_ = pv ∧
    (((n.setPrecision pv).setScale sv).setIsDecimal).scale_ = sv ∧
    (((n.setPrecision pv).setScale sv).setIsDecimal).children_ = n.children_ :=
  ⟨rfl, rfl, rfl, rfl, rfl⟩




set_option maxHeartbeats 1000000 in
/-- The traversal of a slot field of a payload-free type that carries the
applied annotations `precision`, `scale` and `decimal`, in this order, under an
open node `p`: eight nodes are appended to the heap, the first of them the
field node. The field node is classified with the decimal flag set and with
the precision and the scale that the VALUE children of the annotation nodes
hold, and its target node is made from the classified node. -/
theorem decimal_field_traversal (g : CapnpcParquet) (p : Nat) (P : ASTNode)
    (schema : StructSchema) (name nm : String) (ordinal : Option Nat) (offset : Nat)
    (dflt : SchemaValue) (idp ids idd : Nat) (pv sv : Int) (ty : SchemaType)
    (ho : g.openNode = some p) (hP : g.heap.get p = some P)
    (hnm : convertCamelCase name = some nm)
    (hty : ty ∈ [SchemaType.VOID, .BOOL, .INT8, .INT16, .INT32, .INT64, .UINT8, .UINT16,
      .UINT32, .UINT64, .FLOAT32, .FLOAT64, .TEXT, .DATA])
    (hpv : -(2 : Int) ^ 31 ≤ pv ∧ pv < (2 : Int) ^ 31)
    (hsv : -(2 : Int) ^ 31 ≤ sv ∧ sv < (2 : Int) ^ 31) :
    ∃ (g1 : CapnpcParquet) (F : ASTNode) (pn : ParquetNode) (A1 V1 A2 V2 : ASTNode),
      traverse_struct_field CapnpcParquet.hooks schema
        (.SLOT { name := name, ordinal := ordinal, annotations := [
            { id := idp, declName := "precision", declType := .INT32, value := .INT32 pv },
            { id := ids, declName := "scale", declType := .INT32, value := .INT32 sv },
            { id := idd, declName := "decimal", declType := .VOID, value := .VOID }] }
          { offset := offset, type := ty, hadExplicitDefault := false,
            defaultValue := dflt }) g = some (false, g1) ∧
      g1.currentParent_ = some p ∧
      g1.heap.get g.heap.length =
        some ((classify F).setNode (some (makeParquetNode (classify F) nm [pn]))) ∧
      (F.repetition_type_ = .OPTIONAL ∧ F.is_decimal = true ∧ F.precision_ = pv ∧
        F.scale_ = sv ∧
        F.children_ = [g.heap.length + 1, g.heap.length + 2, g.heap.length + 4,
          g.heap.length + 6]) ∧
      (g1.heap.get (g.heap.length + 2) = some A1 ∧ A1.node_type_ = .ANNOTATION ∧
        A1.name_ = "precision" ∧ A1.children_ = [g.heap.length + 3] ∧
        g1.heap.get (g.heap.length + 3) = some V1 ∧ V1.node_type_ = .VALUE ∧
        V1.value_.i32 = pv ∧ getAnnotationValueI32 g1.heap (g.heap.length + 2) = some pv) ∧
      (g1.heap.get (g.heap.length + 4) = some A2 ∧ A2.node_type_ = .ANNOTATION ∧
        A2.name_ = "scale" ∧ A2.children_ = [g.heap.length + 5] ∧
        g1.heap.get (g.heap.length + 5) = some V2 ∧ V2.node_type_ = .VALUE ∧
        V2.value_.i32 = sv ∧ getAnnotationValueI32 g1.heap (g.heap.length + 4) = some sv) := by
  generalize hfield : Field.SLOT { name := name, ordinal := ordinal, annotations := [
            { id := idp, declName := "precision", declType := .INT32, value := .INT32 pv },
            { id := ids, declName := "scale", declType := .INT32, value := .INT32 sv },
            { id := idd, declName := "decimal", declType := .VOID, value := .VOID }] }
          { offset := offset, type := ty, hadExplicitDefault := false,
            defaultValue := dflt } = field
  obtain ⟨F0, hF0, hA⟩ := CapnpcParquet.pre_visit_struct_field_of schema field g p P ho hP
  have hfn : field.proto.name = name := by rw [← hfield]; rfl
  rw [hfn] at hF0
  generalize hH : g.heap.set p (P.push_back_child g.heap.length) = H at hA
  have hHlen : H.length = g.heap.length := by rw [← hH, List.length_set]
  rw [← hHlen] at hA ⊢
  -- the slot hook
  have hB := CapnpcParquet.pre_visit_struct_field_slot_of schema field
    { offset := offset, type := ty, hadExplicitDefault := false, defaultValue := dflt }
    (H ++ [F0.setParent (some p)]) g.document_ H.length _ (Heap.get_last H _ _ rfl) rfl
  rw [Heap.set_last H _ _ _ rfl] at hB
  -- the type
  obtain ⟨T, hC, hT1, hT2⟩ := traverse_type_plain schema.info ty
    (H ++ [((F0.setParent (some p)).setOffset offset).setCapnpType ty.which]) g.document_
    H.length _ hty (Heap.get_last H _ _ rfl)
  rw [Heap.set_last H _ _ _ rfl] at hC
  simp only [List.length_append, List.length_singleton, List.append_assoc,
    List.singleton_append] at hB hC
  obtain ⟨pn, hpn⟩ := Option.isSome_iff_exists.1 hT2
  have hF2 : ∀ X : ASTNode, X = ((((F0.setParent (some p)).setOffset offset).setCapnpType
      ty.which).push_back_child (H.length + 1)) →
      X.children_ = [H.length + 1] ∧ X.node_type_ = .FIELD ∧ X.parent_ = some p ∧
      convertCamelCase (targetName X) = some nm ∧ X.repetition_type_ = .OPTIONAL := by
    intro X hX
    subst hX
    rcases hF0 with ⟨ord, rfl | rfl⟩ <;> exact ⟨rfl, rfl, rfl, hnm, rfl⟩
  generalize ((((F0.setParent (some p)).setOffset offset).setCapnpType
      ty.which).push_back_child (H.length + 1)) = F2 at hC hF2
  obtain ⟨hF2ch, hF2ty, hF2par, hF2nm, hF2rep⟩ := hF2 F2 rfl
  clear hF2
  -- the three annotations
  obtain ⟨sp, hsp⟩ := convertCamelCase_isSome "precision" (by decide)
  obtain ⟨A1, V1, hD1, hA1, hV1⟩ := traverse_annotation_int32
    { id := idp, declName := "precision", declType := .INT32, value := .INT32 pv }
    (AnnotationReader.declSchema
      { id := idp, declName := "precision", declType := .INT32, value := .INT32 pv })
    pv sp (H ++ [F2, T]) g.document_ H.length F2 rfl rfl hpv hsp
    (by rw [Heap.get_tail_zero]; rfl)
  simp only [Heap.set_tail_zero, List.set_cons_zero, List.length_append, List.length_cons,
    List.length_nil, List.append_assoc, List.cons_append, List.nil_append, Nat.zero_add,
    Nat.reduceAdd, Nat.add_assoc] at hD1 hA1
  obtain ⟨ss, hss⟩ := convertCamelCase_isSome "scale" (by decide)
  obtain ⟨A2, V2, hD2, hA2, hV2⟩ := traverse_annotation_int32
    { id := ids, declName := "scale", declType := .INT32, value := .INT32 sv }
    (AnnotationReader.declSchema
      { id := ids, declName := "scale", declType := .INT32, value := .INT32 sv })
    sv ss (H ++ [F2.push_back_child (H.length + 2), T, A1, V1]) g.document_ H.length
    (F2.push_back_child (H.length + 2)) rfl rfl hsv hss
    (by rw [Heap.get_tail_zero]; rfl)
  simp only [Heap.set_tail_zero, List.set_cons_zero, List.length_append, List.length_cons,
    List.length_nil, List.append_assoc, List.cons_append, List.nil_append, Nat.zero_add,
    Nat.reduceAdd, Nat.add_assoc] at hD2 hA2
  obtain ⟨sd, hsd⟩ := convertCamelCase_isSome "decimal" (by decide)
  obtain ⟨A3, V3, hD3, hA3, hV3⟩ := traverse_annotation_void
    { id := idd, declName := "decimal", declType := .VOID, value := .VOID }
    (AnnotationReader.declSchema
      { id := idd, declName := "decimal", declType := .VOID, value := .VOID }) sd
    (H ++ [(F2.push_back_child (H.length + 2)).push_back_child (H.length + 4), T, A1, V1,
      A2, V2]) g.document_
    H.length ((F2.push_back_child (H.length + 2)).push_back_child (H.length + 4)) rfl rfl hsd
    (by rw [Heap.get_tail_zero]; rfl)
  simp only [Heap.set_tail_zero, List.set_cons_zero, List.length_append, List.length_cons,
    List.length_nil, List.append_assoc, List.cons_append, List.nil_append, Nat.zero_add,
    Nat.reduceAdd, Nat.add_assoc] at hD3 hA3
  have hF5 : ∀ X : ASTNode, X = ((F2.push_back_child (H.length + 2)).push_back_child
      (H.length + 4)).push_back_child (H.length + 6) →
      X.children_ = [H.length + 1, H.length + 2, H.length + 4, H.length + 6] ∧
      X.node_type_ = .FIELD ∧ X.parent_ = some p ∧
      convertCamelCase (targetName X) = some nm ∧ X.repetition_type_ = .OPTIONAL := by
    intro X hX
    subst hX
    simp only [ASTNode.push_back_child_proj, hF2ch, hF2ty, hF2par, hF2nm, hF2rep,
      List.cons_append, List.nil_append, and_self]
  generalize ((F2.push_back_child (H.length + 2)).push_back_child
      (H.length + 4)).push_back_child (H.length + 6) = F5 at hD3 hF5
  obtain ⟨hF5ch, hF5ty, hF5par, hF5nm, hF5rep⟩ := hF5 F5 rfl
  clear hF5
  have hE := CapnpcParquet.buildAndLeave_decimal_field H g.document_
    F5 T A1 V1 A2 V2 A3 V3 nm pn
    hF5ch hF5ty hT1 hpn hA1 ⟨hV1.1, hV1.2.1, hV1.2.2.1, hV1.2.2.2.1⟩
    hA2 ⟨hV2.1, hV2.2.1, hV2.2.2.1, hV2.2.2.2.1⟩ ⟨hA3.1, hA3.2.1, hA3.2.2.1, hA3.2.2.2.2⟩ hF5nm
  rw [hV1.2.2.2.2, hV2.2.2.2.2] at hE
  rw [hF5par] at hE
  obtain ⟨m1, m2, m3, m4, m5⟩ := ASTNode.decimal_setters_proj F5 pv sv
  rw [hF5rep] at m1
  rw [hF5ch] at m5
  generalize ((F5.setPrecision pv).setScale sv).setIsDecimal = F6 at hE m1 m2 m3 m4 m5
  subst hfield
  have hG : traverse_struct_field CapnpcParquet.hooks schema
        (.SLOT { name := name, ordinal := ordinal, annotations := [
            { id := idp, declName := "precision", declType := .INT32, value := .INT32 pv },
            { id := ids, declName := "scale", declType := .INT32, value := .INT32 sv },
            { id := idd, declName := "decimal", declType := .VOID, value := .VOID }] }
          { offset := offset, type := ty, hadExplicitDefault := false,
            defaultValue := dflt }) g = some (false,
      ⟨H ++ [(classify F6).setNode (some (makeParquetNode (classify F6) nm [pn])),
        T, A1, V1, A2, V2, A3, V3], g.document_, some p⟩) := by
    simp only [traverse_struct_field, CapnpcParquet.hooks_field, CapnpcParquet.hooks_ann,
      Step.bind_run, hA, hB, hC, hD1, hD2, hD3, hE,
      Option.some_bind, Bool.false_eq_true, if_false, Step.pure_apply, traverse_annotations,
      traverse_annotations_loop, List.length_cons, List.length_nil, Nat.zero_add, Nat.reduceAdd,
      Nat.reduceBEq, CapnpcParquet.post_visit_struct_field]
  generalize hF7 : (classify F6).setNode (some (makeParquetNode (classify F6) nm [pn])) = F7 at hG
  have k3 : Heap.get (H ++ [F7, T, A1, V1, A2, V2, A3, V3]) (H.length + 3) = some V1 := by
    rw [Heap.get_tail_add]; rfl
  have k2 : Heap.get (H ++ [F7, T, A1, V1, A2, V2, A3, V3]) (H.length + 2) = some A1 := by
    rw [Heap.get_tail_add]; rfl
  have k5 : Heap.get (H ++ [F7, T, A1, V1, A2, V2, A3, V3]) (H.length + 5) = some V2 := by
    rw [Heap.get_tail_add]; rfl
  have k4 : Heap.get (H ++ [F7, T, A1, V1, A2, V2, A3, V3]) (H.length + 4) = some A2 := by
    rw [Heap.get_tail_add]; rfl
  have k0 : Heap.get (H ++ [F7, T, A1, V1, A2, V2, A3, V3]) H.length = some F7 := by
    rw [Heap.get_tail_zero]; rfl
  have v1 := (getAnnotationValueI32_of _ _ _ A1 V1 k2 hA1.2.2.2.1 k3
    ⟨hV1.1, hV1.2.1, hV1.2.2.1, hV1.2.2.2.1⟩).trans (congrArg some hV1.2.2.2.2)
  have v2 := (getAnnotationValueI32_of _ _ _ A2 V2 k4 hA2.2.2.2.1 k5
    ⟨hV2.1, hV2.2.1, hV2.2.2.1, hV2.2.2.2.1⟩).trans (congrArg some hV2.2.2.2.2)
  have k0b : Heap.get (H ++ [F7, T, A1, V1, A2, V2, A3, V3]) H.length =
      some ((classify F6).setNode (some (makeParquetNode (classify F6) nm [pn]))) := by
    rw [k0, hF7]
  exact ⟨⟨H ++ [F7, T, A1, V1, A2, V2, A3, V3], g.document_, some p⟩, F6, pn, A1, V1, A2, V2,
    hG, rfl, k0b, ⟨m1, m2, m3, m4, m5⟩,
    ⟨k2, hA1.1, hA1.2.2.1, hA1.2.2.2.1, k3, hV1.1, hV1.2.2.2.2, v1⟩,
    ⟨k4, hA2.1, hA2.2.2.1, hA2.2.2.2.1, k5, hV2.1, hV2.2.2.2.2, v2⟩⟩

/-- The target node of a decimal node whose precision is above 18: the length
argument of the `Make` call is the literal `-1`. -/
theorem makeParquetNode_decimal_fixed (n : ASTNode) (nm : String) (kids : List ParquetNode)
    (hd : n.is_decimal = true) (hp : 18 < n.precision_) :
    makeParquetNode (classify n) nm kids =
      .primitive nm n.repetition_type_ .FIXED_LEN_BYTE_ARRAY .DECIMAL (-1) n.precision_
        n.scale_ ∧
    (classify n).physical_type_ = .FIXED_LEN_BYTE_ARRAY ∧
    (classify n).type_length_ = (minBytesForPrecision n.precision_.toNat : Int) := by
  have hp0 : (applyParquetNodeType n).parquet_node_type_ = .PRIMITIVE := by
    rw [applyParquetNodeType_node_type]
    simp only [hd, if_true]
  have h9 : ¬ n.precision_ ≤ 9 := by omega
  have h18 : ¬ n.precision_ ≤ 18 := by omega
  have hv := classify_values n
  refine ⟨?_, ?_, ?_⟩
  · rw [makeParquetNode_classify_primitive n nm kids hp0, applyPhysicalType_physical_type,
      applyLogicalType_logical_type]
    simp only [hd, if_true, h9, h18, if_false]
  · rw [hv.2.2.1, applyPhysicalType_physical_type]
    simp only [hd, if_true, h9, h18, if_false]
  · rw [hv.2.2.2.1, applyPhysicalType_type_length]
    simp only [hd, if_true, h9, h18, if_false]

theorem ASTNode.setNode_frame (n : ASTNode) (v : Option ParquetNode) :
    (n.setNode v).physical_type_ = n.physical_type_ ∧
    (n.setNode v).type_length_ = n.type_length_ ∧
    (n.setNode v).logical_type_ = n.logical_type_ ∧
    (n.setNode v).is_decimal = n.is_decimal ∧
    (n.setNode v).precision_ = n.precision_ ∧
    (n.setNode v).scale_ = n.scale_ ∧
    (n.setNode v).node_type_ = n.node_type_ ∧
    (n.setNode v).name_ = n.name_ ∧
    (n.setNode v).node_ = v :=
  ⟨rfl, rfl, rfl, rfl, rfl, rfl, rfl, rfl, rfl⟩

/-- C10. A slot field of declared type Int64, without an explicit default
value, that carries the applied annotations `precision`, `scale` (both declared
with an `Int32` value) and `decimal`, in this order, traversed under any open
node `p`: the traversal returns, and the field node gets a primitive target
node named after the field, with physical slot INT64 and logical tag DECIMAL,
that carries the precision and the scale. Both integers are what
`getAnnotationValueI32` reads from the VALUE child of the annotation node, which
is a child of the field node. It holds for every precision from 10 to 18, in
particular for precision 10 and scale 2. -/
theorem C10_decimal_field (g : CapnpcParquet) (p : Nat) (P : ASTNode)
    (schema : StructSchema) (name nm : String) (ordinal : Option Nat) (offset : Nat)
    (dflt : SchemaValue) (idp ids idd : Nat) (pv sv : Int)
    (ho : g.openNode = some p) (hP : g.heap.get p = some P)
    (hnm : convertCamelCase name = some nm)
    (hpv : 10 ≤ pv ∧ pv ≤ 18) (hsv : -(2 : Int) ^ 31 ≤ sv ∧ sv < (2 : Int) ^ 31) :
    ∃ (g1 : CapnpcParquet)
      (fieldNode precisionNode precisionValue scaleNode scaleValue : ASTNode),
      traverse_struct_field CapnpcParquet.hooks schema
        (.SLOT { name := name, ordinal := ordinal, annotations := [
            { id := idp, declName := "precision", declType := .INT32, value := .INT32 pv },
            { id := ids, declName := "scale", declType := .INT32, value := .INT32 sv },
            { id := idd, declName := "decimal", declType := .VOID, value := .VOID }] }
          { offset := offset, type := .INT64, hadExplicitDefault := false,
            defaultValue := dflt }) g = some (false, g1) ∧
      g1.currentParent_ = some p ∧
      g1.heap.get g.heap.length = some fieldNode ∧
      fieldNode.node_ = some (.primitive nm .OPTIONAL .INT64 .DECIMAL (-1) pv sv) ∧
      (fieldNode.precision_ = pv ∧ fieldNode.scale_ = sv ∧
        fieldNode.children_ = [g.heap.length + 1, g.heap.length + 2, g.heap.length + 4,
          g.heap.length + 6]) ∧
      (g1.heap.get (g.heap.length + 2) = some precisionNode ∧
        precisionNode.node_type_ = .ANNOTATION ∧ precisionNode.name_ = "precision" ∧
        precisionNode.children_ = [g.heap.length + 3] ∧
        g1.heap.get (g.heap.length + 3) = some precisionValue ∧
        precisionValue.node_type_ = .VALUE ∧ precisionValue.value_.i32 = pv ∧
        getAnnotationValueI32 g1.heap (g.heap.length + 2) = some pv) ∧
      (g1.heap.get (g.heap.length + 4) = some scaleNode ∧
        scaleNode.node_type_ = .ANNOTATION ∧ scaleNode.name_ = "scale" ∧
        scaleNode.children_ = [g.heap.length + 5] ∧
        g1.heap.get (g.heap.length + 5) = some scaleValue ∧
        scaleValue.node_type_ = .VALUE ∧ scaleValue.value_.i32 = sv ∧
        getAnnotationValueI32 g1.heap (g.heap.length + 4) = some sv) := by
  obtain ⟨g1, F, pn, A1, V1, A2, V2, h1, h2, h3, ⟨f1, f2, f3, f4, f5⟩, h5, h6⟩ :=
    decimal_field_traversal g p P schema name nm ordinal offset dflt idp ids idd pv sv
      .INT64 ho hP hnm (by decide) (by constructor <;> omega) hsv
  have hmk := makeParquetNode_decimal64 F nm [pn] f2 (by rw [f3]; exact hpv.1)
    (by rw [f3]; exact hpv.2)
  rw [f1, f3, f4] at hmk
  rw [hmk] at h3
  have hs1 := (classify_values F).1
  unfold ASTNode.same_inputs at hs1
  obtain ⟨e1, e2, e3, e4, e5, e6, e7, e8, e9⟩ := ASTNode.setNode_frame (classify F)
    (some (.primitive nm .OPTIONAL .INT64 .DECIMAL (-1) pv sv))
  have e10 := (ASTNode.setNode_proj (classify F)
    (.primitive nm .OPTIONAL .INT64 .DECIMAL (-1) pv sv)).2.2.2.2.1
  exact ⟨g1, _, A1, V1, A2, V2, h1, h2, h3, e9,
    ⟨e5.trans (hs1.2.2.2.2.2.2.2.2.2.2.2.2.2.2.2.trans f3),
      e6.trans ((classify_repetition F).2.trans f4),
      e10.trans ((classify_children F).1.trans f5)⟩, h5, h6⟩

/-- C4. A slot field that carries the applied annotations `precision`, `scale`
and `decimal` with a precision above 18, traversed under any open node: the
field node is classified as a fixed-length byte array whose recorded length is
`minBytesForPrecision`, and its target node carries the precision and the
scale, but the length of the target node is `-1`, not the recorded length. -/
theorem C4_decimal_length_not_passed (g : CapnpcParquet) (p : Nat) (P : ASTNode)
    (schema : StructSchema) (name nm : String) (ordinal : Option Nat) (offset : Nat)
    (dflt : SchemaValue) (idp ids idd : Nat) (pv sv : Int) (ty : SchemaType)
    (ho : g.openNode = some p) (hP : g.heap.get p = some P)
    (hnm : convertCamelCase name = some nm)
    (hty : ty ∈ [SchemaType.VOID, .BOOL, .INT8, .INT16, .INT32, .INT64, .UINT8, .UINT16,
      .UINT32, .UINT64, .FLOAT32, .FLOAT64, .TEXT, .DATA])
    (hpv : 18 < pv ∧ pv < (2 : Int) ^ 31)
    (hsv : -(2 : Int) ^ 31 ≤ sv ∧ sv < (2 : Int) ^ 31) :
    ∃ (g1 : CapnpcParquet) (fieldNode : ASTNode),
      traverse_struct_field CapnpcParquet.hooks schema
        (.SLOT { name := name, ordinal := ordinal, annotations := [
            { id := idp, declName := "precision", declType := .INT32, value := .INT32 pv },
            { id := ids, declName := "scale", declType := .INT32, value := .INT32 sv },
            { id := idd, declName := "decimal", declType := .VOID, value := .VOID }] }
          { offset := offset, type := ty, hadExplicitDefault := false,
            defaultValue := dflt }) g = some (false, g1) ∧
      g1.heap.get g.heap.length = some fieldNode ∧
      fieldNode.is_decimal = true ∧ fieldNode.precision_ = pv ∧
      fieldNode.physical_type_ = .FIXED_LEN_BYTE_ARRAY ∧
      fieldNode.type_length_ = (minBytesForPrecision pv.toNat : Int) ∧
      fieldNode.node_ =
        some (.primitive nm .OPTIONAL .FIXED_LEN_BYTE_ARRAY .DECIMAL (-1) pv sv) ∧
      fieldNode.node_.bind ParquetNode.type_length = some (-1) ∧
      (-1 : Int) ≠ (minBytesForPrecision pv.toNat : Int) := by
  obtain ⟨g1, F, pn, A1, V1, A2, V2, h1, h2, h3, ⟨f1, f2, f3, f4, f5⟩, h5, h6⟩ :=
    decimal_field_traversal g p P schema name nm ordinal offset dflt idp ids idd pv sv
      ty ho hP hnm hty (by constructor <;> omega) hsv
  obtain ⟨hmk, hph, hlen⟩ := makeParquetNode_decimal_fixed F nm [pn] f2
    (by rw [f3]; exact hpv.1)
  rw [f1, f3, f4] at hmk
  rw [f3] at hlen
  rw [hmk] at h3
  have hs1 := (classify_values F).1
  unfold ASTNode.same_inputs at hs1
  obtain ⟨e1, e2, e3, e4, e5, e6, e7, e8, e9⟩ := ASTNode.setNode_frame (classify F)
    (some (.primitive nm .OPTIONAL .FIXED_LEN_BYTE_ARRAY .DECIMAL (-1) pv sv))
  refine ⟨g1, _, h1, h3, ?_, ?_, ?_, ?_, e9, ?_, by omega⟩
  · rw [e4, hs1.2.2.1, f2]
  · rw [e5, hs1.2.2.2.2.2.2.2.2.2.2.2.2.2.2.2, f3]
  · rw [e1, hph]
  · rw [e2, hlen]
  · rw [e9]; rfl


/-- The traversal of a `UInt8` literal under an open node `q`: one VALUE node
is appended to the heap as the last child of `q`, it gets a target node, and
`q` is open again. -/
theorem traverse_value_uint8 (info : SchemaInfo) (v : Nat) (snm : String) (h : Heap)
    (d : Option Nat) (q : Nat) (c : ASTNode) (hv : v < 2 ^ 8)
    (hs : convertCamelCase info.shortDisplayName = some snm) (hc : h.get q = some c) :
    ∃ V : ASTNode,
      traverse_value CapnpcParquet.hooks info .UINT8 (.UINT8 v) ⟨h, d, some q⟩ =
        some (false, ⟨h.set q (c.push_back_child h.length) ++ [V], d, some q⟩) ∧
      V.node_type_ = .VALUE ∧ V.node_.isSome = true := by
  have hlen : (h.set q (c.push_back_child h.length)).length = h.length := List.length_set _ _ _
  have hA := CapnpcParquet.attach_of_get h d q c
    (((ASTNode.new .VALUE info.shortDisplayName).setValueUI8 v).setCapnpType .UINT8) hc
  have hB := CapnpcParquet.buildAndLeave_leaf (h.set q (c.push_back_child h.length)) d
    ((((ASTNode.new .VALUE info.shortDisplayName).setValueUI8 v).setCapnpType .UINT8).setParent
      (some q)) snm rfl
    (by show ASTNodeType.VALUE ≠ ASTNodeType.FILE; decide) hs
  rw [hlen] at hB
  have hconv : DynamicValue.asUInt 8 (.UINT v) = some v := by
    simp only [DynamicValue.asUInt]
    exact if_pos hv
  refine ⟨(classify ((((ASTNode.new .VALUE info.shortDisplayName).setValueUI8 v).setCapnpType
      .UINT8).setParent (some q))).setNode (some (makeParquetNode (classify
      ((((ASTNode.new .VALUE info.shortDisplayName).setValueUI8 v).setCapnpType
      .UINT8).setParent (some q))) snm [])), ?_, ?_, ?_⟩
  · simp only [traverse_value, traverse_dynamic_value, CapnpcParquet.hooks_ann,
      CapnpcParquet.pre_visit_dynamic_value, CapnpcParquet.post_visit_dynamic_value,
      CapnpcParquet.setDynamicValue, hconv,
      SchemaType.which, Step.bind_run, Step.pure_apply, hA, hB, Option.some_bind,
      Bool.false_eq_true, if_false, ASTNode.parent_setParent, Option.bind_eq_bind,
      Option.pure_def, Step.lift_some]
  · rw [(ASTNode.setNode_proj _ _).1, (classify_children _).2.1]; rfl
  · exact (ASTNode.setNode_proj _ _).2.2.1

/-- The slot hook on a slot with an explicit default value. -/
theorem CapnpcParquet.pre_visit_struct_field_slot_default (schema : StructSchema)
    (field : Field) (slot : Slot) (h : Heap) (d : Option Nat) (q : Nat) (c : ASTNode)
    (hc : h.get q = some c) (hd : slot.hadExplicitDefault = true) :
    CapnpcParquet.pre_visit_struct_field_slot schema field slot ⟨h, d, some q⟩ =
      some (false, ⟨h.set q (((c.setOffset slot.offset).setHadDefaultValue).setCapnpType
        slot.type.which), d, some q⟩) := by
  have hu := Heap.update_of_get h q (fun n =>
    let n := n.setOffset slot.offset
    let n := if slot.hadExplicitDefault then n.setHadDefaultValue else n
    n.setCapnpType slot.type.which) c hc
  simp only [hd, if_true] at hu
  simp only [CapnpcParquet.pre_visit_struct_field_slot, bind, StateT.bind, get, getThe,
    MonadStateOf.get, StateT.get, pure, StateT.pure, set, StateT.set, liftM, monadLift,
    MonadLift.monadLift, StateT.lift, Option.bind, hd, if_true, hu]

theorem CapnpcParquet.hooks_default :
    CapnpcParquet.hooks.pre_visit_struct_default_value = (fun _ _ => pure false) ∧
    CapnpcParquet.hooks.post_visit_struct_default_value = (fun _ _ => pure false) :=
  ⟨rfl, rfl⟩

/-- The exit hook of a field whose children are its TYPE node and the VALUE
node of its default value. -/
theorem CapnpcParquet.buildAndLeave_field_default (H : Heap) (d : Option Nat)
    (F T V : ASTNode) (nm : String) (pn pv : ParquetNode)
    (hch : F.children_ = [H.length + 1, H.length + 2]) (hty : F.node_type_ = .FIELD)
    (hT1 : T.node_type_ = .TYPE) (hT2 : T.node_ = some pn)
    (hV1 : V.node_type_ = .VALUE) (hV2 : V.node_ = some pv)
    (hnm : convertCamelCase (targetName F) = some nm) :
    CapnpcParquet.buildAndLeave ⟨H ++ [F, T, V], d, some H.length⟩ =
      some (false, ⟨H ++ [(classify F).setNode (some (makeParquetNode (classify F) nm
        [pn, pv])), T, V], d, F.parent_⟩) := by
  have g0 : ∀ X : ASTNode, Heap.get (H ++ [X, T, V]) H.length = some X :=
    fun X => by rw [Heap.get_tail_zero]; rfl
  have g1 : ∀ X : ASTNode, Heap.get (H ++ [X, T, V]) (H.length + 1) = some T :=
    fun X => by rw [Heap.get_tail_add]; rfl
  have g2 : ∀ X : ASTNode, Heap.get (H ++ [X, T, V]) (H.length + 2) = some V :=
    fun X => by rw [Heap.get_tail_add]; rfl
  have hset : ∀ X Y : ASTNode, (H ++ [X, T, V]).set H.length Y = H ++ [Y, T, V] :=
    fun X Y => by rw [Heap.set_tail_zero, List.set_cons_zero]
  have hann : applyAnnotations (H ++ [F, T, V]) H.length = some (H ++ [F, T, V]) := by
    simp only [applyAnnotations, g0, Option.bind_eq_bind, Option.some_bind, hch,
      List.foldlM_cons, List.foldlM_nil,
      applyAnnotationsStep_skip _ _ _ T (g1 F) (by rw [hT1]; decide),
      applyAnnotationsStep_skip _ _ _ V (g2 F) (by rw [hV1]; decide)]
    rfl
  have hb := buildParquetNode_of _ _ H.length F [pn, pv] nm hann (g0 F)
    (by rw [hty]; decide)
    (by
      rw [hch, hset]
      intro i hi
      simp only [List.mem_cons, List.mem_singleton, List.not_mem_nil, or_false] at hi
      rcases hi with rfl | rfl
      · exact ⟨T, g1 _, by rw [hT1]; decide⟩
      · exact ⟨V, g2 _, by rw [hV1]; decide⟩)
    (by
      rw [hch, hset]
      have hne : (T.node_type_ != ASTNodeType.ANNOTATION) = true := by rw [hT1]; rfl
      have hne2 : (V.node_type_ != ASTNodeType.ANNOTATION) = true := by rw [hV1]; rfl
      simp only [collectChildren, g1, g2, Option.bind_eq_bind, Option.some_bind, hT2, hV2,
        hne, hne2, if_true, Option.pure_def])
    (by rw [classify_targetName]; exact hnm)
  rw [hset] at hb
  have hfin := CapnpcParquet.buildAndLeave_of _ _ d H.length _ hb (g0 _)
  rw [hfin, (ASTNode.setNode_proj _ _).2.1, (classify_children _).2.2.1]


/-- A slot field of declared type UInt8 without annotations and without an
explicit default value, traversed under an open node `p`. -/
theorem uint8_field_plain (g : CapnpcParquet) (p : Nat) (P : ASTNode)
    (schema : StructSchema) (name nm : String) (ordinal : Option Nat) (offset : Nat)
    (dflt : SchemaValue)
    (ho : g.openNode = some p) (hP : g.heap.get p = some P)
    (hnm : convertCamelCase name = some nm) :
    ∃ (g1 : CapnpcParquet) (fieldNode : ASTNode),
      traverse_struct_field CapnpcParquet.hooks schema
        (.SLOT { name := name, ordinal := ordinal, annotations := [] }
          { offset := offset, type := .UINT8, hadExplicitDefault := false,
            defaultValue := dflt }) g = some (false, g1) ∧
      g1.currentParent_ = some p ∧
      g1.heap.get g.heap.length = some fieldNode ∧
      fieldNode.node_type_ = .FIELD ∧ fieldNode.name_ = name ∧
      fieldNode.node_ = some (.primitive nm .OPTIONAL .INT32 .UINT_8 (-1) (-1) (-1)) := by
  generalize hfield : Field.SLOT { name := name, ordinal := ordinal, annotations := [] }
          { offset := offset, type := .UINT8, hadExplicitDefault := false,
            defaultValue := dflt } = field
  obtain ⟨F0, hF0, hA⟩ := CapnpcParquet.pre_visit_struct_field_of schema field g p P ho hP
  have hfn : field.proto.name = name := by rw [← hfield]; rfl
  rw [hfn] at hF0
  generalize hH : g.heap.set p (P.push_back_child g.heap.length) = H at hA
  have hHlen : H.length = g.heap.length := by rw [← hH, List.length_set]
  rw [← hHlen] at hA ⊢
  have hB := CapnpcParquet.pre_visit_struct_field_slot_of schema field
    { offset := offset, type := .UINT8, hadExplicitDefault := false, defaultValue := dflt }
    (H ++ [F0.setParent (some p)]) g.document_ H.length _ (Heap.get_last H _ _ rfl) rfl
  rw [Heap.set_last H _ _ _ rfl] at hB
  obtain ⟨T, hC, hT1, hT2⟩ := traverse_type_plain schema.info .UINT8
    (H ++ [((F0.setParent (some p)).setOffset offset).setCapnpType .UINT8]) g.document_
    H.length _ (by decide) (Heap.get_last H _ _ rfl)
  rw [Heap.set_last H _ _ _ rfl] at hC
  simp only [List.length_append, List.length_singleton, SchemaType.which, List.append_assoc,
    List.singleton_append] at hB hC
  obtain ⟨pn, hpn⟩ := Option.isSome_iff_exists.1 hT2
  have hF2 : ∀ X : ASTNode, X = ((((F0.setParent (some p)).setOffset offset).setCapnpType
      .UINT8).push_back_child (H.length + 1)) →
      X.children_ = [H.length + 1] ∧ X.node_type_ = .FIELD ∧ X.parent_ = some p ∧
      convertCamelCase (targetName X) = some nm ∧ X.name_ = name ∧
      makeParquetNode (classify X) nm [pn] =
        .primitive nm .OPTIONAL .INT32 .UINT_8 (-1) (-1) (-1) := by
    intro X hX
    subst hX
    rcases hF0 with ⟨ord, rfl | rfl⟩ <;>
      exact ⟨rfl, rfl, rfl, hnm, rfl, makeParquetNode_uint8 _ nm [pn] rfl rfl rfl⟩
  generalize ((((F0.setParent (some p)).setOffset offset).setCapnpType
      .UINT8).push_back_child (H.length + 1)) = F2 at hC hF2
  obtain ⟨hch, hty, hpar, hnm2, hname, hmk⟩ := hF2 F2 rfl
  clear hF2
  have hD := CapnpcParquet.buildAndLeave_field H g.document_ F2 T nm pn hch hty hT1 hpn hnm2
  rw [hpar, hmk] at hD
  subst hfield
  have hE : traverse_struct_field CapnpcParquet.hooks schema
        (.SLOT { name := name, ordinal := ordinal, annotations := [] }
          { offset := offset, type := .UINT8, hadExplicitDefault := false,
            defaultValue := dflt }) g = some (false,
      ⟨H ++ [(classify F2).setNode
        (some (.primitive nm .OPTIONAL .INT32 .UINT_8 (-1) (-1) (-1))), T], g.document_,
        some p⟩) := by
    simp only [traverse_struct_field, CapnpcParquet.hooks_field, Step.bind_run, hA, hB, hC, hD,
      Option.some_bind, Bool.false_eq_true, if_false, Step.pure_apply, traverse_annotations,
      List.length_nil, beq_self_eq_true, if_true, CapnpcParquet.post_visit_struct_field]
  obtain ⟨e1, e2, e3, e4, e5, e6, e7, e8, e9⟩ := ASTNode.setNode_frame (classify F2)
    (some (.primitive nm .OPTIONAL .INT32 .UINT_8 (-1) (-1) (-1)))
  have hk := classify_children F2
  exact ⟨_, _, hE, rfl, Heap.get_tail_zero _ _, e7.trans (hk.2.1.trans hty),
    e8.trans (hk.2.2.2.trans hname), e9⟩


/-- A slot field of declared type UInt8 without annotations and with an explicit
default value, traversed under an open node `p`. -/
theorem uint8_field_default (g : CapnpcParquet) (p : Nat) (P : ASTNode)
    (schema : StructSchema) (name nm : String) (ordinal : Option Nat) (offset : Nat)
    (v : Nat) (snm : String)
    (ho : g.openNode = some p) (hP : g.heap.get p = some P)
    (hnm : convertCamelCase name = some nm) (hv : v < 2 ^ 8)
    (hs : convertCamelCase schema.info.shortDisplayName = some snm) :
    ∃ (g1 : CapnpcParquet) (fieldNode : ASTNode),
      traverse_struct_field CapnpcParquet.hooks schema
        (.SLOT { name := name, ordinal := ordinal, annotations := [] }
          { offset := offset, type := .UINT8, hadExplicitDefault := true,
            defaultValue := .UINT8 v }) g = some (false, g1) ∧
      g1.currentParent_ = some p ∧
      g1.heap.get g.heap.length = some fieldNode ∧
      fieldNode.node_type_ = .FIELD ∧ fieldNode.name_ = name ∧
      fieldNode.node_ = some (.primitive nm .OPTIONAL .INT32 .UINT_8 (-1) (-1) (-1)) := by
  generalize hfield : Field.SLOT { name := name, ordinal := ordinal, annotations := [] }
          { offset := offset, type := .UINT8, hadExplicitDefault := true,
            defaultValue := .UINT8 v } = field
  obtain ⟨F0, hF0, hA⟩ := CapnpcParquet.pre_visit_struct_field_of schema field g p P ho hP
  have hfn : field.proto.name = name := by rw [← hfield]; rfl
  rw [hfn] at hF0
  generalize hH : g.heap.set p (P.push_back_child g.heap.length) = H at hA
  have hHlen : H.length = g.heap.length := by rw [← hH, List.length_set]
  rw [← hHlen] at hA ⊢
  have hB := CapnpcParquet.pre_visit_struct_field_slot_default schema field
    { offset := offset, type := .UINT8, hadExplicitDefault := true, defaultValue := .UINT8 v }
    (H ++ [F0.setParent (some p)]) g.document_ H.length _ (Heap.get_last H _ _ rfl) rfl
  rw [Heap.set_last H _ _ _ rfl] at hB
  obtain ⟨T, hC, hT1, hT2⟩ := traverse_type_plain schema.info .UINT8
    (H ++ [(((F0.setParent (some p)).setOffset offset).setHadDefaultValue).setCapnpType
      .UINT8]) g.document_ H.length _ (by decide) (Heap.get_last H _ _ rfl)
  rw [Heap.set_last H _ _ _ rfl] at hC
  simp only [List.length_append, List.length_singleton, SchemaType.which, List.append_assoc,
    List.singleton_append] at hB hC
  obtain ⟨pn, hpn⟩ := Option.isSome_iff_exists.1 hT2
  obtain ⟨V, hV, hV1, hV2⟩ := traverse_value_uint8 schema.info v snm
    (H ++ [((((F0.setParent (some p)).setOffset offset).setHadDefaultValue).setCapnpType
      .UINT8).push_back_child (H.length + 1), T]) g.document_ H.length
    (((((F0.setParent (some p)).setOffset offset).setHadDefaultValue).setCapnpType
      .UINT8).push_back_child (H.length + 1)) hv hs (by rw [Heap.get_tail_zero]; rfl)
  simp only [Heap.set_tail_zero, List.set_cons_zero, List.length_append, List.length_cons,
    List.length_nil, List.append_assoc, List.cons_append, List.nil_append, Nat.zero_add,
    Nat.reduceAdd, Nat.add_assoc] at hV
  obtain ⟨pv, hpv⟩ := Option.isSome_iff_exists.1 hV2
  have hF2 : ∀ X : ASTNode, X = ((((((F0.setParent (some p)).setOffset
      offset).setHadDefaultValue).setCapnpType .UINT8).push_back_child
      (H.length + 1)).push_back_child (H.length + 2)) →
      X.children_ = [H.length + 1, H.length + 2] ∧ X.node_type_ = .FIELD ∧
      X.parent_ = some p ∧
      convertCamelCase (targetName X) = some nm ∧ X.name_ = name ∧
      makeParquetNode (classify X) nm [pn, pv] =
        .primitive nm .OPTIONAL .INT32 .UINT_8 (-1) (-1) (-1) := by
    intro X hX
    subst hX
    rcases hF0 with ⟨ord, rfl | rfl⟩ <;>
      exact ⟨rfl, rfl, rfl, hnm, rfl, makeParquetNode_uint8 _ nm [pn, pv] rfl rfl rfl⟩
  generalize ((((((F0.setParent (some p)).setOffset
      offset).setHadDefaultValue).setCapnpType .UINT8).push_back_child
      (H.length + 1)).push_back_child (H.length + 2)) = F2 at hV hF2
  obtain ⟨hch, hty, hpar, hnm2, hname, hmk⟩ := hF2 F2 rfl
  clear hF2
  have hD := CapnpcParquet.buildAndLeave_field_default H g.document_ F2 T V nm pn pv hch hty
    hT1 hpn hV1 hpv hnm2
  rw [hpar, hmk] at hD
  subst hfield
  have hE : traverse_struct_field CapnpcParquet.hooks schema
        (.SLOT { name := name, ordinal := ordinal, annotations := [] }
          { offset := offset, type := .UINT8, hadExplicitDefault := true,
            defaultValue := .UINT8 v }) g = some (false,
      ⟨H ++ [(classify F2).setNode
        (some (.primitive nm .OPTIONAL .INT32 .UINT_8 (-1) (-1) (-1))), T, V], g.document_,
        some p⟩) := by
    simp only [traverse_struct_field, CapnpcParquet.hooks_field, CapnpcParquet.hooks_default,
      Step.bind_run, hA, hB, hC, hV, hD,
      Option.some_bind, Bool.false_eq_true, if_false, Step.pure_apply, traverse_annotations,
      List.length_nil, beq_self_eq_true, if_true, CapnpcParquet.post_visit_struct_field]
  obtain ⟨e1, e2, e3, e4, e5, e6, e7, e8, e9⟩ := ASTNode.setNode_frame (classify F2)
    (some (.primitive nm .OPTIONAL .INT32 .UINT_8 (-1) (-1) (-1)))
  have hk := classify_children F2
  exact ⟨_, _, hE, rfl, Heap.get_tail_zero _ _, e7.trans (hk.2.1.trans hty),
    e8.trans (hk.2.2.2.trans hname), e9⟩

/-- C9. A slot field of declared type UInt8 without annotations, traversed
under any open node `p`; when the field has an explicit default value, the
value is a `UInt8` literal. The traversal returns, `p` is open again, and the
field node, finalized by the field exit hook, has a primitive target node named
after the field (the field name in lower case with underscores), with
repetition OPTIONAL, physical slot INT32 and logical tag UINT_8. -/
theorem C9_uint8_slot_field (g : CapnpcParquet) (p : Nat) (P : ASTNode)
    (schema : StructSchema) (name nm : String) (ordinal : Option Nat) (offset : Nat)
    (hadDefault : Bool) (dflt : SchemaValue)
    (ho : g.openNode = some p) (hP : g.heap.get p = some P)
    (hnm : convertCamelCase name = some nm)
    (hdflt : hadDefault = true → ∃ v snm, dflt = SchemaValue.UINT8 v ∧ v < 2 ^ 8 ∧
      convertCamelCase schema.info.shortDisplayName = some snm) :
    ∃ (g1 : CapnpcParquet) (fieldNode : ASTNode),
      traverse_struct_field CapnpcParquet.hooks schema
        (.SLOT { name := name, ordinal := ordinal, annotations := [] }
          { offset := offset, type := .UINT8, hadExplicitDefault := hadDefault,
            defaultValue := dflt }) g = some (false, g1) ∧
      g1.currentParent_ = some p ∧
      g1.heap.get g.heap.length = some fieldNode ∧
      fieldNode.node_type_ = .FIELD ∧ fieldNode.name_ = name ∧
      fieldNode.node_ = some (.primitive nm .OPTIONAL .INT32 .UINT_8 (-1) (-1) (-1)) := by
  cases hadDefault with
  | false => exact uint8_field_plain g p P schema name nm ordinal offset dflt ho hP hnm
  | true =>
    obtain ⟨v, snm, rfl, hv, hs⟩ := hdflt rfl
    exact uint8_field_default g p P schema name nm ordinal offset v snm ho hP hnm hv hs

/-- Witness of C9: the field `age @0 :UInt8` of the example struct. -/
theorem C9_uint8_slot_field_witness :
    ∃ (g1 : CapnpcParquet) (fieldNode : ASTNode),
      traverse_struct_field CapnpcParquet.hooks exampleStruct
        (.SLOT { name := "age", ordinal := some 0, annotations := [] }
          { offset := 0, type := .UINT8, hadExplicitDefault := false,
            defaultValue := .UINT8 0 }) exampleContext = some (false, g1) ∧
      g1.currentParent_ = some 0 ∧
      g1.heap.get exampleContext.heap.length = some fieldNode ∧
      fieldNode.node_type_ = .FIELD ∧ fieldNode.name_ = "age" ∧
      fieldNode.node_ = some (.primitive "age" .OPTIONAL .INT32 .UINT_8 (-1) (-1) (-1)) :=
  C9_uint8_slot_field exampleContext 0 (((ASTNode.new .STRUCT "Person").setIsDecl).setCapnpType
    .STRUCT) exampleStruct "age" "age" (some 0) 0 false (.UINT8 0) rfl rfl (by decide)
    (fun h => absurd h (by decide))

/-- Witness of C10: the field `price @1 :Int64 $precision(10) $scale(2) $decimal`
of the example struct. -/
theorem C10_decimal_field_witness :
    ∃ (g1 : CapnpcParquet)
      (fieldNode precisionNode precisionValue scaleNode scaleValue : ASTNode),
      traverse_struct_field CapnpcParquet.hooks exampleStruct
        (.SLOT { name := "price", ordinal := some 1, annotations := [
            { id := 11, declName := "precision", declType := .INT32, value := .INT32 10 },
            { id := 12, declName := "scale", declType := .INT32, value := .INT32 2 },
            { id := 13, declName := "decimal", declType := .VOID, value := .VOID }] }
          { offset := 1, type := .INT64, hadExplicitDefault := false,
            defaultValue := .INT64 0 }) exampleContext = some (false, g1) ∧
      g1.currentParent_ = some 0 ∧
      g1.heap.get exampleContext.heap.length = some fieldNode ∧
      fieldNode.node_ = some (.primitive "price" .OPTIONAL .INT64 .DECIMAL (-1) 10 2) ∧
      (fieldNode.precision_ = 10 ∧ fieldNode.scale_ = 2 ∧
        fieldNode.children_ = [exampleContext.heap.length + 1,
          exampleContext.heap.length + 2, exampleContext.heap.length + 4,
          exampleContext.heap.length + 6]) ∧
      (g1.heap.get (exampleContext.heap.length + 2) = some precisionNode ∧
        precisionNode.node_type_ = .ANNOTATION ∧ precisionNode.name_ = "precision" ∧
        precisionNode.children_ = [exampleContext.heap.length + 3] ∧
        g1.heap.get (exampleContext.heap.length + 3) = some precisionValue ∧
        precisionValue.node_type_ = .VALUE ∧ precisionValue.value_.i32 = 10 ∧
        getAnnotationValueI32 g1.heap (exampleContext.heap.length + 2) = some 10) ∧
      (g1.heap.get (exampleContext.heap.length + 4) = some scaleNode ∧
        scaleNode.node_type_ = .ANNOTATION ∧ scaleNode.name_ = "scale" ∧
        scaleNode.children_ = [exampleContext.heap.length + 5] ∧
        g1.heap.get (exampleContext.heap.length + 5) = some scaleValue ∧
        scaleValue.node_type_ = .VALUE ∧ scaleValue.value_.i32 = 2 ∧
        getAnnotationValueI32 g1.heap (exampleContext.heap.length + 4) = some 2) :=
  C10_decimal_field exampleContext 0 (((ASTNode.new .STRUCT "Person").setIsDecl).setCapnpType
    .STRUCT) exampleStruct "price" "price" (some 1) 1 (.INT64 0) 11 12 13 10 2
    rfl rfl (by decide) (by decide) (by decide)

/-- Witness of C4: the field `amount @2 :Data $precision(20) $scale(2) $decimal`
of the example struct. -/
theorem C4_decimal_length_not_passed_witness :
    ∃ (g1 : CapnpcParquet) (fieldNode : ASTNode),
      traverse_struct_field CapnpcParquet.hooks exampleStruct
        (.SLOT { name := "amount", ordinal := some 2, annotations := [
            { id := 11, declName := "precision", declType := .INT32, value := .INT32 20 },
            { id := 12, declName := "scale", declType := .INT32, value := .INT32 2 },
            { id := 13, declName := "decimal", declType := .VOID, value := .VOID }] }
          { offset := 0, type := .DATA, hadExplicitDefault := false,
            defaultValue := .DATA [] }) exampleContext = some (false, g1) ∧
      g1.heap.get exampleContext.heap.length = some fieldNode ∧
      fieldNode.is_decimal = true ∧ fieldNode.precision_ = 20 ∧
      fieldNode.physical_type_ = .FIXED_LEN_BYTE_ARRAY ∧
      fieldNode.type_length_ = (minBytesForPrecision (20 : Int).toNat : Int) ∧
      fieldNode.node_ =
        some (.primitive "amount" .OPTIONAL .FIXED_LEN_BYTE_ARRAY .DECIMAL (-1) 20 2) ∧
      fieldNode.node_.bind ParquetNode.type_length = some (-1) ∧
      (-1 : Int) ≠ (minBytesForPrecision (20 : Int).toNat : Int) :=
  C4_decimal_length_not_passed exampleContext 0
    (((ASTNode.new .STRUCT "Person").setIsDecl).setCapnpType .STRUCT) exampleStruct
    "amount" "amount" (some 2) 0 (.DATA []) 11 12 13 20 2 .DATA
    rfl rfl (by decide) (by decide) (by decide) (by decide)

/-! ## Witnesses of the classification theorems -/

/-- Witness of C1 at the example `UInt8` field node and `UInt8` TYPE node. -/
theorem C1_scalar_table_witness :
    exampleScalarNode.is_capnp_type = true ∧ exampleScalarNode.has_override_flag = false ∧
    classifiedPair exampleScalarNode = (.UINT_8, .INT32) ∧
    classifiedPair exampleTypeNode = classifiedPair exampleScalarNode :=
  ⟨rfl, rfl,
    (C1_scalar_table exampleScalarNode exampleTypeNode rfl rfl).2.2.2.2.2.1 rfl,
    (C1_scalar_table exampleScalarNode exampleTypeNode rfl rfl).2.2.2.2.2.2.2.2.2.2.2.2.2
      rfl rfl rfl (by decide) (by decide) (by decide) (by decide)⟩

/-- Witness of C2 at the example decimal node of precision 20. -/
theorem C2_decimal_physical_witness :
    exampleDecimalNode.is_decimal = true ∧
    (applyPhysicalType exampleDecimalNode).physical_type_ = .FIXED_LEN_BYTE_ARRAY ∧
    (applyPhysicalType exampleDecimalNode).type_length_ =
      minBytesForPrecision exampleDecimalNode.precision_.toNat :=
  ⟨rfl, (C2_decimal_physical exampleDecimalNode rfl).2.2 (by decide)⟩

/-- Witness of C5 at the example interval node. -/
theorem C5_flag_physical_witness :
    exampleIntervalNode.is_decimal = false ∧
    (applyPhysicalType exampleIntervalNode).physical_type_ = .FIXED_LEN_BYTE_ARRAY ∧
    (applyPhysicalType exampleIntervalNode).type_length_ = 12 :=
  ⟨rfl, (C5_flag_physical exampleIntervalNode rfl).2.2.2.2.2.2.2.1
    rfl rfl rfl rfl rfl rfl rfl rfl⟩

/-- Witness of C6 at the example struct node. -/
theorem C6_node_type_witness :
    exampleStructNode.parquet_node_type_ = .PRIMITIVE ∧
    (applyParquetNodeType exampleStructNode).parquet_node_type_ = .GROUP :=
  ⟨rfl, (C6_node_type exampleStructNode rfl).1.2 ⟨rfl, Or.inr rfl, rfl⟩⟩

theorem applyAnnotationsStep_other (node : Nat) (h : Heap) (c : Nat) (child : ASTNode)
    (hc : h.get c = some child)
    (hn : child.is_decl = true ∨ child.node_type_ ≠ .ANNOTATION) :
    applyAnnotationsStep node h c = some h := by
  have hb : (!child.is_decl && child.node_type_ == ASTNodeType.ANNOTATION) = false := by
    rcases hn with hd | hn
    · rw [hd]; rfl
    · have : (child.node_type_ == ASTNodeType.ANNOTATION) = false := by
        cases hx : child.node_type_ <;> first | rfl | exact absurd hx hn
      rw [this, Bool.and_false]
  simp only [applyAnnotationsStep, hc, Option.bind_eq_bind, Option.some_bind, hb,
    Bool.false_eq_true, if_false]
  rfl

theorem applyAnnotationsStep_unrecognized (node : Nat) (h : Heap) (c : Nat) (child : ASTNode)
    (hc : h.get c = some child)
    (hname : child.name_ ∉ recognizedAnnotations) :
    applyAnnotationsStep node h c = some h := by
  simp only [recognizedAnnotations, List.mem_cons, List.mem_singleton, List.not_mem_nil,
    or_false, not_or] at hname
  obtain ⟨n1, n2, n3, n4, n5, n6, n7, n8, n9, n10, n11, n12, n13, n14, n15, n16, n17, n18,
    n19, n20⟩ := hname
  simp only [applyAnnotationsStep, hc, Option.bind_eq_bind, Option.some_bind,
    beq_eq_false_iff_ne.2 n1, beq_eq_false_iff_ne.2 n2, beq_eq_false_iff_ne.2 n3,
    beq_eq_false_iff_ne.2 n4, beq_eq_false_iff_ne.2 n5, beq_eq_false_iff_ne.2 n6,
    beq_eq_false_iff_ne.2 n7, beq_eq_false_iff_ne.2 n8, beq_eq_false_iff_ne.2 n9,
    beq_eq_false_iff_ne.2 n10, beq_eq_false_iff_ne.2 n11, beq_eq_false_iff_ne.2 n12,
    beq_eq_false_iff_ne.2 n13, beq_eq_false_iff_ne.2 n14, beq_eq_false_iff_ne.2 n15,
    beq_eq_false_iff_ne.2 n16, beq_eq_false_iff_ne.2 n17, beq_eq_false_iff_ne.2 n18,
    beq_eq_false_iff_ne.2 n19, beq_eq_false_iff_ne.2 n20, Bool.false_eq_true, if_false,
    ite_self]
  rfl

/-- The loop body of `applyAnnotations` on an applied annotation child with a
recognized name. -/
theorem applyAnnotationsStep_recognized (node : Nat) (h : Heap) (c : Nat) (child : ASTNode)
    (hc : h.get c = some child)
    (hd : child.is_decl = false) (hn : child.node_type_ = .ANNOTATION) :
    (child.name_ = "schema" → applyAnnotationsStep node h c =
      (getAnnotationValueTEXT h c).bind (fun v => h.update node (fun n => n.setSchemaName v))) ∧
    (child.name_ = "required" → applyAnnotationsStep node h c =
      h.update node ASTNode.setIsRequired) ∧
    (child.name_ = "optional" → applyAnnotationsStep node h c =
      h.update node ASTNode.setIsOptional) ∧
    (child.name_ = "repeated" → applyAnnotationsStep node h c =
      h.update node ASTNode.setIsRepeated) ∧
    (child.name_ = "length" → applyAnnotationsStep node h c =
      (getAnnotationValueI32 h c).bind (fun v => h.update node (fun n => n.setTypeLength v))) ∧
    (child.name_ = "scale" → applyAnnotationsStep node h c =
      (getAnnotationValueI32 h c).bind (fun v => h.update node (fun n => n.setScale v))) ∧
    (child.name_ = "precision" → applyAnnotationsStep node h c =
      (getAnnotationValueI32 h c).bind (fun v => h.update node (fun n => n.setPrecision v))) ∧
    (child.name_ = "decimal" → applyAnnotationsStep node h c =
      h.update node ASTNode.setIsDecimal) ∧
    (child.name_ = "date" → applyAnnotationsStep node h c =
      h.update node ASTNode.setIsDate) ∧
    (child.name_ = "timeMillis" → applyAnnotationsStep node h c =
      h.update node ASTNode.setIsTimeMillis) ∧
    (child.name_ = "timeMicros" → applyAnnotationsStep node h c =
      h.update node ASTNode.setIsTimeMicros) ∧
    (child.name_ = "timestampMillis" → applyAnnotationsStep node h c =
      h.update node ASTNode.setIsTimestampMillis) ∧
    (child.name_ = "timestampMicros" → applyAnnotationsStep node h c =
      h.update node ASTNode.setIsTimestampMicros) ∧
    (child.name_ = "bson" → applyAnnotationsStep node h c =
      h.update node ASTNode.setIsBson) ∧
    (child.name_ = "json" → applyAnnotationsStep node h c =
      h.update node ASTNode.setIsJson) ∧
    (child.name_ = "interval" → applyAnnotationsStep node h c =
      h.update node ASTNode.setIsInterval) ∧
    (child.name_ = "fixed" → applyAnnotationsStep node h c =
      h.update node ASTNode.setIsFixedLenByteArray) ∧
    (child.name_ = "map" → applyAnnotationsStep node h c =
      h.update node ASTNode.setIsMap) ∧
    (child.name_ = "mapKeyValue" → applyAnnotationsStep node h c =
      h.update node ASTNode.setIsMapKeyValue) ∧
    (child.name_ = "list" → applyAnnotationsStep node h c =
      h.update node ASTNode.setIsList) := by
  refine ⟨?_, ?_, ?_, ?_, ?_, ?_, ?_, ?_, ?_, ?_, ?_, ?_, ?_, ?_, ?_, ?_, ?_, ?_, ?_, ?_⟩ <;>
  · intro hname
    simp only [applyAnnotationsStep, hc, Option.bind_eq_bind, Option.some_bind, hd, hn, hname,
      beq_self_eq_true, Bool.not_false, Bool.and_self, if_true, String.reduceBEq,
      Bool.false_eq_true, if_false]



theorem ASTNode.same_identity_refl (a : ASTNode) : a.same_identity a :=
  ⟨rfl, rfl, rfl, rfl, rfl, rfl, rfl, rfl, rfl, rfl, rfl, rfl, rfl, rfl, rfl⟩

theorem ASTNode.same_identity_trans {a b c : ASTNode} (h1 : a.same_identity b)
    (h2 : b.same_identity c) : a.same_identity c := by
  unfold ASTNode.same_identity at *
  obtain ⟨a1, a2, a3, a4, a5, a6, a7, a8, a9, a10, a11, a12, a13, a14, a15⟩ := h1
  obtain ⟨b1, b2, b3, b4, b5, b6, b7, b8, b9, b10, b11, b12, b13, b14, b15⟩ := h2
  exact ⟨a1.trans b1, a2.trans b2, a3.trans b3, a4.trans b4, a5.trans b5, a6.trans b6,
    a7.trans b7, a8.trans b8, a9.trans b9, a10.trans b10, a11.trans b11, a12.trans b12,
    a13.trans b13, a14.trans b14, a15.trans b15⟩

theorem Heap.update_eq_some (h h1 : Heap) (q : Nat) (f : ASTNode → ASTNode) (n : ASTNode)
    (hn : h.get q = some n) (hu : h.update q f = some h1) : h1 = h.set q (f n) := by
  rw [Heap.update_of_get h q f n hn] at hu
  exact (Option.some.inj hu).symm

theorem Heap.set_get_self (h : Heap) (q : Nat) (n : ASTNode) (hn : h.get q = some n) :
    h.set q n = h := by
  unfold Heap.get at hn
  apply List.ext_getElem?
  intro i
  by_cases hi : q = i
  · subst hi
    rw [List.getElem?_set_self (List.getElem?_eq_some_iff.1 hn).1, hn]
  · rw [List.getElem?_set_ne hi]

/-- Case analysis on the loop body of `applyAnnotations`: it leaves the heap as
it is, or applies a setter that keeps the identity of the node, possibly with
a value read from the annotation's children, or fails on a dangling pointer. -/
theorem applyAnnotationsStep_ind (node : Nat) (h : Heap) (c : Nat)
    (P : Option Heap → Prop) (h0 : P none) (hk : P (some h))
    (hf : ∀ f : ASTNode → ASTNode, (∀ n, (f n).same_identity n) → P (h.update node f))
    (hI : ∀ (o : Option Int) (f : Int → ASTNode → ASTNode),
      (∀ v n, (f v n).same_identity n) → P (o.bind (fun v => h.update node (f v))))
    (hS : ∀ (o : Option String) (f : String → ASTNode → ASTNode),
      (∀ v n, (f v n).same_identity n) → P (o.bind (fun v => h.update node (f v)))) :
    P (applyAnnotationsStep node h c) := by
  unfold applyAnnotationsStep
  cases hc : h.get c with
  | none => exact h0
  | some child =>
    simp only [Option.bind_eq_bind, Option.some_bind, Option.pure_def]
    repeat' apply ite_induction
    all_goals first
      | exact hk
      | exact hf _ (fun n =>
          ⟨rfl, rfl, rfl, rfl, rfl, rfl, rfl, rfl, rfl, rfl, rfl, rfl, rfl, rfl, rfl⟩)
      | exact hI _ (fun v n => n.setTypeLength v) (fun v n =>
          ⟨rfl, rfl, rfl, rfl, rfl, rfl, rfl, rfl, rfl, rfl, rfl, rfl, rfl, rfl, rfl⟩)
      | exact hI _ (fun v n => n.setScale v) (fun v n =>
          ⟨rfl, rfl, rfl, rfl, rfl, rfl, rfl, rfl, rfl, rfl, rfl, rfl, rfl, rfl, rfl⟩)
      | exact hI _ (fun v n => n.setPrecision v) (fun v n =>
          ⟨rfl, rfl, rfl, rfl, rfl, rfl, rfl, rfl, rfl, rfl, rfl, rfl, rfl, rfl, rfl⟩)
      | exact hS _ (fun v n => n.setSchemaName v) (fun v n =>
          ⟨rfl, rfl, rfl, rfl, rfl, rfl, rfl, rfl, rfl, rfl, rfl, rfl, rfl, rfl, rfl⟩)

theorem applyAnnotationsStep_frame (node : Nat) (h h1 : Heap) (c : Nat) (n : ASTNode)
    (hn : h.get node = some n) (hs : applyAnnotationsStep node h c = some h1) :
    ∃ n1, h1 = h.set node n1 ∧ n1.same_identity n := by
  have key : ∀ f : ASTNode → ASTNode, (∀ n, (f n).same_identity n) →
      h.update node f = some h1 → ∃ n1, h1 = h.set node n1 ∧ n1.same_identity n :=
    fun f hf hu => ⟨f n, Heap.update_eq_some h h1 node f n hn hu, hf n⟩
  refine applyAnnotationsStep_ind node h c
    (fun o => o = some h1 → ∃ n1, h1 = h.set node n1 ∧ n1.same_identity n)
    ?_ ?_ ?_ ?_ ?_ hs
  · intro hx; cases hx
  · intro he
    refine ⟨n, ?_, ASTNode.same_identity_refl n⟩
    rw [Heap.set_get_self h node n hn]
    exact (Option.some.inj he).symm
  · exact key
  · intro o f hf hu
    cases o with
    | none => cases hu
    | some v => exact key (f v) (hf v) hu
  · intro o f hf hu
    cases o with
    | none => cases hu
    | some v => exact key (f v) (hf v) hu

/-- Frame of `applyAnnotations`: when it returns, the heap differs only at the
node itself, and the node keeps its identity. -/
theorem applyAnnotations_frame (h h1 : Heap) (q : Nat) (n : ASTNode)
    (hn : h.get q = some n) (ha : applyAnnotations h q = some h1) :
    ∃ n1, h1 = h.set q n1 ∧ n1.same_identity n := by
  have fold : ∀ (cs : List Nat) (h0 h1 : Heap) (n0 : ASTNode), h0.get q = some n0 →
      cs.foldlM (applyAnnotationsStep q) h0 = some h1 →
      ∃ n1, h1 = h0.set q n1 ∧ n1.same_identity n0 := by
    intro cs
    induction cs with
    | nil =>
      intro h0 h1 n0 hn0 hf
      refine ⟨n0, ?_, ASTNode.same_identity_refl n0⟩
      rw [Heap.set_get_self h0 q n0 hn0]
      exact (Option.some.inj hf).symm
    | cons c rest ih =>
      intro h0 h1 n0 hn0 hf
      rw [List.foldlM_cons] at hf
      cases hs : applyAnnotationsStep q h0 c with
      | none => rw [hs] at hf; cases hf
      | some hm =>
        rw [hs] at hf
        obtain ⟨nm, rfl, hnm⟩ := applyAnnotationsStep_frame q h0 hm c n0 hn0 hs
        have hg : Heap.get (h0.set q nm) q = some nm := Heap.get_set_self h0 q n0 nm hn0
        obtain ⟨n1, rfl, hn1⟩ := ih (h0.set q nm) h1 nm hg hf
        exact ⟨n1, by rw [Heap.set_set], ASTNode.same_identity_trans hn1 hnm⟩
  unfold applyAnnotations at ha
  rw [hn] at ha
  exact fold n.children_ h h1 n hn ha


/-- The two orders of the setters of the `fixed` and the `length` annotation
give nodes that agree on every attribute read by classification, construction
and the exit hook. -/
theorem ASTNode.fixed_setters_proj (n : ASTNode) (v : Int) (X : ASTNode)
    (hX : X = (n.setIsFixedLenByteArray).setTypeLength v ∨
      X = (n.setTypeLength v).setIsFixedLenByteArray) :
    (X.repetition_type_ = n.repetition_type_ ∧ X.is_fixed_len_byte_array = true ∧
      X.type_length_ = v ∧ X.children_ = n.children_ ∧ X.node_type_ = n.node_type_ ∧
      X.parent_ = n.parent_ ∧ targetName X = targetName n ∧ X.name_ = n.name_) ∧
    (X.is_capnp_type = n.is_capnp_type ∧ X.capnp_type_ = n.capnp_type_ ∧
      X.is_decimal = n.is_decimal ∧ X.is_date = n.is_date ∧
      X.is_time_millis = n.is_time_millis ∧ X.is_time_micros = n.is_time_micros ∧
      X.is_timestamp_millis = n.is_timestamp_millis ∧
      X.is_timestamp_micros = n.is_timestamp_micros ∧ X.is_bson = n.is_bson ∧
      X.is_json = n.is_json ∧ X.is_interval = n.is_interval) := by
  rcases hX with rfl | rfl <;>
    exact ⟨⟨rfl, rfl, rfl, rfl, rfl, rfl, rfl, rfl⟩,
      ⟨rfl, rfl, rfl, rfl, rfl, rfl, rfl, rfl, rfl, rfl, rfl⟩⟩

/-- The target node of a node of category Data whose only flag is the
fixed-length flag: a primitive node with physical slot FIXED_LEN_BYTE_ARRAY,
no logical tag, and the recorded length. -/
theorem makeParquetNode_fixed_data (n : ASTNode) (nm : String) (kids : List ParquetNode)
    (hfx : n.is_fixed_len_byte_array = true)
    (hc : n.is_capnp_type = true) (ht : n.capnp_type_ = .DATA)
    (hfl : n.is_decimal = false ∧ n.is_date = false ∧ n.is_time_millis = false ∧
      n.is_time_micros = false ∧ n.is_timestamp_millis = false ∧
      n.is_timestamp_micros = false ∧ n.is_bson = false ∧ n.is_json = false ∧
      n.is_interval = false) :
    makeParquetNode (classify n) nm kids =
      .primitive nm n.repetition_type_ .FIXED_LEN_BYTE_ARRAY .NONE n.type_length_ (-1) (-1) ∧
    (classify n).physical_type_ = .FIXED_LEN_BYTE_ARRAY ∧
    (classify n).logical_type_ = .NONE ∧
    (classify n).type_length_ = n.type_length_ ∧
    (classify n).parquet_node_type_ = .PRIMITIVE := by
  obtain ⟨f1, f2, f3, f4, f5, f6, f7, f8, f9⟩ := hfl
  have hp : (applyParquetNodeType n).parquet_node_type_ = .PRIMITIVE := by
    rw [applyParquetNodeType_node_type]
    simp only [f1, f2, f3, f4, f5, f6, f7, f8, f9, hfx, Bool.false_eq_true, if_false, if_true]
  have hph : (applyPhysicalType n).physical_type_ = .FIXED_LEN_BYTE_ARRAY := by
    rw [applyPhysicalType_physical_type]
    simp only [f1, f2, f3, f4, f5, f6, f7, f8, f9, hfx, Bool.false_eq_true, if_false, if_true]
  have hlg : (applyLogicalType n).logical_type_ = .NONE := by
    rw [applyLogicalType_logical_type]
    simp only [f1, f2, f3, f4, f5, f6, f7, f8, f9, hc, ht, Bool.false_eq_true, if_false,
      if_true]
  have hln : (applyPhysicalType n).type_length_ = n.type_length_ := by
    rw [applyPhysicalType_type_length]
    simp only [f1, f2, f3, f4, f5, f6, f7, f8, f9, Bool.false_eq_true, if_false]
  have hv := classify_values n
  refine ⟨?_, hv.2.2.1.trans hph, hv.2.1.trans hlg, hv.2.2.2.1.trans hln, hv.2.2.2.2.trans hp⟩
  rw [makeParquetNode_classify_primitive n nm kids hp, hph, hlg, hln]
  simp only [f1, Bool.false_eq_true, if_false]

/-- The exit hook of a field whose children are its TYPE node and two
annotation nodes, each followed in the heap by its VALUE child, given what
`applyAnnotations` makes of the field node. -/
theorem CapnpcParquet.buildAndLeave_field_two_annotations (H : Heap) (d : Option Nat)
    (F F1 T A1 V1 A2 V2 : ASTNode) (nm : String) (pn : ParquetNode)
    (hann : applyAnnotations (H ++ [F, T, A1, V1, A2, V2]) H.length =
      some (H ++ [F1, T, A1, V1, A2, V2]))
    (hF : F1.children_ = [H.length + 1, H.length + 2, H.length + 4])
    (hFt : F1.node_type_ = .FIELD)
    (hT1 : T.node_type_ = .TYPE) (hT2 : T.node_ = some pn)
    (hA1 : A1.node_type_ = .ANNOTATION ∧ A1.node_ = none)
    (hA2 : A2.node_type_ = .ANNOTATION ∧ A2.node_ = none)
    (hnm : convertCamelCase (targetName F1) = some nm) :
    CapnpcParquet.buildAndLeave ⟨H ++ [F, T, A1, V1, A2, V2], d, some H.length⟩ =
      some (false, ⟨H ++ [(classify F1).setNode (some (makeParquetNode (classify F1) nm [pn])),
        T, A1, V1, A2, V2], d, F1.parent_⟩) := by
  have g0 : ∀ X : ASTNode, Heap.get (H ++ [X, T, A1, V1, A2, V2]) H.length = some X :=
    fun X => by rw [Heap.get_tail_zero]; rfl
  have g1 : ∀ X : ASTNode, Heap.get (H ++ [X, T, A1, V1, A2, V2]) (H.length + 1) = some T :=
    fun X => by rw [Heap.get_tail_add]; rfl
  have g2 : ∀ X : ASTNode, Heap.get (H ++ [X, T, A1, V1, A2, V2]) (H.length + 2) = some A1 :=
    fun X => by rw [Heap.get_tail_add]; rfl
  have g4 : ∀ X : ASTNode, Heap.get (H ++ [X, T, A1, V1, A2, V2]) (H.length + 4) = some A2 :=
    fun X => by rw [Heap.get_tail_add]; rfl
  have hset : ∀ X Y : ASTNode, (H ++ [X, T, A1, V1, A2, V2]).set H.length Y =
      H ++ [Y, T, A1, V1, A2, V2] :=
    fun X Y => by rw [Heap.set_tail_zero, List.set_cons_zero]
  have hb := buildParquetNode_of _ _ H.length F1 [pn] nm hann (g0 _)
    (by rw [hFt]; decide)
    (by
      rw [hF, hset]
      intro i hi
      simp only [List.mem_cons, List.mem_singleton, List.not_mem_nil, or_false] at hi
      rcases hi with rfl | rfl | rfl
      · exact ⟨T, g1 _, by rw [hT1]; decide⟩
      · exact ⟨A1, g2 _, by rw [hA1.1]; decide⟩
      · exact ⟨A2, g4 _, by rw [hA2.1]; decide⟩)
    (by
      rw [hF, hset]
      have hne : (T.node_type_ != ASTNodeType.ANNOTATION) = true := by rw [hT1]; rfl
      simp only [collectChildren, g1, g2, g4, Option.bind_eq_bind, Option.some_bind, hT2,
        hA1.2, hA2.2, hne, if_true, Option.pure_def])
    (by rw [classify_targetName]; exact hnm)
  rw [hset] at hb
  have hfin := CapnpcParquet.buildAndLeave_of _ _ d H.length _ hb (g0 _)
  rw [hfin, (ASTNode.setNode_proj _ _).2.1, (classify_children _).2.2.1]

/-- The annotations `fixed` and `length`, in either order, applied to a field
node whose children are its TYPE node and the two annotation nodes: the field
node gets the fixed-length flag and the length held by the VALUE child of the
`length` annotation. -/
theorem applyAnnotations_fixed_length (H : Heap) (F T A1 V1 A2 V2 : ASTNode)
    (hF : F.children_ = [H.length + 1, H.length + 2, H.length + 4])
    (hT1 : T.node_type_ = .TYPE)
    (hA1 : A1.node_type_ = .ANNOTATION ∧ A1.is_decl = false)
    (hA2 : A2.node_type_ = .ANNOTATION ∧ A2.is_decl = false) :
    (A1.name_ = "fixed" → A2.name_ = "length" → A2.children_ = [H.length + 5] →
      (V2.node_type_ = .VALUE ∧ V2.node_.isSome = true ∧ V2.is_value = true ∧
        V2.capnp_type_ = .INT32) →
      applyAnnotations (H ++ [F, T, A1, V1, A2, V2]) H.length =
        some (H ++ [(F.setIsFixedLenByteArray).setTypeLength V2.value_.i32,
          T, A1, V1, A2, V2])) ∧
    (A1.name_ = "length" → A2.name_ = "fixed" → A1.children_ = [H.length + 3] →
      (V1.node_type_ = .VALUE ∧ V1.node_.isSome = true ∧ V1.is_value = true ∧
        V1.capnp_type_ = .INT32) →
      applyAnnotations (H ++ [F, T, A1, V1, A2, V2]) H.length =
        some (H ++ [(F.setTypeLength V1.value_.i32).setIsFixedLenByteArray,
          T, A1, V1, A2, V2])) := by
  have g0 : ∀ X : ASTNode, Heap.get (H ++ [X, T, A1, V1, A2, V2]) H.length = some X :=
    fun X => by rw [Heap.get_tail_zero]; rfl
  have g1 : ∀ X : ASTNode, Heap.get (H ++ [X, T, A1, V1, A2, V2]) (H.length + 1) = some T :=
    fun X => by rw [Heap.get_tail_add]; rfl
  have g2 : ∀ X : ASTNode, Heap.get (H ++ [X, T, A1, V1, A2, V2]) (H.length + 2) = some A1 :=
    fun X => by rw [Heap.get_tail_add]; rfl
  have g3 : ∀ X : ASTNode, Heap.get (H ++ [X, T, A1, V1, A2, V2]) (H.length + 3) = some V1 :=
    fun X => by rw [Heap.get_tail_add]; rfl
  have g4 : ∀ X : ASTNode, Heap.get (H ++ [X, T, A1, V1, A2, V2]) (H.length + 4) = some A2 :=
    fun X => by rw [Heap.get_tail_add]; rfl
  have g5 : ∀ X : ASTNode, Heap.get (H ++ [X, T, A1, V1, A2, V2]) (H.length + 5) = some V2 :=
    fun X => by rw [Heap.get_tail_add]; rfl
  have s1 := applyAnnotationsStep_skip H.length _ _ T (g1 F) (by rw [hT1]; decide)
  have r1 := fun X : ASTNode =>
    applyAnnotationsStep_recognized H.length _ _ A1 (g2 X) hA1.2 hA1.1
  have r2 := fun X : ASTNode =>
    applyAnnotationsStep_recognized H.length _ _ A2 (g4 X) hA2.2 hA2.1
  constructor
  · intro n1 n2 hch hV
    have s2 := (r1 F).2.2.2.2.2.2.2.2.2.2.2.2.2.2.2.2.1 n1
    rw [Heap.update_tail_zero] at s2
    have s3 := (r2 F.setIsFixedLenByteArray).2.2.2.2.1 n2
    rw [getAnnotationValueI32_of _ _ _ A2 V2 (g4 _) hch (g5 _) hV, Option.some_bind,
      Heap.update_tail_zero] at s3
    simp only [applyAnnotations, g0, Option.bind_eq_bind, Option.some_bind, hF,
      List.foldlM_cons, List.foldlM_nil, s1, s2, s3]
    rfl
  · intro n1 n2 hch hV
    have s2 := (r1 F).2.2.2.2.1 n1
    rw [getAnnotationValueI32_of _ _ _ A1 V1 (g2 _) hch (g3 _) hV, Option.some_bind,
      Heap.update_tail_zero] at s2
    have s3 := (r2 (F.setTypeLength V1.value_.i32)).2.2.2.2.2.2.2.2.2.2.2.2.2.2.2.2.1 n2
    rw [Heap.update_tail_zero] at s3
    simp only [applyAnnotations, g0, Option.bind_eq_bind, Option.some_bind, hF,
      List.foldlM_cons, List.foldlM_nil, s1, s2, s3]
    rfl

set_option maxHeartbeats 1000000 in
/-- The traversal of a slot field of declared type Data, without an explicit
default value, that carries the applied annotations `fixed` and `length`, in this order,
under an open node `p`: six nodes are appended to the heap, the first of them
the field node, whose target node is a primitive node with physical slot
FIXED_LEN_BYTE_ARRAY and the length of the annotation. -/
theorem fixed_length_field_traversal (g : CapnpcParquet) (p : Nat) (P : ASTNode)
    (schema : StructSchema) (name nm : String) (ordinal : Option Nat) (offset : Nat)
    (dflt : SchemaValue) (idf idl : Nat) (n : Int)
    (ho : g.openNode = some p) (hP : g.heap.get p = some P)
    (hnm : convertCamelCase name = some nm)
    (hn : -(2 : Int) ^ 31 ≤ n ∧ n < (2 : Int) ^ 31) :
    ∃ (g1 : CapnpcParquet) (fieldNode : ASTNode),
      traverse_struct_field CapnpcParquet.hooks schema
        (.SLOT { name := name, ordinal := ordinal, annotations := [
            { id := idf, declName := "fixed", declType := .VOID, value := .VOID },
            { id := idl, declName := "length", declType := .INT32, value := .INT32 n }] }
          { offset := offset, type := .DATA, hadExplicitDefault := false,
            defaultValue := dflt }) g = some (false, g1) ∧
      g1.currentParent_ = some p ∧
      g1.heap.get g.heap.length = some fieldNode ∧
      fieldNode.node_type_ = .FIELD ∧ fieldNode.name_ = name ∧
      fieldNode.node_ =
        some (.primitive nm .OPTIONAL .FIXED_LEN_BYTE_ARRAY .NONE n (-1) (-1)) ∧
      fieldNode.parquet_node_type_ = .PRIMITIVE ∧
      fieldNode.physical_type_ = .FIXED_LEN_BYTE_ARRAY ∧
      fieldNode.type_length_ = n := by
  generalize hfield : Field.SLOT { name := name, ordinal := ordinal, annotations := [
            { id := idf, declName := "fixed", declType := .VOID, value := .VOID },
            { id := idl, declName := "length", declType := .INT32, value := .INT32 n }] }
          { offset := offset, type := .DATA, hadExplicitDefault := false,
            defaultValue := dflt } = field
  obtain ⟨F0, hF0, hA⟩ := CapnpcParquet.pre_visit_struct_field_of schema field g p P ho hP
  have hfn : field.proto.name = name := by rw [← hfield]; rfl
  rw [hfn] at hF0
  generalize hH : g.heap.set p (P.push_back_child g.heap.length) = H at hA
  have hHlen : H.length = g.heap.length := by rw [← hH, List.length_set]
  rw [← hHlen] at hA ⊢
  have hB := CapnpcParquet.pre_visit_struct_field_slot_of schema field
    { offset := offset, type := .DATA, hadExplicitDefault := false, defaultValue := dflt }
    (H ++ [F0.setParent (some p)]) g.document_ H.length _ (Heap.get_last H _ _ rfl) rfl
  rw [Heap.set_last H _ _ _ rfl] at hB
  obtain ⟨T, hC, hT1, hT2⟩ := traverse_type_plain schema.info .DATA
    (H ++ [((F0.setParent (some p)).setOffset offset).setCapnpType SchemaType.DATA.which]) g.document_
    H.length _ (by decide) (Heap.get_last H _ _ rfl)
  rw [Heap.set_last H _ _ _ rfl] at hC
  simp only [List.length_append, List.length_singleton, List.append_assoc,
    List.singleton_append] at hB hC
  obtain ⟨pn, hpn⟩ := Option.isSome_iff_exists.1 hT2
  have hF2 : ∀ X : ASTNode, X = ((((F0.setParent (some p)).setOffset offset).setCapnpType
      SchemaType.DATA.which).push_back_child (H.length + 1)) →
      (X.children_ = [H.length + 1] ∧ X.node_type_ = .FIELD ∧ X.parent_ = some p ∧
      convertCamelCase (targetName X) = some nm ∧ X.repetition_type_ = .OPTIONAL ∧
      X.name_ = name) ∧
      (X.is_capnp_type = true ∧ X.capnp_type_ = .DATA ∧
      X.is_decimal = false ∧ X.is_date = false ∧ X.is_time_millis = false ∧
      X.is_time_micros = false ∧ X.is_timestamp_millis = false ∧
      X.is_timestamp_micros = false ∧ X.is_bson = false ∧ X.is_json = false ∧
      X.is_interval = false) := by
    intro X hX
    subst hX
    rcases hF0 with ⟨ord, rfl | rfl⟩ <;>
      exact ⟨⟨rfl, rfl, rfl, hnm, rfl, rfl⟩,
        ⟨rfl, rfl, rfl, rfl, rfl, rfl, rfl, rfl, rfl, rfl, rfl⟩⟩
  generalize ((((F0.setParent (some p)).setOffset offset).setCapnpType
      SchemaType.DATA.which).push_back_child (H.length + 1)) = F2 at hC hF2
  obtain ⟨⟨hF2ch, hF2ty, hF2par, hF2nm, hF2rep, hF2name⟩, hF2fl⟩ := hF2 F2 rfl
  clear hF2
  obtain ⟨sf, hsf⟩ := convertCamelCase_isSome "fixed" (by decide)
  obtain ⟨A1, V1, hD1, hA1, hV1⟩ := traverse_annotation_void
    { id := idf, declName := "fixed", declType := .VOID, value := .VOID }
    (AnnotationReader.declSchema
      { id := idf, declName := "fixed", declType := .VOID, value := .VOID })
    sf (H ++ [F2, T]) g.document_ H.length F2 rfl rfl hsf
    (by rw [Heap.get_tail_zero]; rfl)
  simp only [Heap.set_tail_zero, List.set_cons_zero, List.length_append, List.length_cons,
    List.length_nil, List.append_assoc, List.cons_append, List.nil_append, Nat.zero_add,
    Nat.reduceAdd, Nat.add_assoc] at hD1 hA1
  obtain ⟨sl, hsl⟩ := convertCamelCase_isSome "length" (by decide)
  obtain ⟨A2, V2, hD2, hA2, hV2⟩ := traverse_annotation_int32
    { id := idl, declName := "length", declType := .INT32, value := .INT32 n }
    (AnnotationReader.declSchema
      { id := idl, declName := "length", declType := .INT32, value := .INT32 n })
    n sl (H ++ [F2.push_back_child (H.length + 2), T, A1, V1]) g.document_ H.length
    (F2.push_back_child (H.length + 2)) rfl rfl hn hsl
    (by rw [Heap.get_tail_zero]; rfl)
  simp only [Heap.set_tail_zero, List.set_cons_zero, List.length_append, List.length_cons,
    List.length_nil, List.append_assoc, List.cons_append, List.nil_append, Nat.zero_add,
    Nat.reduceAdd, Nat.add_assoc] at hD2 hA2
  have hF4 : ∀ X : ASTNode, X = (F2.push_back_child (H.length + 2)).push_back_child
      (H.length + 4) →
      (X.children_ = [H.length + 1, H.length + 2, H.length + 4] ∧
      X.node_type_ = .FIELD ∧ X.parent_ = some p ∧
      convertCamelCase (targetName X) = some nm ∧ X.repetition_type_ = .OPTIONAL ∧
      X.name_ = name) ∧
      (X.is_capnp_type = true ∧ X.capnp_type_ = .DATA ∧
      X.is_decimal = false ∧ X.is_date = false ∧ X.is_time_millis = false ∧
      X.is_time_micros = false ∧ X.is_timestamp_millis = false ∧
      X.is_timestamp_micros = false ∧ X.is_bson = false ∧ X.is_json = false ∧
      X.is_interval = false) := by
    intro X hX
    subst hX
    refine ⟨?_, hF2fl⟩
    simp only [ASTNode.push_back_child_proj, hF2ch, hF2ty, hF2par, hF2nm, hF2rep,
      List.cons_append, List.nil_append, and_self, true_and]
    exact hF2name
  generalize (F2.push_back_child (H.length + 2)).push_back_child (H.length + 4) = F4
    at hD2 hF4
  obtain ⟨⟨hF4ch, hF4ty, hF4par, hF4nm, hF4rep, hF4name⟩, hF4fl⟩ := hF4 F4 rfl
  clear hF4
  have hann := (applyAnnotations_fixed_length H F4 T A1 V1 A2 V2 hF4ch hT1
    ⟨hA1.1, hA1.2.1⟩ ⟨hA2.1, hA2.2.1⟩).1 hA1.2.2.1 hA2.2.2.1 hA2.2.2.2.1
    ⟨hV2.1, hV2.2.1, hV2.2.2.1, hV2.2.2.2.1⟩
  rw [hV2.2.2.2.2] at hann
  obtain ⟨⟨m1, m2, m3, m4, m5, m6, m7, m8⟩, m9, m10, mfl⟩ :=
    ASTNode.fixed_setters_proj F4 n _ (Or.inl rfl)
  generalize (F4.setIsFixedLenByteArray).setTypeLength n = F5 at hann m1 m2 m3 m4 m5 m6 m7 m8 m9 m10 mfl
  have hE := CapnpcParquet.buildAndLeave_field_two_annotations H g.document_
    F4 F5 T A1 V1 A2 V2 nm pn hann (m4.trans hF4ch) (m5.trans hF4ty) hT1 hpn
    ⟨hA1.1, hA1.2.2.2.2⟩ ⟨hA2.1, hA2.2.2.2.2⟩ (by rw [m7]; exact hF4nm)
  rw [m6, hF4par] at hE
  obtain ⟨k1, k2, k3, k4, k5⟩ := makeParquetNode_fixed_data F5 nm [pn] m2
    (m9.trans hF4fl.1) (m10.trans hF4fl.2.1)
    (by
      obtain ⟨_, _, c1, c2, c3, c4, c5, c6, c7, c8, c9⟩ := hF4fl
      obtain ⟨d1, d2, d3, d4, d5, d6, d7, d8, d9⟩ := mfl
      exact ⟨d1.trans c1, d2.trans c2, d3.trans c3, d4.trans c4, d5.trans c5, d6.trans c6,
        d7.trans c7, d8.trans c8, d9.trans c9⟩)
  rw [m1, hF4rep, m3] at k1
  rw [k1] at hE
  subst hfield
  have hG : traverse_struct_field CapnpcParquet.hooks schema
        (.SLOT { name := name, ordinal := ordinal, annotations := [
            { id := idf, declName := "fixed", declType := .VOID, value := .VOID },
            { id := idl, declName := "length", declType := .INT32, value := .INT32 n }] }
          { offset := offset, type := .DATA, hadExplicitDefault := false,
            defaultValue := dflt }) g = some (false,
      ⟨H ++ [(classify F5).setNode (some
          (.primitive nm .OPTIONAL .FIXED_LEN_BYTE_ARRAY .NONE n (-1) (-1))),
        T, A1, V1, A2, V2], g.document_, some p⟩) := by
    simp only [traverse_struct_field, CapnpcParquet.hooks_field, CapnpcParquet.hooks_ann,
      Step.bind_run, hA, hB, hC, hD1, hD2, hE,
      Option.some_bind, Bool.false_eq_true, if_false, Step.pure_apply, traverse_annotations,
      traverse_annotations_loop, List.length_cons, List.length_nil, Nat.zero_add, Nat.reduceAdd,
      Nat.reduceBEq, CapnpcParquet.post_visit_struct_field]
  obtain ⟨e1, e2, e3, e4, e5, e6, e7, e8, e9⟩ := ASTNode.setNode_frame (classify F5)
    (some (.primitive nm .OPTIONAL .FIXED_LEN_BYTE_ARRAY .NONE n (-1) (-1)))
  have e10 : ((classify F5).setNode (some
      (.primitive nm .OPTIONAL .FIXED_LEN_BYTE_ARRAY .NONE n (-1) (-1)))).parquet_node_type_ =
      (classify F5).parquet_node_type_ := rfl
  have hk := classify_children F5
  exact ⟨_, _, hG, rfl, Heap.get_tail_zero _ _,
    e7.trans (hk.2.1.trans (m5.trans hF4ty)),
    e8.trans (hk.2.2.2.trans (m8.trans hF4name)), e9,
    e10.trans k5, e1.trans k2, e2.trans (k4.trans m3)⟩

set_option maxHeartbeats 1000000 in
/-- The traversal of a slot field of declared type Data, without an explicit
default value, that carries the applied annotations `length` and `fixed`, in this order,
under an open node `p`: six nodes are appended to the heap, the first of them
the field node, whose target node is a primitive node with physical slot
FIXED_LEN_BYTE_ARRAY and the length of the annotation. -/
theorem length_fixed_field_traversal (g : CapnpcParquet) (p : Nat) (P : ASTNode)
    (schema : StructSchema) (name nm : String) (ordinal : Option Nat) (offset : Nat)
    (dflt : SchemaValue) (idf idl : Nat) (n : Int)
    (ho : g.openNode = some p) (hP : g.heap.get p = some P)
    (hnm : convertCamelCase name = some nm)
    (hn : -(2 : Int) ^ 31 ≤ n ∧ n < (2 : Int) ^ 31) :
    ∃ (g1 : CapnpcParquet) (fieldNode : ASTNode),
      traverse_struct_field CapnpcParquet.hooks schema
        (.SLOT { name := name, ordinal := ordinal, annotations := [
            { id := idl, declName := "length", declType := .INT32, value := .INT32 n },
            { id := idf, declName := "fixed", declType := .VOID, value := .VOID }] }
          { offset := offset, type := .DATA, hadExplicitDefault := false,
            defaultValue := dflt }) g = some (false, g1) ∧
      g1.currentParent_ = some p ∧
      g1.heap.get g.heap.length = some fieldNode ∧
      fieldNode.node_type_ = .FIELD ∧ fieldNode.name_ = name ∧
      fieldNode.node_ =
        some (.primitive nm .OPTIONAL .FIXED_LEN_BYTE_ARRAY .NONE n (-1) (-1)) ∧
      fieldNode.parquet_node_type_ = .PRIMITIVE ∧
      fieldNode.physical_type_ = .FIXED_LEN_BYTE_ARRAY ∧
      fieldNode.type_length_ = n := by
  generalize hfield : Field.SLOT { name := name, ordinal := ordinal, annotations := [
            { id := idl, declName := "length", declType := .INT32, value := .INT32 n },
            { id := idf, declName := "fixed", declType := .VOID, value := .VOID }] }
          { offset := offset, type := .DATA, hadExplicitDefault := false,
            defaultValue := dflt } = field
  obtain ⟨F0, hF0, hA⟩ := CapnpcParquet.pre_visit_struct_field_of schema field g p P ho hP
  have hfn : field.proto.name = name := by rw [← hfield]; rfl
  rw [hfn] at hF0
  generalize hH : g.heap.set p (P.push_back_child g.heap.length) = H at hA
  have hHlen : H.length = g.heap.length := by rw [← hH, List.length_set]
  rw [← hHlen] at hA ⊢
  have hB := CapnpcParquet.pre_visit_struct_field_slot_of schema field
    { offset := offset, type := .DATA, hadExplicitDefault := false, defaultValue := dflt }
    (H ++ [F0.setParent (some p)]) g.document_ H.length _ (Heap.get_last H _ _ rfl) rfl
  rw [Heap.set_last H _ _ _ rfl] at hB
  obtain ⟨T, hC, hT1, hT2⟩ := traverse_type_plain schema.info .DATA
    (H ++ [((F0.setParent (some p)).setOffset offset).setCapnpType SchemaType.DATA.which]) g.document_
    H.length _ (by decide) (Heap.get_last H _ _ rfl)
  rw [Heap.set_last H _ _ _ rfl] at hC
  simp only [List.length_append, List.length_singleton, List.append_assoc,
    List.singleton_append] at hB hC
  obtain ⟨pn, hpn⟩ := Option.isSome_iff_exists.1 hT2
  have hF2 : ∀ X : ASTNode, X = ((((F0.setParent (some p)).setOffset offset).setCapnpType
      SchemaType.DATA.which).push_back_child (H.length + 1)) →
      (X.children_ = [H.length + 1] ∧ X.node_type_ = .FIELD ∧ X.parent_ = some p ∧
      convertCamelCase (targetName X) = some nm ∧ X.repetition_type_ = .OPTIONAL ∧
      X.name_ = name) ∧
      (X.is_capnp_type = true ∧ X.capnp_type_ = .DATA ∧
      X.is_decimal = false ∧ X.is_date = false ∧ X.is_time_millis = false ∧
      X.is_time_micros = false ∧ X.is_timestamp_millis = false ∧
      X.is_timestamp_micros = false ∧ X.is_bson = false ∧ X.is_json = false ∧
      X.is_interval = false) := by
    intro X hX
    subst hX
    rcases hF0 with ⟨ord, rfl | rfl⟩ <;>
      exact ⟨⟨rfl, rfl, rfl, hnm, rfl, rfl⟩,
        ⟨rfl, rfl, rfl, rfl, rfl, rfl, rfl, rfl, rfl, rfl, rfl⟩⟩
  generalize ((((F0.setParent (some p)).setOffset offset).setCapnpType
      SchemaType.DATA.which).push_back_child (H.length + 1)) = F2 at hC hF2
  obtain ⟨⟨hF2ch, hF2ty, hF2par, hF2nm, hF2rep, hF2name⟩, hF2fl⟩ := hF2 F2 rfl
  clear hF2
  obtain ⟨sl, hsl⟩ := convertCamelCase_isSome "length" (by decide)
  obtain ⟨A1, V1, hD1, hA1, hV1⟩ := traverse_annotation_int32
    { id := idl, declName := "length", declType := .INT32, value := .INT32 n }
    (AnnotationReader.declSchema
      { id := idl, declName := "length", declType := .INT32, value := .INT32 n })
    n sl (H ++ [F2, T]) g.document_ H.length F2 rfl rfl hn hsl
    (by rw [Heap.get_tail_zero]; rfl)
  simp only [Heap.set_tail_zero, List.set_cons_zero, List.length_append, List.length_cons,
    List.length_nil, List.append_assoc, List.cons_append, List.nil_append, Nat.zero_add,
    Nat.reduceAdd, Nat.add_assoc] at hD1 hA1
  obtain ⟨sf, hsf⟩ := convertCamelCase_isSome "fixed" (by decide)
  obtain ⟨A2, V2, hD2, hA2, hV2⟩ := traverse_annotation_void
    { id := idf, declName := "fixed", declType := .VOID, value := .VOID }
    (AnnotationReader.declSchema
      { id := idf, declName := "fixed", declType := .VOID, value := .VOID })
    sf (H ++ [F2.push_back_child (H.length + 2), T, A1, V1]) g.document_ H.length
    (F2.push_back_child (H.length + 2)) rfl rfl hsf
    (by rw [Heap.get_tail_zero]; rfl)
  simp only [Heap.set_tail_zero, List.set_cons_zero, List.length_append, List.length_cons,
    List.length_nil, List.append_assoc, List.cons_append, List.nil_append, Nat.zero_add,
    Nat.reduceAdd, Nat.add_assoc] at hD2 hA2
  have hF4 : ∀ X : ASTNode, X = (F2.push_back_child (H.length + 2)).push_back_child
      (H.length + 4) →
      (X.children_ = [H.length + 1, H.length + 2, H.length + 4] ∧
      X.node_type_ = .FIELD ∧ X.parent_ = some p ∧
      convertCamelCase (targetName X) = some nm ∧ X.repetition_type_ = .OPTIONAL ∧
      X.name_ = name) ∧
      (X.is_capnp_type = true ∧ X.capnp_type_ = .DATA ∧
      X.is_decimal = false ∧ X.is_date = false ∧ X.is_time_millis = false ∧
      X.is_time_micros = false ∧ X.is_timestamp_millis = false ∧
      X.is_timestamp_micros = false ∧ X.is_bson = false ∧ X.is_json = false ∧
      X.is_interval = false) := by
    intro X hX
    subst hX
    refine ⟨?_, hF2fl⟩
    simp only [ASTNode.push_back_child_proj, hF2ch, hF2ty, hF2par, hF2nm, hF2rep,
      List.cons_append, List.nil_append, and_self, true_and]
    exact hF2name
  generalize (F2.push_back_child (H.length + 2)).push_back_child (H.length + 4) = F4
    at hD2 hF4
  obtain ⟨⟨hF4ch, hF4ty, hF4par, hF4nm, hF4rep, hF4name⟩, hF4fl⟩ := hF4 F4 rfl
  clear hF4
  have hann := (applyAnnotations_fixed_length H F4 T A1 V1 A2 V2 hF4ch hT1
    ⟨hA1.1, hA1.2.1⟩ ⟨hA2.1, hA2.2.1⟩).2 hA1.2.2.1 hA2.2.2.1 hA1.2.2.2.1
    ⟨hV1.1, hV1.2.1, hV1.2.2.1, hV1.2.2.2.1⟩
  rw [hV1.2.2.2.2] at hann
  obtain ⟨⟨m1, m2, m3, m4, m5, m6, m7, m8⟩, m9, m10, mfl⟩ :=
    ASTNode.fixed_setters_proj F4 n _ (Or.inr rfl)
  generalize (F4.setTypeLength n).setIsFixedLenByteArray = F5 at hann m1 m2 m3 m4 m5 m6 m7 m8 m9 m10 mfl
  have hE := CapnpcParquet.buildAndLeave_field_two_annotations H g.document_
    F4 F5 T A1 V1 A2 V2 nm pn hann (m4.trans hF4ch) (m5.trans hF4ty) hT1 hpn
    ⟨hA1.1, hA1.2.2.2.2⟩ ⟨hA2.1, hA2.2.2.2.2⟩ (by rw [m7]; exact hF4nm)
  rw [m6, hF4par] at hE
  obtain ⟨k1, k2, k3, k4, k5⟩ := makeParquetNode_fixed_data F5 nm [pn] m2
    (m9.trans hF4fl.1) (m10.trans hF4fl.2.1)
    (by
      obtain ⟨_, _, c1, c2, c3, c4, c5, c6, c7, c8, c9⟩ := hF4fl
      obtain ⟨d1, d2, d3, d4, d5, d6, d7, d8, d9⟩ := mfl
      exact ⟨d1.trans c1, d2.trans c2, d3.trans c3, d4.trans c4, d5.trans c5, d6.trans c6,
        d7.trans c7, d8.trans c8, d9.trans c9⟩)
  rw [m1, hF4rep, m3] at k1
  rw [k1] at hE
  subst hfield
  have hG : traverse_struct_field CapnpcParquet.hooks schema
        (.SLOT { name := name, ordinal := ordinal, annotations := [
            { id := idl, declName := "length", declType := .INT32, value := .INT32 n },
            { id := idf, declName := "fixed", declType := .VOID, value := .VOID }] }
          { offset := offset, type := .DATA, hadExplicitDefault := false,
            defaultValue := dflt }) g = some (false,
      ⟨H ++ [(classify F5).setNode (some
          (.primitive nm .OPTIONAL .FIXED_LEN_BYTE_ARRAY .NONE n (-1) (-1))),
        T, A1, V1, A2, V2], g.document_, some p⟩) := by
    simp only [traverse_struct_field, CapnpcParquet.hooks_field, CapnpcParquet.hooks_ann,
      Step.bind_run, hA, hB, hC, hD1, hD2, hE,
      Option.some_bind, Bool.false_eq_true, if_false, Step.pure_apply, traverse_annotations,
      traverse_annotations_loop, List.length_cons, List.length_nil, Nat.zero_add, Nat.reduceAdd,
      Nat.reduceBEq, CapnpcParquet.post_visit_struct_field]
  obtain ⟨e1, e2, e3, e4, e5, e6, e7, e8, e9⟩ := ASTNode.setNode_frame (classify F5)
    (some (.primitive nm .OPTIONAL .FIXED_LEN_BYTE_ARRAY .NONE n (-1) (-1)))
  have e10 : ((classify F5).setNode (some
      (.primitive nm .OPTIONAL .FIXED_LEN_BYTE_ARRAY .NONE n (-1) (-1)))).parquet_node_type_ =
      (classify F5).parquet_node_type_ := rfl
  have hk := classify_children F5
  exact ⟨_, _, hG, rfl, Heap.get_tail_zero _ _,
    e7.trans (hk.2.1.trans (m5.trans hF4ty)),
    e8.trans (hk.2.2.2.trans (m8.trans hF4name)), e9,
    e10.trans k5, e1.trans k2, e2.trans (k4.trans m3)⟩

/-- C11. A slot field of declared type Data, without an explicit default
value, that carries the applied annotations `fixed` and `length` (declared with
an `Int32` value `n`), in either order, traversed under any open node `p`: the
traversal returns, `p` is open again, and the field node, finalized by the
field exit hook, is classified primitive with physical slot
FIXED_LEN_BYTE_ARRAY and length `n`; its target node is the primitive node
named after the field with physical slot FIXED_LEN_BYTE_ARRAY, no logical tag
and length `n`, the same for both orders. -/
theorem C11_fixed_length_data_field (g : CapnpcParquet) (p : Nat) (P : ASTNode)
    (schema : StructSchema) (name nm : String) (ordinal : Option Nat) (offset : Nat)
    (dflt : SchemaValue) (idf idl : Nat) (n : Int) (anns : List AnnotationReader)
    (ho : g.openNode = some p) (hP : g.heap.get p = some P)
    (hnm : convertCamelCase name = some nm)
    (hn : -(2 : Int) ^ 31 ≤ n ∧ n < (2 : Int) ^ 31)
    (hanns : anns = [{ id := idf, declName := "fixed", declType := .VOID, value := .VOID },
        { id := idl, declName := "length", declType := .INT32, value := .INT32 n }] ∨
      anns = [{ id := idl, declName := "length", declType := .INT32, value := .INT32 n },
        { id := idf, declName := "fixed", declType := .VOID, value := .VOID }]) :
    ∃ (g1 : CapnpcParquet) (fieldNode : ASTNode),
      traverse_struct_field CapnpcParquet.hooks schema
        (.SLOT { name := name, ordinal := ordinal, annotations := anns }
          { offset := offset, type := .DATA, hadExplicitDefault := false,
            defaultValue := dflt }) g = some (false, g1) ∧
      g1.currentParent_ = some p ∧
      g1.heap.get g.heap.length = some fieldNode ∧
      fieldNode.node_type_ = .FIELD ∧ fieldNode.name_ = name ∧
      fieldNode.node_ =
        some (.primitive nm .OPTIONAL .FIXED_LEN_BYTE_ARRAY .NONE n (-1) (-1)) ∧
      fieldNode.parquet_node_type_ = .PRIMITIVE ∧
      fieldNode.physical_type_ = .FIXED_LEN_BYTE_ARRAY ∧
      fieldNode.type_length_ = n := by
  rcases hanns with rfl | rfl
  · exact fixed_length_field_traversal g p P schema name nm ordinal offset dflt idf idl n
      ho hP hnm hn
  · exact length_fixed_field_traversal g p P schema name nm ordinal offset dflt idf idl n
      ho hP hnm hn

/-- Witness of C11: the field `blob @3 :Data $length(16) $fixed` of the example
struct. -/
theorem C11_fixed_length_data_field_witness :
    ∃ (g1 : CapnpcParquet) (fieldNode : ASTNode),
      traverse_struct_field CapnpcParquet.hooks exampleStruct
        (.SLOT { name := "blob", ordinal := some 3, annotations := [
            { id := 14, declName := "length", declType := .INT32, value := .INT32 16 },
            { id := 15, declName := "fixed", declType := .VOID, value := .VOID }] }
          { offset := 0, type := .DATA, hadExplicitDefault := false,
            defaultValue := .DATA [] }) exampleContext = some (false, g1) ∧
      g1.currentParent_ = some 0 ∧
      g1.heap.get exampleContext.heap.length = some fieldNode ∧
      fieldNode.node_type_ = .FIELD ∧ fieldNode.name_ = "blob" ∧
      fieldNode.node_ =
        some (.primitive "blob" .OPTIONAL .FIXED_LEN_BYTE_ARRAY .NONE 16 (-1) (-1)) ∧
      fieldNode.parquet_node_type_ = .PRIMITIVE ∧
      fieldNode.physical_type_ = .FIXED_LEN_BYTE_ARRAY ∧
      fieldNode.type_length_ = 16 :=
  C11_fixed_length_data_field exampleContext 0
    (((ASTNode.new .STRUCT "Person").setIsDecl).setCapnpType .STRUCT) exampleStruct
    "blob" "blob" (some 3) 0 (.DATA []) 15 14 16 _ rfl rfl (by decide) (by decide)
    (Or.inr rfl)

/-! ## The flattening, the collection of children and the file root -/

theorem ASTNode.same_but_handle_refl (a : ASTNode) : a.same_but_handle a := Or.inl rfl

theorem ASTNode.setNode_setNode (a : ASTNode) (x y : Option ParquetNode) :
    (a.setNode x).setNode y = a.setNode y := rfl

theorem ASTNode.same_but_handle_proj {a b : ASTNode} (hab : a.same_but_handle b) :
    b.node_type_ = a.node_type_ ∧ b.is_decl = a.is_decl ∧ b.capnp_type_ = a.capnp_type_ ∧
    b.name_ = a.name_ ∧ b.type_name_ = a.type_name_ ∧ b.children_ = a.children_ ∧
    b.node_id_ = a.node_id_ ∧ b.node_.isSome = a.node_.isSome ∧
    (a.node_type_ ≠ .FIELD → b = a) := by
  rcases hab with rfl | ⟨h1, h2, nm, rep, fs, lt, _, rfl⟩
  · exact ⟨rfl, rfl, rfl, rfl, rfl, rfl, rfl, rfl, fun _ => rfl⟩
  · exact ⟨rfl, rfl, rfl, rfl, rfl, rfl, rfl, h2.symm ▸ rfl, fun hne => absurd h1 hne⟩

theorem ASTNode.same_but_handle_trans {a b c : ASTNode} (hab : a.same_but_handle b)
    (hbc : b.same_but_handle c) : a.same_but_handle c := by
  rcases hab with rfl | ⟨h1, h2, nm, rep, fs, lt, hnm, rfl⟩
  · exact hbc
  · rcases hbc with rfl | ⟨_, _, nm2, rep2, fs2, lt2, hnm2, rfl⟩
    · exact Or.inr ⟨h1, h2, nm, rep, fs, lt, hnm, rfl⟩
    · exact Or.inr ⟨h1, h2, nm2, rep2, fs2, lt2, hnm2, rfl⟩

theorem Heap.same_but_handles_refl (h : Heap) : h.same_but_handles h :=
  ⟨rfl, fun _ a ha => ⟨a, ha, Or.inl rfl⟩⟩

theorem Heap.same_but_handles_trans {h0 h1 h2 : Heap} (h01 : h0.same_but_handles h1)
    (h12 : h1.same_but_handles h2) : h0.same_but_handles h2 := by
  refine ⟨h12.1.trans h01.1, fun x a ha => ?_⟩
  obtain ⟨b, hb, hab⟩ := h01.2 x a ha
  obtain ⟨c, hc, hbc⟩ := h12.2 x b hb
  exact ⟨c, hc, ASTNode.same_but_handle_trans hab hbc⟩

theorem Heap.get_eq_none_iff (h : Heap) (x : Nat) : h.get x = none ↔ h.length ≤ x := by
  unfold Heap.get
  exact List.getElem?_eq_none_iff

theorem Heap.same_but_handles_none {h0 h : Heap} (hR : h0.same_but_handles h) (x : Nat)
    (hx : h0.get x = none) : h.get x = none := by
  rw [Heap.get_eq_none_iff] at hx ⊢
  rw [hR.1]; exact hx

theorem Heap.get_set_ne (h : Heap) (x y : Nat) (b : ASTNode) (hxy : x ≠ y) :
    Heap.get (h.set x b) y = h.get y := by
  unfold Heap.get
  rw [List.getElem?_set_ne hxy]

/-- Replacing the target node of a FIELD node that has one keeps the heaps the
same but for handles. -/
theorem Heap.same_but_handles_set (h : Heap) (i : Nat) (ci : ASTNode) (nm : String)
    (rep : Repetition) (fs : List ParquetNode) (lt : LogicalType)
    (hi : h.get i = some ci) (hf : ci.node_type_ = .FIELD) (hs : ci.node_.isSome = true)
    (hnm : convertCamelCase ci.name_ = some nm) :
    h.same_but_handles (h.set i (ci.setNode (some (.group nm rep fs lt)))) := by
  refine ⟨List.length_set _ _ _, fun x a ha => ?_⟩
  by_cases hx : i = x
  · subst hx
    rw [hi] at ha
    cases ha
    exact ⟨_, Heap.get_set_self h i ci _ hi, Or.inr ⟨hf, hs, nm, rep, fs, lt, hnm, rfl⟩⟩
  · exact ⟨a, (Heap.get_set_ne h i x _ hx).trans ha, Or.inl rfl⟩

theorem Heap.same_but_handles_search {h0 h : Heap} (hR : h0.same_but_handles h) :
    h0.same_for_search h := by
  refine ⟨hR.1, fun x a ha => ?_⟩
  obtain ⟨b, hb, hab⟩ := hR.2 x a ha
  obtain ⟨p1, p2, p3, p4, p5, p6, p7, p8, _⟩ := ASTNode.same_but_handle_proj hab
  exact ⟨b, hb, p1, p2, p3, p4, p5, p6, p7, p8⟩

theorem Heap.same_for_search_none {h0 h : Heap} (hR : h0.same_for_search h) (x : Nat)
    (hx : h0.get x = none) : h.get x = none := by
  rw [Heap.get_eq_none_iff] at hx ⊢
  rw [hR.1]; exact hx

/-- Replacing a node by one that agrees with it on what the searches read. -/
theorem Heap.same_for_search_set (h : Heap) (q : Nat) (n x : ASTNode)
    (hn : h.get q = some n) (hx : n.same_for_search x) :
    h.same_for_search (h.set q x) := by
  refine ⟨List.length_set _ _ _, fun y a ha => ?_⟩
  by_cases hy : q = y
  · subst hy
    rw [hn] at ha
    cases ha
    exact ⟨x, Heap.get_set_self h q n x hn, hx⟩
  · exact ⟨a, (Heap.get_set_ne h q y x hy).trans ha, rfl, rfl, rfl, rfl, rfl, rfl, rfl, rfl⟩

/-- The type child of a field is found the same way in two heaps that agree on
what the searches read. -/
theorem findTypeChild_same (h0 h : Heap) (hR : h0.same_for_search h) (a b : ASTNode)
    (hab : b.children_ = a.children_) : findTypeChild h b = findTypeChild h0 a := by
  unfold findTypeChild
  rw [hab]
  generalize (none : Option Nat) = init
  induction a.children_ generalizing init with
  | nil => rfl
  | cons k rest ih =>
    rw [List.foldlM_cons, List.foldlM_cons]
    cases hk : h0.get k with
    | none =>
      rw [Heap.same_for_search_none hR k hk]
      rfl
    | some c0 =>
      obtain ⟨c, hc, hcc⟩ := hR.2 k c0 hk
      rw [hc]
      simp only [Option.bind_eq_bind, Option.some_bind, Option.pure_def, hcc.1]
      exact ih _

theorem flattenSearch_cons_skip (h : Heap) (i : Nat) (type : Option Nat) (j : Nat)
    (js : List Nat) (cj : ASTNode) (hj : h.get j = some cj)
    (hs : cj.is_decl = true → ∃ t tn, type = some t ∧ h.get t = some tn ∧
      ¬ (cj.capnp_type_ = tn.capnp_type_ ∧ cj.name_ = tn.type_name_)) :
    flattenSearch h i type (j :: js) = flattenSearch h i type js := by
  cases hd : cj.is_decl with
  | false =>
    simp only [flattenSearch, hj, Option.bind_eq_bind, Option.some_bind, hd,
      Bool.false_eq_true, if_false]
  | true =>
    obtain ⟨t, tn, rfl, ht, hne⟩ := hs hd
    have hb : (cj.capnp_type_ == tn.capnp_type_ && cj.name_ == tn.type_name_) = false := by
      rw [Bool.eq_false_iff]
      intro hb
      rw [Bool.and_eq_true, beq_iff_eq, beq_iff_eq] at hb
      exact hne hb
    simp only [flattenSearch, hj, Option.bind_eq_bind, Option.some_bind, hd, if_true, ht, hb,
      Bool.false_eq_true, if_false]

theorem flattenSearch_cons_hit (h : Heap) (i t : Nat) (j : Nat)
    (js : List Nat) (cj tn : ASTNode) (hj : h.get j = some cj) (hd : cj.is_decl = true)
    (ht : h.get t = some tn)
    (hm : cj.capnp_type_ = tn.capnp_type_ ∧ cj.name_ = tn.type_name_) :
    flattenSearch h i (some t) (j :: js) =
      cj.node_.bind (fun child_node => child_node.group_fields.bind (fun fs =>
        (h.get i).bind (fun ci => (convertCamelCase ci.name_).bind (fun name =>
          (h.update i (fun n => n.setNode (some (.group name child_node.repetition fs
            child_node.logical_type)))).bind (fun h1 => some (h1, some cj.node_id_)))))) := by
  have hb : (cj.capnp_type_ == tn.capnp_type_ && cj.name_ == tn.type_name_) = true := by
    rw [Bool.and_eq_true, beq_iff_eq, beq_iff_eq]
    exact hm
  simp only [flattenSearch, hj, Option.bind_eq_bind, Option.some_bind, hd, if_true, ht, hb,
    Option.pure_def]

theorem Heap.no_decl_match_same {h0 h : Heap} (hR : h0.same_for_search h)
    (type : Option Nat) (js : List Nat) (hm : h0.no_decl_match type js) :
    h.no_decl_match type js := by
  intro j hj
  obtain ⟨cj0, hcj0, hs⟩ := hm j hj
  obtain ⟨cj, hcj, hp⟩ := hR.2 j cj0 hcj0
  refine ⟨cj, hcj, fun hd => ?_⟩
  rw [hp.2.1] at hd
  obtain ⟨t, tn0, rfl, ht0, hne⟩ := hs hd
  obtain ⟨tn, htn, hq⟩ := hR.2 t tn0 ht0
  exact ⟨t, tn, rfl, htn, by rw [hp.2.2.1, hp.2.2.2.1, hq.2.2.1, hq.2.2.2.2.1]; exact hne⟩

/-- The search of the flattening finds nothing when no child matches. -/
theorem flattenSearch_miss (h : Heap) (i : Nat) (type : Option Nat) (js : List Nat)
    (hm : h.no_decl_match type js) : flattenSearch h i type js = some (h, none) := by
  induction js with
  | nil => rfl
  | cons j js ih =>
    obtain ⟨cj, hj, hs⟩ := hm j (List.mem_cons_self _ _)
    rw [flattenSearch_cons_skip h i type j js cj hj hs]
    exact ih (fun j2 hj2 => hm j2 (List.mem_cons_of_mem _ hj2))

/-- The search of the flattening stops at the first child that matches. -/
theorem flattenSearch_hit (h : Heap) (i t d : Nat) (pre post : List Nat) (D tn : ASTNode)
    (hpre : h.no_decl_match (some t) pre)
    (hd : h.get d = some D) (hD : D.is_decl = true) (ht : h.get t = some tn)
    (hm : D.capnp_type_ = tn.capnp_type_ ∧ D.name_ = tn.type_name_) :
    flattenSearch h i (some t) (pre ++ d :: post) =
      D.node_.bind (fun child_node => child_node.group_fields.bind (fun fs =>
        (h.get i).bind (fun ci => (convertCamelCase ci.name_).bind (fun name =>
          (h.update i (fun n => n.setNode (some (.group name child_node.repetition fs
            child_node.logical_type)))).bind (fun h1 => some (h1, some D.node_id_)))))) := by
  induction pre with
  | nil => exact flattenSearch_cons_hit h i t d post D tn hd hD ht hm
  | cons j js ih =>
    obtain ⟨cj, hj, hs⟩ := hpre j (List.mem_cons_self _ _)
    rw [List.cons_append, flattenSearch_cons_skip h i (some t) j _ cj hj hs]
    exact ih (fun j2 hj2 => hpre j2 (List.mem_cons_of_mem _ hj2))

/-- What the search of the flattening can return: nothing (undefined
behaviour), the heap as it is, or the heap with a new target node on the field
`i`, which is then in the heap. -/
theorem flattenSearch_cases (h : Heap) (i : Nat) (type : Option Nat) (js : List Nat) :
    flattenSearch h i type js = none ∨ flattenSearch h i type js = some (h, none) ∨
    ∃ ci nm rep fs lt id, h.get i = some ci ∧ convertCamelCase ci.name_ = some nm ∧
      flattenSearch h i type js =
        some (h.set i (ci.setNode (some (.group nm rep fs lt))), some id) := by
  induction js with
  | nil => exact Or.inr (Or.inl rfl)
  | cons j js ih =>
    cases hj : h.get j with
    | none =>
      left
      simp only [flattenSearch, hj, Option.bind_eq_bind, Option.none_bind]
    | some cj =>
      by_cases hs : cj.is_decl = true → ∃ t tn, type = some t ∧ h.get t = some tn ∧
          ¬ (cj.capnp_type_ = tn.capnp_type_ ∧ cj.name_ = tn.type_name_)
      · rw [flattenSearch_cons_skip h i type j js cj hj hs]
        exact ih
      · rw [Classical.not_imp] at hs
        obtain ⟨hd, hs⟩ := hs
        cases type with
        | none =>
          left
          simp only [flattenSearch, hj, Option.bind_eq_bind, Option.some_bind, hd, if_true,
            Option.none_bind]
        | some t =>
          cases ht : h.get t with
          | none =>
            left
            simp only [flattenSearch, hj, Option.bind_eq_bind, Option.some_bind, hd, if_true,
              ht, Option.none_bind]
          | some tn =>
            have hm : cj.capnp_type_ = tn.capnp_type_ ∧ cj.name_ = tn.type_name_ := by
              by_contra hne
              exact hs ⟨t, tn, rfl, ht, hne⟩
            rw [flattenSearch_cons_hit h i t j js cj tn hj hd ht hm]
            cases hn : cj.node_ with
            | none => left; rfl
            | some child_node =>
              cases hg : child_node.group_fields with
              | none => left; simp only [Option.some_bind, hg, Option.none_bind]
              | some fs =>
                cases hi : h.get i with
                | none => left; simp only [Option.some_bind, hg, Option.none_bind]
                | some ci =>
                  cases hc : convertCamelCase ci.name_ with
                  | none => left; simp only [Option.some_bind, hg, hc, Option.none_bind]
                  | some name =>
                    right; right
                    refine ⟨ci, name, child_node.repetition, fs, child_node.logical_type,
                      cj.node_id_, rfl, hc, ?_⟩
                    simp only [Option.some_bind, hg, hc, Heap.update_of_get h i _ ci hi]

/-- The flattening loop passes over a child that has no target node or is not
a FIELD node. -/
theorem flattenLoop_cons_skip (js : List Nat) (h : Heap) (acc : List Nat) (i : Nat)
    (rest : List Nat) (ci : ASTNode) (hi : h.get i = some ci)
    (hs : ci.node_.isSome = false ∨ ci.node_type_ ≠ .FIELD) :
    flattenLoop js h acc (i :: rest) = flattenLoop js h acc rest := by
  rcases hs with hs | hs
  · simp only [flattenLoop, hi, Option.bind_eq_bind, Option.some_bind, hs, Bool.false_and,
      Bool.false_eq_true, if_false]
  · have hb : (ci.node_type_ == ASTNodeType.FIELD) = false := by
      cases hx : ci.node_type_ <;> first | rfl | exact absurd hx hs
    simp only [flattenLoop, hi, Option.bind_eq_bind, Option.some_bind, hb,
      Bool.false_eq_true, if_false, ite_self]

/-- The flattening loop at a FIELD child that has a target node. -/
theorem flattenLoop_cons_field (js : List Nat) (h : Heap) (acc : List Nat) (i : Nat)
    (rest : List Nat) (ci : ASTNode) (hi : h.get i = some ci)
    (hs : ci.node_.isSome = true) (hf : ci.node_type_ = .FIELD) :
    flattenLoop js h acc (i :: rest) =
      (findTypeChild h ci).bind (fun type => (flattenSearch h i type js).bind (fun r =>
        match r.2 with
        | some id => flattenLoop js r.1 (acc ++ [id]) rest
        | none => flattenLoop js r.1 acc rest)) := by
  have hb : (ci.node_type_ == ASTNodeType.FIELD) = true := by rw [hf]; rfl
  have hb2 : (ci.node_type_ != ASTNodeType.ANNOTATION) = true := by rw [hf]; rfl
  simp only [flattenLoop, hi, Option.bind_eq_bind, Option.some_bind, hs, hb, hb2,
    Bool.and_self, if_true]

/-- One turn of the flattening loop: it stops without a result, or goes on
with a heap that is the same but for the handle of the child `i`. -/
theorem flattenLoop_cons_cases (js : List Nat) (h : Heap) (acc : List Nat) (i : Nat)
    (rest : List Nat) :
    flattenLoop js h acc (i :: rest) = none ∨
    ∃ h1 acc1, h.same_but_handles h1 ∧ (∀ x, x ≠ i → h1.get x = h.get x) ∧
      flattenLoop js h acc (i :: rest) = flattenLoop js h1 acc1 rest := by
  cases hi : h.get i with
  | none =>
    left
    simp only [flattenLoop, hi, Option.bind_eq_bind, Option.none_bind]
  | some ci =>
    by_cases hs : ci.node_.isSome = false ∨ ci.node_type_ ≠ .FIELD
    · right
      exact ⟨h, acc, Heap.same_but_handles_refl h, fun _ _ => rfl,
        flattenLoop_cons_skip js h acc i rest ci hi hs⟩
    · rw [not_or, Bool.not_eq_false, not_not] at hs
      rw [flattenLoop_cons_field js h acc i rest ci hi hs.1 hs.2]
      cases findTypeChild h ci with
      | none => left; rfl
      | some type =>
        rcases flattenSearch_cases h i type js with
          hn | hn | ⟨c2, nm, rep, fs, lt, id, hc2, hnm, hn⟩
        · left; simp only [Option.some_bind, hn, Option.none_bind]
        · right
          refine ⟨h, acc, Heap.same_but_handles_refl h, fun _ _ => rfl, ?_⟩
          simp only [Option.some_bind, hn]
        · right
          rw [hi] at hc2
          cases hc2
          refine ⟨h.set i (ci.setNode (some (.group nm rep fs lt))), acc ++ [id],
            Heap.same_but_handles_set h i ci nm rep fs lt hi hs.2 hs.1 hnm,
            fun x hx => Heap.get_set_ne h i x _ (Ne.symm hx), ?_⟩
          simp only [Option.some_bind, hn]

/-- The flattening loop changes nothing but the target nodes of FIELD
children that have one. -/
theorem flattenLoop_frame (js : List Nat) (is : List Nat) (h h1 : Heap) (acc acc1 : List Nat)
    (hl : flattenLoop js h acc is = some (h1, acc1)) :
    h.same_but_handles h1 ∧ ∀ x, x ∉ is → h1.get x = h.get x := by
  induction is generalizing h acc with
  | nil =>
    simp only [flattenLoop, Option.some.injEq, Prod.mk.injEq] at hl
    obtain ⟨rfl, rfl⟩ := hl
    exact ⟨Heap.same_but_handles_refl h, fun _ _ => rfl⟩
  | cons i rest ih =>
    rcases flattenLoop_cons_cases js h acc i rest with hn | ⟨h2, acc2, hR, hfr, he⟩
    · rw [hn] at hl; cases hl
    · rw [he] at hl
      obtain ⟨hR2, hfr2⟩ := ih h2 acc2 hl
      refine ⟨Heap.same_but_handles_trans hR hR2, fun x hx => ?_⟩
      rw [List.mem_cons, not_or] at hx
      rw [hfr2 x hx.2, hfr x hx.1]

/-- The steps of `buildParquetNode` on a node that is not the FILE node, after
`applyAnnotations`: the node is classified, then come the flattening loop, the
removal loop, the collection of the children and the `Make` call. -/
theorem buildParquetNode_eq (h h1 : Heap) (q : Nat) (e1 : ASTNode)
    (hann : applyAnnotations h q = some h1) (he1 : h1.get q = some e1)
    (hty : e1.node_type_ ≠ .FILE) :
    buildParquetNode h q =
      (flattenLoop e1.children_ (h1.set q (classify e1)) [] e1.children_).bind (fun r =>
        (removeDecls q r.1 r.2).bind (fun h4 => (h4.get q).bind (fun e4 =>
          (collectChildren h4 e4.children_).bind (fun kids =>
            (convertCamelCase (targetName e4)).bind (fun nm =>
              h4.update q (fun n => n.setNode (some (makeParquetNode e4 nm kids)))))))) := by
  have hb : (e1.node_type_ == ASTNodeType.FILE) = false := by
    cases hx : e1.node_type_ <;> first | rfl | exact absurd hx hty
  have u1 := Heap.update_of_get h1 q applyLogicalType e1 he1
  have g1 := Heap.get_set_self h1 q e1 (applyLogicalType e1) he1
  have u2 := Heap.update_of_get _ q applyPhysicalType _ g1
  have g2 := Heap.get_set_self _ q _ (applyPhysicalType (applyLogicalType e1)) g1
  have u3 := Heap.update_of_get _ q applyParquetNodeType _ g2
  have g3 := Heap.get_set_self _ q _
    (applyParquetNodeType (applyPhysicalType (applyLogicalType e1))) g2
  simp only [Heap.set_set] at u2 u3 g2 g3
  have hcc := (classify_children e1).1
  unfold classify at hcc
  simp only [buildParquetNode, buildParquetNodeBody, hann, he1, hb, Option.bind_eq_bind,
    Option.some_bind, Bool.false_eq_true, if_false, u1, u2, u3, g3, hcc, classify]

/-- The FILE branch of `buildParquetNode`, after `applyAnnotations`. -/
theorem buildParquetNode_file_eq (h h1 : Heap) (q : Nat) (e1 : ASTNode)
    (hann : applyAnnotations h q = some h1) (he1 : h1.get q = some e1)
    (hty : e1.node_type_ = .FILE) :
    buildParquetNode h q =
      (findSchemaChild h1 e1.children_).bind (fun r =>
        match r with
        | some pn => some (h1.set q (e1.setNode (some pn)))
        | none => some h1) := by
  have hb : (e1.node_type_ == ASTNodeType.FILE) = true := by rw [hty]; rfl
  simp only [buildParquetNode, hann, he1, hb, Option.bind_eq_bind, Option.some_bind, if_true]
  cases findSchemaChild h1 e1.children_ with
  | none => rfl
  | some r =>
    cases r with
    | none => rfl
    | some pn =>
      simp only [Option.some_bind, Heap.update_of_get h1 q _ e1 he1]

/-- The children that `collectChildren` returns, as a filter of the child
list. -/
theorem collectChildren_eq (h : Heap) (cs : List Nat) (kids : List ParquetNode)
    (hk : collectChildren h cs = some kids) :
    kids = cs.filterMap (fun c => (h.get c).bind (fun x =>
      if x.node_type_ != .ANNOTATION then x.node_ else none)) := by
  induction cs generalizing kids with
  | nil =>
    simp only [collectChildren, Option.some.injEq] at hk
    rw [← hk]; rfl
  | cons c rest ih =>
    cases hc : h.get c with
    | none => simp only [collectChildren, hc, Option.bind_eq_bind, Option.none_bind] at hk; cases hk
    | some x =>
      cases ht : collectChildren h rest with
      | none =>
        simp only [collectChildren, hc, ht, Option.bind_eq_bind, Option.some_bind,
          Option.none_bind] at hk
        cases hk
      | some tail =>
        have ihh := ih tail ht
        simp only [collectChildren, hc, ht, Option.bind_eq_bind, Option.some_bind] at hk
        rw [List.filterMap_cons, hc, Option.some_bind, ← ihh]
        cases hn : x.node_ with
        | none =>
          rw [hn] at hk
          simp only [Option.pure_def, Option.some.injEq] at hk
          simp only [ite_self, hk]
        | some pn =>
          rw [hn] at hk
          by_cases hb : (x.node_type_ != ASTNodeType.ANNOTATION) = true
          · simp only [hb, if_true, Option.pure_def, Option.some.injEq] at hk
            simp only [hb, if_true, hk]
          · rw [Bool.not_eq_true] at hb
            simp only [hb, Bool.false_eq_true, if_false, Option.pure_def,
              Option.some.injEq] at hk
            simp only [hb, Bool.false_eq_true, if_false, hk]

/-- The collection of the children returns when every child is in the heap. -/
theorem collectChildren_total (h : Heap) (cs : List Nat)
    (hc : ∀ c ∈ cs, ∃ x, h.get c = some x) :
    collectChildren h cs = some (cs.filterMap (fun c => (h.get c).bind (fun x =>
      if x.node_type_ != .ANNOTATION then x.node_ else none))) := by
  have key : ∃ kids, collectChildren h cs = some kids := by
    induction cs with
    | nil => exact ⟨[], rfl⟩
    | cons c rest ih =>
      obtain ⟨x, hx⟩ := hc c (List.mem_cons_self _ _)
      obtain ⟨tail, ht⟩ := ih (fun c2 h2 => hc c2 (List.mem_cons_of_mem _ h2))
      simp only [collectChildren, hx, ht, Option.bind_eq_bind, Option.some_bind]
      cases x.node_ with
      | none => exact ⟨_, rfl⟩
      | some pn =>
        by_cases hb : (x.node_type_ != ASTNodeType.ANNOTATION) = true
        · simp only [hb, if_true]; exact ⟨_, rfl⟩
        · rw [Bool.not_eq_true] at hb
          simp only [hb, Bool.false_eq_true, if_false]; exact ⟨_, rfl⟩
  obtain ⟨kids, hk⟩ := key
  rw [hk, collectChildren_eq h cs kids hk]

/-- The last TYPE child of a node is found when every child is in the heap;
it is one of the children. -/
theorem findTypeChild_total (h : Heap) (ci : ASTNode)
    (hc : ∀ k ∈ ci.children_, ∃ x, h.get k = some x) :
    ∃ type, findTypeChild h ci = some type ∧ ∀ t, type = some t → t ∈ ci.children_ := by
  unfold findTypeChild
  have key : ∀ (cs : List Nat) (init : Option Nat), (∀ k ∈ cs, ∃ x, h.get k = some x) →
      ∃ type, cs.foldlM (fun type k => do
        let c ← h.get k
        pure (if c.node_type_ == .TYPE then some k else type)) init = some type ∧
        ∀ t, type = some t → t ∈ cs ∨ init = some t := by
    intro cs
    induction cs with
    | nil => exact fun init _ => ⟨init, rfl, fun t ht => Or.inr ht⟩
    | cons k rest ih =>
      intro init hk
      obtain ⟨x, hx⟩ := hk k (List.mem_cons_self _ _)
      obtain ⟨type, ht, hmem⟩ := ih (if x.node_type_ == .TYPE then some k else init)
        (fun k2 h2 => hk k2 (List.mem_cons_of_mem _ h2))
      refine ⟨type, ?_, fun t htt => ?_⟩
      · simp only [List.foldlM_cons, hx, Option.bind_eq_bind, Option.some_bind,
          Option.pure_def]
        exact ht
      · rcases hmem t htt with hm | hm
        · exact Or.inl (List.mem_cons_of_mem _ hm)
        · by_cases hb : (x.node_type_ == ASTNodeType.TYPE) = true
          · simp only [hb, if_true, Option.some.injEq] at hm
            exact Or.inl (hm ▸ List.mem_cons_self _ _)
          · rw [Bool.not_eq_true] at hb
            simp only [hb, Bool.false_eq_true, if_false] at hm
            exact Or.inr hm
  obtain ⟨type, ht, hmem⟩ := key ci.children_ none hc
  refine ⟨type, ht, fun t htt => ?_⟩
  rcases hmem t htt with hm | hm
  · exact hm
  · cases hm

theorem findSchemaChild_cons_skip (h : Heap) (c : Nat) (rest : List Nat) (ck : ASTNode)
    (hc : h.get c = some ck) (hk : ck.is_root_candidate = false) :
    findSchemaChild h (c :: rest) = findSchemaChild h rest := by
  unfold ASTNode.is_root_candidate at hk
  cases hn : ck.node_ with
  | none => simp only [findSchemaChild, hc, hn, Option.bind_eq_bind, Option.some_bind]
  | some pn =>
    rw [hn] at hk
    change (ck.is_schema_name && pn.is_group && ck.node_type_ != ASTNodeType.ANNOTATION) =
      false at hk
    simp only [findSchemaChild, hc, hn, Option.bind_eq_bind, Option.some_bind, hk,
      Bool.false_eq_true, if_false]

theorem findSchemaChild_cons_hit (h : Heap) (c : Nat) (rest : List Nat) (ck : ASTNode)
    (pn : ParquetNode) (hc : h.get c = some ck) (hn : ck.node_ = some pn)
    (hk : ck.is_root_candidate = true) :
    findSchemaChild h (c :: rest) = some (some pn) := by
  unfold ASTNode.is_root_candidate at hk
  rw [hn] at hk
  change (ck.is_schema_name && pn.is_group && ck.node_type_ != ASTNodeType.ANNOTATION) =
    true at hk
  simp only [findSchemaChild, hc, hn, Option.bind_eq_bind, Option.some_bind, hk, if_true,
    Option.pure_def]

/-- The file-root search returns the target node of the first candidate. -/
theorem findSchemaChild_first (h : Heap) (pre post : List Nat) (c : Nat) (ck : ASTNode)
    (pn : ParquetNode)
    (hpre : ∀ k ∈ pre, ∃ x, h.get k = some x ∧ x.is_root_candidate = false)
    (hc : h.get c = some ck) (hn : ck.node_ = some pn) (hk : ck.is_root_candidate = true) :
    findSchemaChild h (pre ++ c :: post) = some (some pn) := by
  induction pre with
  | nil => exact findSchemaChild_cons_hit h c post ck pn hc hn hk
  | cons k rest ih =>
    obtain ⟨x, hx, hxc⟩ := hpre k (List.mem_cons_self _ _)
    rw [List.cons_append, findSchemaChild_cons_skip h k _ x hx hxc]
    exact ih (fun k2 h2 => hpre k2 (List.mem_cons_of_mem _ h2))

/-- The file-root search finds nothing when no child is a candidate. -/
theorem findSchemaChild_none (h : Heap) (cs : List Nat)
    (hcs : ∀ k ∈ cs, ∃ x, h.get k = some x ∧ x.is_root_candidate = false) :
    findSchemaChild h cs = some none := by
  induction cs with
  | nil => rfl
  | cons k rest ih =>
    obtain ⟨x, hx, hxc⟩ := hcs k (List.mem_cons_self _ _)
    rw [findSchemaChild_cons_skip h k _ x hx hxc]
    exact ih (fun k2 h2 => hcs k2 (List.mem_cons_of_mem _ h2))

theorem Heap.get_of_set (h : Heap) (q : Nat) (n x : ASTNode) (hn : h.get q = some n) :
    (∀ i, i ≠ q → Heap.get (h.set q x) i = h.get i) ∧ Heap.get (h.set q x) q = some x :=
  ⟨fun i hi => Heap.get_set_ne h q i x (Ne.symm hi), Heap.get_set_self h q n x hn⟩

/-- C17. On a FILE node, once `applyAnnotations` has returned (it keeps the
children and the target node of the node, and every other node), the node gets
the target node of the first child, in child order, that is a candidate (it has
a target node, a schema name, a group target node, and is not an ANNOTATION
node); no node is made. When no child is a candidate, the heap that
`applyAnnotations` left is returned: the target node of the FILE node stays
what it was, and so do its children. -/
theorem C17_file_root (h h1 : Heap) (q : Nat) (n : ASTNode)
    (hn : h.get q = some n) (hf : n.node_type_ = .FILE)
    (hann : applyAnnotations h q = some h1) :
    ∃ e, h1.get q = some e ∧ e.children_ = n.children_ ∧ e.node_ = n.node_ ∧
      (∀ i, i ≠ q → h1.get i = h.get i) ∧
      (∀ (pre post : List Nat) (c : Nat) (child : ASTNode) (pn : ParquetNode),
        n.children_ = pre ++ c :: post →
        (∀ k ∈ pre, ∃ x, h1.get k = some x ∧ x.is_root_candidate = false) →
        h1.get c = some child → child.node_ = some pn → child.is_root_candidate = true →
        ∃ hf, buildParquetNode h q = some hf ∧ (∀ i, i ≠ q → hf.get i = h1.get i) ∧
          hf.get q = some (e.setNode (some pn)) ∧
          (e.setNode (some pn)).node_ = some pn ∧
          (e.setNode (some pn)).children_ = n.children_) ∧
      ((∀ k ∈ n.children_, ∃ x, h1.get k = some x ∧ x.is_root_candidate = false) →
        buildParquetNode h q = some h1) := by
  obtain ⟨e, rfl, hid⟩ := applyAnnotations_frame h h1 q n hn hann
  unfold ASTNode.same_identity at hid
  obtain ⟨hg1, hg2⟩ := Heap.get_of_set h q n e hn
  have hty : e.node_type_ = .FILE := hid.1.trans hf
  have hb := buildParquetNode_file_eq h _ q e hann hg2 hty
  refine ⟨e, hg2, hid.2.2.1, hid.2.2.2.1, hg1, ?_, ?_⟩
  · intro pre post c child pn hch hpre hc hnode hcand
    rw [hid.2.2.1, hch, findSchemaChild_first _ pre post c child pn hpre hc hnode hcand] at hb
    obtain ⟨hg3, hg4⟩ := Heap.get_of_set _ q e (e.setNode (some pn)) hg2
    exact ⟨_, hb, hg3, hg4, rfl, hid.2.2.1⟩
  · intro hcs
    rw [hid.2.2.1, findSchemaChild_none _ _ hcs] at hb
    exact hb

theorem ASTNode.with_children_proj (n : ASTNode) (cs : List Nat) :
    (n.with_children cs).children_ = cs ∧ targetName (n.with_children cs) = targetName n ∧
    (n.with_children cs).node_ = n.node_ ∧
    (n.with_children cs).node_type_ = n.node_type_ ∧
    (n.with_children cs).is_parquet_group = n.is_parquet_group ∧
    (n.with_children cs).repetition_type_ = n.repetition_type_ ∧
    (n.with_children cs).logical_type_ = n.logical_type_ ∧
    (n.with_children cs).name_ = n.name_ ∧
    (n.with_children cs).parent_ = n.parent_ :=
  ⟨rfl, rfl, rfl, rfl, rfl, rfl, rfl, rfl, rfl⟩

theorem ASTNode.with_children_with_children (n : ASTNode) (cs ds : List Nat) :
    (n.with_children cs).with_children ds = n.with_children ds := rfl

theorem ASTNode.with_children_self (n : ASTNode) : n.with_children n.children_ = n := rfl

theorem ASTNode.makeParquetNode_with_children (n : ASTNode) (cs : List Nat) (nm : String)
    (kids : List ParquetNode) :
    makeParquetNode (n.with_children cs) nm kids = makeParquetNode n nm kids := rfl

theorem ASTNode.erase_child_eq (e : ASTNode) (j : Nat) :
    ∃ cs, cs.Sublist e.children_ ∧ e.erase_child j = e.with_children cs := by
  unfold ASTNode.erase_child
  by_cases hj : j < e.children_.length
  · rw [if_pos hj]
    exact ⟨_, List.eraseIdx_sublist _ _, rfl⟩
  · rw [if_neg hj]
    exact ⟨e.children_, List.Sublist.refl _, rfl⟩

/-- The removal loop changes the element only, and of the element only the
child list, from which it takes children out. -/
theorem removeDecls_frame (q : Nat) (ids : List Nat) (h h1 : Heap) (e : ASTNode)
    (hr : removeDecls q h ids = some h1) (he : h.get q = some e) :
    ∃ cs, cs.Sublist e.children_ ∧ h1 = h.set q (e.with_children cs) := by
  induction ids generalizing h e with
  | nil =>
    simp only [removeDecls, Option.some.injEq] at hr
    subst hr
    exact ⟨e.children_, List.Sublist.refl _, (Heap.set_get_self h q e he).symm⟩
  | cons id rest ih =>
    simp only [removeDecls, he, Option.bind_eq_bind, Option.some_bind] at hr
    cases hfind : findChildWithId h id e.children_ 0 with
    | none => rw [hfind] at hr; cases hr
    | some r =>
      rw [hfind, Option.some_bind] at hr
      cases r with
      | none => exact ih h e hr he
      | some j =>
        simp only [Heap.removeChild, Heap.update_of_get h q _ e he, Option.bind_eq_bind,
          Option.some_bind] at hr
        obtain ⟨cs1, hs1, he1⟩ := ASTNode.erase_child_eq e j
        obtain ⟨cs, hs, hh⟩ := ih _ (e.erase_child j) hr (Heap.get_set_self h q e _ he)
        rw [he1] at hs hh
        rw [(ASTNode.with_children_proj e cs1).1] at hs
        refine ⟨cs, hs.trans hs1, ?_⟩
        rw [hh, Heap.set_set, ASTNode.with_children_with_children]

theorem findChildWithId_miss (h : Heap) (id : Nat) (cs : List Nat) (j0 : Nat)
    (hcs : ∀ c ∈ cs, ∃ x, h.get c = some x ∧ x.node_id_ ≠ id) :
    findChildWithId h id cs j0 = some none := by
  induction cs generalizing j0 with
  | nil => rfl
  | cons c rest ih =>
    obtain ⟨x, hx, hne⟩ := hcs c (List.mem_cons_self _ _)
    have hb : (x.node_id_ == id) = false := by
      rw [Bool.eq_false_iff]; intro hb; exact hne (beq_iff_eq.1 hb)
    simp only [findChildWithId, hx, Option.bind_eq_bind, Option.some_bind, hb,
      Bool.false_eq_true, if_false]
    exact ih (j0 + 1) (fun c2 h2 => hcs c2 (List.mem_cons_of_mem _ h2))

theorem findChildWithId_hit (h : Heap) (id : Nat) (pre post : List Nat) (d : Nat)
    (D : ASTNode) (j0 : Nat)
    (hpre : ∀ c ∈ pre, ∃ x, h.get c = some x ∧ x.node_id_ ≠ id)
    (hd : h.get d = some D) (hD : D.node_id_ = id) :
    findChildWithId h id (pre ++ d :: post) j0 = some (some (j0 + pre.length)) := by
  induction pre generalizing j0 with
  | nil =>
    have hb : (D.node_id_ == id) = true := by rw [hD]; exact beq_self_eq_true _
    simp only [List.nil_append, findChildWithId, hd, Option.bind_eq_bind, Option.some_bind, hb,
      if_true, Option.pure_def, List.length_nil, Nat.add_zero]
  | cons c rest ih =>
    obtain ⟨x, hx, hne⟩ := hpre c (List.mem_cons_self _ _)
    have hb : (x.node_id_ == id) = false := by
      rw [Bool.eq_false_iff]; intro hb; exact hne (beq_iff_eq.1 hb)
    simp only [List.cons_append, findChildWithId, hx, Option.bind_eq_bind, Option.some_bind, hb,
      Bool.false_eq_true, if_false]
    have ihh := ih (j0 + 1) (fun c2 h2 => hpre c2 (List.mem_cons_of_mem _ h2))
    have hlen : j0 + (c :: rest).length = j0 + 1 + rest.length := by
      rw [List.length_cons]; omega
    rw [hlen]
    exact ihh

/-- The flattening loop changes nothing when no child of the element is a
declaration and the children of its children are in the heap. -/
theorem flattenLoop_no_decl (js is : List Nat) (h : Heap) (acc : List Nat)
    (his : ∀ c ∈ is, ∃ x, h.get c = some x ∧ ∀ k ∈ x.children_, ∃ y, h.get k = some y)
    (hjs : ∀ j ∈ js, ∃ cj, h.get j = some cj ∧ cj.is_decl = false) :
    flattenLoop js h acc is = some (h, acc) := by
  induction is with
  | nil => rfl
  | cons i rest ih =>
    obtain ⟨ci, hi, hk⟩ := his i (List.mem_cons_self _ _)
    have ihh := ih (fun c2 h2 => his c2 (List.mem_cons_of_mem _ h2))
    by_cases hs : ci.node_.isSome = false ∨ ci.node_type_ ≠ .FIELD
    · rw [flattenLoop_cons_skip js h acc i rest ci hi hs]
      exact ihh
    · rw [not_or, Bool.not_eq_false, not_not] at hs
      obtain ⟨type, ht, _⟩ := findTypeChild_total h ci hk
      have hm : h.no_decl_match type js := by
        intro j hj
        obtain ⟨cj, hcj, hd⟩ := hjs j hj
        exact ⟨cj, hcj, fun hd2 => by rw [hd] at hd2; cases hd2⟩
      rw [flattenLoop_cons_field js h acc i rest ci hi hs.1 hs.2, ht, Option.some_bind,
        flattenSearch_miss h i type js hm, Option.some_bind]
      exact ihh

theorem buildParquetNode_ann_none (h : Heap) (q : Nat) (ha : applyAnnotations h q = none) :
    buildParquetNode h q = none := by
  simp only [buildParquetNode, ha, Option.bind_eq_bind, Option.none_bind]

/-- The stages of a call of `buildParquetNode` that returns, on a node that is
not the FILE node. -/
theorem buildParquetNode_stages (h hf : Heap) (q : Nat) (n : ASTNode)
    (hn : h.get q = some n) (hty : n.node_type_ ≠ .FILE)
    (hb : buildParquetNode h q = some hf) :
    ∃ (e1 b : ASTNode) (h3 : Heap) (ids cs : List Nat) (kids : List ParquetNode) (nm : String),
      applyAnnotations h q = some (h.set q e1) ∧ e1.same_identity n ∧
      flattenLoop e1.children_ (h.set q (classify e1)) [] e1.children_ = some (h3, ids) ∧
      h3.get q = some b ∧ (classify e1).same_but_handle b ∧
      cs.Sublist n.children_ ∧
      removeDecls q h3 ids = some (h3.set q (b.with_children cs)) ∧
      collectChildren (h3.set q (b.with_children cs)) cs = some kids ∧
      convertCamelCase (targetName b) = some nm ∧
      hf = h3.set q ((b.with_children cs).setNode (some (makeParquetNode b nm kids))) := by
  cases ha : applyAnnotations h q with
  | none => rw [buildParquetNode_ann_none h q ha] at hb; cases hb
  | some h1 =>
    obtain ⟨e1, rfl, hid⟩ := applyAnnotations_frame h h1 q n hn ha
    have hid2 := hid
    unfold ASTNode.same_identity at hid2
    have hg := Heap.get_set_self h q n e1 hn
    rw [buildParquetNode_eq h _ q e1 ha hg (by rw [hid2.1]; exact hty), Heap.set_set] at hb
    cases hfl : flattenLoop e1.children_ (h.set q (classify e1)) [] e1.children_ with
    | none => rw [hfl] at hb; cases hb
    | some r =>
      obtain ⟨h3, ids⟩ := r
      rw [hfl, Option.some_bind] at hb
      obtain ⟨hR, _⟩ := flattenLoop_frame _ _ _ _ _ _ hfl
      obtain ⟨b, hb3, hcb⟩ := hR.2 q (classify e1) (Heap.get_set_self h q n _ hn)
      cases hrm : removeDecls q h3 ids with
      | none => rw [hrm] at hb; cases hb
      | some h4 =>
        obtain ⟨cs, hcs, rfl⟩ := removeDecls_frame q ids h3 h4 b hrm hb3
        have hg4 := Heap.get_set_self h3 q b (b.with_children cs) hb3
        simp only [hrm, Option.some_bind, hg4, (ASTNode.with_children_proj b cs).1,
          (ASTNode.with_children_proj b cs).2.1, ASTNode.makeParquetNode_with_children] at hb
        cases hk : collectChildren (h3.set q (b.with_children cs)) cs with
        | none => rw [hk] at hb; cases hb
        | some kids =>
          rw [hk, Option.some_bind] at hb
          cases hnm : convertCamelCase (targetName b) with
          | none => rw [hnm] at hb; cases hb
          | some nm =>
            rw [hnm, Option.some_bind, Heap.update_of_get _ q _ _ hg4, Heap.set_set,
              Option.some.injEq] at hb
            have hch : b.children_ = n.children_ :=
              (ASTNode.same_but_handle_proj hcb).2.2.2.2.2.1.trans
                ((classify_children e1).1.trans hid2.2.2.1)
            exact ⟨e1, b, h3, ids, cs, kids, nm, rfl, hid, hfl, hb3, hcb,
              hch ▸ hcs, hrm, hk, hnm, hb.symm⟩

theorem makeParquetNode_group (e : ASTNode) (nm : String) (kids : List ParquetNode)
    (hg : e.is_parquet_group = true) :
    makeParquetNode e nm kids = .group nm e.repetition_type_ kids e.logical_type_ := by
  simp only [makeParquetNode, hg, if_true]

/-- C15. `buildParquetNode` on a node that is not the FILE node and not its own
child. When the call returns, the children of the node are children it had
before, in the same order, and when the node is classified a group, its target
node is the group made of the name, the repetition, the logical tag and, in
child order, the target nodes of the children that have one and are not
ANNOTATION nodes; a child without a target node and an ANNOTATION child
contribute nothing. The call returns, and keeps all the children, when
`applyAnnotations` returns, the name is one that `convertCamelCase` accepts, no
child is a declaration, and the children and their children are in the
heap. -/
theorem C15_group_children (h : Heap) (q : Nat) (n : ASTNode)
    (hn : h.get q = some n) (hty : n.node_type_ ≠ .FILE) (hq : q ∉ n.children_) :
    (∀ hf, buildParquetNode h q = some hf →
      ∃ ef nm, hf.get q = some ef ∧ ef.children_.Sublist n.children_ ∧
        convertCamelCase (targetName ef) = some nm ∧
        (ef.is_parquet_group = true →
          ef.node_ = some (.group nm ef.repetition_type_
            (ef.children_.filterMap hf.child_handle) ef.logical_type_))) ∧
    (∀ h1 e1 nm, applyAnnotations h q = some h1 → h1.get q = some e1 →
      convertCamelCase (targetName e1) = some nm →
      (∀ c ∈ n.children_, ∃ x, h.get c = some x ∧ x.is_decl = false ∧
        ∀ k ∈ x.children_, ∃ y, h.get k = some y) →
      ∃ hf ef, buildParquetNode h q = some hf ∧ hf.get q = some ef ∧
        ef.children_ = n.children_ ∧
        ef.node_ = some (makeParquetNode (classify e1) nm
          (n.children_.filterMap h.child_handle)) ∧
        ∀ c ∈ n.children_, hf.child_handle c = h.child_handle c) := by
  constructor
  · intro hf hb
    obtain ⟨e1, b, h3, ids, cs, kids, nm, _, _, _, hb3, _, hcs, _, hk, hnm, rfl⟩ :=
      buildParquetNode_stages h hf q n hn hty hb
    obtain ⟨w1, w2, w3, w4, w5, w6, w7, w8, w9⟩ := ASTNode.with_children_proj b cs
    generalize b.with_children cs = e4 at hk w1 w2 w3 w4 w5 w6 w7 w8 w9 ⊢
    have hg4 := Heap.get_set_self h3 q b (e4.setNode (some (makeParquetNode b nm kids))) hb3
    have hch4 : (e4.setNode (some (makeParquetNode b nm kids))).children_ = cs := w1
    have htn4 : targetName (e4.setNode (some (makeParquetNode b nm kids))) = targetName b := w2
    refine ⟨_, nm, hg4, hch4 ▸ hcs, htn4 ▸ hnm, fun hg => ?_⟩
    have hkids := collectChildren_eq _ _ _ hk
    have hq2 : q ∉ cs := fun hm => hq (hcs.subset hm)
    have hfm : cs.filterMap (fun c => (Heap.get (h3.set q e4) c).bind
          (fun x => if x.node_type_ != .ANNOTATION then x.node_ else none)) =
        cs.filterMap (Heap.child_handle (h3.set q (e4.setNode
          (some (makeParquetNode b nm kids))))) := by
      apply List.filterMap_congr
      intro c hc
      have hne : q ≠ c := fun hqc => hq2 (hqc ▸ hc)
      unfold Heap.child_handle
      rw [Heap.get_set_ne _ _ _ _ hne, Heap.get_set_ne _ _ _ _ hne]
    rw [hfm] at hkids
    have hg2 : b.is_parquet_group = true := w5 ▸ hg
    have hmk := makeParquetNode_group b nm kids hg2
    rw [hch4, ← hkids]
    show some (makeParquetNode b nm kids) = _
    rw [hmk]
    exact congrArg some (by
      show ParquetNode.group nm b.repetition_type_ kids b.logical_type_ =
        ParquetNode.group nm e4.repetition_type_ kids e4.logical_type_
      rw [w6, w7])
  · intro h1 e1 nm hann he1 hnm hch
    obtain ⟨e, rfl, hid⟩ := applyAnnotations_frame h h1 q n hn hann
    have hee : e1 = e := by
      have hg0 := Heap.get_set_self h q n e hn
      rw [hg0] at he1
      exact (Option.some.inj he1).symm
    subst hee
    unfold ASTNode.same_identity at hid
    have hg := Heap.get_set_self h q n e1 hn
    have hec : e1.children_ = n.children_ := hid.2.2.1
    have hget : ∀ (X : ASTNode) (c : Nat), c ∈ n.children_ →
        Heap.get (h.set q X) c = h.get c := fun X c hc =>
      Heap.get_set_ne h q c X (fun hqc => hq (hqc ▸ hc))
    have hex : ∀ (X : ASTNode) (k : Nat), (∃ y, h.get k = some y) →
        ∃ y, Heap.get (h.set q X) k = some y := by
      intro X k ⟨y, hy⟩
      by_cases hk : q = k
      · subst hk; exact ⟨X, Heap.get_set_self h q y X hy⟩
      · exact ⟨y, (Heap.get_set_ne h q k X hk).trans hy⟩
    have hfl := flattenLoop_no_decl n.children_ n.children_ (h.set q (classify e1)) []
      (fun c hc => by
        obtain ⟨x, hx, _, hk⟩ := hch c hc
        exact ⟨x, (hget _ c hc).trans hx, fun k hkm => hex _ k (hk k hkm)⟩)
      (fun c hc => by
        obtain ⟨x, hx, hd, _⟩ := hch c hc
        exact ⟨x, (hget _ c hc).trans hx, hd⟩)
    have hgc := Heap.get_set_self h q n (classify e1) hn
    have hcc : (classify e1).children_ = n.children_ := (classify_children e1).1.trans hec
    have hkids := collectChildren_total (h.set q (classify e1)) n.children_
      (fun c hc => by
        obtain ⟨x, hx, _⟩ := hch c hc
        exact ⟨x, (hget _ c hc).trans hx⟩)
    have hfm : ∀ X : ASTNode, n.children_.filterMap (Heap.child_handle (h.set q X)) =
        n.children_.filterMap h.child_handle := by
      intro X
      apply List.filterMap_congr
      intro c hc
      unfold Heap.child_handle
      rw [hget X c hc]
    have hb := buildParquetNode_eq h _ q e1 hann hg (by rw [hid.1]; exact hty)
    rw [Heap.set_set, hec, hfl] at hb
    simp only [Option.some_bind, removeDecls, hgc, hcc, hkids, classify_targetName, hnm,
      Heap.update_of_get _ q _ _ hgc, Heap.set_set] at hb
    refine ⟨_, _, hb, Heap.get_set_self h q n _ hn, hcc, ?_, fun c hc => ?_⟩
    · show some (makeParquetNode (classify e1) nm _) = _
      exact congrArg (fun k => some (makeParquetNode (classify e1) nm k)) (hfm _)
    · unfold Heap.child_handle
      rw [hget _ c hc]

theorem Heap.flattened_from_same {h0 h : Heap} {rep : Repetition} {fs : List ParquetNode}
    {lt : LogicalType} {refs : List Nat} (hF : h0.flattened_from h rep fs lt refs) :
    h0.same_but_handles h := by
  refine ⟨hF.1, fun x a ha => ?_⟩
  rcases hF.2 x with he | ⟨_, cn, nm, h1, h2, h3, h4, h5⟩
  · exact ⟨a, he.trans ha, Or.inl rfl⟩
  · rw [ha] at h1
    cases h1
    exact ⟨_, h5, Or.inr ⟨h2, h3, nm, rep, fs, lt, h4, rfl⟩⟩

/-- The flattening loop over the children `is`, when the children in `refs`
refer to the declaration `D` and the other children to none: every child in
`refs` gets a fresh group made of the fields of the target node of `D`, and the
id of `D` is collected once for each of them. -/
theorem flattenLoop_refs (h0 : Heap) (pre post : List Nat) (d : Nat) (D : ASTNode)
    (dn : String) (rep : Repetition) (fs : List ParquetNode) (lt : LogicalType)
    (refs : List Nat)
    (hd : h0.get d = some D) (hD : D.is_decl = true) (hDf : D.node_type_ ≠ .FIELD)
    (hDn : D.node_ = some (.group dn rep fs lt))
    (is : List Nat)
    (href : ∀ c ∈ is, c ∈ refs → h0.refers_to pre D c)
    (hplain : ∀ c ∈ is, c ∉ refs → h0.refers_to_none (pre ++ d :: post) c)
    (h : Heap) (acc : List Nat) (hF : h0.flattened_from h rep fs lt refs) :
    ∃ h1, flattenLoop (pre ++ d :: post) h acc is =
        some (h1, acc ++ List.replicate (is.countP (fun c => decide (c ∈ refs))) D.node_id_) ∧
      h0.flattened_from h1 rep fs lt refs ∧
      (∀ x, h0.flattened_at h rep fs lt x → h0.flattened_at h1 rep fs lt x) ∧
      ∀ x ∈ is, x ∈ refs → h0.flattened_at h1 rep fs lt x := by
  induction is generalizing h acc with
  | nil =>
    exact ⟨h, by simp [flattenLoop], hF, fun _ hx => hx, fun x hx => absurd hx (List.not_mem_nil _)⟩
  | cons c rest ih =>
    have hR := Heap.flattened_from_same hF
    have hW := Heap.same_but_handles_search hR
    have href2 : ∀ c2 ∈ rest, c2 ∈ refs → h0.refers_to pre D c2 :=
      fun c2 h2 => href c2 (List.mem_cons_of_mem _ h2)
    have hplain2 : ∀ c2 ∈ rest, c2 ∉ refs → h0.refers_to_none (pre ++ d :: post) c2 :=
      fun c2 h2 => hplain c2 (List.mem_cons_of_mem _ h2)
    by_cases hc : c ∈ refs
    · obtain ⟨cn, t, tn, nm, hcn, hcf, hcs, hct, htn, hpre, hm, hnm⟩ :=
        href c (List.mem_cons_self _ _) hc
      obtain ⟨b, hb, hcb⟩ := hR.2 c cn hcn
      have hbp := ASTNode.same_but_handle_proj hcb
      obtain ⟨D1, hD1, hDD⟩ := hR.2 d D hd
      have hDeq : D1 = D := (ASTNode.same_but_handle_proj hDD).2.2.2.2.2.2.2.2 hDf
      subst hDeq
      obtain ⟨tn1, htn1, htt⟩ := hR.2 t tn htn
      have htp := ASTNode.same_but_handle_proj htt
      have hbset : b.setNode (some (.group nm rep fs lt)) =
          cn.setNode (some (.group nm rep fs lt)) := by
        rcases hcb with rfl | ⟨_, _, _, _, _, _, _, rfl⟩ <;> rfl
      have hsearch := flattenSearch_hit h c t d pre post D1 tn1
        (Heap.no_decl_match_same hW _ _ hpre) hD1 hD htn1
        (by rw [htp.2.2.1, htp.2.2.2.2.1]; exact hm)
      rw [hDn] at hsearch
      simp only [Option.some_bind, ParquetNode.group_fields, hb, hbp.2.2.2.1, hnm,
        Heap.update_of_get h c _ b hb, ParquetNode.repetition, ParquetNode.logical_type,
        hbset] at hsearch
      have hstep := flattenLoop_cons_field (pre ++ d :: post) h acc c rest b hb
        (hbp.2.2.2.2.2.2.2.1.trans hcs) (hbp.1.trans hcf)
      rw [findTypeChild_same h0 h hW cn b hbp.2.2.2.2.2.1, hct, Option.some_bind, hsearch,
        Option.some_bind] at hstep
      have hflt : h0.flattened_at (h.set c (cn.setNode (some (.group nm rep fs lt))))
          rep fs lt c :=
        ⟨cn, nm, hcn, hcf, hcs, hnm, Heap.get_set_self h c b _ hb⟩
      have hF1 : h0.flattened_from (h.set c (cn.setNode (some (.group nm rep fs lt))))
          rep fs lt refs := by
        refine ⟨(List.length_set _ _ _).trans hF.1, fun x => ?_⟩
        by_cases hx : c = x
        · subst hx
          exact Or.inr ⟨hc, hflt⟩
        · rcases hF.2 x with he | ⟨hxr, cx, nx, g1, g2, g3, g4, g5⟩
          · exact Or.inl ((Heap.get_set_ne h c x _ hx).trans he)
          · exact Or.inr ⟨hxr, cx, nx, g1, g2, g3, g4, (Heap.get_set_ne h c x _ hx).trans g5⟩
      have hkeep : ∀ x, h0.flattened_at h rep fs lt x →
          h0.flattened_at (h.set c (cn.setNode (some (.group nm rep fs lt)))) rep fs lt x := by
        intro x ⟨cx, nx, g1, g2, g3, g4, g5⟩
        by_cases hx : c = x
        · subst hx
          exact hflt
        · exact ⟨cx, nx, g1, g2, g3, g4, (Heap.get_set_ne h c x _ hx).trans g5⟩
      obtain ⟨h1, hl, hF2, hk2, hall⟩ := ih href2 hplain2 _ (acc ++ [D1.node_id_]) hF1
      refine ⟨h1, ?_, hF2, fun x hx => hk2 x (hkeep x hx), fun x hx hxr => ?_⟩
      · rw [hstep]
        show flattenLoop (pre ++ d :: post) _ (acc ++ [D1.node_id_]) rest = _
        rw [hl, List.countP_cons_of_pos _ _ (by simpa using hc), List.replicate_succ,
          List.append_assoc, List.singleton_append]
      · rcases List.mem_cons.1 hx with rfl | hx2
        · exact hk2 _ hflt
        · exact hall x hx2 hxr
    · obtain ⟨cn, hcn, hcase⟩ := hplain c (List.mem_cons_self _ _) hc
      have hb : h.get c = some cn := by
        rcases hF.2 c with he | ⟨hxr, _⟩
        · exact he.trans hcn
        · exact absurd hxr hc
      have hstep : flattenLoop (pre ++ d :: post) h acc (c :: rest) =
          flattenLoop (pre ++ d :: post) h acc rest := by
        by_cases hs : cn.node_.isSome = false ∨ cn.node_type_ ≠ .FIELD
        · exact flattenLoop_cons_skip _ h acc c rest cn hb hs
        · have hs2 := hs
          rw [not_or, Bool.not_eq_false, not_not] at hs2
          rcases hcase with h1 | h1 | ⟨type, hty, hm⟩
          · exact absurd (Or.inl h1) hs
          · exact absurd (Or.inr h1) hs
          · rw [flattenLoop_cons_field _ h acc c rest cn hb hs2.1 hs2.2,
              findTypeChild_same h0 h hW cn cn rfl, hty, Option.some_bind,
              flattenSearch_miss h c type _ (Heap.no_decl_match_same hW _ _ hm),
              Option.some_bind]
      obtain ⟨h1, hl, hF2, hk2, hall⟩ := ih href2 hplain2 h acc hF
      refine ⟨h1, ?_, hF2, hk2, fun x hx hxr => ?_⟩
      · rw [hstep, hl, List.countP_cons_of_neg _ _ (by simpa using hc)]
      · rcases List.mem_cons.1 hx with rfl | hx2
        · exact absurd hxr hc
        · exact hall x hx2 hxr

theorem classify_search (c : ASTNode) :
    (classify c).type_name_ = c.type_name_ ∧ (classify c).node_id_ = c.node_id_ ∧
    (classify c).node_ = c.node_ := by
  unfold classify
  have h1 := applyLogicalType_ind c
    (fun x => x.type_name_ = c.type_name_ ∧ x.node_id_ = c.node_id_ ∧ x.node_ = c.node_)
    ⟨rfl, rfl, rfl⟩ (fun _ => ⟨rfl, rfl, rfl⟩)
  have h2 := applyPhysicalType_ind (applyLogicalType c)
    (fun x => x.type_name_ = c.type_name_ ∧ x.node_id_ = c.node_id_ ∧ x.node_ = c.node_)
    h1 (fun _ => h1) (fun _ _ => h1)
  exact applyParquetNodeType_ind (applyPhysicalType (applyLogicalType c))
    (fun x => x.type_name_ = c.type_name_ ∧ x.node_id_ = c.node_id_ ∧ x.node_ = c.node_)
    h2 h2 h2

/-- The node after `applyAnnotations` and classification agrees with the node
before on what the searches of the flattening read, and has the same target
node. -/
theorem classify_same_for_search (n e1 : ASTNode) (hid : e1.same_identity n) :
    n.same_for_search (classify e1) ∧ (classify e1).node_ = n.node_ := by
  unfold ASTNode.same_identity at hid
  obtain ⟨i1, i2, i3, i4, i5, i6, i7, i8, i9, i10, i11, i12, i13, i14, i15⟩ := hid
  obtain ⟨c1, c2, c3, c4⟩ := classify_children e1
  obtain ⟨p1, p2, p3, p4⟩ := classify_payload e1
  obtain ⟨s1, s2, s3⟩ := classify_search e1
  refine ⟨⟨c2.trans i1, p3.trans i8, p4.trans i6, c4.trans i2, s1.trans i11, c1.trans i3,
    s2.trans i9, ?_⟩, s3.trans i4⟩
  rw [s3, i4]

theorem List.eraseIdx_append_cons (pre post : List Nat) (d : Nat) :
    (pre ++ d :: post).eraseIdx pre.length = pre ++ post := by
  induction pre with
  | nil => rfl
  | cons a rest ih =>
    simp only [List.cons_append, List.length_cons, List.eraseIdx_cons_succ, ih]

theorem ASTNode.erase_child_append_cons (e : ASTNode) (pre post : List Nat) (d : Nat)
    (he : e.children_ = pre ++ d :: post) :
    e.erase_child pre.length = e.with_children (pre ++ post) := by
  unfold ASTNode.erase_child ASTNode.with_children
  have hlt : pre.length < e.children_.length := by
    rw [he, List.length_append, List.length_cons]; omega
  rw [if_pos hlt, he, List.eraseIdx_append_cons]

/-- The removal loop on ids that no child of the element has. -/
theorem removeDecls_miss (q : Nat) (h : Heap) (e : ASTNode) (ids : List Nat)
    (he : h.get q = some e)
    (hcs : ∀ id ∈ ids, ∀ c ∈ e.children_, ∃ x, h.get c = some x ∧ x.node_id_ ≠ id) :
    removeDecls q h ids = some h := by
  induction ids with
  | nil => rfl
  | cons id rest ih =>
    simp only [removeDecls, he, Option.bind_eq_bind, Option.some_bind,
      findChildWithId_miss h id e.children_ 0 (hcs id (List.mem_cons_self _ _))]
    exact ih (fun id2 h2 => hcs id2 (List.mem_cons_of_mem _ h2))

/-- The removal loop on `k + 1` copies of the id of the child `d`, which no
other child has: `d` is removed once. -/
theorem removeDecls_once (q : Nat) (h : Heap) (e D : ASTNode) (pre post : List Nat) (d : Nat)
    (k : Nat) (he : h.get q = some e) (hch : e.children_ = pre ++ d :: post)
    (hq : q ∉ pre ++ post)
    (hd : h.get d = some D)
    (hid : ∀ c ∈ pre ++ post, ∃ x, h.get c = some x ∧ x.node_id_ ≠ D.node_id_) :
    removeDecls q h (List.replicate (k + 1) D.node_id_) =
      some (h.set q (e.with_children (pre ++ post))) := by
  have hfind := findChildWithId_hit h D.node_id_ pre post d D 0
    (fun c hc => hid c (List.mem_append_left _ hc)) hd rfl
  rw [Nat.zero_add] at hfind
  rw [List.replicate_succ]
  simp only [removeDecls, he, Option.bind_eq_bind, Option.some_bind, hch, hfind,
    Heap.removeChild, Heap.update_of_get h q _ e he,
    ASTNode.erase_child_append_cons e pre post d hch]
  apply removeDecls_miss q _ (e.with_children (pre ++ post)) _
    (Heap.get_set_self h q e _ he)
  intro id hidm c hc
  rw [List.eq_of_mem_replicate hidm]
  rw [(ASTNode.with_children_proj e (pre ++ post)).1] at hc
  obtain ⟨x, hx, hne⟩ := hid c hc
  exact ⟨x, (Heap.get_set_ne h q c _ (fun hqc => hq (hqc ▸ hc))).trans hx, hne⟩

theorem Heap.refers_to_same {h0 h : Heap} (hW : h0.same_for_search h) (pre : List Nat)
    (D : ASTNode) (c : Nat) (hc : h.get c = h0.get c) (hr : h0.refers_to pre D c) :
    h.refers_to pre D c := by
  obtain ⟨cn, t, tn, nm, h1, h2, h3, h4, h5, h6, h7, h8⟩ := hr
  obtain ⟨tn1, htn1, htt⟩ := hW.2 t tn h5
  exact ⟨cn, t, tn1, nm, hc.trans h1, h2, h3,
    (findTypeChild_same h0 h hW cn cn rfl).trans h4, htn1,
    Heap.no_decl_match_same hW _ _ h6, by rw [htt.2.2.1, htt.2.2.2.2.1]; exact h7, h8⟩

theorem Heap.refers_to_none_same {h0 h : Heap} (hW : h0.same_for_search h) (js : List Nat)
    (c : Nat) (hc : h.get c = h0.get c) (hr : h0.refers_to_none js c) :
    h.refers_to_none js c := by
  obtain ⟨cn, h1, hcase⟩ := hr
  refine ⟨cn, hc.trans h1, ?_⟩
  rcases hcase with h2 | h2 | ⟨type, h3, h4⟩
  · exact Or.inl h2
  · exact Or.inr (Or.inl h2)
  · exact Or.inr (Or.inr ⟨type, (findTypeChild_same h0 h hW cn cn rfl).trans h3,
      Heap.no_decl_match_same hW _ _ h4⟩)

set_option maxHeartbeats 1000000 in
/-- C13. `buildParquetNode` on a node `q` that is not the FILE node and not
its own child, whose children are `pre ++ d :: post`: `d` is a declaration that
is not a FIELD node, its target node is a group, and no other child has its
id. The children in `refs` (at least one) are the fields that refer to it:
FIELD nodes with a target node whose TYPE child has the category and the name
of `d`, and of no declaration before `d`; every other child has no target
node, or is not a FIELD node, or refers to no declaration among the children.
Then the call returns; every field in `refs` gets its own fresh group, named
after the field, with the repetition, the fields (in order) and the logical
tag of the target node of `d`; `d` is removed from the children once, the
children that remain are `pre ++ post`; and no node other than `q` and the
fields in `refs` changes. -/
theorem C13_flatten_once (h h1 : Heap) (q : Nat) (n e1 : ASTNode) (pre post : List Nat)
    (d : Nat) (D : ASTNode) (dn : String) (rep : Repetition) (fs : List ParquetNode)
    (lt : LogicalType) (refs : List Nat) (nm : String)
    (hn : h.get q = some n) (hty : n.node_type_ ≠ .FILE)
    (hann : applyAnnotations h q = some h1) (he1 : h1.get q = some e1)
    (hnm : convertCamelCase (targetName e1) = some nm)
    (hch : n.children_ = pre ++ d :: post) (hq : q ∉ n.children_)
    (hd : h.get d = some D) (hD : D.is_decl = true) (hDf : D.node_type_ ≠ .FIELD)
    (hDn : D.node_ = some (.group dn rep fs lt))
    (hid : ∀ c ∈ pre ++ post, ∃ x, h.get c = some x ∧ x.node_id_ ≠ D.node_id_)
    (hsub : ∀ c ∈ refs, c ∈ n.children_) (hk : refs ≠ [])
    (href : ∀ c ∈ refs, h.refers_to pre D c)
    (hplain : ∀ c ∈ n.children_, c ∉ refs → h.refers_to_none (pre ++ d :: post) c) :
    ∃ hf ef, buildParquetNode h q = some hf ∧ hf.get q = some ef ∧
      ef.children_ = pre ++ post ∧
      ef.node_ = some (makeParquetNode (classify e1) nm
        ((pre ++ post).filterMap hf.child_handle)) ∧
      (∀ c ∈ refs, ∃ cn fnm, h.get c = some cn ∧ convertCamelCase cn.name_ = some fnm ∧
        hf.get c = some (cn.setNode (some (.group fnm rep fs lt)))) ∧
      (∀ x, x ≠ q → x ∉ refs → hf.get x = h.get x) := by
  -- after the annotations and the classification
  obtain ⟨e, rfl, hident⟩ := applyAnnotations_frame h h1 q n hn hann
  have hee : e1 = e := by
    have hg0 := Heap.get_set_self h q n e hn
    rw [hg0] at he1
    exact (Option.some.inj he1).symm
  subst hee
  have hg1 := Heap.get_set_self h q n e1 hn
  obtain ⟨hWn, hnode⟩ := classify_same_for_search n e1 hident
  have hW : h.same_for_search (h.set q (classify e1)) :=
    Heap.same_for_search_set h q n _ hn hWn
  have hg2 := Heap.get_set_self h q n (classify e1) hn
  have hne : ∀ c ∈ n.children_, q ≠ c := fun c hc hqc => hq (hqc ▸ hc)
  have hget : ∀ c ∈ n.children_, Heap.get (h.set q (classify e1)) c = h.get c :=
    fun c hc => Heap.get_set_ne h q c _ (hne c hc)
  have hdm : d ∈ n.children_ := by rw [hch]; exact List.mem_append_right _ (List.mem_cons_self _ _)
  have hcc : (classify e1).children_ = pre ++ d :: post := hWn.2.2.2.2.2.1.trans hch
  have hqr : q ∉ refs := fun hm => hq (hsub q hm)
  -- the flattening loop
  obtain ⟨h3, hl, hF, _, hall⟩ := flattenLoop_refs (h.set q (classify e1)) pre post d D dn rep
    fs lt refs ((hget d hdm).trans hd) hD hDf hDn (pre ++ d :: post)
    (fun c hc hcr => Heap.refers_to_same hW pre D c (hget c (hch ▸ hc)) (href c hcr))
    (fun c hc hcr => Heap.refers_to_none_same hW _ c (hget c (hch ▸ hc))
      (hplain c (hch ▸ hc) hcr))
    (h.set q (classify e1)) [] ⟨rfl, fun _ => Or.inl rfl⟩
  rw [List.nil_append] at hl
  have hcount : ∃ k, (pre ++ d :: post).countP (fun c => decide (c ∈ refs)) = k + 1 := by
    obtain ⟨c, hc⟩ := List.exists_mem_of_ne_nil refs hk
    have hpos : 0 < (pre ++ d :: post).countP (fun c => decide (c ∈ refs)) :=
      List.countP_pos_iff.2 ⟨c, hch ▸ hsub c hc, by simpa using hc⟩
    exact ⟨_, (Nat.succ_pred_eq_of_pos hpos).symm⟩
  obtain ⟨k, hk1⟩ := hcount
  rw [hk1] at hl
  -- the heap after the loop
  have hother : ∀ x, x ∉ refs → h3.get x = Heap.get (h.set q (classify e1)) x := by
    intro x hx
    rcases hF.2 x with he | ⟨hxr, _⟩
    · exact he
    · exact absurd hxr hx
  have hg3 : h3.get q = some (classify e1) := (hother q hqr).trans hg2
  have hW3 : h.same_for_search h3 := by
    have h23 := Heap.same_but_handles_search (Heap.flattened_from_same hF)
    refine ⟨h23.1.trans hW.1, fun x a ha => ?_⟩
    obtain ⟨b, hb, hab⟩ := hW.2 x a ha
    obtain ⟨c, hc, hbc⟩ := h23.2 x b hb
    exact ⟨c, hc, hbc.1.trans hab.1, hbc.2.1.trans hab.2.1, hbc.2.2.1.trans hab.2.2.1,
      hbc.2.2.2.1.trans hab.2.2.2.1, hbc.2.2.2.2.1.trans hab.2.2.2.2.1,
      hbc.2.2.2.2.2.1.trans hab.2.2.2.2.2.1, hbc.2.2.2.2.2.2.1.trans hab.2.2.2.2.2.2.1,
      hbc.2.2.2.2.2.2.2.trans hab.2.2.2.2.2.2.2⟩
  have hd3 : h3.get d = some D := by
    obtain ⟨D3, hD3, hDD⟩ := (Heap.flattened_from_same hF).2 d D ((hget d hdm).trans hd)
    rw [(ASTNode.same_but_handle_proj hDD).2.2.2.2.2.2.2.2 hDf] at hD3
    exact hD3
  have hq2 : q ∉ pre ++ post := by
    intro hm
    apply hq
    rw [hch]
    rcases List.mem_append.1 hm with hm | hm
    · exact List.mem_append_left _ hm
    · exact List.mem_append_right _ (List.mem_cons_of_mem _ hm)
  have hrm := removeDecls_once q h3 (classify e1) D pre post d k hg3 hcc hq2 hd3
    (fun c hc => by
      obtain ⟨x, hx, hxi⟩ := hid c hc
      obtain ⟨y, hy, hxy⟩ := hW3.2 c x hx
      exact ⟨y, hy, by rw [hxy.2.2.2.2.2.2.1]; exact hxi⟩)
  -- the collection and the Make call
  obtain ⟨w1, w2, w3, w4, w5, w6, w7, w8, w9⟩ :=
    ASTNode.with_children_proj (classify e1) (pre ++ post)
  have hmkw := ASTNode.makeParquetNode_with_children (classify e1) (pre ++ post) nm
  generalize (classify e1).with_children (pre ++ post) = e4 at hrm w1 w2 w3 w4 w5 w6 w7 w8 w9 hmkw
  have hg4 := Heap.get_set_self h3 q _ e4 hg3
  have hex4 : ∀ c ∈ pre ++ post, ∃ x, Heap.get (h3.set q e4) c = some x := by
    intro c hc
    obtain ⟨x, hx, _⟩ := hid c hc
    obtain ⟨y, hy, _⟩ := hW3.2 c x hx
    exact ⟨y, (Heap.get_set_ne h3 q c _ (fun hqc => hq2 (hqc ▸ hc))).trans hy⟩
  have hkids := collectChildren_total (h3.set q e4) (pre ++ post) hex4
  have hb := buildParquetNode_eq h _ q e1 hann hg1 (by rw [hident.1]; exact hty)
  rw [Heap.set_set, hident.2.2.1, hch, hl] at hb
  simp only [Option.some_bind, hrm, hg4, w1, hkids, w2, classify_targetName, hnm,
    Heap.update_of_get _ q _ _ hg4, Heap.set_set, hmkw] at hb
  have hfin := Heap.get_set_self h3 q _ (e4.setNode (some (makeParquetNode (classify e1) nm
    ((pre ++ post).filterMap (fun c => (Heap.get (h3.set q e4) c).bind
      (fun x => if x.node_type_ != .ANNOTATION then x.node_ else none)))))) hg3
  refine ⟨_, _, hb, hfin, w1, ?_, ?_, ?_⟩
  · show some (makeParquetNode (classify e1) nm _) = _
    refine congrArg (fun k => some (makeParquetNode (classify e1) nm k)) ?_
    apply List.filterMap_congr
    intro c hc
    have hqc : q ≠ c := fun hqc => hq2 (hqc ▸ hc)
    unfold Heap.child_handle
    rw [Heap.get_set_ne _ _ _ _ hqc, Heap.get_set_ne _ _ _ _ hqc]
  · intro c hc
    have hcm : c ∈ pre ++ d :: post := hch ▸ hsub c hc
    obtain ⟨cn, fnm, g1, g2, g3, g4, g5⟩ := hall c hcm hc
    have hqc : q ≠ c := hne c (hsub c hc)
    rw [Heap.get_set_ne h q c _ hqc] at g1
    exact ⟨cn, fnm, g1, g4, (Heap.get_set_ne h3 q c _ hqc).trans g5⟩
  · intro x hxq hxr
    rw [Heap.get_set_ne h3 q x _ (Ne.symm hxq), hother x hxr,
      Heap.get_set_ne h q x _ (Ne.symm hxq)]

/-- The flattening loop does not return when one of the children it visits is
a field that refers to a declaration whose target node is missing or is not a
group: the loop reads the fields of that target node. -/
theorem flattenLoop_none_at (h0 : Heap) (pre post : List Nat) (d : Nat) (D : ASTNode)
    (c : Nat) (ipost : List Nat)
    (hd : h0.get d = some D) (hD : D.is_decl = true) (hDf : D.node_type_ ≠ .FIELD)
    (hDn : D.node_.bind ParquetNode.group_fields = none)
    (hc : h0.refers_to pre D c)
    (ipre : List Nat) (h : Heap) (acc : List Nat) (hR : h0.same_but_handles h) :
    flattenLoop (pre ++ d :: post) h acc (ipre ++ c :: ipost) = none := by
  induction ipre generalizing h acc with
  | nil =>
    have hW := Heap.same_but_handles_search hR
    obtain ⟨cn, t, tn, nm, hcn, hcf, hcs, hct, htn, hpre, hm, hnm⟩ := hc
    obtain ⟨b, hb, hcb⟩ := hR.2 c cn hcn
    have hbp := ASTNode.same_but_handle_proj hcb
    obtain ⟨D1, hD1, hDD⟩ := hR.2 d D hd
    have hDeq : D1 = D := (ASTNode.same_but_handle_proj hDD).2.2.2.2.2.2.2.2 hDf
    subst hDeq
    obtain ⟨tn1, htn1, htp⟩ := hW.2 t tn htn
    have hsearch := flattenSearch_hit h c t d pre post D1 tn1
      (Heap.no_decl_match_same hW _ _ hpre) hD1 hD htn1
      (by rw [htp.2.2.1, htp.2.2.2.2.1]; exact hm)
    have hnone : flattenSearch h c (some t) (pre ++ d :: post) = none := by
      rw [hsearch]
      cases hx : D1.node_ with
      | none => rfl
      | some pn =>
        rw [hx, Option.some_bind] at hDn
        rw [Option.some_bind, hDn]
        rfl
    rw [List.nil_append, flattenLoop_cons_field (pre ++ d :: post) h acc c ipost b hb
      (hbp.2.2.2.2.2.2.2.1.trans hcs) (hbp.1.trans hcf),
      findTypeChild_same h0 h hW cn b hbp.2.2.2.2.2.1, hct, Option.some_bind, hnone]
    rfl
  | cons i rest ih =>
    rw [List.cons_append]
    rcases flattenLoop_cons_cases (pre ++ d :: post) h acc i (rest ++ c :: ipost) with
      hn | ⟨h2, acc2, hR2, _, he⟩
    · exact hn
    · rw [he]
      exact ih h2 acc2 (Heap.same_but_handles_trans hR hR2)

/-- A node of source category ENUM or INTERFACE without an override flag is
classified primitive, so the target node made for it has no fields to read. -/
theorem makeParquetNode_not_group (n : ASTNode) (nm : String) (kids : List ParquetNode)
    (hc : n.is_capnp_type = true)
    (hw : n.capnp_type_ = .ENUM ∨ n.capnp_type_ = .INTERFACE)
    (hflags : n.has_override_flag = false) :
    (makeParquetNode (classify n) nm kids).group_fields = none := by
  obtain ⟨f1, f2, f3, f4, f5, f6, f7, f8, f9, f10⟩ := has_override_flag_false hflags
  have hp : (applyParquetNodeType n).parquet_node_type_ = .PRIMITIVE := by
    rw [applyParquetNodeType_node_type]
    rcases hw with hw | hw <;>
      simp only [f1, f2, f3, f4, f5, f6, f7, f8, f9, f10, hc, hw, Bool.false_eq_true, if_false,
        if_true]
  rw [makeParquetNode_classify_primitive n nm kids hp]
  simp only [f1, Bool.false_eq_true, if_false]
  rfl

/-- C14. `buildParquetNode` on a node `q` that is not the FILE node and not
its own child, one of whose children is a field `c` that refers to a
declaration `d` among the children (the first with the source category and the
name of the TYPE child of the field), when the target node of `d` is missing or
is not a group: the call does not return. The flattening loop makes no
difference between the categories of declarations; it reads the fields of the
target node of the declaration as if it were a group, which is undefined
behaviour for the primitive node of an enum or interface declaration. The
target node that `buildParquetNode` makes for a declaration of category ENUM or
INTERFACE without an override flag is such a node. -/
theorem C14_enum_reference_undefined (h : Heap) (q : Nat) (n : ASTNode)
    (pre post ipre ipost : List Nat) (d c : Nat) (D : ASTNode)
    (hn : h.get q = some n) (hty : n.node_type_ ≠ .FILE) (hq : q ∉ n.children_)
    (hch : n.children_ = pre ++ d :: post) (hci : n.children_ = ipre ++ c :: ipost)
    (hd : h.get d = some D) (hD : D.is_decl = true) (hDf : D.node_type_ ≠ .FIELD)
    (hDn : D.node_.bind ParquetNode.group_fields = none)
    (hc : h.refers_to pre D c) :
    buildParquetNode h q = none ∧
    ∀ (x : ASTNode) (nm : String) (kids : List ParquetNode), x.is_capnp_type = true →
      (x.capnp_type_ = .ENUM ∨ x.capnp_type_ = .INTERFACE) → x.has_override_flag = false →
      ((x.setNode (some (makeParquetNode (classify x) nm kids))).node_.bind
        ParquetNode.group_fields) = none := by
  refine ⟨?_, fun x nm kids h1 h2 h3 => makeParquetNode_not_group x nm kids h1 h2 h3⟩
  cases hann : applyAnnotations h q with
  | none => exact buildParquetNode_ann_none h q hann
  | some h1 =>
    obtain ⟨e1, rfl, hident⟩ := applyAnnotations_frame h h1 q n hn hann
    have hg1 := Heap.get_set_self h q n e1 hn
    obtain ⟨hWn, _⟩ := classify_same_for_search n e1 hident
    have hW : h.same_for_search (h.set q (classify e1)) :=
      Heap.same_for_search_set h q n _ hn hWn
    have hget : ∀ x ∈ n.children_, Heap.get (h.set q (classify e1)) x = h.get x :=
      fun x hx => Heap.get_set_ne h q x _ (fun hqx => hq (hqx ▸ hx))
    have hdm : d ∈ n.children_ := by
      rw [hch]; exact List.mem_append_right _ (List.mem_cons_self _ _)
    have hcm : c ∈ n.children_ := by
      rw [hci]; exact List.mem_append_right _ (List.mem_cons_self _ _)
    have hfl := flattenLoop_none_at (h.set q (classify e1)) pre post d D c ipost
      ((hget d hdm).trans hd) hD hDf hDn
      (Heap.refers_to_same hW pre D c (hget c hcm) hc) ipre (h.set q (classify e1)) []
      (Heap.same_but_handles_refl _)
    have hb := buildParquetNode_eq h _ q e1 hann hg1 (by rw [hident.1]; exact hty)
    rw [Heap.set_set, hident.2.2.1] at hb
    rw [hb]
    nth_rewrite 1 [hch]
    rw [hci, hfl]
    rfl

theorem makeParquetNode_name (e : ASTNode) (nm : String) (kids : List ParquetNode) :
    (makeParquetNode e nm kids).name = nm := by
  unfold makeParquetNode
  split_ifs <;> rfl

/-- What a call of `buildParquetNode` that returns, on a node `q` that is not
the FILE node, does to the other nodes: a node is left as it is, or it is a
child of `q`, a FIELD node that had a target node, and gets a group named
after the field as its target node. -/
theorem buildParquetNode_others (h hf : Heap) (q : Nat) (n : ASTNode)
    (hn : h.get q = some n) (hty : n.node_type_ ≠ .FILE)
    (hb : buildParquetNode h q = some hf) (x : Nat) (a : ASTNode) (hx : x ≠ q)
    (ha : h.get x = some a) :
    ∃ b, hf.get x = some b ∧ a.same_but_handle b ∧ (b = a ∨ x ∈ n.children_) := by
  obtain ⟨e1, b, h3, ids, cs, kids, nm, _, hid, hfl, _, _, _, _, _, _, rfl⟩ :=
    buildParquetNode_stages h hf q n hn hty hb
  obtain ⟨hR, hfr⟩ := flattenLoop_frame _ _ _ _ _ _ hfl
  have ha2 : Heap.get (h.set q (classify e1)) x = some a :=
    (Heap.get_set_ne h q x _ (Ne.symm hx)).trans ha
  obtain ⟨b2, hb2, hab⟩ := hR.2 x a ha2
  refine ⟨b2, (Heap.get_set_ne h3 q x _ (Ne.symm hx)).trans hb2, hab, ?_⟩
  by_cases hm : x ∈ n.children_
  · exact Or.inr hm
  · left
    unfold ASTNode.same_identity at hid
    have := hfr x (by rw [hid.2.2.1]; exact hm)
    rw [this, ha2] at hb2
    exact (Option.some.inj hb2).symm

/-- C16. A call of `buildParquetNode` that returns, on a node that is not the
FILE node: the target node of the node is named `convertCamelCase` of
`targetName`, which is the first available of the enumerant name, the
referenced-type name, the schema name and the declared name. Every other node
is left as it is, or is a FIELD node that had a target node and gets a group
named `convertCamelCase` of its declared name, whatever its other names are. -/
theorem C16_target_names (h hf : Heap) (q : Nat) (n : ASTNode)
    (hn : h.get q = some n) (hty : n.node_type_ ≠ .FILE)
    (hb : buildParquetNode h q = some hf) :
    (∃ ef pn nm, hf.get q = some ef ∧ ef.node_ = some pn ∧
      convertCamelCase (targetName ef) = some nm ∧ pn.name = nm ∧
      targetName ef =
        (if ef.is_enumerant_name then ef.enumerant_name_
         else if ef.is_type_name then ef.type_name_
         else if ef.is_schema_name then ef.schema_name_
         else ef.name_)) ∧
    (∀ x a, x ≠ q → h.get x = some a → ∃ b, hf.get x = some b ∧
      (b = a ∨ (a.node_type_ = .FIELD ∧ a.node_.isSome = true ∧
        ∃ nm rep fs lt, convertCamelCase a.name_ = some nm ∧
          b = a.setNode (some (.group nm rep fs lt))))) := by
  constructor
  · obtain ⟨e1, b, h3, ids, cs, kids, nm, _, _, _, hb3, _, _, _, _, hnm, rfl⟩ :=
      buildParquetNode_stages h hf q n hn hty hb
    refine ⟨_, _, nm, Heap.get_set_self h3 q b _ hb3, rfl, ?_, makeParquetNode_name _ _ _, rfl⟩
    exact hnm
  · intro x a hx ha
    obtain ⟨b, hb1, hab, _⟩ := buildParquetNode_others h hf q n hn hty hb x a hx ha
    exact ⟨b, hb1, hab⟩

/-- C18. A call of `buildParquetNode` that returns, on any node `q`: a node
other than `q` is left as it is, or it is a child of `q`, a FIELD node that
already had a target node, and the call gives it another target node. -/
theorem C18_handles_assigned (h hf : Heap) (q : Nat) (n : ASTNode)
    (hn : h.get q = some n) (hb : buildParquetNode h q = some hf) :
    ∀ x a, x ≠ q → h.get x = some a → ∃ b, hf.get x = some b ∧
      (b = a ∨ (x ∈ n.children_ ∧ a.node_type_ = .FIELD ∧ a.node_.isSome = true ∧
        ∃ pn, b = a.setNode (some pn))) := by
  intro x a hx ha
  by_cases hty : n.node_type_ = .FILE
  · cases hann : applyAnnotations h q with
    | none => rw [buildParquetNode_ann_none h q hann] at hb; cases hb
    | some h1 =>
      obtain ⟨e1, rfl, hid⟩ := applyAnnotations_frame h h1 q n hn hann
      have hg := Heap.get_set_self h q n e1 hn
      have hbe := buildParquetNode_file_eq h _ q e1 hann hg (hid.1.trans hty)
      rw [hbe] at hb
      cases hfind : findSchemaChild (h.set q e1) e1.children_ with
      | none => rw [hfind] at hb; cases hb
      | some r =>
        rw [hfind, Option.some_bind] at hb
        cases r with
        | none =>
          simp only [Option.some.injEq] at hb
          subst hb
          exact ⟨a, (Heap.get_set_ne h q x _ (Ne.symm hx)).trans ha, Or.inl rfl⟩
        | some pn =>
          simp only [Option.some.injEq] at hb
          subst hb
          rw [Heap.set_set]
          exact ⟨a, (Heap.get_set_ne h q x _ (Ne.symm hx)).trans ha, Or.inl rfl⟩
  · obtain ⟨b, hb1, hab, hcase⟩ := buildParquetNode_others h hf q n hn hty hb x a hx ha
    refine ⟨b, hb1, ?_⟩
    rcases hcase with h1 | h1
    · exact Or.inl h1
    · rcases hab with rfl | ⟨g1, g2, nm, rep, fs, lt, _, rfl⟩
      · exact Or.inl rfl
      · exact Or.inr ⟨h1, g1, g2, _, rfl⟩

/-- C12, counterexample. The pass on the example file with `Point` and `Shape`
both at file scope: the target node of the field `origin` (node 7) is a group
with one field, the empty group `point` made for its TYPE node, and not the
fields `x` and `y`; the root is `shape(origin(point()))`; and the FILE node
(node 0) keeps the declaration `Point` (node 1), whose target node is
`point(x,y)`, among its children. -/
theorem C12_file_scope_not_inlined :
    (traverse_file CapnpcParquet.hooks exampleFlatFile exampleRequest {}).map
      (fun r => r.2.getDocument.map ParquetNode.outline) =
        some (some "shape(origin(point()))") ∧
    (traverse_file CapnpcParquet.hooks exampleFlatFile exampleRequest {}).map
      (fun r => (r.2.heap.get 7).map (fun n => (n.name_, n.node_.map ParquetNode.outline))) =
        some (some ("origin", some "origin(point())")) ∧
    (traverse_file CapnpcParquet.hooks exampleFlatFile exampleRequest {}).map
      (fun r => (r.2.heap.get 0).map (fun n => n.children_)) = some (some [1, 6]) ∧
    (traverse_file CapnpcParquet.hooks exampleFlatFile exampleRequest {}).map
      (fun r => (r.2.heap.get 1).map (fun n => (n.name_, n.node_.map ParquetNode.outline))) =
        some (some ("Point", some "point(x,y)")) := by
  simp only [exampleFlatFile, examplePoint, exampleShape, traverse_file, traverse_imports,
    traverse_imports_loop, traverse_nested_decls, nested_decls_of, traverse_nested_decls_loop,
    traverse_decl, traverse_struct_fields, traverse_struct_field_list, traverse_struct_field,
    traverse_annotations, traverse_annotations_loop, traverse_annotation, traverse_value,
    traverse_dynamic_value, traverse_type, CapnpcParquet.hooks, exampleRequest,
    List.length_cons, List.length_nil, Schema.info, Schema.annotations]
  decide!

/-- C12, amended. The pass on the example file with `Point` declared inside
`Shape`: the target node of the field `origin` (node 7) is the group of the
fields `x` and `y`; the root is `shape(origin(x,y))`, with one group that holds
the fields of `Point` and no node named `point`; and the declaration `Point`
(node 2) is no longer among the children of `Shape` (node 1). -/
theorem C12_nested_inlined :
    (traverse_file CapnpcParquet.hooks exampleNestedFile exampleRequest {}).map
      (fun r => r.2.getDocument.map ParquetNode.outline) =
        some (some "shape(origin(x,y))") ∧
    (traverse_file CapnpcParquet.hooks exampleNestedFile exampleRequest {}).map
      (fun r => (r.2.heap.get 7).map (fun n => (n.name_, n.node_.map ParquetNode.outline))) =
        some (some ("origin", some "origin(x,y)")) ∧
    (traverse_file CapnpcParquet.hooks exampleNestedFile exampleRequest {}).map
      (fun r => (r.2.heap.get 0).map (fun n => n.children_)) = some (some [1]) ∧
    (traverse_file CapnpcParquet.hooks exampleNestedFile exampleRequest {}).map
      (fun r => (r.2.heap.get 1).map (fun n => (n.name_, n.children_))) =
        some (some ("Shape", [7, 9])) ∧
    (traverse_file CapnpcParquet.hooks exampleNestedFile exampleRequest {}).map
      (fun r => (r.2.heap.get 2).map (fun n => (n.name_, n.node_.map ParquetNode.outline))) =
        some (some ("Point", some "point(x,y)")) := by
  simp only [exampleNestedFile, examplePoint, exampleShape, traverse_file, traverse_imports,
    traverse_imports_loop, traverse_nested_decls, nested_decls_of, traverse_nested_decls_loop,
    traverse_decl, traverse_struct_fields, traverse_struct_field_list, traverse_struct_field,
    traverse_annotations, traverse_annotations_loop, traverse_annotation, traverse_value,
    traverse_dynamic_value, traverse_type, CapnpcParquet.hooks, exampleRequest,
    List.length_cons, List.length_nil, Schema.info, Schema.annotations]
  decide!

/-- C16, counterexample. The pass on the example file in which the field
`origin` carries an applied annotation named `schema` with the value `"pt"`:
the field node (node 7) has the schema name `pt`, so `convertCamelCase` of its
first available name is `pt`, but its target node, made by the flattening, is
named `origin`. -/
theorem C16_flattened_field_name :
    (traverse_file CapnpcParquet.hooks exampleRenamedFile exampleRequest {}).map
      (fun r => (r.2.heap.get 7).map (fun n => (n.name_, n.is_schema_name, n.schema_name_))) =
        some (some ("origin", true, "pt")) ∧
    (traverse_file CapnpcParquet.hooks exampleRenamedFile exampleRequest {}).map
      (fun r => (r.2.heap.get 7).map (fun n => convertCamelCase (targetName n))) =
        some (some (some "pt")) ∧
    (traverse_file CapnpcParquet.hooks exampleRenamedFile exampleRequest {}).map
      (fun r => (r.2.heap.get 7).map (fun n => n.node_.map ParquetNode.name)) =
        some (some (some "origin")) := by
  simp only [exampleRenamedFile, examplePoint, exampleShape, traverse_file, traverse_imports,
    traverse_imports_loop, traverse_nested_decls, nested_decls_of, traverse_nested_decls_loop,
    traverse_decl, traverse_struct_fields, traverse_struct_field_list, traverse_struct_field,
    traverse_annotations, traverse_annotations_loop, traverse_annotation, traverse_value,
    traverse_dynamic_value, traverse_type, CapnpcParquet.hooks, exampleRequest,
    List.length_cons, List.length_nil, Schema.info, Schema.annotations]
  decide!

/-- C18, counterexample. The pass on the example file with `Point` declared
inside `Shape`, stopped before the exit hook of `Shape`: the field `origin`
(node 7) has the target node `origin(point())`, set by its own exit hook. The
exit hook of `Shape` then sets the target node of the same field to
`origin(x,y)`. -/
theorem C18_handle_assigned_twice :
    ((CapnpcParquet.pre_visit_file exampleNestedFile exampleRequest >>= fun _ =>
        CapnpcParquet.pre_visit_decl (exampleShape [examplePoint 102] []) >>= fun _ =>
        traverse_decl CapnpcParquet.hooks (exampleShape [examplePoint 102] [])) {}).map
      (fun r => (r.2.heap.get 7).map (fun n => (n.name_, n.node_.map ParquetNode.outline))) =
        some (some ("origin", some "origin(point())")) ∧
    ((CapnpcParquet.pre_visit_file exampleNestedFile exampleRequest >>= fun _ =>
        CapnpcParquet.pre_visit_decl (exampleShape [examplePoint 102] []) >>= fun _ =>
        traverse_decl CapnpcParquet.hooks (exampleShape [examplePoint 102] []) >>= fun _ =>
        CapnpcParquet.post_visit_decl (exampleShape [examplePoint 102] [])) {}).map
      (fun r => (r.2.heap.get 7).map (fun n => (n.name_, n.node_.map ParquetNode.outline))) =
        some (some ("origin", some "origin(x,y)")) := by
  simp only [exampleNestedFile, examplePoint, exampleShape, traverse_file, traverse_imports,
    traverse_imports_loop, traverse_nested_decls, nested_decls_of, traverse_nested_decls_loop,
    traverse_decl, traverse_struct_fields, traverse_struct_field_list, traverse_struct_field,
    traverse_annotations, traverse_annotations_loop, traverse_annotation, traverse_value,
    traverse_dynamic_value, traverse_type, CapnpcParquet.hooks, exampleRequest,
    List.length_cons, List.length_nil, Schema.info, Schema.annotations]
  decide!

/-- The pass on the example file `struct Palette` does not return: the exit
hook of `Palette` reads the fields of the primitive target node of the enum
declaration `Color`. -/
theorem palette_traversal_undefined :
    (traverse_file CapnpcParquet.hooks examplePaletteFile exampleRequest {}).isNone = true := by
  simp only [examplePaletteFile, traverse_file, traverse_imports,
    traverse_imports_loop, traverse_nested_decls, nested_decls_of, traverse_nested_decls_loop,
    traverse_decl, traverse_struct_fields, traverse_struct_field_list, traverse_struct_field,
    traverse_annotations, traverse_annotations_loop, traverse_annotation, traverse_value,
    traverse_dynamic_value, traverse_type, traverse_enumerants, traverse_enumerants_loop,
    CapnpcParquet.hooks, exampleRequest,
    List.length_cons, List.length_nil, Schema.info, Schema.annotations]
  decide!

theorem Option.eq_some_getD {α : Type} (x : Option α) (d : α) (h : x.isSome = true) :
    x = some (x.getD d) := by
  cases x with
  | none => cases h
  | some a => rfl

/-- The exit hook of `Shape` returns on the example heap. -/
theorem exampleShapeHeap_builds :
    buildParquetNode exampleShapeHeap 0 = some exampleShapeBuilt :=
  Option.eq_some_getD _ _ (by decide!)

/-- Witness of C13: the declaration `Shape` of the example heap, whose field
`origin` (node 2) refers to the nested declaration `Point` (node 1). -/
theorem C13_flatten_once_witness :
    ∃ hf ef, buildParquetNode exampleShapeHeap 0 = some hf ∧ hf.get 0 = some ef ∧
      ef.children_ = [] ++ [2] ∧
      ef.node_ = some (makeParquetNode (classify exampleShapeDecl) "shape"
        (([] ++ [2]).filterMap hf.child_handle)) ∧
      (∀ c ∈ [2], ∃ cn fnm, exampleShapeHeap.get c = some cn ∧
        convertCamelCase cn.name_ = some fnm ∧
        hf.get c = some (cn.setNode (some (.group fnm .OPTIONAL
          [.primitive "x" .OPTIONAL .INT32 .INT_32 (-1) (-1) (-1),
           .primitive "y" .OPTIONAL .INT32 .INT_32 (-1) (-1) (-1)] .NONE)))) ∧
      (∀ x, x ≠ 0 → x ∉ [2] → hf.get x = exampleShapeHeap.get x) :=
  C13_flatten_once exampleShapeHeap exampleShapeHeap 0 exampleShapeDecl exampleShapeDecl
    [] [2] 1 examplePointDecl "point" .OPTIONAL
    [.primitive "x" .OPTIONAL .INT32 .INT_32 (-1) (-1) (-1),
     .primitive "y" .OPTIONAL .INT32 .INT_32 (-1) (-1) (-1)] .NONE [2] "shape"
    rfl (by decide) rfl rfl (by decide) rfl (by decide) rfl rfl (by decide) rfl
    (fun c hc => by
      rw [List.nil_append, List.mem_singleton] at hc
      subst hc
      exact ⟨exampleOriginField, rfl, by decide⟩)
    (by decide) (by decide)
    (fun c hc => by
      rw [List.mem_singleton] at hc
      subst hc
      exact ⟨exampleOriginField, 3, exampleOriginType, "origin", rfl, rfl, rfl, rfl, rfl,
        fun j hj => absurd hj (List.not_mem_nil _), ⟨rfl, rfl⟩, by decide⟩)
    (fun c hc hr => by
      have hc2 : c = 1 ∨ c = 2 := by
        simpa [exampleShapeDecl, ASTNode.push_back_child, ASTNode.new, ASTNode.setIsDecl,
          ASTNode.setCapnpType] using hc
      rcases hc2 with rfl | rfl
      · exact ⟨examplePointDecl, rfl, Or.inr (Or.inl (by decide))⟩
      · exact absurd (List.mem_singleton.2 rfl) hr)

/-- Witness of C14: the declaration `Palette` of the example heap, whose field
`favorite` (node 2) refers to the nested enum declaration `Color` (node 1). -/
theorem C14_enum_reference_undefined_witness :
    buildParquetNode examplePaletteHeap 0 = none ∧
    ∀ (x : ASTNode) (nm : String) (kids : List ParquetNode), x.is_capnp_type = true →
      (x.capnp_type_ = .ENUM ∨ x.capnp_type_ = .INTERFACE) → x.has_override_flag = false →
      ((x.setNode (some (makeParquetNode (classify x) nm kids))).node_.bind
        ParquetNode.group_fields) = none :=
  C14_enum_reference_undefined examplePaletteHeap 0 examplePaletteDecl [] [2] [1] [] 1 2
    exampleColorDecl rfl (by decide) (by decide) rfl rfl rfl rfl (by decide) rfl
    ⟨exampleFavoriteField, 3, exampleFavoriteType, "favorite", rfl, rfl, rfl, rfl, rfl,
      fun j hj => absurd hj (List.not_mem_nil _), ⟨rfl, rfl⟩, by decide⟩

/-- Witness of C15: the declaration `Shape` of the example heap. -/
theorem C15_group_children_witness :
    ∃ ef nm, exampleShapeBuilt.get 0 = some ef ∧
      ef.children_.Sublist exampleShapeDecl.children_ ∧
      convertCamelCase (targetName ef) = some nm ∧
      (ef.is_parquet_group = true →
        ef.node_ = some (.group nm ef.repetition_type_
          (ef.children_.filterMap exampleShapeBuilt.child_handle) ef.logical_type_)) :=
  (C15_group_children exampleShapeHeap 0 exampleShapeDecl rfl (by decide) (by decide)).1
    exampleShapeBuilt exampleShapeHeap_builds

/-- Witness of C16: the exit hook of `Shape` on the example heap. -/
theorem C16_target_names_witness :
    (∃ ef pn nm, exampleShapeBuilt.get 0 = some ef ∧ ef.node_ = some pn ∧
      convertCamelCase (targetName ef) = some nm ∧ pn.name = nm ∧
      targetName ef =
        (if ef.is_enumerant_name then ef.enumerant_name_
         else if ef.is_type_name then ef.type_name_
         else if ef.is_schema_name then ef.schema_name_
         else ef.name_)) ∧
    (∀ x a, x ≠ 0 → exampleShapeHeap.get x = some a → ∃ b, exampleShapeBuilt.get x = some b ∧
      (b = a ∨ (a.node_type_ = .FIELD ∧ a.node_.isSome = true ∧
        ∃ nm rep fs lt, convertCamelCase a.name_ = some nm ∧
          b = a.setNode (some (.group nm rep fs lt))))) :=
  C16_target_names exampleShapeHeap exampleShapeBuilt 0 exampleShapeDecl rfl (by decide)
    exampleShapeHeap_builds

/-- Witness of C17: the FILE node of the example heap. -/
theorem C17_file_root_witness :
    ∃ e, exampleFileHeap.get 0 = some e ∧ e.children_ = exampleFileNode.children_ ∧
      e.node_ = exampleFileNode.node_ ∧
      (∀ i, i ≠ 0 → exampleFileHeap.get i = exampleFileHeap.get i) ∧
      (∀ (pre post : List Nat) (c : Nat) (child : ASTNode) (pn : ParquetNode),
        exampleFileNode.children_ = pre ++ c :: post →
        (∀ k ∈ pre, ∃ x, exampleFileHeap.get k = some x ∧ x.is_root_candidate = false) →
        exampleFileHeap.get c = some child → child.node_ = some pn →
        child.is_root_candidate = true →
        ∃ hf, buildParquetNode exampleFileHeap 0 = some hf ∧
          (∀ i, i ≠ 0 → hf.get i = exampleFileHeap.get i) ∧
          hf.get 0 = some (e.setNode (some pn)) ∧
          (e.setNode (some pn)).node_ = some pn ∧
          (e.setNode (some pn)).children_ = exampleFileNode.children_) ∧
      ((∀ k ∈ exampleFileNode.children_, ∃ x, exampleFileHeap.get k = some x ∧
          x.is_root_candidate = false) →
        buildParquetNode exampleFileHeap 0 = some exampleFileHeap) :=
  C17_file_root exampleFileHeap exampleFileHeap 0 exampleFileNode rfl rfl rfl

/-- Witness of C18: the exit hook of `Shape` on the example heap, at the field
`origin` (node 2). -/
theorem C18_handles_assigned_witness :
    ∃ b, exampleShapeBuilt.get 2 = some b ∧
      (b = exampleOriginField ∨ (2 ∈ exampleShapeDecl.children_ ∧
        exampleOriginField.node_type_ = .FIELD ∧
        exampleOriginField.node_.isSome = true ∧
        ∃ pn, b = exampleOriginField.setNode (some pn))) :=
  C18_handles_assigned exampleShapeHeap exampleShapeBuilt 0 exampleShapeDecl rfl
    exampleShapeHeap_builds 2 exampleOriginField (by decide) rfl

/-! ## The traversal engine: the order of the hook calls -/

theorem logHooks_apply (stop : Event → Bool) :
    (∀ s x1, (logHooks stop).pre_visit_file s x1 = record stop (.pre .FILE (.schema s.info))) ∧
    (∀ s x1, (logHooks stop).pre_visit_imports s x1 = record stop (.pre .IMPORTS (.schema s.info))) ∧
    (∀ x0 i, (logHooks stop).pre_visit_import x0 i = record stop (.pre .IMPORT (.named i.name))) ∧
    (∀ s, (logHooks stop).pre_visit_nested_decls s = record stop (.pre .NESTED_DECLS (.schema s.info))) ∧
    (∀ s, (logHooks stop).pre_visit_decl s = record stop (.pre .DECL (.schema s.info))) ∧
    (∀ s, (logHooks stop).pre_visit_struct_decl s = record stop (.pre .STRUCT_DECL (.schema s.info))) ∧
    (∀ s, (logHooks stop).pre_visit_enum_decl s = record stop (.pre .ENUM_DECL (.schema s.info))) ∧
    (∀ s, (logHooks stop).pre_visit_const_decl s = record stop (.pre .CONST_DECL (.schema s.info))) ∧
    (∀ s, (logHooks stop).pre_visit_annotation_decl s = record stop (.pre .ANNOTATION_DECL (.schema s.info))) ∧
    (∀ a x1, Hooks.pre_visit_annotation (logHooks stop) a x1 = record stop (.pre .ANNOTATION (.named a.declName))) ∧
    (∀ i, (logHooks stop).pre_visit_annotations i = record stop (.pre .ANNOTATIONS (.schema i))) ∧
    (∀ x0 t x2, (logHooks stop).pre_visit_type x0 t x2 = record stop (.pre .TYPE (.type t))) ∧
    (∀ x0 t x2, (logHooks stop).pre_visit_dynamic_value x0 t x2 = record stop (.pre .DYNAMIC_VALUE (.type t))) ∧
    (∀ s, (logHooks stop).pre_visit_struct_fields s = record stop (.pre .STRUCT_FIELDS (.schema s.info))) ∧
    (∀ x0 f, (logHooks stop).pre_visit_struct_default_value x0 f = record stop (.pre .STRUCT_DEFAULT_VALUE (.named f.proto.name))) ∧
    (∀ x0 f, (logHooks stop).pre_visit_struct_field x0 f = record stop (.pre .STRUCT_FIELD (.named f.proto.name))) ∧
    (∀ x0 f x2, (logHooks stop).pre_visit_struct_field_slot x0 f x2 = record stop (.pre .STRUCT_FIELD_SLOT (.named f.proto.name))) ∧
    (∀ x0 f x2, (logHooks stop).pre_visit_struct_field_group x0 f x2 = record stop (.pre .STRUCT_FIELD_GROUP (.named f.proto.name))) ∧
    (∀ s, (logHooks stop).pre_visit_struct_field_union s = record stop (.pre .STRUCT_FIELD_UNION (.schema s.info))) ∧
    (∀ s, (logHooks stop).pre_visit_interface_decl s = record stop (.pre .INTERFACE_DECL (.schema s.info))) ∧
    (∀ x0 n x2, (logHooks stop).pre_visit_param_list x0 n x2 = record stop (.pre .PARAM_LIST (.named n))) ∧
    (∀ x0 m, (logHooks stop).pre_visit_method x0 m = record stop (.pre .METHOD (.named m.name))) ∧
    (∀ s, (logHooks stop).pre_visit_methods s = record stop (.pre .METHODS (.schema s.info))) ∧
    (∀ x0 m x2, (logHooks stop).pre_visit_method_implicit_params x0 m x2 = record stop (.pre .METHOD_IMPLICIT_PARAMS (.named m.name))) ∧
    (∀ x0 e, (logHooks stop).pre_visit_enumerant x0 e = record stop (.pre .ENUMERANT (.named e.name))) ∧
    (∀ s x1, (logHooks stop).pre_visit_enumerants s x1 = record stop (.pre .ENUMERANTS (.schema s.info))) ∧
    (∀ s x1, (logHooks stop).post_visit_file s x1 = record stop (.post .FILE (.schema s.info))) ∧
    (∀ s x1, (logHooks stop).post_visit_imports s x1 = record stop (.post .IMPORTS (.schema s.info))) ∧
    (∀ x0 i, (logHooks stop).post_visit_import x0 i = record stop (.post .IMPORT (.named i.name))) ∧
    (∀ s, (logHooks stop).post_visit_nested_decls s = record stop (.post .NESTED_DECLS (.schema s.info))) ∧
    (∀ s, (logHooks stop).post_visit_decl s = record stop (.post .DECL (.schema s.info))) ∧
    (∀ s, (logHooks stop).post_visit_struct_decl s = record stop (.post .STRUCT_DECL (.schema s.info))) ∧
    (∀ s, (logHooks stop).post_visit_enum_decl s = record stop (.post .ENUM_DECL (.schema s.info))) ∧
    (∀ s, (logHooks stop).post_visit_const_decl s = record stop (.post .CONST_DECL (.schema s.info))) ∧
    (∀ s, (logHooks stop).post_visit_annotation_decl s = record stop (.post .ANNOTATION_DECL (.schema s.info))) ∧
    (∀ a x1, Hooks.post_visit_annotation (logHooks stop) a x1 = record stop (.post .ANNOTATION (.named a.declName))) ∧
    (∀ i, (logHooks stop).post_visit_annotations i = record stop (.post .ANNOTATIONS (.schema i))) ∧
    (∀ x0 t, (logHooks stop).post_visit_type x0 t = record stop (.post .TYPE (.type t))) ∧
    (∀ x0 t x2, (logHooks stop).post_visit_dynamic_value x0 t x2 = record stop (.post .DYNAMIC_VALUE (.type t))) ∧
    (∀ s, (logHooks stop).post_visit_struct_fields s = record stop (.post .STRUCT_FIELDS (.schema s.info))) ∧
    (∀ x0 f, (logHooks stop).post_visit_struct_default_value x0 f = record stop (.post .STRUCT_DEFAULT_VALUE (.named f.proto.name))) ∧
    (∀ x0 f, (logHooks stop).post_visit_struct_field x0 f = record stop (.post .STRUCT_FIELD (.named f.proto.name))) ∧
    (∀ x0 f x2, (logHooks stop).post_visit_struct_field_slot x0 f x2 = record stop (.post .STRUCT_FIELD_SLOT (.named f.proto.name))) ∧
    (∀ x0 f x2, (logHooks stop).post_visit_struct_field_group x0 f x2 = record stop (.post .STRUCT_FIELD_GROUP (.named f.proto.name))) ∧
    (∀ s, (logHooks stop).post_visit_struct_field_union s = record stop (.post .STRUCT_FIELD_UNION (.schema s.info))) ∧
    (∀ s, (logHooks stop).post_visit_interface_decl s = record stop (.post .INTERFACE_DECL (.schema s.info))) ∧
    (∀ x0 n x2, (logHooks stop).post_visit_param_list x0 n x2 = record stop (.post .PARAM_LIST (.named n))) ∧
    (∀ x0 m, (logHooks stop).post_visit_method x0 m = record stop (.post .METHOD (.named m.name))) ∧
    (∀ s, (logHooks stop).post_visit_methods s = record stop (.post .METHODS (.schema s.info))) ∧
    (∀ x0 m x2, (logHooks stop).post_visit_method_implicit_params x0 m x2 = record stop (.post .METHOD_IMPLICIT_PARAMS (.named m.name))) ∧
    (∀ x0 e, (logHooks stop).post_visit_enumerant x0 e = record stop (.post .ENUMERANT (.named e.name))) ∧
    (∀ s x1, (logHooks stop).post_visit_enumerants s x1 = record stop (.post .ENUMERANTS (.schema s.info))) :=
  ⟨fun _ _ => rfl,
   fun _ _ => rfl,
   fun _ _ => rfl,
   fun _ => rfl,
   fun _ => rfl,
   fun _ => rfl,
   fun _ => rfl,
   fun _ => rfl,
   fun _ => rfl,
   fun _ _ => rfl,
   fun _ => rfl,
   fun _ _ _ => rfl,
   fun _ _ _ => rfl,
   fun _ => rfl,
   fun _ _ => rfl,
   fun _ _ => rfl,
   fun _ _ _ => rfl,
   fun _ _ _ => rfl,
   fun _ => rfl,
   fun _ => rfl,
   fun _ _ _ => rfl,
   fun _ _ => rfl,
   fun _ => rfl,
   fun _ _ _ => rfl,
   fun _ _ => rfl,
   fun _ _ => rfl,
   fun _ _ => rfl,
   fun _ _ => rfl,
   fun _ _ => rfl,
   fun _ => rfl,
   fun _ => rfl,
   fun _ => rfl,
   fun _ => rfl,
   fun _ => rfl,
   fun _ => rfl,
   fun _ _ => rfl,
   fun _ => rfl,
   fun _ _ => rfl,
   fun _ _ _ => rfl,
   fun _ => rfl,
   fun _ _ => rfl,
   fun _ _ => rfl,
   fun _ _ _ => rfl,
   fun _ _ _ => rfl,
   fun _ => rfl,
   fun _ => rfl,
   fun _ _ _ => rfl,
   fun _ _ => rfl,
   fun _ => rfl,
   fun _ _ _ => rfl,
   fun _ _ => rfl,
   fun _ _ => rfl⟩

theorem continueHooks_apply :
    (∀ s x1, continueHooks.pre_visit_file s x1 = record (fun _ => false) (.pre .FILE (.schema s.info))) ∧
    (∀ s x1, continueHooks.pre_visit_imports s x1 = record (fun _ => false) (.pre .IMPORTS (.schema s.info))) ∧
    (∀ x0 i, continueHooks.pre_visit_import x0 i = record (fun _ => false) (.pre .IMPORT (.named i.name))) ∧
    (∀ s, continueHooks.pre_visit_nested_decls s = record (fun _ => false) (.pre .NESTED_DECLS (.schema s.info))) ∧
    (∀ s, continueHooks.pre_visit_decl s = record (fun _ => false) (.pre .DECL (.schema s.info))) ∧
    (∀ s, continueHooks.pre_visit_struct_decl s = record (fun _ => false) (.pre .STRUCT_DECL (.schema s.info))) ∧
    (∀ s, continueHooks.pre_visit_enum_decl s = record (fun _ => false) (.pre .ENUM_DECL (.schema s.info))) ∧
    (∀ s, continueHooks.pre_visit_const_decl s = record (fun _ => false) (.pre .CONST_DECL (.schema s.info))) ∧
    (∀ s, continueHooks.pre_visit_annotation_decl s = record (fun _ => false) (.pre .ANNOTATION_DECL (.schema s.info))) ∧
    (∀ a x1, Hooks.pre_visit_annotation continueHooks a x1 = record (fun _ => false) (.pre .ANNOTATION (.named a.declName))) ∧
    (∀ i, continueHooks.pre_visit_annotations i = record (fun _ => false) (.pre .ANNOTATIONS (.schema i))) ∧
    (∀ x0 t x2, continueHooks.pre_visit_type x0 t x2 = record (fun _ => false) (.pre .TYPE (.type t))) ∧
    (∀ x0 t x2, continueHooks.pre_visit_dynamic_value x0 t x2 = record (fun _ => false) (.pre .DYNAMIC_VALUE (.type t))) ∧
    (∀ s, continueHooks.pre_visit_struct_fields s = record (fun _ => false) (.pre .STRUCT_FIELDS (.schema s.info))) ∧
    (∀ x0 f, continueHooks.pre_visit_struct_default_value x0 f = record (fun _ => false) (.pre .STRUCT_DEFAULT_VALUE (.named f.proto.name))) ∧
    (∀ x0 f, continueHooks.pre_visit_struct_field x0 f = record (fun _ => false) (.pre .STRUCT_FIELD (.named f.proto.name))) ∧
    (∀ x0 f x2, continueHooks.pre_visit_struct_field_slot x0 f x2 = record (fun _ => false) (.pre .STRUCT_FIELD_SLOT (.named f.proto.name))) ∧
    (∀ x0 f x2, continueHooks.pre_visit_struct_field_group x0 f x2 = record (fun _ => false) (.pre .STRUCT_FIELD_GROUP (.named f.proto.name))) ∧
    (∀ s, continueHooks.pre_visit_struct_field_union s = record (fun _ => false) (.pre .STRUCT_FIELD_UNION (.schema s.info))) ∧
    (∀ s, continueHooks.pre_visit_interface_decl s = record (fun _ => false) (.pre .INTERFACE_DECL (.schema s.info))) ∧
    (∀ x0 n x2, continueHooks.pre_visit_param_list x0 n x2 = record (fun _ => false) (.pre .PARAM_LIST (.named n))) ∧
    (∀ x0 m, continueHooks.pre_visit_method x0 m = record (fun _ => false) (.pre .METHOD (.named m.name))) ∧
    (∀ s, continueHooks.pre_visit_methods s = record (fun _ => false) (.pre .METHODS (.schema s.info))) ∧
    (∀ x0 m x2, continueHooks.pre_visit_method_implicit_params x0 m x2 = record (fun _ => false) (.pre .METHOD_IMPLICIT_PARAMS (.named m.name))) ∧
    (∀ x0 e, continueHooks.pre_visit_enumerant x0 e = record (fun _ => false) (.pre .ENUMERANT (.named e.name))) ∧
    (∀ s x1, continueHooks.pre_visit_enumerants s x1 = record (fun _ => false) (.pre .ENUMERANTS (.schema s.info))) ∧
    (∀ s x1, continueHooks.post_visit_file s x1 = record (fun _ => false) (.post .FILE (.schema s.info))) ∧
    (∀ s x1, continueHooks.post_visit_imports s x1 = record (fun _ => false) (.post .IMPORTS (.schema s.info))) ∧
    (∀ x0 i, continueHooks.post_visit_import x0 i = record (fun _ => false) (.post .IMPORT (.named i.name))) ∧
    (∀ s, continueHooks.post_visit_nested_decls s = record (fun _ => false) (.post .NESTED_DECLS (.schema s.info))) ∧
    (∀ s, continueHooks.post_visit_decl s = record (fun _ => false) (.post .DECL (.schema s.info))) ∧
    (∀ s, continueHooks.post_visit_struct_decl s = record (fun _ => false) (.post .STRUCT_DECL (.schema s.info))) ∧
    (∀ s, continueHooks.post_visit_enum_decl s = record (fun _ => false) (.post .ENUM_DECL (.schema s.info))) ∧
    (∀ s, continueHooks.post_visit_const_decl s = record (fun _ => false) (.post .CONST_DECL (.schema s.info))) ∧
    (∀ s, continueHooks.post_visit_annotation_decl s = record (fun _ => false) (.post .ANNOTATION_DECL (.schema s.info))) ∧
    (∀ a x1, Hooks.post_visit_annotation continueHooks a x1 = record (fun _ => false) (.post .ANNOTATION (.named a.declName))) ∧
    (∀ i, continueHooks.post_visit_annotations i = record (fun _ => false) (.post .ANNOTATIONS (.schema i))) ∧
    (∀ x0 t, continueHooks.post_visit_type x0 t = record (fun _ => false) (.post .TYPE (.type t))) ∧
    (∀ x0 t x2, continueHooks.post_visit_dynamic_value x0 t x2 = record (fun _ => false) (.post .DYNAMIC_VALUE (.type t))) ∧
    (∀ s, continueHooks.post_visit_struct_fields s = record (fun _ => false) (.post .STRUCT_FIELDS (.schema s.info))) ∧
    (∀ x0 f, continueHooks.post_visit_struct_default_value x0 f = record (fun _ => false) (.post .STRUCT_DEFAULT_VALUE (.named f.proto.name))) ∧
    (∀ x0 f, continueHooks.post_visit_struct_field x0 f = record (fun _ => false) (.post .STRUCT_FIELD (.named f.proto.name))) ∧
    (∀ x0 f x2, continueHooks.post_visit_struct_field_slot x0 f x2 = record (fun _ => false) (.post .STRUCT_FIELD_SLOT (.named f.proto.name))) ∧
    (∀ x0 f x2, continueHooks.post_visit_struct_field_group x0 f x2 = record (fun _ => false) (.post .STRUCT_FIELD_GROUP (.named f.proto.name))) ∧
    (∀ s, continueHooks.post_visit_struct_field_union s = record (fun _ => false) (.post .STRUCT_FIELD_UNION (.schema s.info))) ∧
    (∀ s, continueHooks.post_visit_interface_decl s = record (fun _ => false) (.post .INTERFACE_DECL (.schema s.info))) ∧
    (∀ x0 n x2, continueHooks.post_visit_param_list x0 n x2 = record (fun _ => false) (.post .PARAM_LIST (.named n))) ∧
    (∀ x0 m, continueHooks.post_visit_method x0 m = record (fun _ => false) (.post .METHOD (.named m.name))) ∧
    (∀ s, continueHooks.post_visit_methods s = record (fun _ => false) (.post .METHODS (.schema s.info))) ∧
    (∀ x0 m x2, continueHooks.post_visit_method_implicit_params x0 m x2 = record (fun _ => false) (.post .METHOD_IMPLICIT_PARAMS (.named m.name))) ∧
    (∀ x0 e, continueHooks.post_visit_enumerant x0 e = record (fun _ => false) (.post .ENUMERANT (.named e.name))) ∧
    (∀ s x1, continueHooks.post_visit_enumerants s x1 = record (fun _ => false) (.post .ENUMERANTS (.schema s.info))) :=
  logHooks_apply (fun _ => false)

theorem baseHooks_apply :
    (∀ s x1, baseHooks.pre_visit_file s x1 = pure false) ∧
    (∀ s x1, baseHooks.pre_visit_imports s x1 = pure false) ∧
    (∀ x0 i, baseHooks.pre_visit_import x0 i = pure false) ∧
    (∀ s, baseHooks.pre_visit_nested_decls s = pure false) ∧
    (∀ s, baseHooks.pre_visit_decl s = pure false) ∧
    (∀ s, baseHooks.pre_visit_struct_decl s = pure false) ∧
    (∀ s, baseHooks.pre_visit_enum_decl s = pure false) ∧
    (∀ s, baseHooks.pre_visit_const_decl s = pure false) ∧
    (∀ s, baseHooks.pre_visit_annotation_decl s = pure false) ∧
    (∀ a x1, baseHooks.pre_visit_annotation a x1 = pure false) ∧
    (∀ i, baseHooks.pre_visit_annotations i = pure false) ∧
    (∀ x0 t x2, baseHooks.pre_visit_type x0 t x2 = pure false) ∧
    (∀ x0 t x2, baseHooks.pre_visit_dynamic_value x0 t x2 = pure false) ∧
    (∀ s, baseHooks.pre_visit_struct_fields s = pure false) ∧
    (∀ x0 f, baseHooks.pre_visit_struct_default_value x0 f = pure false) ∧
    (∀ x0 f, baseHooks.pre_visit_struct_field x0 f = pure false) ∧
    (∀ x0 f x2, baseHooks.pre_visit_struct_field_slot x0 f x2 = pure false) ∧
    (∀ x0 f x2, baseHooks.pre_visit_struct_field_group x0 f x2 = pure false) ∧
    (∀ s, baseHooks.pre_visit_struct_field_union s = pure false) ∧
    (∀ s, baseHooks.pre_visit_interface_decl s = pure false) ∧
    (∀ x0 n x2, baseHooks.pre_visit_param_list x0 n x2 = pure false) ∧
    (∀ x0 m, baseHooks.pre_visit_method x0 m = pure false) ∧
    (∀ s, baseHooks.pre_visit_methods s = pure false) ∧
    (∀ x0 m x2, baseHooks.pre_visit_method_implicit_params x0 m x2 = pure false) ∧
    (∀ x0 e, baseHooks.pre_visit_enumerant x0 e = pure false) ∧
    (∀ s x1, baseHooks.pre_visit_enumerants s x1 = pure false) ∧
    (∀ s x1, baseHooks.post_visit_file s x1 = pure false) ∧
    (∀ s x1, baseHooks.post_visit_imports s x1 = pure false) ∧
    (∀ x0 i, baseHooks.post_visit_import x0 i = pure false) ∧
    (∀ s, baseHooks.post_visit_nested_decls s = pure false) ∧
    (∀ s, baseHooks.post_visit_decl s = pure false) ∧
    (∀ s, baseHooks.post_visit_struct_decl s = pure false) ∧
    (∀ s, baseHooks.post_visit_enum_decl s = pure false) ∧
    (∀ s, baseHooks.post_visit_const_decl s = pure false) ∧
    (∀ s, baseHooks.post_visit_annotation_decl s = pure false) ∧
    (∀ a x1, baseHooks.post_visit_annotation a x1 = pure false) ∧
    (∀ i, baseHooks.post_visit_annotations i = pure false) ∧
    (∀ x0 t, baseHooks.post_visit_type x0 t = pure false) ∧
    (∀ x0 t x2, baseHooks.post_visit_dynamic_value x0 t x2 = pure false) ∧
    (∀ s, baseHooks.post_visit_struct_fields s = pure false) ∧
    (∀ x0 f, baseHooks.post_visit_struct_default_value x0 f = pure false) ∧
    (∀ x0 f, baseHooks.post_visit_struct_field x0 f = pure false) ∧
    (∀ x0 f x2, baseHooks.post_visit_struct_field_slot x0 f x2 = pure false) ∧
    (∀ x0 f x2, baseHooks.post_visit_struct_field_group x0 f x2 = pure false) ∧
    (∀ s, baseHooks.post_visit_struct_field_union s = pure false) ∧
    (∀ s, baseHooks.post_visit_interface_decl s = pure false) ∧
    (∀ x0 n x2, baseHooks.post_visit_param_list x0 n x2 = pure false) ∧
    (∀ x0 m, baseHooks.post_visit_method x0 m = pure false) ∧
    (∀ s, baseHooks.post_visit_methods s = pure false) ∧
    (∀ x0 m x2, baseHooks.post_visit_method_implicit_params x0 m x2 = pure false) ∧
    (∀ x0 e, baseHooks.post_visit_enumerant x0 e = pure false) ∧
    (∀ s x1, baseHooks.post_visit_enumerants s x1 = pure false) :=
  ⟨fun _ _ => rfl,
   fun _ _ => rfl,
   fun _ _ => rfl,
   fun _ => rfl,
   fun _ => rfl,
   fun _ => rfl,
   fun _ => rfl,
   fun _ => rfl,
   fun _ => rfl,
   fun _ _ => rfl,
   fun _ => rfl,
   fun _ _ _ => rfl,
   fun _ _ _ => rfl,
   fun _ => rfl,
   fun _ _ => rfl,
   fun _ _ => rfl,
   fun _ _ _ => rfl,
   fun _ _ _ => rfl,
   fun _ => rfl,
   fun _ => rfl,
   fun _ _ _ => rfl,
   fun _ _ => rfl,
   fun _ => rfl,
   fun _ _ _ => rfl,
   fun _ _ => rfl,
   fun _ _ => rfl,
   fun _ _ => rfl,
   fun _ _ => rfl,
   fun _ _ => rfl,
   fun _ => rfl,
   fun _ => rfl,
   fun _ => rfl,
   fun _ => rfl,
   fun _ => rfl,
   fun _ => rfl,
   fun _ _ => rfl,
   fun _ => rfl,
   fun _ _ => rfl,
   fun _ _ _ => rfl,
   fun _ => rfl,
   fun _ _ => rfl,
   fun _ _ => rfl,
   fun _ _ _ => rfl,
   fun _ _ _ => rfl,
   fun _ => rfl,
   fun _ => rfl,
   fun _ _ _ => rfl,
   fun _ _ => rfl,
   fun _ => rfl,
   fun _ _ _ => rfl,
   fun _ _ => rfl,
   fun _ _ => rfl⟩

theorem SimAt.pure_at {α : Type} (a : α) : SimAt (Pure.pure a) (Pure.pure a) a (some []) :=
  ⟨fun log => by simp [Pure.pure, StateT.pure], rfl⟩

theorem SimAt.failure_at {α : Type} (a : α) :
    SimAt (failure : Step (List Event) α) failure a none :=
  ⟨fun _ => rfl, rfl⟩

theorem SimAt.bind_at {α β : Type} {m : Step (List Event) α} {m0 : Step Unit α} {a : α}
    {f : α → Step (List Event) β} {f0 : α → Step Unit β} {b : β}
    {o p : Option (List Event)}
    (h : SimAt m m0 a o) (hf : SimAt (f a) (f0 a) b p) :
    SimAt (m >>= f) (m0 >>= f0) b (o.bind (fun t => p.map (fun u => t ++ u))) := by
  obtain ⟨h1, h2⟩ := h
  obtain ⟨hf1, hf2⟩ := hf
  refine ⟨fun log => ?_, ?_⟩
  · rw [Step.bind_run, h1]
    cases o with
    | none => rfl
    | some t =>
      simp only [Option.map_some', Option.some_bind, hf1]
      cases p with
      | none => rfl
      | some u => simp [List.append_assoc]
  · rw [Step.bind_run, h2]
    cases o with
    | none => rfl
    | some t =>
      simp only [Option.map_some', Option.some_bind, hf2]
      cases p with
      | none => rfl
      | some u => rfl

theorem SimAt.record_at (e : Event) :
    SimAt (record (fun _ => false) e) (Pure.pure false) false (some [e]) :=
  ⟨fun _ => rfl, rfl⟩

theorem SimAt.runs {α : Type} {m : Step (List Event) α} {m0 : Step Unit α} {a : α}
    {t : List Event} (h : SimAt m m0 a (some t)) : Runs m a t :=
  fun log => by rw [h.run]; rfl

theorem SimAt.isSome {α : Type} {m : Step (List Event) α} {m0 : Step Unit α} {a : α}
    {o : Option (List Event)} (h : SimAt m m0 a o) : (m0 ()).isSome = o.isSome := by
  rw [h.base]; cases o <;> rfl

theorem Runs.events {α : Type} {m : Step (List Event) α} {a : α} {t : List Event}
    (h : Runs m a t) : events m = t := by
  unfold capnpparquet.events
  rw [h []]
  rfl

theorem Sim.pure_sim {α : Type} (a : α) : Sim (Pure.pure a) (Pure.pure a) a :=
  ⟨_, SimAt.pure_at a⟩

theorem Sim.failure_sim {α : Type} (a : α) : Sim (failure : Step (List Event) α) failure a :=
  ⟨_, SimAt.failure_at a⟩

theorem Sim.bind_sim {α β : Type} {m : Step (List Event) α} {m0 : Step Unit α} {a : α}
    {f : α → Step (List Event) β} {f0 : α → Step Unit β} {b : β}
    (h : Sim m m0 a) (hf : Sim (f a) (f0 a) b) : Sim (m >>= f) (m0 >>= f0) b := by
  obtain ⟨o, h⟩ := h
  obtain ⟨p, hf⟩ := hf
  exact ⟨_, h.bind_at hf⟩

theorem Sim.record_sim (e : Event) :
    Sim (record (fun _ => false) e) (Pure.pure false) false :=
  ⟨_, SimAt.record_at e⟩

theorem Sim.runs_events {α : Type} {m : Step (List Event) α} {m0 : Step Unit α} {a : α}
    (h : Sim m m0 a) (h0 : (m0 ()).isSome = true) : Runs m a (events m) := by
  obtain ⟨o, h⟩ := h
  cases o with
  | none => rw [h.isSome] at h0; cases h0
  | some t => rw [h.runs.events]; exact h.runs

theorem traverse_type_sim (info : SchemaInfo) (t : SchemaType) :
    Sim (traverse_type continueHooks info t) (traverse_type baseHooks info t) false := by
  induction t with
  | LIST e ih =>
    unfold traverse_type
    simp only [continueHooks_apply, baseHooks_apply]
    repeat (first
      | exact Sim.pure_sim _
      | refine Sim.bind_sim (Sim.record_sim _) ?_
      | refine Sim.bind_sim (Sim.pure_sim _) ?_
      | refine Sim.bind_sim ih ?_
      | simp only [Bool.false_eq_true, reduceIte])
  | _ =>
    unfold traverse_type
    simp only [continueHooks_apply, baseHooks_apply]
    repeat (first
      | exact Sim.pure_sim _
      | refine Sim.bind_sim (Sim.record_sim _) ?_
      | refine Sim.bind_sim (Sim.pure_sim _) ?_
      | simp only [Bool.false_eq_true, reduceIte])

theorem traverse_imports_loop_sim (schema : Schema) (imports : List Import) :
    Sim (traverse_imports_loop continueHooks schema imports)
      (traverse_imports_loop baseHooks schema imports) false := by
  induction imports with
  | nil => exact Sim.pure_sim _
  | cons i rest ih =>
    unfold traverse_imports_loop
    simp only [continueHooks_apply, baseHooks_apply]
    repeat (first
      | exact Sim.pure_sim _
      | exact ih
      | refine Sim.bind_sim (Sim.record_sim _) ?_
      | refine Sim.bind_sim (Sim.pure_sim _) ?_
      | refine Sim.bind_sim (Sim.failure_sim ⟨⟩) ?_
      | simp only [Bool.false_eq_true, reduceIte])

theorem traverse_imports_sim (schema : Schema) (imports : List Import) :
    Sim (traverse_imports continueHooks schema imports)
      (traverse_imports baseHooks schema imports) false := by
  unfold traverse_imports
  simp only [continueHooks_apply, baseHooks_apply]
  repeat (first
    | exact Sim.pure_sim _
    | refine Sim.bind_sim (traverse_imports_loop_sim _ _) ?_
    | refine Sim.bind_sim (Sim.record_sim _) ?_
    | refine Sim.bind_sim (Sim.pure_sim _) ?_
    | refine Sim.bind_sim (Sim.failure_sim ⟨⟩) ?_
    | simp only [Bool.false_eq_true, reduceIte])

theorem traverse_dynamic_value_sim (schema : SchemaInfo) :
    (∀ type value, Sim (traverse_dynamic_value continueHooks schema type value)
      (traverse_dynamic_value baseHooks schema type value) false) ∧
    (∀ fields, Sim (traverse_dynamic_fields continueHooks schema fields)
      (traverse_dynamic_fields baseHooks schema fields) ()) ∧
    (∀ elementType elements, Sim (traverse_dynamic_list continueHooks schema elementType elements)
      (traverse_dynamic_list baseHooks schema elementType elements) ()) := by
  apply traverse_dynamic_value.mutual_induct continueHooks schema
    (fun type value => Sim (traverse_dynamic_value continueHooks schema type value)
      (traverse_dynamic_value baseHooks schema type value) false)
    (fun fields => Sim (traverse_dynamic_fields continueHooks schema fields)
      (traverse_dynamic_fields baseHooks schema fields) ())
    (fun elementType elements => Sim (traverse_dynamic_list continueHooks schema elementType elements)
      (traverse_dynamic_list baseHooks schema elementType elements) ())
  · intro type elements ih
    unfold traverse_dynamic_value
    simp only [continueHooks_apply, baseHooks_apply]
    cases type <;> simp only [] <;>
    repeat (first
      | exact Sim.pure_sim _
      | refine Sim.bind_sim (ih _) ?_
      | refine Sim.bind_sim (Sim.record_sim _) ?_
      | refine Sim.bind_sim (Sim.pure_sim _) ?_
      | refine Sim.bind_sim (Sim.failure_sim ⟨⟩) ?_
      | simp only [Bool.false_eq_true, reduceIte])
  · intro type fields ih
    unfold traverse_dynamic_value
    simp only [continueHooks_apply, baseHooks_apply]
    cases type <;> simp only [] <;>
    repeat (first
      | exact Sim.pure_sim _
      | refine Sim.bind_sim ih ?_
      | refine Sim.bind_sim (Sim.record_sim _) ?_
      | refine Sim.bind_sim (Sim.pure_sim _) ?_
      | refine Sim.bind_sim (Sim.failure_sim ⟨⟩) ?_
      | simp only [Bool.false_eq_true, reduceIte])
  · intro type value h1 h2
    rw [traverse_dynamic_value, traverse_dynamic_value]
    · simp only [continueHooks_apply, baseHooks_apply]
      cases type <;> simp only [] <;>
      repeat (first
        | exact Sim.pure_sim _
        | refine Sim.bind_sim (Sim.record_sim _) ?_
        | refine Sim.bind_sim (Sim.pure_sim _) ?_
        | refine Sim.bind_sim (Sim.failure_sim ⟨⟩) ?_
        | simp only [Bool.false_eq_true, reduceIte])
    · exact h1
    · exact h2
    · exact h1
    · exact h2
  · intro elementType
    unfold traverse_dynamic_list
    exact Sim.pure_sim _
  · intro elementType element rest ih1 ih2
    unfold traverse_dynamic_list
    repeat (first
      | exact Sim.pure_sim _
      | exact ih2
      | refine Sim.bind_sim ih1 ?_
      | refine Sim.bind_sim (Sim.record_sim _) ?_
      | refine Sim.bind_sim (Sim.pure_sim _) ?_
      | refine Sim.bind_sim (Sim.failure_sim ⟨⟩) ?_
      | simp only [Bool.false_eq_true, reduceIte])
  · unfold traverse_dynamic_fields
    exact Sim.pure_sim _
  · intro fst rest ih
    unfold traverse_dynamic_fields
    exact ih
  · intro fieldType fieldValue rest ih1 ih2
    unfold traverse_dynamic_fields
    repeat (first
      | exact Sim.pure_sim _
      | exact ih2
      | refine Sim.bind_sim ih1 ?_
      | refine Sim.bind_sim (Sim.record_sim _) ?_
      | refine Sim.bind_sim (Sim.pure_sim _) ?_
      | refine Sim.bind_sim (Sim.failure_sim ⟨⟩) ?_
      | simp only [Bool.false_eq_true, reduceIte])

theorem traverse_value_sim (schema : SchemaInfo) (type : SchemaType) (value : SchemaValue) :
    Sim (traverse_value continueHooks schema type value)
      (traverse_value baseHooks schema type value) false := by
  unfold traverse_value
  cases value <;> simp only [] <;> try (cases type <;> simp only [])
  all_goals
    repeat (first
      | exact Sim.pure_sim _
      | refine Sim.bind_sim ((traverse_dynamic_value_sim schema).1 _ _) ?_
      | refine Sim.bind_sim (Sim.record_sim _) ?_
      | refine Sim.bind_sim (Sim.pure_sim _) ?_
      | refine Sim.bind_sim (Sim.failure_sim ⟨⟩) ?_
      | simp only [Bool.false_eq_true, reduceIte])

theorem traverse_annotation_sim (ann : AnnotationReader) (parent : SchemaInfo) :
    Sim ( traverse_annotation continueHooks ann parent)
      ( traverse_annotation baseHooks ann parent) false := by
  unfold traverse_annotation
  simp only [continueHooks_apply, baseHooks_apply]
  repeat (first
    | exact Sim.pure_sim _
    | refine Sim.bind_sim (traverse_value_sim _ _ _) ?_
    | refine Sim.bind_sim (Sim.record_sim _) ?_
    | refine Sim.bind_sim (Sim.pure_sim _) ?_
    | refine Sim.bind_sim (Sim.failure_sim ⟨⟩) ?_
    | simp only [Bool.false_eq_true, reduceIte])

theorem traverse_annotations_loop_sim (schema : SchemaInfo) (anns : List AnnotationReader) :
    Sim (traverse_annotations_loop continueHooks schema anns)
      (traverse_annotations_loop baseHooks schema anns) () := by
  induction anns with
  | nil => exact Sim.pure_sim _
  | cons a rest ih =>
    unfold traverse_annotations_loop
    repeat (first
      | exact Sim.pure_sim _
      | exact ih
      | refine Sim.bind_sim (traverse_annotation_sim _ _) ?_
      | refine Sim.bind_sim (Sim.record_sim _) ?_
      | refine Sim.bind_sim (Sim.pure_sim _) ?_
      | refine Sim.bind_sim (Sim.failure_sim ⟨⟩) ?_
      | simp only [Bool.false_eq_true, reduceIte])

theorem traverse_annotations_sim (schema : SchemaInfo) (anns : List AnnotationReader) :
    Sim (traverse_annotations continueHooks schema anns)
      (traverse_annotations baseHooks schema anns) false := by
  unfold traverse_annotations
  simp only [continueHooks_apply, baseHooks_apply]
  by_cases h : (anns.length == 0) = true
  · simp only [h, reduceIte]
    exact Sim.pure_sim _
  · simp only [h, reduceIte]
    repeat (first
      | exact Sim.pure_sim _
      | refine Sim.bind_sim (traverse_annotations_loop_sim _ _) ?_
      | refine Sim.bind_sim (Sim.record_sim _) ?_
      | refine Sim.bind_sim (Sim.pure_sim _) ?_
      | refine Sim.bind_sim (Sim.failure_sim ⟨⟩) ?_
      | simp only [Bool.false_eq_true, reduceIte])

theorem traverse_struct_fields_sim :
    (∀ schema, Sim (traverse_struct_fields continueHooks schema)
      (traverse_struct_fields baseHooks schema) false) ∧
    (∀ schema fields, Sim (traverse_struct_field_list continueHooks schema fields)
      (traverse_struct_field_list baseHooks schema fields) ()) ∧
    (∀ schema field, Sim (traverse_struct_field continueHooks schema field)
      (traverse_struct_field baseHooks schema field) false) := by
  apply traverse_struct_fields.mutual_induct continueHooks
    (fun schema => Sim (traverse_struct_fields continueHooks schema)
      (traverse_struct_fields baseHooks schema) false)
    (fun schema fields => Sim (traverse_struct_field_list continueHooks schema fields)
      (traverse_struct_field_list baseHooks schema fields) ())
    (fun schema field => Sim (traverse_struct_field continueHooks schema field)
      (traverse_struct_field baseHooks schema field) false)
  · intro schema p slot
    unfold traverse_struct_field
    simp only [continueHooks_apply, baseHooks_apply]
    cases h : slot.hadExplicitDefault <;> simp only [Bool.false_eq_true, reduceIte] <;>
    repeat (first
      | exact Sim.pure_sim _
      | refine Sim.bind_sim (traverse_type_sim _ _) ?_
      | refine Sim.bind_sim (traverse_value_sim _ _ _) ?_
      | refine Sim.bind_sim (traverse_annotations_sim _ _) ?_
      | refine Sim.bind_sim (Sim.record_sim _) ?_
      | refine Sim.bind_sim (Sim.pure_sim _) ?_
      | refine Sim.bind_sim (Sim.failure_sim ⟨⟩) ?_
      | simp only [Bool.false_eq_true, reduceIte])
  · intro schema p groupSchema ih
    unfold traverse_struct_field
    simp only [continueHooks_apply, baseHooks_apply]
    repeat (first
      | exact Sim.pure_sim _
      | refine Sim.bind_sim ih ?_
      | refine Sim.bind_sim (traverse_annotations_sim _ _) ?_
      | refine Sim.bind_sim (Sim.record_sim _) ?_
      | refine Sim.bind_sim (Sim.pure_sim _) ?_
      | refine Sim.bind_sim (Sim.failure_sim ⟨⟩) ?_
      | simp only [Bool.false_eq_true, reduceIte])
  · intro i annotations unionFields nonUnionFields ih1 ih2
    unfold traverse_struct_fields
    simp only [continueHooks_apply, baseHooks_apply]
    by_cases h : unionFields.length > 0 <;> simp only [h, reduceIte] <;>
    repeat (first
      | exact Sim.pure_sim _
      | refine Sim.bind_sim ih1 ?_
      | refine Sim.bind_sim ih2 ?_
      | refine Sim.bind_sim (Sim.record_sim _) ?_
      | refine Sim.bind_sim (Sim.pure_sim _) ?_
      | refine Sim.bind_sim (Sim.failure_sim ⟨⟩) ?_
      | simp only [Bool.false_eq_true, reduceIte])
  · intro schema
    unfold traverse_struct_field_list
    exact Sim.pure_sim _
  · intro schema field rest ih1 ih2
    unfold traverse_struct_field_list
    repeat (first
      | exact Sim.pure_sim _
      | exact ih2
      | refine Sim.bind_sim ih1 ?_
      | refine Sim.bind_sim (Sim.record_sim _) ?_
      | refine Sim.bind_sim (Sim.pure_sim _) ?_
      | refine Sim.bind_sim (Sim.failure_sim ⟨⟩) ?_
      | simp only [Bool.false_eq_true, reduceIte])

theorem traverse_param_list_sim (interface : Schema) (name : String) (schema : StructSchema) :
    Sim (traverse_param_list continueHooks interface name schema)
      (traverse_param_list baseHooks interface name schema) false := by
  unfold traverse_param_list
  simp only [continueHooks_apply, baseHooks_apply]
  repeat (first
    | exact Sim.pure_sim _
    | refine Sim.bind_sim (traverse_struct_fields_sim.1 _) ?_
    | refine Sim.bind_sim (Sim.record_sim _) ?_
    | refine Sim.bind_sim (Sim.pure_sim _) ?_
    | refine Sim.bind_sim (Sim.failure_sim ⟨⟩) ?_
    | simp only [Bool.false_eq_true, reduceIte])

theorem traverse_method_sim (schema : Schema) (method : Method) :
    Sim (traverse_method continueHooks schema method)
      (traverse_method baseHooks schema method) false := by
  unfold traverse_method
  simp only [continueHooks_apply, baseHooks_apply]
  by_cases h : method.implicitParameters.length > 0 <;> simp only [h, reduceIte] <;>
  repeat (first
    | exact Sim.pure_sim _
    | refine Sim.bind_sim (traverse_param_list_sim _ _ _) ?_
    | refine Sim.bind_sim (traverse_annotations_sim _ _) ?_
    | refine Sim.bind_sim (Sim.record_sim _) ?_
    | refine Sim.bind_sim (Sim.pure_sim _) ?_
    | refine Sim.bind_sim (Sim.failure_sim ⟨⟩) ?_
    | simp only [Bool.false_eq_true, reduceIte])

theorem traverse_methods_loop_sim (schema : Schema) (methods : List Method) :
    Sim (traverse_methods_loop continueHooks schema methods)
      (traverse_methods_loop baseHooks schema methods) () := by
  induction methods with
  | nil => exact Sim.pure_sim _
  | cons a rest ih =>
    unfold traverse_methods_loop
    repeat (first
      | exact Sim.pure_sim _
      | exact ih
      | refine Sim.bind_sim (traverse_method_sim _ _) ?_
      | refine Sim.bind_sim (Sim.record_sim _) ?_
      | refine Sim.bind_sim (Sim.pure_sim _) ?_
      | refine Sim.bind_sim (Sim.failure_sim ⟨⟩) ?_
      | simp only [Bool.false_eq_true, reduceIte])

theorem traverse_enumerants_loop_sim (schema : Schema) (enumList : List Enumerant) :
    Sim (traverse_enumerants_loop continueHooks schema enumList)
      (traverse_enumerants_loop baseHooks schema enumList) false := by
  induction enumList with
  | nil => exact Sim.pure_sim _
  | cons a rest ih =>
    unfold traverse_enumerants_loop
    simp only [continueHooks_apply, baseHooks_apply]
    repeat (first
      | exact Sim.pure_sim _
      | exact ih
      | refine Sim.bind_sim (traverse_annotations_sim _ _) ?_
      | refine Sim.bind_sim (Sim.record_sim _) ?_
      | refine Sim.bind_sim (Sim.pure_sim _) ?_
      | refine Sim.bind_sim (Sim.failure_sim ⟨⟩) ?_
      | simp only [Bool.false_eq_true, reduceIte])

theorem traverse_enumerants_sim (schema : Schema) (enumList : List Enumerant) :
    Sim (traverse_enumerants continueHooks schema enumList)
      (traverse_enumerants baseHooks schema enumList) false := by
  unfold traverse_enumerants
  simp only [continueHooks_apply, baseHooks_apply]
  repeat (first
    | exact Sim.pure_sim _
    | refine Sim.bind_sim (traverse_enumerants_loop_sim _ _) ?_
    | refine Sim.bind_sim (Sim.record_sim _) ?_
    | refine Sim.bind_sim (Sim.pure_sim _) ?_
    | refine Sim.bind_sim (Sim.failure_sim ⟨⟩) ?_
    | simp only [Bool.false_eq_true, reduceIte])

theorem traverse_decl_sim :
    (∀ schema nodes, Sim (nested_decls_of continueHooks schema nodes)
      (nested_decls_of baseHooks schema nodes) false) ∧
    (∀ nodes, Sim (traverse_nested_decls_loop continueHooks nodes)
      (traverse_nested_decls_loop baseHooks nodes) false) ∧
    (∀ decl, Sim (traverse_decl continueHooks decl) (traverse_decl baseHooks decl) false) := by
  apply nested_decls_of.mutual_induct continueHooks
    (fun schema nodes => Sim (nested_decls_of continueHooks schema nodes)
      (nested_decls_of baseHooks schema nodes) false)
    (fun nodes => Sim (traverse_nested_decls_loop continueHooks nodes)
      (traverse_nested_decls_loop baseHooks nodes) false)
    (fun decl => Sim (traverse_decl continueHooks decl) (traverse_decl baseHooks decl) false)
  · intro schema nodes h ih
    unfold nested_decls_of
    simp only [h, reduceIte]
    exact Sim.pure_sim _
  · intro schema nodes h ih
    unfold nested_decls_of
    simp only [continueHooks_apply, baseHooks_apply, h, reduceIte]
    repeat (first
      | exact Sim.pure_sim _
      | refine Sim.bind_sim ih ?_
      | refine Sim.bind_sim (Sim.record_sim _) ?_
      | refine Sim.bind_sim (Sim.pure_sim _) ?_
      | refine Sim.bind_sim (Sim.failure_sim ⟨⟩) ?_
      | simp only [Bool.false_eq_true, reduceIte])
  · unfold traverse_nested_decls_loop
    exact Sim.pure_sim _
  · intro decl rest ih1 ih2
    unfold traverse_nested_decls_loop
    simp only [continueHooks_apply, baseHooks_apply]
    repeat (first
      | exact Sim.pure_sim _
      | exact ih2
      | refine Sim.bind_sim ih1 ?_
      | refine Sim.bind_sim (Sim.record_sim _) ?_
      | refine Sim.bind_sim (Sim.pure_sim _) ?_
      | refine Sim.bind_sim (Sim.failure_sim ⟨⟩) ?_
      | simp only [Bool.false_eq_true, reduceIte])
  · intro i annotations nestedNodes
    unfold traverse_decl
    exact Sim.pure_sim _
  · intro i annotations nestedNodes unionFields nonUnionFields ih
    unfold traverse_decl
    simp only [continueHooks_apply, baseHooks_apply]
    repeat (first
      | exact Sim.pure_sim _
      | refine Sim.bind_sim ih ?_
      | refine Sim.bind_sim (traverse_struct_fields_sim.1 _) ?_
      | refine Sim.bind_sim (traverse_annotations_sim _ _) ?_
      | refine Sim.bind_sim (Sim.record_sim _) ?_
      | refine Sim.bind_sim (Sim.pure_sim _) ?_
      | refine Sim.bind_sim (Sim.failure_sim ⟨⟩) ?_
      | simp only [Bool.false_eq_true, reduceIte])
  · intro i annotations nestedNodes enumerants ih
    unfold traverse_decl
    simp only [continueHooks_apply, baseHooks_apply]
    repeat (first
      | exact Sim.pure_sim _
      | refine Sim.bind_sim ih ?_
      | refine Sim.bind_sim (traverse_enumerants_sim _ _) ?_
      | refine Sim.bind_sim (traverse_annotations_sim _ _) ?_
      | refine Sim.bind_sim (Sim.record_sim _) ?_
      | refine Sim.bind_sim (Sim.pure_sim _) ?_
      | refine Sim.bind_sim (Sim.failure_sim ⟨⟩) ?_
      | simp only [Bool.false_eq_true, reduceIte])
  · intro i annotations nestedNodes methods ih
    unfold traverse_decl
    simp only [continueHooks_apply, baseHooks_apply]
    repeat (first
      | exact Sim.pure_sim _
      | refine Sim.bind_sim ih ?_
      | refine Sim.bind_sim (traverse_methods_loop_sim _ _) ?_
      | refine Sim.bind_sim (traverse_annotations_sim _ _) ?_
      | refine Sim.bind_sim (Sim.record_sim _) ?_
      | refine Sim.bind_sim (Sim.pure_sim _) ?_
      | refine Sim.bind_sim (Sim.failure_sim ⟨⟩) ?_
      | simp only [Bool.false_eq_true, reduceIte])
  · intro i annotations nestedNodes type value
    unfold traverse_decl
    simp only [continueHooks_apply, baseHooks_apply]
    repeat (first
      | exact Sim.pure_sim _
      | refine Sim.bind_sim (traverse_type_sim _ _) ?_
      | refine Sim.bind_sim (traverse_value_sim _ _ _) ?_
      | refine Sim.bind_sim (traverse_annotations_sim _ _) ?_
      | refine Sim.bind_sim (Sim.record_sim _) ?_
      | refine Sim.bind_sim (Sim.pure_sim _) ?_
      | refine Sim.bind_sim (Sim.failure_sim ⟨⟩) ?_
      | simp only [Bool.false_eq_true, reduceIte])
  · intro i annotations nestedNodes type targets
    unfold traverse_decl
    simp only [continueHooks_apply, baseHooks_apply]
    repeat (first
      | exact Sim.pure_sim _
      | refine Sim.bind_sim (traverse_type_sim _ _) ?_
      | refine Sim.bind_sim (traverse_annotations_sim _ _) ?_
      | refine Sim.bind_sim (Sim.record_sim _) ?_
      | refine Sim.bind_sim (Sim.pure_sim _) ?_
      | refine Sim.bind_sim (Sim.failure_sim ⟨⟩) ?_
      | simp only [Bool.false_eq_true, reduceIte])

theorem traverse_nested_decls_sim (schema : Schema) :
    Sim (traverse_nested_decls continueHooks schema)
      (traverse_nested_decls baseHooks schema) false := by
  cases schema <;> unfold traverse_nested_decls <;> exact traverse_decl_sim.1 _ _

theorem traverse_file_sim (file : Schema) (requestedFile : RequestedFile) :
    Sim (traverse_file continueHooks file requestedFile)
      (traverse_file baseHooks file requestedFile) false := by
  unfold traverse_file
  simp only [continueHooks_apply, baseHooks_apply]
  repeat (first
    | exact Sim.pure_sim _
    | refine Sim.bind_sim (traverse_imports_sim _ _) ?_
    | refine Sim.bind_sim (traverse_nested_decls_sim _) ?_
    | refine Sim.bind_sim (traverse_annotations_sim _ _) ?_
    | refine Sim.bind_sim (Sim.record_sim _) ?_
    | refine Sim.bind_sim (Sim.pure_sim _) ?_
    | refine Sim.bind_sim (Sim.failure_sim ⟨⟩) ?_
    | simp only [Bool.false_eq_true, reduceIte])

theorem SimAt.congr {α : Type} {m : Step (List Event) α} {m0 : Step Unit α} {a : α}
    {o p : Option (List Event)} (h : SimAt m m0 a o) (e : o = p) : SimAt m m0 a p :=
  e ▸ h

theorem traverse_imports_loop_simAt (schema : Schema) (imports : List Import) :
    SimAt (traverse_imports_loop continueHooks schema imports)
      (traverse_imports_loop baseHooks schema imports) false
      (some (imports.flatMap (fun i =>
        [Event.pre .IMPORT (.named i.name), Event.post .IMPORT (.named i.name)]))) := by
  induction imports with
  | nil => exact SimAt.pure_at _
  | cons i rest ih =>
    unfold traverse_imports_loop
    simp only [continueHooks_apply, baseHooks_apply]
    apply SimAt.congr
    case h =>
      repeat (first
        | exact SimAt.pure_at _
        | exact ih
        | apply SimAt.bind_at (SimAt.record_at _)
        | apply SimAt.bind_at (SimAt.pure_at _)
        | apply SimAt.bind_at (SimAt.failure_at ⟨⟩)
        | simp only [Bool.false_eq_true, reduceIte])
    case e => simp

theorem traverse_imports_simAt (schema : Schema) (imports : List Import) :
    SimAt (traverse_imports continueHooks schema imports)
      (traverse_imports baseHooks schema imports) false
      (some (Event.pre .IMPORTS (.schema schema.info) ::
        imports.flatMap (fun i =>
          [Event.pre .IMPORT (.named i.name), Event.post .IMPORT (.named i.name)]) ++
        [Event.post .IMPORTS (.schema schema.info)])) := by
  unfold traverse_imports
  simp only [continueHooks_apply, baseHooks_apply]
  apply SimAt.congr
  case h =>
    repeat (first
      | exact SimAt.pure_at _
      | apply SimAt.bind_at (traverse_imports_loop_simAt _ _)
      | apply SimAt.bind_at (SimAt.record_at _)
      | apply SimAt.bind_at (SimAt.pure_at _)
      | apply SimAt.bind_at (SimAt.failure_at ⟨⟩)
      | simp only [Bool.false_eq_true, reduceIte])
  case e => simp

theorem traverse_file_runs (file : Schema) (requestedFile : RequestedFile)
    (h : (traverse_file baseHooks file requestedFile ()).isSome = true) :
    Runs (traverse_nested_decls continueHooks file) false
      (events (traverse_nested_decls continueHooks file)) ∧
    Runs (traverse_annotations continueHooks file.info file.annotations) false
      (events (traverse_annotations continueHooks file.info file.annotations)) ∧
    Runs (traverse_file continueHooks file requestedFile) false
      ([Event.pre .FILE (.schema file.info), Event.pre .IMPORTS (.schema file.info)] ++
        requestedFile.imports.flatMap (fun i =>
          [Event.pre .IMPORT (.named i.name), Event.post .IMPORT (.named i.name)]) ++
        [Event.post .IMPORTS (.schema file.info)] ++
        events (traverse_nested_decls continueHooks file) ++
        events (traverse_annotations continueHooks file.info file.annotations) ++
        [Event.post .FILE (.schema file.info)]) := by
  obtain ⟨oN, hN⟩ := traverse_nested_decls_sim file
  obtain ⟨oA, hA⟩ := traverse_annotations_sim file.info file.annotations
  have key : SimAt (traverse_file continueHooks file requestedFile)
      (traverse_file baseHooks file requestedFile) false
      (oN.bind fun tN => oA.map fun tA =>
        [Event.pre .FILE (.schema file.info), Event.pre .IMPORTS (.schema file.info)] ++
        requestedFile.imports.flatMap (fun i =>
          [Event.pre .IMPORT (.named i.name), Event.post .IMPORT (.named i.name)]) ++
        [Event.post .IMPORTS (.schema file.info)] ++ tN ++ tA ++
        [Event.post .FILE (.schema file.info)]) := by
    apply SimAt.congr
    · unfold traverse_file
      simp only [continueHooks_apply, baseHooks_apply]
      repeat (first
        | exact SimAt.pure_at _
        | apply SimAt.bind_at (traverse_imports_simAt _ _)
        | apply SimAt.bind_at hN
        | apply SimAt.bind_at hA
        | apply SimAt.bind_at (SimAt.record_at _)
        | apply SimAt.bind_at (SimAt.pure_at _)
        | apply SimAt.bind_at (SimAt.failure_at ⟨⟩)
        | simp only [Bool.false_eq_true, reduceIte])
    · cases oN <;> cases oA <;> simp
  rw [key.isSome] at h
  cases oN with
  | none => cases h
  | some tN =>
    cases oA with
    | none => cases h
    | some tA =>
      rw [hN.runs.events, hA.runs.events]
      exact ⟨hN.runs, hA.runs, key.runs⟩

/-- C21: with recording hooks that all return continue, `traverse_file` on a
file whose values can all be read (the traversal with the hooks of
`BaseGenerator` itself returns) returns `false` and records, in this order: the
file entry hook; the imports entry hook, for each import in list order its entry
and its exit hook, the imports exit hook; the calls of the traversal of the
nested declarations; the calls of the traversal of the file-level annotations;
the file exit hook. -/
theorem C21_traverse_file_order (file : Schema) (requestedFile : RequestedFile)
    (h : (traverse_file baseHooks file requestedFile ()).isSome = true) :
    Runs (traverse_nested_decls continueHooks file) false
      (events (traverse_nested_decls continueHooks file)) ∧
    Runs (traverse_annotations continueHooks file.info file.annotations) false
      (events (traverse_annotations continueHooks file.info file.annotations)) ∧
    Runs (traverse_file continueHooks file requestedFile) false
      ([Event.pre .FILE (.schema file.info), Event.pre .IMPORTS (.schema file.info)] ++
        requestedFile.imports.flatMap (fun i =>
          [Event.pre .IMPORT (.named i.name), Event.post .IMPORT (.named i.name)]) ++
        [Event.post .IMPORTS (.schema file.info)] ++
        events (traverse_nested_decls continueHooks file) ++
        events (traverse_annotations continueHooks file.info file.annotations) ++
        [Event.post .FILE (.schema file.info)]) :=
  traverse_file_runs file requestedFile h

theorem SimAt.eq_some {α : Type} {m : Step (List Event) α} {m0 : Step Unit α} {a : α}
    {o : Option (List Event)} (h : SimAt m m0 a o) (h0 : (m0 ()).isSome = true) :
    o = some (events m) := by
  cases o with
  | none => rw [h.isSome] at h0; cases h0
  | some t => rw [h.runs.events]

theorem Runs.pure_false : Runs (pure false : Step (List Event) Bool) false [] :=
  fun log => by simp [Pure.pure, StateT.pure]

theorem traverse_nested_decls_loop_runs (nodes : List Schema)
    (h : (traverse_nested_decls_loop baseHooks nodes ()).isSome = true) :
    Runs (traverse_nested_decls_loop continueHooks nodes) false
      (nodes.flatMap (fun d =>
        Event.pre .DECL (.schema d.info) :: events (traverse_decl continueHooks d) ++
          [Event.post .DECL (.schema d.info)])) ∧
    ∀ d ∈ nodes, (traverse_decl baseHooks d ()).isSome = true := by
  induction nodes with
  | nil =>
    unfold traverse_nested_decls_loop
    exact ⟨Runs.pure_false, fun d hd => by cases hd⟩
  | cons d rest ih =>
    obtain ⟨od, hd⟩ := traverse_decl_sim.2.2 d
    obtain ⟨orr, hr⟩ := traverse_decl_sim.2.1 rest
    have key : SimAt (traverse_nested_decls_loop continueHooks (d :: rest))
        (traverse_nested_decls_loop baseHooks (d :: rest)) false
        (od.bind fun td => orr.map fun tr =>
          Event.pre .DECL (.schema d.info) :: td ++ [Event.post .DECL (.schema d.info)] ++ tr) := by
      apply SimAt.congr
      · unfold traverse_nested_decls_loop
        simp only [continueHooks_apply, baseHooks_apply]
        repeat (first
          | exact SimAt.pure_at _
          | exact hr
          | apply SimAt.bind_at hd
          | apply SimAt.bind_at (SimAt.record_at _)
          | apply SimAt.bind_at (SimAt.pure_at _)
          | apply SimAt.bind_at (SimAt.failure_at ⟨⟩)
          | simp only [Bool.false_eq_true, reduceIte])
      · cases od <;> cases orr <;> simp
    rw [key.isSome] at h
    cases od with
    | none => cases h
    | some td =>
      cases orr with
      | none => cases h
      | some tr =>
        have hrest := ih (by rw [hr.isSome]; rfl)
        have e1 : tr = _ := hr.runs.events.symm.trans hrest.1.events
        refine ⟨?_, ?_⟩
        · have hk := key.runs
          rw [e1] at hk
          simp only [Option.some_bind, Option.map_some'] at hk
          rw [List.flatMap_cons, hd.runs.events]
          exact hk
        · intro x hx
          rcases List.mem_cons.1 hx with rfl | hx
          · rw [hd.isSome]; rfl
          · exact hrest.2 x hx

theorem nested_decls_of_runs (schema : Schema) (nodes : List Schema)
    (h : (nested_decls_of baseHooks schema nodes ()).isSome = true) :
    Runs (nested_decls_of continueHooks schema nodes) false
      (if nodes.length == 0 then [] else
        Event.pre .NESTED_DECLS (.schema schema.info) ::
          nodes.flatMap (fun d =>
            Event.pre .DECL (.schema d.info) :: events (traverse_decl continueHooks d) ++
              [Event.post .DECL (.schema d.info)]) ++
          [Event.post .NESTED_DECLS (.schema schema.info)]) ∧
    ∀ d ∈ nodes, (traverse_decl baseHooks d ()).isSome = true := by
  by_cases hn : (nodes.length == 0) = true
  · have : nodes = [] := List.length_eq_zero.1 (by simpa using hn)
    subst this
    unfold nested_decls_of
    simp only [List.length_nil, beq_self_eq_true, reduceIte]
    exact ⟨Runs.pure_false, fun d hd => by cases hd⟩
  · obtain ⟨ol, hl⟩ := traverse_decl_sim.2.1 nodes
    have key : SimAt (nested_decls_of continueHooks schema nodes)
        (nested_decls_of baseHooks schema nodes) false
        (ol.map fun tl => Event.pre .NESTED_DECLS (.schema schema.info) :: tl ++
          [Event.post .NESTED_DECLS (.schema schema.info)]) := by
      apply SimAt.congr
      · unfold nested_decls_of
        simp only [continueHooks_apply, baseHooks_apply, hn, reduceIte]
        repeat (first
          | exact SimAt.pure_at _
          | apply SimAt.bind_at hl
          | apply SimAt.bind_at (SimAt.record_at _)
          | apply SimAt.bind_at (SimAt.pure_at _)
          | apply SimAt.bind_at (SimAt.failure_at ⟨⟩)
          | simp only [Bool.false_eq_true, reduceIte])
      · cases ol <;> simp
    rw [key.isSome] at h
    cases ol with
    | none => cases h
    | some tl =>
      have hloop := traverse_nested_decls_loop_runs nodes (by rw [hl.isSome]; rfl)
      have e1 : tl = _ := hl.runs.events.symm.trans hloop.1.events
      refine ⟨?_, hloop.2⟩
      have hk := key.runs
      rw [e1] at hk
      simp only [hn, reduceIte]
      exact hk

theorem traverse_nested_decls_eq {σ : Type} (hk : Hooks σ) (schema : Schema) :
    traverse_nested_decls hk schema = nested_decls_of hk schema schema.nestedNodes := by
  cases schema <;> unfold traverse_nested_decls <;> rfl

theorem traverse_decl_dispatch (d : Schema) :
    (traverse_decl baseHooks d ()).isSome = true →
    match d with
    | .FILE i a n => Runs (traverse_decl continueHooks (.FILE i a n)) false []
    | .STRUCT i a n u f => ∃ tN tF tA,
      Runs (traverse_nested_decls continueHooks (.STRUCT i a n u f)) false tN ∧
      Runs (traverse_struct_fields continueHooks (.mk i a u f)) false tF ∧
      Runs (traverse_annotations continueHooks i a) false tA ∧
      Runs (traverse_decl continueHooks (.STRUCT i a n u f)) false
        (Event.pre .STRUCT_DECL (.schema i) :: tN ++ tF ++ tA ++
          [Event.post .STRUCT_DECL (.schema i)])
    | .ENUM i a n e => ∃ tN tE tA,
      Runs (traverse_nested_decls continueHooks (.ENUM i a n e)) false tN ∧
      Runs (traverse_enumerants continueHooks (.ENUM i a n e) e) false tE ∧
      Runs (traverse_annotations continueHooks i a) false tA ∧
      Runs (traverse_decl continueHooks (.ENUM i a n e)) false
        (Event.pre .ENUM_DECL (.schema i) :: tN ++ tE ++ tA ++
          [Event.post .ENUM_DECL (.schema i)])
    | .INTERFACE i a n m => ∃ tN tM tA,
      Runs (traverse_nested_decls continueHooks (.INTERFACE i a n m)) false tN ∧
      Runs (traverse_methods_loop continueHooks (.INTERFACE i a n m) m) () tM ∧
      Runs (traverse_annotations continueHooks i a) false tA ∧
      Runs (traverse_decl continueHooks (.INTERFACE i a n m)) false
        (Event.pre .INTERFACE_DECL (.schema i) :: tN ++
          Event.pre .METHODS (.schema i) :: tM ++ Event.post .METHODS (.schema i) :: tA ++
          [Event.post .INTERFACE_DECL (.schema i)])
    | .CONST i a n t v => ∃ tT tV tA,
      Runs (traverse_type continueHooks i t) false tT ∧
      Runs (traverse_value continueHooks i t v) false tV ∧
      Runs (traverse_annotations continueHooks i a) false tA ∧
      Runs (traverse_decl continueHooks (.CONST i a n t v)) false
        (Event.pre .CONST_DECL (.schema i) :: tT ++ tV ++ tA ++
          [Event.post .CONST_DECL (.schema i)])
    | .ANNOTATION i a n t g => ∃ tT tA,
      Runs (traverse_type continueHooks i t) false tT ∧
      Runs (traverse_annotations continueHooks i a) false tA ∧
      Runs (traverse_decl continueHooks (.ANNOTATION i a n t g)) false
        (Event.pre .ANNOTATION_DECL (.schema i) :: tT ++ tA ++
          [Event.post .ANNOTATION_DECL (.schema i)]) := by
  intro h
  cases d with
  | FILE i a n =>
    simp only []
    unfold traverse_decl
    exact Runs.pure_false
  | STRUCT i a n u f =>
    simp only [traverse_nested_decls_eq, Schema.nestedNodes]
    obtain ⟨o1, h1⟩ := traverse_decl_sim.1 (.STRUCT i a n u f) n
    obtain ⟨o2, h2⟩ := traverse_struct_fields_sim.1 (.mk i a u f)
    obtain ⟨o3, h3⟩ := traverse_annotations_sim i a
    have key : SimAt (traverse_decl continueHooks (.STRUCT i a n u f))
        (traverse_decl baseHooks (.STRUCT i a n u f)) false
        (o1.bind fun t1 => o2.bind fun t2 => o3.map fun t3 =>
          Event.pre .STRUCT_DECL (.schema i) :: t1 ++ t2 ++ t3 ++
            [Event.post .STRUCT_DECL (.schema i)]) := by
      apply SimAt.congr
      · unfold traverse_decl
        simp only [continueHooks_apply, baseHooks_apply, Schema.info]
        repeat (first
          | exact SimAt.pure_at _
          | apply SimAt.bind_at h1
          | apply SimAt.bind_at h2
          | apply SimAt.bind_at h3
          | apply SimAt.bind_at (SimAt.record_at _)
          | apply SimAt.bind_at (SimAt.pure_at _)
          | apply SimAt.bind_at (SimAt.failure_at ⟨⟩)
          | simp only [Bool.false_eq_true, reduceIte])
      · cases o1 <;> cases o2 <;> cases o3 <;> simp
    rw [key.isSome] at h
    cases o1 with
    | none => cases h
    | some t1 =>
    cases o2 with
    | none => cases h
    | some t2 =>
    cases o3 with
    | none => cases h
    | some t3 => exact ⟨t1, t2, t3, h1.runs, h2.runs, h3.runs, key.runs⟩
  | ENUM i a n e =>
    simp only [traverse_nested_decls_eq, Schema.nestedNodes]
    obtain ⟨o1, h1⟩ := traverse_decl_sim.1 (.ENUM i a n e) n
    obtain ⟨o2, h2⟩ := traverse_enumerants_sim (.ENUM i a n e) e
    obtain ⟨o3, h3⟩ := traverse_annotations_sim i a
    have key : SimAt (traverse_decl continueHooks (.ENUM i a n e))
        (traverse_decl baseHooks (.ENUM i a n e)) false
        (o1.bind fun t1 => o2.bind fun t2 => o3.map fun t3 =>
          Event.pre .ENUM_DECL (.schema i) :: t1 ++ t2 ++ t3 ++
            [Event.post .ENUM_DECL (.schema i)]) := by
      apply SimAt.congr
      · unfold traverse_decl
        simp only [continueHooks_apply, baseHooks_apply, Schema.info]
        repeat (first
          | exact SimAt.pure_at _
          | apply SimAt.bind_at h1
          | apply SimAt.bind_at h2
          | apply SimAt.bind_at h3
          | apply SimAt.bind_at (SimAt.record_at _)
          | apply SimAt.bind_at (SimAt.pure_at _)
          | apply SimAt.bind_at (SimAt.failure_at ⟨⟩)
          | simp only [Bool.false_eq_true, reduceIte])
      · cases o1 <;> cases o2 <;> cases o3 <;> simp
    rw [key.isSome] at h
    cases o1 with
    | none => cases h
    | some t1 =>
    cases o2 with
    | none => cases h
    | some t2 =>
    cases o3 with
    | none => cases h
    | some t3 => exact ⟨t1, t2, t3, h1.runs, h2.runs, h3.runs, key.runs⟩
  | INTERFACE i a n m =>
    simp only [traverse_nested_decls_eq, Schema.nestedNodes]
    obtain ⟨o1, h1⟩ := traverse_decl_sim.1 (.INTERFACE i a n m) n
    obtain ⟨o2, h2⟩ := traverse_methods_loop_sim (.INTERFACE i a n m) m
    obtain ⟨o3, h3⟩ := traverse_annotations_sim i a
    have key : SimAt (traverse_decl continueHooks (.INTERFACE i a n m))
        (traverse_decl baseHooks (.INTERFACE i a n m)) false
        (o1.bind fun t1 => o2.bind fun t2 => o3.map fun t3 =>
          Event.pre .INTERFACE_DECL (.schema i) :: t1 ++
            Event.pre .METHODS (.schema i) :: t2 ++ Event.post .METHODS (.schema i) :: t3 ++
            [Event.post .INTERFACE_DECL (.schema i)]) := by
      apply SimAt.congr
      · unfold traverse_decl
        simp only [continueHooks_apply, baseHooks_apply, Schema.info]
        repeat (first
          | exact SimAt.pure_at _
          | apply SimAt.bind_at h1
          | apply SimAt.bind_at h2
          | apply SimAt.bind_at h3
          | apply SimAt.bind_at (SimAt.record_at _)
          | apply SimAt.bind_at (SimAt.pure_at _)
          | apply SimAt.bind_at (SimAt.failure_at ⟨⟩)
          | simp only [Bool.false_eq_true, reduceIte])
      · cases o1 <;> cases o2 <;> cases o3 <;> simp
    rw [key.isSome] at h
    cases o1 with
    | none => cases h
    | some t1 =>
    cases o2 with
    | none => cases h
    | some t2 =>
    cases o3 with
    | none => cases h
    | some t3 => exact ⟨t1, t2, t3, h1.runs, h2.runs, h3.runs, key.runs⟩
  | CONST i a n t v =>
    simp only []
    obtain ⟨o1, h1⟩ := traverse_type_sim i t
    obtain ⟨o2, h2⟩ := traverse_value_sim i t v
    obtain ⟨o3, h3⟩ := traverse_annotations_sim i a
    have key : SimAt (traverse_decl continueHooks (.CONST i a n t v))
        (traverse_decl baseHooks (.CONST i a n t v)) false
        (o1.bind fun t1 => o2.bind fun t2 => o3.map fun t3 =>
          Event.pre .CONST_DECL (.schema i) :: t1 ++ t2 ++ t3 ++
            [Event.post .CONST_DECL (.schema i)]) := by
      apply SimAt.congr
      · unfold traverse_decl
        simp only [continueHooks_apply, baseHooks_apply, Schema.info]
        repeat (first
          | exact SimAt.pure_at _
          | apply SimAt.bind_at h1
          | apply SimAt.bind_at h2
          | apply SimAt.bind_at h3
          | apply SimAt.bind_at (SimAt.record_at _)
          | apply SimAt.bind_at (SimAt.pure_at _)
          | apply SimAt.bind_at (SimAt.failure_at ⟨⟩)
          | simp only [Bool.false_eq_true, reduceIte])
      · cases o1 <;> cases o2 <;> cases o3 <;> simp
    rw [key.isSome] at h
    cases o1 with
    | none => cases h
    | some t1 =>
    cases o2 with
    | none => cases h
    | some t2 =>
    cases o3 with
    | none => cases h
    | some t3 => exact ⟨t1, t2, t3, h1.runs, h2.runs, h3.runs, key.runs⟩
  | ANNOTATION i a n t g =>
    simp only []
    obtain ⟨o1, h1⟩ := traverse_type_sim i t
    obtain ⟨o3, h3⟩ := traverse_annotations_sim i a
    have key : SimAt (traverse_decl continueHooks (.ANNOTATION i a n t g))
        (traverse_decl baseHooks (.ANNOTATION i a n t g)) false
        (o1.bind fun t1 => o3.map fun t3 =>
          Event.pre .ANNOTATION_DECL (.schema i) :: t1 ++ t3 ++
            [Event.post .ANNOTATION_DECL (.schema i)]) := by
      apply SimAt.congr
      · unfold traverse_decl
        simp only [continueHooks_apply, baseHooks_apply, Schema.info]
        repeat (first
          | exact SimAt.pure_at _
          | apply SimAt.bind_at h1
          | apply SimAt.bind_at h3
          | apply SimAt.bind_at (SimAt.record_at _)
          | apply SimAt.bind_at (SimAt.pure_at _)
          | apply SimAt.bind_at (SimAt.failure_at ⟨⟩)
          | simp only [Bool.false_eq_true, reduceIte])
      · cases o1 <;> cases o3 <;> simp
    rw [key.isSome] at h
    cases o1 with
    | none => cases h
    | some t1 =>
    cases o3 with
    | none => cases h
    | some t3 => exact ⟨t1, t3, h1.runs, h3.runs, key.runs⟩

theorem Runs.pure_unit : Runs (pure () : Step (List Event) Unit) () [] :=
  fun log => by simp [Pure.pure, StateT.pure]

theorem traverse_struct_field_list_runs (schema : StructSchema) (fields : List Field)
    (h : (traverse_struct_field_list baseHooks schema fields ()).isSome = true) :
    Runs (traverse_struct_field_list continueHooks schema fields) ()
      (fields.flatMap (fun fld => events (traverse_struct_field continueHooks schema fld))) ∧
    ∀ fld ∈ fields, (traverse_struct_field baseHooks schema fld ()).isSome = true := by
  induction fields with
  | nil =>
    unfold traverse_struct_field_list
    exact ⟨Runs.pure_unit, fun d hd => by cases hd⟩
  | cons d rest ih =>
    obtain ⟨od, hd⟩ := traverse_struct_fields_sim.2.2 schema d
    obtain ⟨orr, hr⟩ := traverse_struct_fields_sim.2.1 schema rest
    have key : SimAt (traverse_struct_field_list continueHooks schema (d :: rest))
        (traverse_struct_field_list baseHooks schema (d :: rest)) ()
        (od.bind fun td => orr.map fun tr => td ++ tr) := by
      apply SimAt.congr
      · unfold traverse_struct_field_list
        repeat (first
          | exact SimAt.pure_at _
          | exact hr
          | apply SimAt.bind_at hd
          | apply SimAt.bind_at (SimAt.record_at _)
          | apply SimAt.bind_at (SimAt.pure_at _)
          | apply SimAt.bind_at (SimAt.failure_at ⟨⟩)
          | simp only [Bool.false_eq_true, reduceIte])
      · cases od <;> cases orr <;> simp
    rw [key.isSome] at h
    cases od with
    | none => cases h
    | some td =>
      cases orr with
      | none => cases h
      | some tr =>
        have hrest := ih (by rw [hr.isSome]; rfl)
        have e1 : tr = _ := hr.runs.events.symm.trans hrest.1.events
        refine ⟨?_, ?_⟩
        · have hk := key.runs
          rw [e1] at hk
          simp only [Option.some_bind, Option.map_some'] at hk
          rw [List.flatMap_cons, hd.runs.events]
          exact hk
        · intro x hx
          rcases List.mem_cons.1 hx with rfl | hx
          · rw [hd.isSome]; rfl
          · exact hrest.2 x hx

theorem traverse_struct_fields_runs (info : SchemaInfo) (anns : List AnnotationReader)
    (u f : List Field)
    (h : (traverse_struct_fields baseHooks (.mk info anns u f) ()).isSome = true) :
    Runs (traverse_struct_fields continueHooks (.mk info anns u f)) false
      (Event.pre .STRUCT_FIELDS (.schema info) ::
        (if u.length > 0 then
          Event.pre .STRUCT_FIELD_UNION (.schema info) ::
            u.flatMap (fun fld =>
              events (traverse_struct_field continueHooks (.mk info anns u f) fld)) ++
            [Event.post .STRUCT_FIELD_UNION (.schema info)]
        else []) ++
        f.flatMap (fun fld =>
          events (traverse_struct_field continueHooks (.mk info anns u f) fld)) ++
        [Event.post .STRUCT_FIELDS (.schema info)]) ∧
    ∀ fld ∈ u ++ f, (traverse_struct_field baseHooks (.mk info anns u f) fld ()).isSome = true := by
  obtain ⟨ou, hu⟩ := traverse_struct_fields_sim.2.1 (.mk info anns u f) u
  obtain ⟨of, hf⟩ := traverse_struct_fields_sim.2.1 (.mk info anns u f) f
  by_cases hn : u.length > 0
  · have key : SimAt (traverse_struct_fields continueHooks (.mk info anns u f))
        (traverse_struct_fields baseHooks (.mk info anns u f)) false
        (ou.bind fun tu => of.map fun tf =>
          Event.pre .STRUCT_FIELDS (.schema info) ::
            (Event.pre .STRUCT_FIELD_UNION (.schema info) :: tu ++
              [Event.post .STRUCT_FIELD_UNION (.schema info)]) ++ tf ++
            [Event.post .STRUCT_FIELDS (.schema info)]) := by
      apply SimAt.congr
      · unfold traverse_struct_fields
        simp only [continueHooks_apply, baseHooks_apply, hn, reduceIte, StructSchema.info]
        repeat (first
          | exact SimAt.pure_at _
          | apply SimAt.bind_at hu
          | apply SimAt.bind_at hf
          | apply SimAt.bind_at (SimAt.record_at _)
          | apply SimAt.bind_at (SimAt.pure_at _)
          | apply SimAt.bind_at (SimAt.failure_at ⟨⟩)
          | simp only [Bool.false_eq_true, reduceIte])
      · cases ou <;> cases of <;> simp
    rw [key.isSome] at h
    cases ou with
    | none => cases h
    | some tu =>
      cases of with
      | none => cases h
      | some tf =>
        have h1 := traverse_struct_field_list_runs _ u (by rw [hu.isSome]; rfl)
        have h2 := traverse_struct_field_list_runs _ f (by rw [hf.isSome]; rfl)
        have e1 : tu = _ := hu.runs.events.symm.trans h1.1.events
        have e2 : tf = _ := hf.runs.events.symm.trans h2.1.events
        refine ⟨?_, ?_⟩
        · have hk := key.runs
          rw [e1, e2] at hk
          simp only [hn, reduceIte]
          exact hk
        · intro x hx
          rcases List.mem_append.1 hx with hx | hx
          · exact h1.2 x hx
          · exact h2.2 x hx
  · have key : SimAt (traverse_struct_fields continueHooks (.mk info anns u f))
        (traverse_struct_fields baseHooks (.mk info anns u f)) false
        (of.map fun tf =>
          Event.pre .STRUCT_FIELDS (.schema info) :: [] ++ tf ++
            [Event.post .STRUCT_FIELDS (.schema info)]) := by
      apply SimAt.congr
      · unfold traverse_struct_fields
        simp only [continueHooks_apply, baseHooks_apply, hn, reduceIte, StructSchema.info]
        repeat (first
          | exact SimAt.pure_at _
          | apply SimAt.bind_at hu
          | apply SimAt.bind_at hf
          | apply SimAt.bind_at (SimAt.record_at _)
          | apply SimAt.bind_at (SimAt.pure_at _)
          | apply SimAt.bind_at (SimAt.failure_at ⟨⟩)
          | simp only [Bool.false_eq_true, reduceIte])
      · cases of <;> simp
    rw [key.isSome] at h
    cases of with
    | none => cases h
    | some tf =>
      have h2 := traverse_struct_field_list_runs _ f (by rw [hf.isSome]; rfl)
      have e2 : tf = _ := hf.runs.events.symm.trans h2.1.events
      have hu0 : u = [] := List.length_eq_zero.1 (by omega)
      refine ⟨?_, ?_⟩
      · have hk := key.runs
        rw [e2] at hk
        simp only [hn, reduceIte]
        exact hk
      · intro x hx
        rw [hu0, List.nil_append] at hx
        exact h2.2 x hx

theorem traverse_struct_field_slot_runs (schema : StructSchema) (p : FieldProto) (slot : Slot) :
    (traverse_struct_field baseHooks schema (.SLOT p slot) ()).isSome = true →
    ∃ tT tA, Runs (traverse_type continueHooks schema.info slot.type) false tT ∧
      Runs (traverse_annotations continueHooks schema.info p.annotations) false tA ∧
      if slot.hadExplicitDefault = true then
        ∃ tV, Runs (traverse_value continueHooks schema.info slot.type slot.defaultValue)
            false tV ∧
          Runs (traverse_struct_field continueHooks schema (.SLOT p slot)) false
            ([Event.pre .STRUCT_FIELD (.named p.name),
              Event.pre .STRUCT_FIELD_SLOT (.named p.name)] ++ tT ++
              [Event.pre .STRUCT_DEFAULT_VALUE (.named p.name)] ++ tV ++
              [Event.post .STRUCT_DEFAULT_VALUE (.named p.name),
                Event.post .STRUCT_FIELD_SLOT (.named p.name)] ++ tA ++
              [Event.post .STRUCT_FIELD (.named p.name)])
      else
        Runs (traverse_struct_field continueHooks schema (.SLOT p slot)) false
          ([Event.pre .STRUCT_FIELD (.named p.name),
            Event.pre .STRUCT_FIELD_SLOT (.named p.name)] ++ tT ++
            [Event.post .STRUCT_FIELD_SLOT (.named p.name)] ++ tA ++
            [Event.post .STRUCT_FIELD (.named p.name)]) := by
  intro h
  obtain ⟨o1, h1⟩ := traverse_type_sim schema.info slot.type
  obtain ⟨o2, h2⟩ := traverse_value_sim schema.info slot.type slot.defaultValue
  obtain ⟨o3, h3⟩ := traverse_annotations_sim schema.info p.annotations
  cases hd : slot.hadExplicitDefault with
  | true =>
    have key : SimAt (traverse_struct_field continueHooks schema (.SLOT p slot))
        (traverse_struct_field baseHooks schema (.SLOT p slot)) false
        (o1.bind fun t1 => o2.bind fun t2 => o3.map fun t3 =>
          [Event.pre .STRUCT_FIELD (.named p.name),
            Event.pre .STRUCT_FIELD_SLOT (.named p.name)] ++ t1 ++
            [Event.pre .STRUCT_DEFAULT_VALUE (.named p.name)] ++ t2 ++
            [Event.post .STRUCT_DEFAULT_VALUE (.named p.name),
              Event.post .STRUCT_FIELD_SLOT (.named p.name)] ++ t3 ++
            [Event.post .STRUCT_FIELD (.named p.name)]) := by
      apply SimAt.congr
      · unfold traverse_struct_field
        simp only [continueHooks_apply, baseHooks_apply, hd, reduceIte, Field.proto]
        repeat (first
          | exact SimAt.pure_at _
          | apply SimAt.bind_at h1
          | apply SimAt.bind_at h2
          | apply SimAt.bind_at h3
          | apply SimAt.bind_at (SimAt.record_at _)
          | apply SimAt.bind_at (SimAt.pure_at _)
          | apply SimAt.bind_at (SimAt.failure_at ⟨⟩)
          | simp only [Bool.false_eq_true, reduceIte])
      · cases o1 <;> cases o2 <;> cases o3 <;> simp
    rw [key.isSome] at h
    cases o1 with
    | none => cases h
    | some t1 =>
    cases o2 with
    | none => cases h
    | some t2 =>
    cases o3 with
    | none => cases h
    | some t3 =>
      refine ⟨t1, t3, h1.runs, h3.runs, ?_⟩
      simp only [reduceIte]
      exact ⟨t2, h2.runs, key.runs⟩
  | false =>
    have key : SimAt (traverse_struct_field continueHooks schema (.SLOT p slot))
        (traverse_struct_field baseHooks schema (.SLOT p slot)) false
        (o1.bind fun t1 => o3.map fun t3 =>
          [Event.pre .STRUCT_FIELD (.named p.name),
            Event.pre .STRUCT_FIELD_SLOT (.named p.name)] ++ t1 ++
            [Event.post .STRUCT_FIELD_SLOT (.named p.name)] ++ t3 ++
            [Event.post .STRUCT_FIELD (.named p.name)]) := by
      apply SimAt.congr
      · unfold traverse_struct_field
        simp only [continueHooks_apply, baseHooks_apply, hd, Bool.false_eq_true, reduceIte,
          Field.proto]
        repeat (first
          | exact SimAt.pure_at _
          | apply SimAt.bind_at h1
          | apply SimAt.bind_at h2
          | apply SimAt.bind_at h3
          | apply SimAt.bind_at (SimAt.record_at _)
          | apply SimAt.bind_at (SimAt.pure_at _)
          | apply SimAt.bind_at (SimAt.failure_at ⟨⟩)
          | simp only [Bool.false_eq_true, reduceIte])
      · cases o1 <;> cases o3 <;> simp
    rw [key.isSome] at h
    cases o1 with
    | none => cases h
    | some t1 =>
    cases o3 with
    | none => cases h
    | some t3 =>
      refine ⟨t1, t3, h1.runs, h3.runs, ?_⟩
      simp only [Bool.false_eq_true, reduceIte]
      exact key.runs

/-- C23: with recording hooks that all return continue, `traverse_struct_fields`
on a struct whose values can all be read (the traversal with the hooks of
`BaseGenerator` itself returns) returns `false` and records, between the entry
and the exit hook of the fields: first the union fields in order, between the
union entry and exit hooks, which are called only when there is a union field;
then the non-union fields in order. For a slot field `traverse_struct_field`
records the field and slot entry hooks, the calls of the field's type, then,
exactly when the slot has an explicit default, the calls of the default value
between the default-value hooks, then the slot exit hook, the calls of the
field's annotations and the field exit hook. -/
theorem C23_struct_fields_order (info : SchemaInfo) (anns : List AnnotationReader)
    (u f : List Field)
    (h : (traverse_struct_fields baseHooks (.mk info anns u f) ()).isSome = true) :
    Runs (traverse_struct_fields continueHooks (.mk info anns u f)) false
      (Event.pre .STRUCT_FIELDS (.schema info) ::
        (if u.length > 0 then
          Event.pre .STRUCT_FIELD_UNION (.schema info) ::
            u.flatMap (fun fld =>
              events (traverse_struct_field continueHooks (.mk info anns u f) fld)) ++
            [Event.post .STRUCT_FIELD_UNION (.schema info)]
        else []) ++
        f.flatMap (fun fld =>
          events (traverse_struct_field continueHooks (.mk info anns u f) fld)) ++
        [Event.post .STRUCT_FIELDS (.schema info)]) ∧
    (∀ fld ∈ u ++ f,
      Runs (traverse_struct_field continueHooks (.mk info anns u f) fld) false
        (events (traverse_struct_field continueHooks (.mk info anns u f) fld))) ∧
    ∀ p slot, Field.SLOT p slot ∈ u ++ f →
      ∃ tT tA, Runs (traverse_type continueHooks info slot.type) false tT ∧
        Runs (traverse_annotations continueHooks info p.annotations) false tA ∧
        if slot.hadExplicitDefault = true then
          ∃ tV, Runs (traverse_value continueHooks info slot.type slot.defaultValue) false tV ∧
            Runs (traverse_struct_field continueHooks (.mk info anns u f) (.SLOT p slot)) false
              ([Event.pre .STRUCT_FIELD (.named p.name),
                Event.pre .STRUCT_FIELD_SLOT (.named p.name)] ++ tT ++
                [Event.pre .STRUCT_DEFAULT_VALUE (.named p.name)] ++ tV ++
                [Event.post .STRUCT_DEFAULT_VALUE (.named p.name),
                  Event.post .STRUCT_FIELD_SLOT (.named p.name)] ++ tA ++
                [Event.post .STRUCT_FIELD (.named p.name)])
        else
          Runs (traverse_struct_field continueHooks (.mk info anns u f) (.SLOT p slot)) false
            ([Event.pre .STRUCT_FIELD (.named p.name),
              Event.pre .STRUCT_FIELD_SLOT (.named p.name)] ++ tT ++
              [Event.post .STRUCT_FIELD_SLOT (.named p.name)] ++ tA ++
              [Event.post .STRUCT_FIELD (.named p.name)]) := by
  have hr := traverse_struct_fields_runs info anns u f h
  exact ⟨hr.1, fun fld hfld => (traverse_struct_fields_sim.2.2 _ fld).runs_events (hr.2 fld hfld),
    fun p slot hm => traverse_struct_field_slot_runs (.mk info anns u f) p slot (hr.2 _ hm)⟩

/-- C24, amended: with recording hooks that all return continue,
`traverse_struct_field` on a group field whose values can all be read returns
`false` and records the field and group entry hooks, the calls of the applied
annotations of the group, the calls of the fields of the group, the group exit
hook, the calls of the field's annotations and the field exit hook; no nested
declarations are traversed. -/
theorem C24_group_field_order (schema : StructSchema) (p : FieldProto) (gi : SchemaInfo)
    (ga : List AnnotationReader) (gu gf : List Field)
    (h : (traverse_struct_field baseHooks schema (.GROUP p (.mk gi ga gu gf)) ()).isSome = true) :
    ∃ tG tF tA, Runs (traverse_annotations continueHooks gi ga) false tG ∧
      Runs (traverse_struct_fields continueHooks (.mk gi ga gu gf)) false tF ∧
      Runs (traverse_annotations continueHooks schema.info p.annotations) false tA ∧
      Runs (traverse_struct_field continueHooks schema (.GROUP p (.mk gi ga gu gf))) false
        ([Event.pre .STRUCT_FIELD (.named p.name),
          Event.pre .STRUCT_FIELD_GROUP (.named p.name)] ++ tG ++ tF ++
          [Event.post .STRUCT_FIELD_GROUP (.named p.name)] ++ tA ++
          [Event.post .STRUCT_FIELD (.named p.name)]) := by
  obtain ⟨o1, h1⟩ := traverse_annotations_sim gi ga
  obtain ⟨o2, h2⟩ := traverse_struct_fields_sim.1 (.mk gi ga gu gf)
  obtain ⟨o3, h3⟩ := traverse_annotations_sim schema.info p.annotations
  have key : SimAt (traverse_struct_field continueHooks schema (.GROUP p (.mk gi ga gu gf)))
      (traverse_struct_field baseHooks schema (.GROUP p (.mk gi ga gu gf))) false
      (o1.bind fun t1 => o2.bind fun t2 => o3.map fun t3 =>
        [Event.pre .STRUCT_FIELD (.named p.name),
          Event.pre .STRUCT_FIELD_GROUP (.named p.name)] ++ t1 ++ t2 ++
          [Event.post .STRUCT_FIELD_GROUP (.named p.name)] ++ t3 ++
          [Event.post .STRUCT_FIELD (.named p.name)]) := by
    apply SimAt.congr
    · unfold traverse_struct_field
      simp only [continueHooks_apply, baseHooks_apply, Field.proto, StructSchema.info]
      repeat (first
        | exact SimAt.pure_at _
        | apply SimAt.bind_at h1
        | apply SimAt.bind_at h2
        | apply SimAt.bind_at h3
        | apply SimAt.bind_at (SimAt.record_at _)
        | apply SimAt.bind_at (SimAt.pure_at _)
        | apply SimAt.bind_at (SimAt.failure_at ⟨⟩)
        | simp only [Bool.false_eq_true, reduceIte])
    · cases o1 <;> cases o2 <;> cases o3 <;> simp
  rw [key.isSome] at h
  cases o1 with
  | none => cases h
  | some t1 =>
  cases o2 with
  | none => cases h
  | some t2 =>
  cases o3 with
  | none => cases h
  | some t3 => exact ⟨t1, t2, t3, h1.runs, h2.runs, h3.runs, key.runs⟩

theorem Step.bind_true {σ : Type} (x : Step σ Bool) (f : Bool → Step σ Bool) (s s' : σ)
    (h : x s = some (true, s')) :
    (x >>= fun b => if b = true then pure true else f b) s = some (true, s') := by
  rw [Step.bind_run, h]
  rfl

theorem traverse_struct_field_handled {σ : Type} (hk : Hooks σ) (s s' : σ)
    (schema : StructSchema) (field : Field)
    (h : hk.pre_visit_struct_field schema field s = some (true, s')) :
    traverse_struct_field hk schema field s = some (true, s') := by
  cases field with
  | SLOT p slot =>
    unfold traverse_struct_field
    exact Step.bind_true _ _ _ _ h
  | GROUP p g =>
    unfold traverse_struct_field
    exact Step.bind_true _ _ _ _ h

theorem traverse_annotation_handled {σ : Type} (hk : Hooks σ) (s s' : σ)
    (ann : AnnotationReader) (parent : SchemaInfo)
    (h : hk.pre_visit_annotation ann parent s = some (true, s')) :
    traverse_annotation hk ann parent s = some (true, s') := by
  unfold traverse_annotation
  exact Step.bind_true _ _ _ _ h

theorem traverse_method_handled {σ : Type} (hk : Hooks σ) (s s' : σ)
    (schema : Schema) (method : Method)
    (h : hk.pre_visit_method schema method s = some (true, s')) :
    traverse_method hk schema method s = some (true, s') := by
  unfold traverse_method
  exact Step.bind_true _ _ _ _ h

/-- C26: for every hook set, when the entry hook of the node a traverse
operation is invoked on returns `true` (leaving the state `s'`), the operation
returns `true` with the state `s'` unchanged: nothing of the node is traversed
and the node's exit hook is not called. This holds for `traverse_file`, the
dispatch on a struct, enum, interface, const and annotation declaration,
`traverse_annotation`, `traverse_type`, `traverse_dynamic_value`,
`traverse_struct_field`, `traverse_method` and `traverse_param_list`. -/
theorem C26_handled_skips_descent_and_exit {σ : Type} (hk : Hooks σ) (s s' : σ) :
    (∀ file requestedFile, hk.pre_visit_file file requestedFile s = some (true, s') →
      traverse_file hk file requestedFile s = some (true, s')) ∧
    (∀ i a n u f, hk.pre_visit_struct_decl (.STRUCT i a n u f) s = some (true, s') →
      traverse_decl hk (.STRUCT i a n u f) s = some (true, s')) ∧
    (∀ i a n e, hk.pre_visit_enum_decl (.ENUM i a n e) s = some (true, s') →
      traverse_decl hk (.ENUM i a n e) s = some (true, s')) ∧
    (∀ i a n m, hk.pre_visit_interface_decl (.INTERFACE i a n m) s = some (true, s') →
      traverse_decl hk (.INTERFACE i a n m) s = some (true, s')) ∧
    (∀ i a n t v, hk.pre_visit_const_decl (.CONST i a n t v) s = some (true, s') →
      traverse_decl hk (.CONST i a n t v) s = some (true, s')) ∧
    (∀ i a n t g, hk.pre_visit_annotation_decl (.ANNOTATION i a n t g) s = some (true, s') →
      traverse_decl hk (.ANNOTATION i a n t g) s = some (true, s')) ∧
    (∀ ann parent, hk.pre_visit_annotation ann parent s = some (true, s') →
      traverse_annotation hk ann parent s = some (true, s')) ∧
    (∀ info e,
      hk.pre_visit_type info (.LIST e) (traverse_type hk info e) s = some (true, s') →
      traverse_type hk info (.LIST e) s = some (true, s')) ∧
    (∀ info t, (∀ e, t ≠ .LIST e) → hk.pre_visit_type info t (pure false) s = some (true, s') →
      traverse_type hk info t s = some (true, s')) ∧
    (∀ info type value, hk.pre_visit_dynamic_value info type value s = some (true, s') →
      traverse_dynamic_value hk info type value s = some (true, s')) ∧
    (∀ schema field, hk.pre_visit_struct_field schema field s = some (true, s') →
      traverse_struct_field hk schema field s = some (true, s')) ∧
    (∀ schema method, hk.pre_visit_method schema method s = some (true, s') →
      traverse_method hk schema method s = some (true, s')) ∧
    (∀ interface name schema, hk.pre_visit_param_list interface name schema s = some (true, s') →
      traverse_param_list hk interface name schema s = some (true, s')) := by
  refine ⟨?_, ?_, ?_, ?_, ?_, ?_, ?_, ?_, ?_, ?_, ?_, ?_, ?_⟩
  · intro file rf h
    unfold traverse_file
    exact Step.bind_true _ _ _ _ h
  · intro i a n u f h
    unfold traverse_decl
    exact Step.bind_true _ _ _ _ h
  · intro i a n e h
    unfold traverse_decl
    exact Step.bind_true _ _ _ _ h
  · intro i a n m h
    unfold traverse_decl
    exact Step.bind_true _ _ _ _ h
  · intro i a n t v h
    unfold traverse_decl
    exact Step.bind_true _ _ _ _ h
  · intro i a n t g h
    unfold traverse_decl
    exact Step.bind_true _ _ _ _ h
  · exact traverse_annotation_handled hk s s'
  · intro info e h
    unfold traverse_type
    exact Step.bind_true _ _ _ _ h
  · intro info t ht h
    cases t with
    | LIST e => exact absurd rfl (ht e)
    | _ =>
      unfold traverse_type
      exact Step.bind_true _ _ _ _ h
  · intro info type value h
    cases value with
    | LIST els =>
      unfold traverse_dynamic_value
      exact Step.bind_true _ _ _ _ h
    | STRUCT fs =>
      unfold traverse_dynamic_value
      exact Step.bind_true _ _ _ _ h
    | _ =>
      rw [traverse_dynamic_value]
      · exact Step.bind_true _ _ _ _ h
      · intro els he; cases he
      · intro fs he; cases he
  · exact traverse_struct_field_handled hk s s'
  · exact traverse_method_handled hk s s'
  · intro interface name schema h
    unfold traverse_param_list
    exact Step.bind_true _ _ _ _ h

/-- Witness of C21: the example file with a declaration of every category,
requested with two imports. -/
theorem C21_traverse_file_order_witness :
    (traverse_file baseHooks exampleMixedFile exampleImportingRequest ()).isSome = true ∧
    Runs (traverse_file continueHooks exampleMixedFile exampleImportingRequest) false
      ([Event.pre .FILE (.schema exampleMixedFile.info),
          Event.pre .IMPORTS (.schema exampleMixedFile.info)] ++
        exampleImportingRequest.imports.flatMap (fun i =>
          [Event.pre .IMPORT (.named i.name), Event.post .IMPORT (.named i.name)]) ++
        [Event.post .IMPORTS (.schema exampleMixedFile.info)] ++
        events (traverse_nested_decls continueHooks exampleMixedFile) ++
        events (traverse_annotations continueHooks exampleMixedFile.info
          exampleMixedFile.annotations) ++
        [Event.post .FILE (.schema exampleMixedFile.info)]) :=
  have h : (traverse_file baseHooks exampleMixedFile exampleImportingRequest ()).isSome = true := by
    simp only [exampleMixedFile, examplePoint, exampleImportingRequest, baseHooks, traverse_file,
      traverse_imports, traverse_imports_loop, traverse_nested_decls, nested_decls_of,
      traverse_nested_decls_loop, traverse_decl, traverse_struct_fields,
      traverse_struct_field_list, traverse_struct_field, traverse_annotations,
      traverse_annotations_loop,  traverse_annotation, traverse_value, traverse_dynamic_value,
      traverse_type, traverse_enumerants, traverse_enumerants_loop, traverse_methods_loop,
      traverse_method, traverse_param_list, List.length_cons, List.length_nil, Schema.info,
      Schema.annotations, StructSchema.info, Field.proto]
    decide!
  ⟨h, (C21_traverse_file_order exampleMixedFile exampleImportingRequest h).2.2⟩

/-- Witness of C23: the example struct `Person`, with two union fields and a
field with an explicit default. -/
theorem C23_struct_fields_order_witness :
    (traverse_struct_fields baseHooks examplePerson ()).isSome = true ∧
    ∃ t, Runs (traverse_struct_fields continueHooks examplePerson) false t :=
  have h : (traverse_struct_fields baseHooks examplePerson ()).isSome = true := by
    simp only [examplePerson, exampleAddress, baseHooks, traverse_file, traverse_imports,
      traverse_imports_loop, traverse_nested_decls, nested_decls_of, traverse_nested_decls_loop,
      traverse_decl, traverse_struct_fields, traverse_struct_field_list, traverse_struct_field,
      traverse_annotations, traverse_annotations_loop,  traverse_annotation, traverse_value,
      traverse_dynamic_value, traverse_type, traverse_enumerants, traverse_enumerants_loop,
      traverse_methods_loop, traverse_method, traverse_param_list, List.length_cons,
      List.length_nil, Schema.info, Schema.annotations, StructSchema.info, Field.proto]
    decide!
  ⟨h, _, (C23_struct_fields_order _ _ _ _ h).1⟩

/-- C24, counterexample. With recording hooks that all return continue, the
traversal of the example group field `address` records, between the group entry
hook and the fields of the group, the calls of the applied annotations of the
group (something of the group that is neither a nested declaration nor a field),
and no call of a hook of nested declarations. -/
theorem C24_group_annotations_visited :
    (traverse_struct_field continueHooks examplePerson exampleAddress []).map (fun r => r.2) =
      some [Event.pre .STRUCT_FIELD (.named "address"),
        Event.pre .STRUCT_FIELD_GROUP (.named "address"),
        Event.pre .ANNOTATIONS (.schema ⟨111, 110, "shape.capnp:Person.address", "address"⟩),
        Event.pre .ANNOTATION (.named "schema"),
        Event.pre .DYNAMIC_VALUE (.type .TEXT),
        Event.post .DYNAMIC_VALUE (.type .TEXT),
        Event.post .ANNOTATION (.named "schema"),
        Event.post .ANNOTATIONS (.schema ⟨111, 110, "shape.capnp:Person.address", "address"⟩),
        Event.pre .STRUCT_FIELDS (.schema ⟨111, 110, "shape.capnp:Person.address", "address"⟩),
        Event.pre .STRUCT_FIELD (.named "street"),
        Event.pre .STRUCT_FIELD_SLOT (.named "street"),
        Event.pre .TYPE (.type .TEXT),
        Event.post .TYPE (.type .TEXT),
        Event.post .STRUCT_FIELD_SLOT (.named "street"),
        Event.post .STRUCT_FIELD (.named "street"),
        Event.post .STRUCT_FIELDS (.schema ⟨111, 110, "shape.capnp:Person.address", "address"⟩),
        Event.post .STRUCT_FIELD_GROUP (.named "address"),
        Event.post .STRUCT_FIELD (.named "address")] := by
  simp only [examplePerson, exampleAddress, continueHooks, logHooks, traverse_file,
    traverse_imports, traverse_imports_loop, traverse_nested_decls, nested_decls_of,
    traverse_nested_decls_loop, traverse_decl, traverse_struct_fields,
    traverse_struct_field_list, traverse_struct_field, traverse_annotations,
    traverse_annotations_loop,  traverse_annotation, traverse_value, traverse_dynamic_value,
    traverse_type, traverse_enumerants, traverse_enumerants_loop, traverse_methods_loop,
    traverse_method, traverse_param_list, List.length_cons, List.length_nil, Schema.info,
    Schema.annotations, StructSchema.info, Field.proto]
  decide!

/-- Witness of C24, amended: the example group field `address`. -/
theorem C24_group_field_order_witness :
    (traverse_struct_field baseHooks examplePerson exampleAddress ()).isSome = true ∧
    ∃ tG tF tA,
      Runs (traverse_annotations continueHooks
        ⟨111, 110, "shape.capnp:Person.address", "address"⟩
        [⟨7, "schema", .TEXT, .TEXT "addr", 90, "parquet.capnp:schema"⟩]) false tG ∧
      Runs (traverse_struct_fields continueHooks
        (.mk ⟨111, 110, "shape.capnp:Person.address", "address"⟩
          [⟨7, "schema", .TEXT, .TEXT "addr", 90, "parquet.capnp:schema"⟩] []
          [.SLOT ⟨"street", some 4, []⟩ ⟨4, .TEXT, false, .TEXT ""⟩])) false tF ∧
      Runs (traverse_annotations continueHooks examplePerson.info []) false tA ∧
      Runs (traverse_struct_field continueHooks examplePerson exampleAddress) false
        ([Event.pre .STRUCT_FIELD (.named "address"),
          Event.pre .STRUCT_FIELD_GROUP (.named "address")] ++ tG ++ tF ++
          [Event.post .STRUCT_FIELD_GROUP (.named "address")] ++ tA ++
          [Event.post .STRUCT_FIELD (.named "address")]) :=
  have h : (traverse_struct_field baseHooks examplePerson exampleAddress ()).isSome = true := by
    simp only [examplePerson, exampleAddress, baseHooks, traverse_file, traverse_imports,
      traverse_imports_loop, traverse_nested_decls, nested_decls_of, traverse_nested_decls_loop,
      traverse_decl, traverse_struct_fields, traverse_struct_field_list, traverse_struct_field,
      traverse_annotations, traverse_annotations_loop,  traverse_annotation, traverse_value,
      traverse_dynamic_value, traverse_type, traverse_enumerants, traverse_enumerants_loop,
      traverse_methods_loop, traverse_method, traverse_param_list, List.length_cons,
      List.length_nil, Schema.info, Schema.annotations, StructSchema.info, Field.proto]
    decide!
  ⟨h, C24_group_field_order examplePerson ⟨"address", none, []⟩
    ⟨111, 110, "shape.capnp:Person.address", "address"⟩ [⟨7, "schema", .TEXT, .TEXT "addr", 90, "parquet.capnp:schema"⟩] []
    [.SLOT ⟨"street", some 4, []⟩ ⟨4, .TEXT, false, .TEXT ""⟩] h⟩

theorem traverse_type_leaf_simAt (info : SchemaInfo) (t : SchemaType) (ht : ∀ e, t ≠ .LIST e) :
    SimAt (traverse_type continueHooks info t) (traverse_type baseHooks info t) false
      (some [Event.pre .TYPE (.type t), Event.post .TYPE (.type t)]) := by
  cases t with
  | LIST e => exact absurd rfl (ht e)
  | _ =>
    apply SimAt.congr
    · unfold traverse_type
      simp only [continueHooks_apply, baseHooks_apply]
      repeat (first
        | exact SimAt.pure_at _
        | apply SimAt.bind_at (SimAt.record_at _)
        | apply SimAt.bind_at (SimAt.pure_at _)
        | apply SimAt.bind_at (SimAt.failure_at ⟨⟩)
        | simp only [Bool.false_eq_true, reduceIte])
    · simp

theorem traverse_type_total (info : SchemaInfo) (t : SchemaType) :
    ∃ tr, SimAt (traverse_type continueHooks info t) (traverse_type baseHooks info t) false
      (some tr) := by
  induction t with
  | LIST e ih =>
    obtain ⟨tr, ih⟩ := ih
    refine ⟨Event.pre .TYPE (.type (.LIST e)) :: tr ++ [Event.post .TYPE (.type (.LIST e))], ?_⟩
    apply SimAt.congr
    · unfold traverse_type
      simp only [continueHooks_apply, baseHooks_apply]
      repeat (first
        | exact SimAt.pure_at _
        | apply SimAt.bind_at ih
        | apply SimAt.bind_at (SimAt.record_at _)
        | apply SimAt.bind_at (SimAt.pure_at _)
        | apply SimAt.bind_at (SimAt.failure_at ⟨⟩)
        | simp only [Bool.false_eq_true, reduceIte])
    · simp
  | _ => exact ⟨_, traverse_type_leaf_simAt info _ (by intro e he; cases he)⟩

theorem traverse_type_list_events (info : SchemaInfo) (e : SchemaType) :
    events (traverse_type continueHooks info (.LIST e)) =
      Event.pre .TYPE (.type (.LIST e)) :: events (traverse_type continueHooks info e) ++
        [Event.post .TYPE (.type (.LIST e))] := by
  obtain ⟨tr, ih⟩ := traverse_type_total info e
  have key : SimAt (traverse_type continueHooks info (.LIST e))
      (traverse_type baseHooks info (.LIST e)) false
      (some (Event.pre .TYPE (.type (.LIST e)) :: tr ++ [Event.post .TYPE (.type (.LIST e))])) := by
    apply SimAt.congr
    · unfold traverse_type
      simp only [continueHooks_apply, baseHooks_apply]
      repeat (first
        | exact SimAt.pure_at _
        | apply SimAt.bind_at ih
        | apply SimAt.bind_at (SimAt.record_at _)
        | apply SimAt.bind_at (SimAt.pure_at _)
        | apply SimAt.bind_at (SimAt.failure_at ⟨⟩)
        | simp only [Bool.false_eq_true, reduceIte])
    · simp
  rw [key.runs.events, ih.runs.events]

theorem traverse_type_leaf_events (info : SchemaInfo) (t : SchemaType) (ht : ∀ e, t ≠ .LIST e) :
    events (traverse_type continueHooks info t) =
      [Event.pre .TYPE (.type t), Event.post .TYPE (.type t)] :=
  (traverse_type_leaf_simAt info t ht).runs.events

/-- C25: with recording hooks that all return continue, `traverse_type` returns
`false` on every type; on a list type it records the entry hook of the list type,
the calls of the element type and the exit hook of the list type; on every other
type (struct, enum, interface, opaque pointer, scalar) it records the entry hook
and the exit hook of the type and nothing else. The traversal of the example
file with a struct that has a field of its own type returns: the declaration is
entered and left once and the reference to it records only the two hooks of the
type; the pass of the builder on that file returns as well. -/
theorem C25_type_recursion_only_into_lists :
    (∀ info t, Runs (traverse_type continueHooks info t) false
      (events (traverse_type continueHooks info t))) ∧
    (∀ info e, events (traverse_type continueHooks info (.LIST e)) =
      Event.pre .TYPE (.type (.LIST e)) :: events (traverse_type continueHooks info e) ++
        [Event.post .TYPE (.type (.LIST e))]) ∧
    (∀ info t, (∀ e, t ≠ .LIST e) → events (traverse_type continueHooks info t) =
      [Event.pre .TYPE (.type t), Event.post .TYPE (.type t)]) ∧
    (traverse_file continueHooks exampleLinkedFile exampleRequest []).map
      (fun r => (r.1, r.2.filter (fun e => e.hook == .TYPE || e.hook == .DECL))) =
      some (false, [Event.pre .DECL (.schema ⟨130, 100, "shape.capnp:Node", "Node"⟩),
        Event.pre .TYPE (.type .INT32), Event.post .TYPE (.type .INT32),
        Event.pre .TYPE (.type (.STRUCT 130 "Node")),
        Event.post .TYPE (.type (.STRUCT 130 "Node")),
        Event.post .DECL (.schema ⟨130, 100, "shape.capnp:Node", "Node"⟩)]) ∧
    (traverse_file CapnpcParquet.hooks exampleLinkedFile exampleRequest {}).isSome = true := by
  refine ⟨fun info t => ?_, traverse_type_list_events, traverse_type_leaf_events, ?_, ?_⟩
  · obtain ⟨tr, h⟩ := traverse_type_total info t
    rw [h.runs.events]
    exact h.runs
  · simp only [exampleLinkedFile, exampleRequest, continueHooks, logHooks, traverse_file,
      traverse_imports, traverse_imports_loop, traverse_nested_decls, nested_decls_of,
      traverse_nested_decls_loop, traverse_decl, traverse_struct_fields,
      traverse_struct_field_list, traverse_struct_field, traverse_annotations,
      traverse_annotations_loop,  traverse_annotation, traverse_value, traverse_dynamic_value,
      traverse_type, traverse_enumerants, traverse_enumerants_loop, traverse_methods_loop,
      traverse_method, traverse_param_list, List.length_cons, List.length_nil, Schema.info,
      Schema.annotations, StructSchema.info, Field.proto]
    decide!
  · simp only [exampleLinkedFile, exampleRequest, CapnpcParquet.hooks, traverse_file,
      traverse_imports, traverse_imports_loop, traverse_nested_decls, nested_decls_of,
      traverse_nested_decls_loop, traverse_decl, traverse_struct_fields,
      traverse_struct_field_list, traverse_struct_field, traverse_annotations,
      traverse_annotations_loop,  traverse_annotation, traverse_value, traverse_dynamic_value,
      traverse_type, traverse_enumerants, traverse_enumerants_loop, traverse_methods_loop,
      traverse_method, traverse_param_list, List.length_cons, List.length_nil, Schema.info,
      Schema.annotations, StructSchema.info, Field.proto]
    decide!

/-- C27, counterexample. Recording hooks of which one entry hook returns `true`:
when it is the entry hook of the first import, the second import is not entered
and the exit hook of the imports is not called; when it is the decl
entry hook of the first nested declaration `Point`, no later declaration is
entered and the exit hook of the nested declarations is not called; when it is
the entry hook of the enumerant `red`, the enumerant `green` is not entered and
the exit hook of the enumerants is not called. The exit hook of the file is
still called. -/
theorem C27_later_siblings_skipped :
    (traverse_file (logHooks (fun e => e == Event.pre .IMPORT (.named "/capnp/c++.capnp")))
      exampleEmptyFile exampleImportingRequest []).map (fun r => r.2) =
      some [Event.pre .FILE (.schema ⟨100, 0, "shape.capnp", "shape.capnp"⟩),
        Event.pre .IMPORTS (.schema ⟨100, 0, "shape.capnp", "shape.capnp"⟩),
        Event.pre .IMPORT (.named "/capnp/c++.capnp"),
        Event.post .FILE (.schema ⟨100, 0, "shape.capnp", "shape.capnp"⟩)] ∧
    (traverse_file
      (logHooks (fun e => e == Event.pre .DECL (.schema ⟨101, 100, "shape.capnp:Point", "Point"⟩)))
      exampleMixedFile exampleRequest []).map (fun r => r.2) =
      some [Event.pre .FILE (.schema ⟨100, 0, "shape.capnp", "shape.capnp"⟩),
        Event.pre .IMPORTS (.schema ⟨100, 0, "shape.capnp", "shape.capnp"⟩),
        Event.post .IMPORTS (.schema ⟨100, 0, "shape.capnp", "shape.capnp"⟩),
        Event.pre .NESTED_DECLS (.schema ⟨100, 0, "shape.capnp", "shape.capnp"⟩),
        Event.pre .DECL (.schema ⟨101, 100, "shape.capnp:Point", "Point"⟩),
        Event.post .FILE (.schema ⟨100, 0, "shape.capnp", "shape.capnp"⟩)] ∧
    traverse_enumerants (logHooks (fun e => e == Event.pre .ENUMERANT (.named "red")))
      exampleEmptyFile [⟨"red", 0, []⟩, ⟨"green", 1, []⟩] [] =
      some (true, [Event.pre .ENUMERANTS (.schema ⟨100, 0, "shape.capnp", "shape.capnp"⟩),
        Event.pre .ENUMERANT (.named "red")]) := by
  refine ⟨?_, ?_, ?_⟩
  · simp only [exampleEmptyFile, exampleImportingRequest, logHooks, traverse_file,
      traverse_imports, traverse_imports_loop, traverse_nested_decls, nested_decls_of,
      traverse_nested_decls_loop, traverse_decl, traverse_struct_fields,
      traverse_struct_field_list, traverse_struct_field, traverse_annotations,
      traverse_annotations_loop,  traverse_annotation, traverse_value, traverse_dynamic_value,
      traverse_type, traverse_enumerants, traverse_enumerants_loop, traverse_methods_loop,
      traverse_method, traverse_param_list, List.length_cons, List.length_nil, Schema.info,
      Schema.annotations, StructSchema.info, Field.proto]
    decide!
  · simp only [exampleMixedFile, examplePoint, exampleRequest, logHooks, traverse_file,
      traverse_imports, traverse_imports_loop, traverse_nested_decls, nested_decls_of,
      traverse_nested_decls_loop, traverse_decl, traverse_struct_fields,
      traverse_struct_field_list, traverse_struct_field, traverse_annotations,
      traverse_annotations_loop,  traverse_annotation, traverse_value, traverse_dynamic_value,
      traverse_type, traverse_enumerants, traverse_enumerants_loop, traverse_methods_loop,
      traverse_method, traverse_param_list, List.length_cons, List.length_nil, Schema.info,
      Schema.annotations, StructSchema.info, Field.proto]
    decide!
  · simp only [exampleEmptyFile, logHooks, traverse_file, traverse_imports,
      traverse_imports_loop, traverse_nested_decls, nested_decls_of, traverse_nested_decls_loop,
      traverse_decl, traverse_struct_fields, traverse_struct_field_list, traverse_struct_field,
      traverse_annotations, traverse_annotations_loop,  traverse_annotation, traverse_value,
      traverse_dynamic_value, traverse_type, traverse_enumerants, traverse_enumerants_loop,
      traverse_methods_loop, traverse_method, traverse_param_list, List.length_cons,
      List.length_nil, Schema.info, Schema.annotations, StructSchema.info, Field.proto]
    decide!

theorem Step.bind_discard {σ α : Type} (x : Step σ Bool) (f : Step σ α) (s s' : σ) (b : Bool)
    (h : x s = some (b, s')) : (x >>= fun _ => f) s = f s' := by
  rw [Step.bind_run, h]
  rfl

theorem Step.bind_false {σ : Type} (x : Step σ Bool) (f : Bool → Step σ Bool) (s s' : σ)
    (h : x s = some (false, s')) :
    (x >>= fun b => if b = true then pure true else f b) s = f false s' := by
  rw [Step.bind_run, h]
  rfl

/-- C27, amended: for every hook set, when the entry hook of a struct field, of
an applied annotation or of a method returns `true` (leaving the state `s'`),
the loop over the list goes on with the later siblings from `s'`; when the entry
hook of an import, the decl entry hook of a nested declaration or the entry hook
of an enumerant returns `true`, the loop over the list returns `true` at once,
without the later siblings, and the traverse operation of the list then returns
`true` without calling the exit hook of the list. -/
theorem C27_outcome_by_list {σ : Type} (hk : Hooks σ) (s s' : σ) :
    (∀ schema field rest, hk.pre_visit_struct_field schema field s = some (true, s') →
      traverse_struct_field_list hk schema (field :: rest) s =
        traverse_struct_field_list hk schema rest s') ∧
    (∀ info ann rest, hk.pre_visit_annotation ann ann.declSchema s = some (true, s') →
      traverse_annotations_loop hk info (ann :: rest) s =
        traverse_annotations_loop hk info rest s') ∧
    (∀ schema method rest, hk.pre_visit_method schema method s = some (true, s') →
      traverse_methods_loop hk schema (method :: rest) s =
        traverse_methods_loop hk schema rest s') ∧
    (∀ schema imp rest, hk.pre_visit_import schema imp s = some (true, s') →
      traverse_imports_loop hk schema (imp :: rest) s = some (true, s')) ∧
    (∀ decl rest, hk.pre_visit_decl decl s = some (true, s') →
      traverse_nested_decls_loop hk (decl :: rest) s = some (true, s')) ∧
    (∀ schema enumerant rest, hk.pre_visit_enumerant schema enumerant s = some (true, s') →
      traverse_enumerants_loop hk schema (enumerant :: rest) s = some (true, s')) ∧
    (∀ schema imports s0, hk.pre_visit_imports schema imports s0 = some (false, s) →
      traverse_imports_loop hk schema imports s = some (true, s') →
      traverse_imports hk schema imports s0 = some (true, s')) ∧
    (∀ schema decl rest s0, hk.pre_visit_nested_decls schema s0 = some (false, s) →
      traverse_nested_decls_loop hk (decl :: rest) s = some (true, s') →
      nested_decls_of hk schema (decl :: rest) s0 = some (true, s')) ∧
    (∀ schema enumList s0, hk.pre_visit_enumerants schema enumList s0 = some (false, s) →
      traverse_enumerants_loop hk schema enumList s = some (true, s') →
      traverse_enumerants hk schema enumList s0 = some (true, s')) := by
  refine ⟨?_, ?_, ?_, ?_, ?_, ?_, ?_, ?_, ?_⟩
  · intro schema field rest h
    conv_lhs => unfold traverse_struct_field_list
    exact Step.bind_discard _ _ _ _ _ (traverse_struct_field_handled hk s s' schema field h)
  · intro info ann rest h
    conv_lhs => unfold traverse_annotations_loop
    exact Step.bind_discard _ _ _ _ _
      (traverse_annotation_handled hk s s' ann ann.declSchema h)
  · intro schema method rest h
    conv_lhs => unfold traverse_methods_loop
    exact Step.bind_discard _ _ _ _ _ (traverse_method_handled hk s s' schema method h)
  · intro schema imp rest h
    unfold traverse_imports_loop
    exact Step.bind_true _ _ _ _ h
  · intro decl rest h
    unfold traverse_nested_decls_loop
    exact Step.bind_true _ _ _ _ h
  · intro schema enumerant rest h
    unfold traverse_enumerants_loop
    exact Step.bind_true _ _ _ _ h
  · intro schema imports s0 h0 h
    unfold traverse_imports
    rw [Step.bind_false _ _ _ _ h0, Step.bind_run, Step.pure_apply, Option.some_bind]
    exact Step.bind_true _ _ _ _ h
  · intro schema decl rest s0 h0 h
    unfold nested_decls_of
    simp only [List.length_cons, Nat.add_one_ne_zero, beq_iff_eq, reduceIte]
    rw [Step.bind_run, Step.pure_apply, Option.some_bind, Step.bind_false _ _ _ _ h0,
      Step.bind_run, Step.pure_apply, Option.some_bind]
    exact Step.bind_true _ _ _ _ h
  · intro schema enumList s0 h0 h
    unfold traverse_enumerants
    rw [Step.bind_false _ _ _ _ h0, Step.bind_run, Step.pure_apply, Option.some_bind]
    exact Step.bind_true _ _ _ _ h

/-- C29: the open node is not restored after the traversal of a list type. From
the example state with the field `xs` (node 0) open, `traverse_type` on `Int32`
returns with node 0 open again, but on `List(Int32)` it returns `true` with the
TYPE node of the list (node 1) open, and on `List(List(Int32))` with the TYPE
node of the inner list (node 2) open. In the pass on the example file `Poly`
with `xs @0 :List(Int32) $required` the node of the applied annotation
`required` (node 5) becomes a child of the TYPE node of the list (node 3) and
the node of the next field `n` (node 7) a child of the field `xs` (node 2); the
pass ends with the file node still open and the root has no target node. With
`xs @0 :Int32 $required` the annotation (node 4) is a child of the field, the
pass ends with no node open and the root is `poly(xs,n)`. -/
theorem C29_list_type_leaves_its_node_open :
    exampleOpenField.openNode = some 0 ∧
    (traverse_type CapnpcParquet.hooks ⟨140, 100, "shape.capnp:Poly", "Poly"⟩ .INT32
      exampleOpenField).map (fun r => (r.1, r.2.openNode)) = some (false, some 0) ∧
    (traverse_type CapnpcParquet.hooks ⟨140, 100, "shape.capnp:Poly", "Poly"⟩ (.LIST .INT32)
      exampleOpenField).map (fun r => (r.1, r.2.openNode)) = some (true, some 1) ∧
    (traverse_type CapnpcParquet.hooks ⟨140, 100, "shape.capnp:Poly", "Poly"⟩
      (.LIST (.LIST .INT32)) exampleOpenField).map (fun r => (r.1, r.2.openNode)) =
        some (true, some 2) ∧
    (traverse_file CapnpcParquet.hooks (examplePolyFile (.LIST .INT32)) exampleRequest {}).map
      (fun r => (r.2.heap.get 5).map (fun n => (n.name_, n.parent_))) =
        some (some ("required", some 3)) ∧
    (traverse_file CapnpcParquet.hooks (examplePolyFile (.LIST .INT32)) exampleRequest {}).map
      (fun r => (r.2.heap.get 3).map (fun n => (n.name_, n.parent_))) =
        some (some ("list", some 2)) ∧
    (traverse_file CapnpcParquet.hooks (examplePolyFile (.LIST .INT32)) exampleRequest {}).map
      (fun r => (r.2.heap.get 7).map (fun n => (n.name_, n.parent_))) =
        some (some ("n", some 2)) ∧
    (traverse_file CapnpcParquet.hooks (examplePolyFile (.LIST .INT32)) exampleRequest {}).map
      (fun r => (r.2.openNode, r.2.currentParent_, r.2.getDocument.map ParquetNode.outline)) =
        some (some 0, some 0, none) ∧
    (traverse_file CapnpcParquet.hooks (examplePolyFile .INT32) exampleRequest {}).map
      (fun r => (r.2.heap.get 4).map (fun n => (n.name_, n.parent_))) =
        some (some ("required", some 2)) ∧
    (traverse_file CapnpcParquet.hooks (examplePolyFile .INT32) exampleRequest {}).map
      (fun r => (r.2.currentParent_, r.2.getDocument.map ParquetNode.outline)) =
        some (none, some "poly(xs,n)") := by
  refine ⟨rfl, ?_, ?_, ?_, ?_, ?_, ?_, ?_, ?_, ?_⟩
  · simp only [exampleOpenField, CapnpcParquet.hooks, traverse_file, traverse_imports,
      traverse_imports_loop, traverse_nested_decls, nested_decls_of, traverse_nested_decls_loop,
      traverse_decl, traverse_struct_fields, traverse_struct_field_list, traverse_struct_field,
      traverse_annotations, traverse_annotations_loop,  traverse_annotation, traverse_value,
      traverse_dynamic_value, traverse_type, traverse_enumerants, traverse_enumerants_loop,
      traverse_methods_loop, traverse_method, traverse_param_list, List.length_cons,
      List.length_nil, Schema.info, Schema.annotations, StructSchema.info, Field.proto]
    decide!
  · simp only [exampleOpenField, CapnpcParquet.hooks, traverse_file, traverse_imports,
      traverse_imports_loop, traverse_nested_decls, nested_decls_of, traverse_nested_decls_loop,
      traverse_decl, traverse_struct_fields, traverse_struct_field_list, traverse_struct_field,
      traverse_annotations, traverse_annotations_loop,  traverse_annotation, traverse_value,
      traverse_dynamic_value, traverse_type, traverse_enumerants, traverse_enumerants_loop,
      traverse_methods_loop, traverse_method, traverse_param_list, List.length_cons,
      List.length_nil, Schema.info, Schema.annotations, StructSchema.info, Field.proto]
    decide!
  · simp only [exampleOpenField, CapnpcParquet.hooks, traverse_file, traverse_imports,
      traverse_imports_loop, traverse_nested_decls, nested_decls_of, traverse_nested_decls_loop,
      traverse_decl, traverse_struct_fields, traverse_struct_field_list, traverse_struct_field,
      traverse_annotations, traverse_annotations_loop,  traverse_annotation, traverse_value,
      traverse_dynamic_value, traverse_type, traverse_enumerants, traverse_enumerants_loop,
      traverse_methods_loop, traverse_method, traverse_param_list, List.length_cons,
      List.length_nil, Schema.info, Schema.annotations, StructSchema.info, Field.proto]
    decide!
  · simp only [examplePolyFile, exampleRequest, CapnpcParquet.hooks, traverse_file,
      traverse_imports, traverse_imports_loop, traverse_nested_decls, nested_decls_of,
      traverse_nested_decls_loop, traverse_decl, traverse_struct_fields,
      traverse_struct_field_list, traverse_struct_field, traverse_annotations,
      traverse_annotations_loop,  traverse_annotation, traverse_value, traverse_dynamic_value,
      traverse_type, traverse_enumerants, traverse_enumerants_loop, traverse_methods_loop,
      traverse_method, traverse_param_list, List.length_cons, List.length_nil, Schema.info,
      Schema.annotations, StructSchema.info, Field.proto]
    decide!
  · simp only [examplePolyFile, exampleRequest, CapnpcParquet.hooks, traverse_file,
      traverse_imports, traverse_imports_loop, traverse_nested_decls, nested_decls_of,
      traverse_nested_decls_loop, traverse_decl, traverse_struct_fields,
      traverse_struct_field_list, traverse_struct_field, traverse_annotations,
      traverse_annotations_loop,  traverse_annotation, traverse_value, traverse_dynamic_value,
      traverse_type, traverse_enumerants, traverse_enumerants_loop, traverse_methods_loop,
      traverse_method, traverse_param_list, List.length_cons, List.length_nil, Schema.info,
      Schema.annotations, StructSchema.info, Field.proto]
    decide!
  · simp only [examplePolyFile, exampleRequest, CapnpcParquet.hooks, traverse_file,
      traverse_imports, traverse_imports_loop, traverse_nested_decls, nested_decls_of,
      traverse_nested_decls_loop, traverse_decl, traverse_struct_fields,
      traverse_struct_field_list, traverse_struct_field, traverse_annotations,
      traverse_annotations_loop,  traverse_annotation, traverse_value, traverse_dynamic_value,
      traverse_type, traverse_enumerants, traverse_enumerants_loop, traverse_methods_loop,
      traverse_method, traverse_param_list, List.length_cons, List.length_nil, Schema.info,
      Schema.annotations, StructSchema.info, Field.proto]
    decide!
  · simp only [examplePolyFile, exampleRequest, CapnpcParquet.hooks, traverse_file,
      traverse_imports, traverse_imports_loop, traverse_nested_decls, nested_decls_of,
      traverse_nested_decls_loop, traverse_decl, traverse_struct_fields,
      traverse_struct_field_list, traverse_struct_field, traverse_annotations,
      traverse_annotations_loop,  traverse_annotation, traverse_value, traverse_dynamic_value,
      traverse_type, traverse_enumerants, traverse_enumerants_loop, traverse_methods_loop,
      traverse_method, traverse_param_list, List.length_cons, List.length_nil, Schema.info,
      Schema.annotations, StructSchema.info, Field.proto]
    decide!
  · simp only [examplePolyFile, exampleRequest, CapnpcParquet.hooks, traverse_file,
      traverse_imports, traverse_imports_loop, traverse_nested_decls, nested_decls_of,
      traverse_nested_decls_loop, traverse_decl, traverse_struct_fields,
      traverse_struct_field_list, traverse_struct_field, traverse_annotations,
      traverse_annotations_loop,  traverse_annotation, traverse_value, traverse_dynamic_value,
      traverse_type, traverse_enumerants, traverse_enumerants_loop, traverse_methods_loop,
      traverse_method, traverse_param_list, List.length_cons, List.length_nil, Schema.info,
      Schema.annotations, StructSchema.info, Field.proto]
    decide!
  · simp only [examplePolyFile, exampleRequest, CapnpcParquet.hooks, traverse_file,
      traverse_imports, traverse_imports_loop, traverse_nested_decls, nested_decls_of,
      traverse_nested_decls_loop, traverse_decl, traverse_struct_fields,
      traverse_struct_field_list, traverse_struct_field, traverse_annotations,
      traverse_annotations_loop,  traverse_annotation, traverse_value, traverse_dynamic_value,
      traverse_type, traverse_enumerants, traverse_enumerants_loop, traverse_methods_loop,
      traverse_method, traverse_param_list, List.length_cons, List.length_nil, Schema.info,
      Schema.annotations, StructSchema.info, Field.proto]
    decide!

/-- C30: when `traverse_type` returns on a list type, the target node of the
list is not built. From the example state with the field `xs` open,
`traverse_type` on `List(Int32)` returns with the TYPE node of the list (node 1)
holding the TYPE node of the element (node 2) as its only child, the element
with the target node `int_32`, and the list node without a target node. In the
pass on the example file `Poly` the list node (node 3) gets its target node, the
group `list` with the logical type LIST, only from the exit hook of the field
`xs`, which builds the open node. -/
theorem C30_list_handle_not_built :
    (traverse_type CapnpcParquet.hooks ⟨140, 100, "shape.capnp:Poly", "Poly"⟩ (.LIST .INT32)
      exampleOpenField).map
      (fun r => (r.2.heap.get 1).map
        (fun n => (n.name_, n.children_, n.node_.map ParquetNode.outline))) =
        some (some ("list", [2], none)) ∧
    (traverse_type CapnpcParquet.hooks ⟨140, 100, "shape.capnp:Poly", "Poly"⟩ (.LIST .INT32)
      exampleOpenField).map
      (fun r => (r.2.heap.get 2).map
        (fun n => (n.name_, n.parent_, n.node_.map ParquetNode.outline))) =
        some (some ("int32", some 1, some "int_32")) ∧
    (traverse_file CapnpcParquet.hooks (examplePolyFile (.LIST .INT32)) exampleRequest {}).map
      (fun r => (r.2.heap.get 3).map
        (fun n => (n.name_, n.node_.map (fun pn => (pn.outline, pn.logical))))) =
        some (some ("list", some ("list(int_32)", .LIST))) := by
  refine ⟨?_, ?_, ?_⟩
  · simp only [exampleOpenField, CapnpcParquet.hooks, traverse_file, traverse_imports,
      traverse_imports_loop, traverse_nested_decls, nested_decls_of, traverse_nested_decls_loop,
      traverse_decl, traverse_struct_fields, traverse_struct_field_list, traverse_struct_field,
      traverse_annotations, traverse_annotations_loop,  traverse_annotation, traverse_value,
      traverse_dynamic_value, traverse_type, traverse_enumerants, traverse_enumerants_loop,
      traverse_methods_loop, traverse_method, traverse_param_list, List.length_cons,
      List.length_nil, Schema.info, Schema.annotations, StructSchema.info, Field.proto]
    decide!
  · simp only [exampleOpenField, CapnpcParquet.hooks, traverse_file, traverse_imports,
      traverse_imports_loop, traverse_nested_decls, nested_decls_of, traverse_nested_decls_loop,
      traverse_decl, traverse_struct_fields, traverse_struct_field_list, traverse_struct_field,
      traverse_annotations, traverse_annotations_loop,  traverse_annotation, traverse_value,
      traverse_dynamic_value, traverse_type, traverse_enumerants, traverse_enumerants_loop,
      traverse_methods_loop, traverse_method, traverse_param_list, List.length_cons,
      List.length_nil, Schema.info, Schema.annotations, StructSchema.info, Field.proto]
    decide!
  · simp only [examplePolyFile, exampleRequest, CapnpcParquet.hooks, traverse_file,
      traverse_imports, traverse_imports_loop, traverse_nested_decls, nested_decls_of,
      traverse_nested_decls_loop, traverse_decl, traverse_struct_fields,
      traverse_struct_field_list, traverse_struct_field, traverse_annotations,
      traverse_annotations_loop,  traverse_annotation, traverse_value, traverse_dynamic_value,
      traverse_type, traverse_enumerants, traverse_enumerants_loop, traverse_methods_loop,
      traverse_method, traverse_param_list, List.length_cons, List.length_nil, Schema.info,
      Schema.annotations, StructSchema.info, Field.proto]
    decide!

theorem Quiet.pure_quiet {α : Type} (a : α) : Quiet (Pure.pure a : Step (List Event) α) := by
  intro log r h
  rw [Step.pure_apply] at h
  cases h
  exact ⟨[], by simp, fun e he => by cases he⟩

theorem Quiet.failure_quiet {α : Type} : Quiet (failure : Step (List Event) α) := by
  intro log r h
  cases h

theorem Quiet.record_quiet (e : Event) (he : e.hook ≠ .DECL) : Quiet (record (fun _ => false) e) := by
  intro log r h
  cases h
  exact ⟨[e], rfl, fun x hx => by rw [List.mem_singleton.1 hx]; exact he⟩

theorem Quiet.record_pre (h : HookName) (s : Subject) (he : h ≠ .DECL) :
    Quiet (capnpparquet.record (fun _ => false) (Event.pre h s)) :=
  Quiet.record_quiet _ he

theorem Quiet.record_post (h : HookName) (s : Subject) (he : h ≠ .DECL) :
    Quiet (capnpparquet.record (fun _ => false) (Event.post h s)) :=
  Quiet.record_quiet _ he

theorem Quiet.bind_quiet {α β : Type} {m : Step (List Event) α} {f : α → Step (List Event) β}
    (hm : Quiet m) (hf : ∀ a, Quiet (f a)) : Quiet (m >>= f) := by
  intro log r h
  rw [Step.bind_run] at h
  cases hx : m log with
  | none => rw [hx] at h; cases h
  | some x =>
    rw [hx] at h
    obtain ⟨t, ht, hq⟩ := hm log x hx
    obtain ⟨u, hu, hq2⟩ := hf x.1 x.2 r h
    refine ⟨t ++ u, by rw [hu, ht, List.append_assoc], fun e he => ?_⟩
    rcases List.mem_append.1 he with he | he
    · exact hq e he
    · exact hq2 e he

theorem Quiet.ite {α : Type} {c : Prop} [Decidable c] {a b : Step (List Event) α}
    (ha : Quiet a) (hb : Quiet b) : Quiet (if c then a else b) := by
  split
  · exact ha
  · exact hb

theorem Quiet.filter {α : Type} {m : Step (List Event) α} {a : α} {t : List Event}
    (hq : Quiet m) (h : Runs m a t) : t.filter (fun e => e.hook == .DECL) = [] := by
  obtain ⟨u, hu, hq⟩ := hq [] _ (h [])
  simp only [List.nil_append] at hu
  subst hu
  rw [List.filter_eq_nil_iff]
  intro e he
  simpa using hq e he

theorem traverse_type_quiet (info : SchemaInfo) (t : SchemaType) :
    Quiet (traverse_type continueHooks info t) := by
  induction t with
  | LIST e ih =>
    unfold traverse_type
    simp only [continueHooks_apply]
    repeat (first
      | exact Quiet.pure_quiet _
      | exact Quiet.failure_quiet
      | exact Quiet.record_pre _ _ (by decide)
      | exact Quiet.record_post _ _ (by decide)
      | exact ih
      | refine Quiet.ite ?_ ?_
      | refine Quiet.bind_quiet ?_ (fun _ => ?_))
  | _ =>
    unfold traverse_type
    simp only [continueHooks_apply]
    repeat (first
      | exact Quiet.pure_quiet _
      | exact Quiet.failure_quiet
      | exact Quiet.record_pre _ _ (by decide)
      | exact Quiet.record_post _ _ (by decide)
      | refine Quiet.ite ?_ ?_
      | refine Quiet.bind_quiet ?_ (fun _ => ?_))

theorem traverse_dynamic_value_quiet (schema : SchemaInfo) :
    (∀ type value, Quiet (traverse_dynamic_value continueHooks schema type value)) ∧
    (∀ fields, Quiet (traverse_dynamic_fields continueHooks schema fields)) ∧
    (∀ elementType elements,
      Quiet (traverse_dynamic_list continueHooks schema elementType elements)) := by
  apply traverse_dynamic_value.mutual_induct continueHooks schema
    (fun type value => Quiet (traverse_dynamic_value continueHooks schema type value))
    (fun fields => Quiet (traverse_dynamic_fields continueHooks schema fields))
    (fun elementType elements =>
      Quiet (traverse_dynamic_list continueHooks schema elementType elements))
  · intro type elements ih
    unfold traverse_dynamic_value
    simp only [continueHooks_apply]
    cases type <;> simp only [] <;>
    repeat (first
      | exact Quiet.pure_quiet _
      | exact Quiet.failure_quiet
      | exact Quiet.record_pre _ _ (by decide)
      | exact Quiet.record_post _ _ (by decide)
      | exact ih _
      | refine Quiet.ite ?_ ?_
      | refine Quiet.bind_quiet ?_ (fun _ => ?_))
  · intro type fields ih
    unfold traverse_dynamic_value
    simp only [continueHooks_apply]
    cases type <;> simp only [] <;>
    repeat (first
      | exact Quiet.pure_quiet _
      | exact Quiet.failure_quiet
      | exact Quiet.record_pre _ _ (by decide)
      | exact Quiet.record_post _ _ (by decide)
      | exact ih
      | refine Quiet.ite ?_ ?_
      | refine Quiet.bind_quiet ?_ (fun _ => ?_))
  · intro type value h1 h2
    rw [traverse_dynamic_value]
    · simp only [continueHooks_apply]
      cases type <;> simp only [] <;>
      repeat (first
        | exact Quiet.pure_quiet _
        | exact Quiet.failure_quiet
        | exact Quiet.record_pre _ _ (by decide)
        | exact Quiet.record_post _ _ (by decide)
        | refine Quiet.ite ?_ ?_
        | refine Quiet.bind_quiet ?_ (fun _ => ?_))
    · exact h1
    · exact h2
  · intro elementType
    unfold traverse_dynamic_list
    exact Quiet.pure_quiet _
  · intro elementType element rest ih1 ih2
    unfold traverse_dynamic_list
    repeat (first
      | exact Quiet.pure_quiet _
      | exact Quiet.failure_quiet
      | exact Quiet.record_pre _ _ (by decide)
      | exact Quiet.record_post _ _ (by decide)
      | exact ih1
      | exact ih2
      | refine Quiet.ite ?_ ?_
      | refine Quiet.bind_quiet ?_ (fun _ => ?_))
  · unfold traverse_dynamic_fields
    exact Quiet.pure_quiet _
  · intro fst rest ih
    unfold traverse_dynamic_fields
    exact ih
  · intro fieldType fieldValue rest ih1 ih2
    unfold traverse_dynamic_fields
    repeat (first
      | exact Quiet.pure_quiet _
      | exact Quiet.failure_quiet
      | exact Quiet.record_pre _ _ (by decide)
      | exact Quiet.record_post _ _ (by decide)
      | exact ih1
      | exact ih2
      | refine Quiet.ite ?_ ?_
      | refine Quiet.bind_quiet ?_ (fun _ => ?_))

theorem traverse_value_quiet (schema : SchemaInfo) (type : SchemaType) (value : SchemaValue) :
    Quiet (traverse_value continueHooks schema type value) := by
  unfold traverse_value
  cases value <;> simp only [] <;> try (cases type <;> simp only [])
  all_goals
    repeat (first
      | exact Quiet.pure_quiet _
      | exact Quiet.failure_quiet
      | exact Quiet.record_pre _ _ (by decide)
      | exact Quiet.record_post _ _ (by decide)
      | exact (traverse_dynamic_value_quiet schema).1 _ _
      | refine Quiet.ite ?_ ?_
      | refine Quiet.bind_quiet ?_ (fun _ => ?_))

theorem traverse_annotation_quiet (ann : AnnotationReader) (parent : SchemaInfo) :
    Quiet ( traverse_annotation continueHooks ann parent) := by
  unfold traverse_annotation
  simp only [continueHooks_apply]
  repeat (first
    | exact Quiet.pure_quiet _
    | exact Quiet.failure_quiet
    | exact Quiet.record_pre _ _ (by decide)
    | exact Quiet.record_post _ _ (by decide)
    | exact traverse_value_quiet _ _ _
    | refine Quiet.ite ?_ ?_
    | refine Quiet.bind_quiet ?_ (fun _ => ?_))

theorem traverse_annotations_loop_quiet (schema : SchemaInfo) (anns : List AnnotationReader) :
    Quiet (traverse_annotations_loop continueHooks schema anns) := by
  induction anns with
  | nil => exact Quiet.pure_quiet _
  | cons a rest ih =>
    unfold traverse_annotations_loop
    repeat (first
      | exact Quiet.pure_quiet _
      | exact Quiet.failure_quiet
      | exact Quiet.record_pre _ _ (by decide)
      | exact Quiet.record_post _ _ (by decide)
      | exact ih
      | exact traverse_annotation_quiet _ _
      | refine Quiet.ite ?_ ?_
      | refine Quiet.bind_quiet ?_ (fun _ => ?_))

theorem traverse_annotations_quiet (schema : SchemaInfo) (anns : List AnnotationReader) :
    Quiet (traverse_annotations continueHooks schema anns) := by
  unfold traverse_annotations
  simp only [continueHooks_apply]
  repeat (first
    | exact Quiet.pure_quiet _
    | exact Quiet.failure_quiet
    | exact Quiet.record_pre _ _ (by decide)
    | exact Quiet.record_post _ _ (by decide)
    | exact traverse_annotations_loop_quiet _ _
    | refine Quiet.ite ?_ ?_
    | refine Quiet.bind_quiet ?_ (fun _ => ?_))

theorem traverse_struct_fields_quiet :
    (∀ schema, Quiet (traverse_struct_fields continueHooks schema)) ∧
    (∀ schema fields, Quiet (traverse_struct_field_list continueHooks schema fields)) ∧
    (∀ schema field, Quiet (traverse_struct_field continueHooks schema field)) := by
  apply traverse_struct_fields.mutual_induct continueHooks
    (fun schema => Quiet (traverse_struct_fields continueHooks schema))
    (fun schema fields => Quiet (traverse_struct_field_list continueHooks schema fields))
    (fun schema field => Quiet (traverse_struct_field continueHooks schema field))
  · intro schema p slot
    unfold traverse_struct_field
    simp only [continueHooks_apply]
    repeat (first
      | exact Quiet.pure_quiet _
      | exact Quiet.failure_quiet
      | exact Quiet.record_pre _ _ (by decide)
      | exact Quiet.record_post _ _ (by decide)
      | exact traverse_type_quiet _ _
      | exact traverse_value_quiet _ _ _
      | exact traverse_annotations_quiet _ _
      | refine Quiet.ite ?_ ?_
      | refine Quiet.bind_quiet ?_ (fun _ => ?_))
  · intro schema p groupSchema ih
    unfold traverse_struct_field
    simp only [continueHooks_apply]
    repeat (first
      | exact Quiet.pure_quiet _
      | exact Quiet.failure_quiet
      | exact Quiet.record_pre _ _ (by decide)
      | exact Quiet.record_post _ _ (by decide)
      | exact ih
      | exact traverse_annotations_quiet _ _
      | refine Quiet.ite ?_ ?_
      | refine Quiet.bind_quiet ?_ (fun _ => ?_))
  · intro i annotations unionFields nonUnionFields ih1 ih2
    unfold traverse_struct_fields
    simp only [continueHooks_apply]
    repeat (first
      | exact Quiet.pure_quiet _
      | exact Quiet.failure_quiet
      | exact Quiet.record_pre _ _ (by decide)
      | exact Quiet.record_post _ _ (by decide)
      | exact ih1
      | exact ih2
      | refine Quiet.ite ?_ ?_
      | refine Quiet.bind_quiet ?_ (fun _ => ?_))
  · intro schema
    unfold traverse_struct_field_list
    exact Quiet.pure_quiet _
  · intro schema field rest ih1 ih2
    unfold traverse_struct_field_list
    repeat (first
      | exact Quiet.pure_quiet _
      | exact Quiet.failure_quiet
      | exact Quiet.record_pre _ _ (by decide)
      | exact Quiet.record_post _ _ (by decide)
      | exact ih1
      | exact ih2
      | refine Quiet.ite ?_ ?_
      | refine Quiet.bind_quiet ?_ (fun _ => ?_))

theorem traverse_param_list_quiet (interface : Schema) (name : String) (schema : StructSchema) :
    Quiet (traverse_param_list continueHooks interface name schema) := by
  unfold traverse_param_list
  simp only [continueHooks_apply]
  repeat (first
    | exact Quiet.pure_quiet _
    | exact Quiet.failure_quiet
    | exact Quiet.record_pre _ _ (by decide)
    | exact Quiet.record_post _ _ (by decide)
    | exact traverse_struct_fields_quiet.1 _
    | refine Quiet.ite ?_ ?_
    | refine Quiet.bind_quiet ?_ (fun _ => ?_))

theorem traverse_method_quiet (schema : Schema) (method : Method) :
    Quiet (traverse_method continueHooks schema method) := by
  unfold traverse_method
  simp only [continueHooks_apply]
  repeat (first
    | exact Quiet.pure_quiet _
    | exact Quiet.failure_quiet
    | exact Quiet.record_pre _ _ (by decide)
    | exact Quiet.record_post _ _ (by decide)
    | exact traverse_param_list_quiet _ _ _
    | exact traverse_annotations_quiet _ _
    | refine Quiet.ite ?_ ?_
    | refine Quiet.bind_quiet ?_ (fun _ => ?_))

theorem traverse_methods_loop_quiet (schema : Schema) (methods : List Method) :
    Quiet (traverse_methods_loop continueHooks schema methods) := by
  induction methods with
  | nil => exact Quiet.pure_quiet _
  | cons a rest ih =>
    unfold traverse_methods_loop
    repeat (first
      | exact Quiet.pure_quiet _
      | exact Quiet.failure_quiet
      | exact Quiet.record_pre _ _ (by decide)
      | exact Quiet.record_post _ _ (by decide)
      | exact ih
      | exact traverse_method_quiet _ _
      | refine Quiet.ite ?_ ?_
      | refine Quiet.bind_quiet ?_ (fun _ => ?_))

theorem traverse_enumerants_loop_quiet (schema : Schema) (enumList : List Enumerant) :
    Quiet (traverse_enumerants_loop continueHooks schema enumList) := by
  induction enumList with
  | nil => exact Quiet.pure_quiet _
  | cons a rest ih =>
    unfold traverse_enumerants_loop
    simp only [continueHooks_apply]
    repeat (first
      | exact Quiet.pure_quiet _
      | exact Quiet.failure_quiet
      | exact Quiet.record_pre _ _ (by decide)
      | exact Quiet.record_post _ _ (by decide)
      | exact ih
      | exact traverse_annotations_quiet _ _
      | refine Quiet.ite ?_ ?_
      | refine Quiet.bind_quiet ?_ (fun _ => ?_))

theorem traverse_enumerants_quiet (schema : Schema) (enumList : List Enumerant) :
    Quiet (traverse_enumerants continueHooks schema enumList) := by
  unfold traverse_enumerants
  simp only [continueHooks_apply]
  repeat (first
    | exact Quiet.pure_quiet _
    | exact Quiet.failure_quiet
    | exact Quiet.record_pre _ _ (by decide)
    | exact Quiet.record_post _ _ (by decide)
    | exact traverse_enumerants_loop_quiet _ _
    | refine Quiet.ite ?_ ?_
    | refine Quiet.bind_quiet ?_ (fun _ => ?_))

theorem Sim.base_of_runs {α : Type} {m : Step (List Event) α} {m0 : Step Unit α} {a : α}
    {t : List Event} (h : Sim m m0 a) (hr : Runs m a t) : (m0 ()).isSome = true := by
  obtain ⟨o, ho⟩ := h
  cases o with
  | none =>
    have h1 := ho.run []
    rw [hr []] at h1
    cases h1
  | some t => rw [ho.isSome]; rfl

theorem traverse_nested_decls_loop_cons (d : Schema) (rest : List Schema)
    (h : (traverse_nested_decls_loop baseHooks (d :: rest) ()).isSome = true) :
    (traverse_decl baseHooks d ()).isSome = true ∧
    (traverse_nested_decls_loop baseHooks rest ()).isSome = true ∧
    events (traverse_nested_decls_loop continueHooks (d :: rest)) =
      Event.pre .DECL (.schema d.info) :: events (traverse_decl continueHooks d) ++
        [Event.post .DECL (.schema d.info)] ++
        events (traverse_nested_decls_loop continueHooks rest) := by
  obtain ⟨od, hd⟩ := traverse_decl_sim.2.2 d
  obtain ⟨orr, hr⟩ := traverse_decl_sim.2.1 rest
  have key : SimAt (traverse_nested_decls_loop continueHooks (d :: rest))
      (traverse_nested_decls_loop baseHooks (d :: rest)) false
      (od.bind fun td => orr.map fun tr =>
        Event.pre .DECL (.schema d.info) :: td ++ [Event.post .DECL (.schema d.info)] ++ tr) := by
    apply SimAt.congr
    · unfold traverse_nested_decls_loop
      simp only [continueHooks_apply, baseHooks_apply]
      repeat (first
        | exact SimAt.pure_at _
        | exact hr
        | apply SimAt.bind_at hd
        | apply SimAt.bind_at (SimAt.record_at _)
        | apply SimAt.bind_at (SimAt.pure_at _)
        | apply SimAt.bind_at (SimAt.failure_at ⟨⟩)
        | simp only [Bool.false_eq_true, reduceIte])
    · cases od <;> cases orr <;> simp
  rw [key.isSome] at h
  cases od with
  | none => cases h
  | some td =>
    cases orr with
    | none => cases h
    | some tr =>
      refine ⟨by rw [hd.isSome]; rfl, by rw [hr.isSome]; rfl, ?_⟩
      rw [key.runs.events, hd.runs.events, hr.runs.events]

theorem nested_decls_of_loop (schema : Schema) (nodes : List Schema)
    (h : (nested_decls_of baseHooks schema nodes ()).isSome = true) :
    (traverse_nested_decls_loop baseHooks nodes ()).isSome = true ∧
    events (nested_decls_of continueHooks schema nodes) =
      if nodes.length == 0 then [] else
        Event.pre .NESTED_DECLS (.schema schema.info) ::
          events (traverse_nested_decls_loop continueHooks nodes) ++
          [Event.post .NESTED_DECLS (.schema schema.info)] := by
  by_cases hn : (nodes.length == 0) = true
  · have : nodes = [] := List.length_eq_zero.1 (by simpa using hn)
    subst this
    refine ⟨?_, ?_⟩
    · unfold traverse_nested_decls_loop
      rfl
    · rw [(nested_decls_of_runs schema [] h).1.events]
      rfl
  · obtain ⟨ol, hl⟩ := traverse_decl_sim.2.1 nodes
    have key : SimAt (nested_decls_of continueHooks schema nodes)
        (nested_decls_of baseHooks schema nodes) false
        (ol.map fun tl => Event.pre .NESTED_DECLS (.schema schema.info) :: tl ++
          [Event.post .NESTED_DECLS (.schema schema.info)]) := by
      apply SimAt.congr
      · unfold nested_decls_of
        simp only [continueHooks_apply, baseHooks_apply, hn, reduceIte]
        repeat (first
          | exact SimAt.pure_at _
          | apply SimAt.bind_at hl
          | apply SimAt.bind_at (SimAt.record_at _)
          | apply SimAt.bind_at (SimAt.pure_at _)
          | apply SimAt.bind_at (SimAt.failure_at ⟨⟩)
          | simp only [Bool.false_eq_true, reduceIte])
      · cases ol <;> simp
    rw [key.isSome] at h
    cases ol with
    | none => cases h
    | some tl =>
      refine ⟨by rw [hl.isSome]; rfl, ?_⟩
      rw [key.runs.events, hl.runs.events]
      simp only [hn, Bool.false_eq_true, reduceIte]

theorem Schema.declCalls_eq (d : Schema) :
    d.declCalls = Event.pre .DECL (.schema d.info) :: declCallsList d.nestedNodes ++
      [Event.post .DECL (.schema d.info)] := by
  cases d <;> rw [Schema.declCalls] <;> rfl

theorem filter_decl_pre (h : HookName) (s : Subject) (l : List Event) (hne : h ≠ .DECL) :
    (Event.pre h s :: l).filter (fun e => e.hook == .DECL) =
      l.filter (fun e => e.hook == .DECL) := by
  rw [List.filter_cons_of_neg]
  simpa [Event.pre] using hne

theorem filter_decl_post (h : HookName) (s : Subject) (l : List Event) (hne : h ≠ .DECL) :
    (l ++ [Event.post h s]).filter (fun e => e.hook == .DECL) =
      l.filter (fun e => e.hook == .DECL) := by
  rw [List.filter_append, List.filter_cons_of_neg, List.filter_nil, List.append_nil]
  simpa [Event.post] using hne

theorem decl_calls_of_run :
    (∀ schema nodes, (nested_decls_of baseHooks schema nodes ()).isSome = true →
      allNestProperly nodes = true →
      (events (nested_decls_of continueHooks schema nodes)).filter (fun e => e.hook == .DECL) =
        declCallsList nodes) ∧
    (∀ nodes, (traverse_nested_decls_loop baseHooks nodes ()).isSome = true →
      allNestProperly nodes = true →
      (events (traverse_nested_decls_loop continueHooks nodes)).filter
        (fun e => e.hook == .DECL) = declCallsList nodes) ∧
    (∀ d, (traverse_decl baseHooks d ()).isSome = true → d.nestsProperly = true →
      (events (traverse_decl continueHooks d)).filter (fun e => e.hook == .DECL) =
        declCallsList d.nestedNodes) := by
  apply nested_decls_of.mutual_induct continueHooks
    (fun schema nodes => (nested_decls_of baseHooks schema nodes ()).isSome = true →
      allNestProperly nodes = true →
      (events (nested_decls_of continueHooks schema nodes)).filter (fun e => e.hook == .DECL) =
        declCallsList nodes)
    (fun nodes => (traverse_nested_decls_loop baseHooks nodes ()).isSome = true →
      allNestProperly nodes = true →
      (events (traverse_nested_decls_loop continueHooks nodes)).filter
        (fun e => e.hook == .DECL) = declCallsList nodes)
    (fun d => (traverse_decl baseHooks d ()).isSome = true → d.nestsProperly = true →
      (events (traverse_decl continueHooks d)).filter (fun e => e.hook == .DECL) =
        declCallsList d.nestedNodes)
  · intro schema nodes h0 ih h hw
    have hl := nested_decls_of_loop schema nodes h
    rw [hl.2]
    simp only [h0, reduceIte]
    have : nodes = [] := List.length_eq_zero.1 (by simpa using h0)
    subst this
    rw [declCallsList]
    rfl
  · intro schema nodes h0 ih h hw
    have hl := nested_decls_of_loop schema nodes h
    rw [hl.2]
    simp only [h0, Bool.false_eq_true, reduceIte]
    rw [filter_decl_post _ _ _ (by decide), filter_decl_pre _ _ _ (by decide)]
    exact ih hl.1 hw
  · intro h hw
    unfold traverse_nested_decls_loop
    rw [Runs.pure_false.events, declCallsList]
    rfl
  · intro decl rest ih1 ih2 h hw
    obtain ⟨h1, h2, e⟩ := traverse_nested_decls_loop_cons decl rest h
    rw [allNestProperly, Bool.and_eq_true] at hw
    rw [e, declCallsList, Schema.declCalls_eq, List.filter_append, List.filter_append,
      List.filter_cons_of_pos (by rfl), ih1 h1 hw.1, ih2 h2 hw.2,
      List.filter_cons_of_pos (by rfl), List.filter_nil]
  · intro i a n h hw
    unfold traverse_decl
    rw [Schema.nestsProperly, List.isEmpty_iff] at hw
    subst hw
    rw [Runs.pure_false.events, Schema.nestedNodes, declCallsList]
    rfl
  · intro i a n u f ih h hw
    obtain ⟨tN, tF, tA, rN, rF, rA, rD⟩ := traverse_decl_dispatch _ h
    simp only [traverse_nested_decls_eq, Schema.nestedNodes] at rN
    rw [Schema.nestsProperly] at hw
    have e1 := ih ((traverse_decl_sim.1 _ _).base_of_runs rN) hw
    rw [rN.events] at e1
    have e2 := (traverse_struct_fields_quiet.1 _).filter rF
    have e3 := (traverse_annotations_quiet _ _).filter rA
    rw [rD.events]
    simp only [List.filter_append, List.filter_cons, List.filter_nil, e1, e2, e3]
    simp [Schema.nestedNodes, Event.pre, Event.post]
  · intro i a n en ih h hw
    obtain ⟨tN, tF, tA, rN, rF, rA, rD⟩ := traverse_decl_dispatch _ h
    simp only [traverse_nested_decls_eq, Schema.nestedNodes] at rN
    rw [Schema.nestsProperly] at hw
    have e1 := ih ((traverse_decl_sim.1 _ _).base_of_runs rN) hw
    rw [rN.events] at e1
    have e2 := (traverse_enumerants_quiet _ _).filter rF
    have e3 := (traverse_annotations_quiet _ _).filter rA
    rw [rD.events]
    simp only [List.filter_append, List.filter_cons, List.filter_nil, e1, e2, e3]
    simp [Schema.nestedNodes, Event.pre, Event.post]
  · intro i a n ms ih h hw
    obtain ⟨tN, tF, tA, rN, rF, rA, rD⟩ := traverse_decl_dispatch _ h
    simp only [traverse_nested_decls_eq, Schema.nestedNodes] at rN
    rw [Schema.nestsProperly] at hw
    have e1 := ih ((traverse_decl_sim.1 _ _).base_of_runs rN) hw
    rw [rN.events] at e1
    have e2 := (traverse_methods_loop_quiet _ _).filter rF
    have e3 := (traverse_annotations_quiet _ _).filter rA
    rw [rD.events]
    simp only [List.filter_append, List.filter_cons, List.filter_nil, e1, e2, e3]
    simp [Schema.nestedNodes, Event.pre, Event.post]
  · intro i a n t v h hw
    obtain ⟨tT, tV, tA, rT, rV, rA, rD⟩ := traverse_decl_dispatch _ h
    rw [Schema.nestsProperly, List.isEmpty_iff] at hw
    subst hw
    have e1 := (traverse_type_quiet _ _).filter rT
    have e2 := (traverse_value_quiet _ _ _).filter rV
    have e3 := (traverse_annotations_quiet _ _).filter rA
    rw [rD.events, Schema.nestedNodes, declCallsList]
    simp only [List.filter_append, List.filter_cons, List.filter_nil, e1, e2, e3]
    simp [Event.pre, Event.post]
  · intro i a n t g h hw
    obtain ⟨tT, tA, rT, rA, rD⟩ := traverse_decl_dispatch _ h
    rw [Schema.nestsProperly, List.isEmpty_iff] at hw
    subst hw
    have e1 := (traverse_type_quiet _ _).filter rT
    have e3 := (traverse_annotations_quiet _ _).filter rA
    rw [rD.events, Schema.nestedNodes, declCallsList]
    simp only [List.filter_append, List.filter_cons, List.filter_nil, e1, e3]
    simp [Event.pre, Event.post]

theorem filter_decl_imports (imports : List Import) :
    (imports.flatMap (fun i =>
      [Event.pre .IMPORT (.named i.name), Event.post .IMPORT (.named i.name)])).filter
      (fun e => e.hook == .DECL) = [] := by
  induction imports with
  | nil => rfl
  | cons i rest ih =>
    rw [List.flatMap_cons, List.filter_append, ih]
    rfl

/-- C28: with recording hooks that all return continue, `traverse_file` on a
file whose values can all be read (the traversal with the hooks of
`BaseGenerator` itself returns) and whose declarations nest as the schema
language allows (a constant, an annotation declaration and a nested file node
hold no declarations) returns `false`, and the calls of the decl hooks it
records are exactly, in this order, for every declaration of the nested list in
declaration order: its entry, the calls for the declarations nested in it, its
exit. So every declaration reachable through the nested lists is entered exactly
once and left exactly once, around the calls for the declarations nested in
it. -/
theorem C28_every_declaration_once (file : Schema) (requestedFile : RequestedFile)
    (h : (traverse_file baseHooks file requestedFile ()).isSome = true)
    (hw : allNestProperly file.nestedNodes = true) :
    Runs (traverse_file continueHooks file requestedFile) false
      (events (traverse_file continueHooks file requestedFile)) ∧
    (events (traverse_file continueHooks file requestedFile)).filter
      (fun e => e.hook == .DECL) = declCallsList file.nestedNodes := by
  have hr := traverse_file_runs file requestedFile h
  have hN := hr.1
  rw [traverse_nested_decls_eq] at hN
  have e1 := decl_calls_of_run.1 file file.nestedNodes
    ((traverse_decl_sim.1 _ _).base_of_runs hN) hw
  rw [← traverse_nested_decls_eq] at e1
  have e2 := (traverse_annotations_quiet _ _).filter hr.2.1
  have e3 := filter_decl_imports requestedFile.imports
  refine ⟨by rw [hr.2.2.events]; exact hr.2.2, ?_⟩
  rw [hr.2.2.events]
  simp only [List.filter_append, List.filter_cons, List.filter_nil, e1, e2, e3]
  simp [Event.pre, Event.post]

/-- Witness of C28: the example file with `Point` declared inside `Shape`. -/
theorem C28_every_declaration_once_witness :
    (traverse_file baseHooks exampleNestedFile exampleImportingRequest ()).isSome = true ∧
    allNestProperly exampleNestedFile.nestedNodes = true ∧
    (events (traverse_file continueHooks exampleNestedFile exampleImportingRequest)).filter
      (fun e => e.hook == .DECL) =
      [Event.pre .DECL (.schema ⟨102, 100, "shape.capnp:Shape", "Shape"⟩),
        Event.pre .DECL (.schema ⟨101, 102, "shape.capnp:Point", "Point"⟩),
        Event.post .DECL (.schema ⟨101, 102, "shape.capnp:Point", "Point"⟩),
        Event.post .DECL (.schema ⟨102, 100, "shape.capnp:Shape", "Shape"⟩)] :=
  have h : (traverse_file baseHooks exampleNestedFile exampleImportingRequest ()).isSome
      = true := by
    simp only [exampleNestedFile, examplePoint, exampleShape, exampleImportingRequest, baseHooks,
      traverse_file, traverse_imports, traverse_imports_loop, traverse_nested_decls,
      nested_decls_of, traverse_nested_decls_loop, traverse_decl, traverse_struct_fields,
      traverse_struct_field_list, traverse_struct_field, traverse_annotations,
      traverse_annotations_loop,  traverse_annotation, traverse_value, traverse_dynamic_value,
      traverse_type, traverse_enumerants, traverse_enumerants_loop, traverse_methods_loop,
      traverse_method, traverse_param_list, List.length_cons, List.length_nil, Schema.info,
      Schema.annotations, StructSchema.info, Field.proto]
    decide!
  have hw : allNestProperly exampleNestedFile.nestedNodes = true := by decide
  ⟨h, hw, (C28_every_declaration_once exampleNestedFile exampleImportingRequest h hw).2.trans
    (by decide)⟩

/-! ## Name normalisation: `convertCamelCase` -/

/-- Lower-casing turns an upper-case letter into a lower-case letter and leaves
every other character as it is. -/
theorem toLower_cases (c : Char) :
    (c.isUpper = true ∧ (Char.toLower c).isLower = true ∧ (Char.toLower c).isUpper = false
      ∧ (Char.toLower c).isDigit = false ∧ Char.toLower c ≠ '_') ∨
    (c.isUpper = false ∧ Char.toLower c = c) := by
  by_cases h : c.isUpper = true
  · left
    have h1 : 65 ≤ c.toNat ∧ c.toNat ≤ 90 := by
      simp only [Char.isUpper, Bool.and_eq_true, decide_eq_true_eq] at h
      exact ⟨h.1, h.2⟩
    obtain ⟨n, hn⟩ : ∃ n, c = Char.ofNat n ∧ 65 ≤ n ∧ n ≤ 90 :=
      ⟨c.toNat, by simp, h1.1, h1.2⟩
    obtain ⟨rfl, h65, h90⟩ := hn
    interval_cases n <;> decide
  · right
    simp only [Bool.not_eq_true] at h
    refine ⟨h, ?_⟩
    simp only [Char.isUpper, Bool.and_eq_false_iff, decide_eq_false_iff_not] at h
    unfold Char.toLower
    simp only [ge_iff_le]
    split
    · rename_i h2
      exfalso
      rcases h with h | h
      · exact h h2.1
      · exact h h2.2
    · rfl

theorem toLower_isUpper (c : Char) : (Char.toLower c).isUpper = false := by
  rcases toLower_cases c with h | h
  · exact h.2.2.1
  · rw [h.2]; exact h.1

theorem toLower_toLower (c : Char) : Char.toLower (Char.toLower c) = Char.toLower c := by
  rcases toLower_cases (Char.toLower c) with h | h
  · rw [toLower_isUpper] at h; exact absurd h.1 (by decide)
  · exact h.2

theorem isLower_ne_underscore (c : Char) (h : c.isLower = true) : c ≠ '_' := by
  rintro rfl; exact absurd h (by decide)

theorem isDigit_ne_underscore (c : Char) (h : c.isDigit = true) : c ≠ '_' := by
  rintro rfl; exact absurd h (by decide)

/-- The test of the loop of `convertCamelCase`, without the comparison with the
underscore, which the other tests imply. -/
theorem convertCamelCase_test (prev c : Char) :
    ((c.isDigit && prev != '_' && prev.isLower) ||
      (c.isUpper && prev != '_' && (prev.isDigit || prev.isLower))) = amendedBoundary prev c := by
  unfold amendedBoundary
  by_cases hu : prev = '_'
  · subst hu
    have h1 : ('_' : Char).isLower = false := by decide
    have h2 : ('_' : Char).isDigit = false := by decide
    simp [h1, h2]
  · have : (prev != '_') = true := by simpa using hu
    rw [this]
    cases c.isDigit <;> cases c.isUpper <;> cases prev.isLower <;> cases prev.isDigit <;> rfl

/-- One step of the loop of `convertCamelCase`. -/
theorem convertCamelCaseLoop_cons (prev c : Char) (rest : List Char) :
    convertCamelCaseLoop prev (c :: rest) =
      (if amendedBoundary prev c then ['_'] else []) ++ c :: convertCamelCaseLoop c rest := by
  rw [convertCamelCaseLoop, ← convertCamelCase_test]
  by_cases h1 : (c.isDigit && prev != '_' && prev.isLower) = true
  · simp [h1]
  · by_cases h2 : (c.isUpper && prev != '_' && (prev.isDigit || prev.isLower)) = true
    · rw [if_neg h1, if_pos h2]
      have : ((c.isDigit && prev != '_' && prev.isLower) ||
        (c.isUpper && prev != '_' && (prev.isDigit || prev.isLower))) = true := by
        rw [h2]; simp
      rw [if_pos this]
    · rw [if_neg h1, if_neg h2]
      have : ¬ ((c.isDigit && prev != '_' && prev.isLower) ||
        (c.isUpper && prev != '_' && (prev.isDigit || prev.isLower))) = true := by
        simp only [Bool.not_eq_true] at h1 h2
        rw [h1, h2]; simp
      rw [if_neg this]

/-- One step of the marks of the loop of `convertCamelCase`. -/
theorem convertCamelCaseMarks_cons (prev c : Char) (rest : List Char) :
    convertCamelCaseMarks prev (c :: rest) =
      (if amendedBoundary prev c then [true] else []) ++
        false :: convertCamelCaseMarks c rest := by
  rw [convertCamelCaseMarks, ← convertCamelCase_test]
  by_cases h1 : (c.isDigit && prev != '_' && prev.isLower) = true
  · simp [h1]
  · by_cases h2 : (c.isUpper && prev != '_' && (prev.isDigit || prev.isLower)) = true
    · rw [if_neg h1, if_pos h2]
      have : ((c.isDigit && prev != '_' && prev.isLower) ||
        (c.isUpper && prev != '_' && (prev.isDigit || prev.isLower))) = true := by
        rw [h2]; simp
      rw [if_pos this]
    · rw [if_neg h1, if_neg h2]
      have : ¬ ((c.isDigit && prev != '_' && prev.isLower) ||
        (c.isUpper && prev != '_' && (prev.isDigit || prev.isLower))) = true := by
        simp only [Bool.not_eq_true] at h1 h2
        rw [h1, h2]; simp
      rw [if_neg this]

/-- The output of `convertCamelCase` is the input in lower case with the
underscores of `amendedBoundary`. -/
theorem convertCamelCaseLoop_withUnderscores (c0 : Char) (rest : List Char) :
    (c0.toLower :: convertCamelCaseLoop c0 rest).map Char.toLower =
      withUnderscores amendedBoundary (c0 :: rest) := by
  induction rest generalizing c0 with
  | nil => simp [convertCamelCaseLoop, withUnderscores, toLower_toLower]
  | cons c rest ih =>
    have ih1 := ih c
    simp only [List.map_cons, toLower_toLower] at ih1
    rw [convertCamelCaseLoop_cons, withUnderscores, ← ih1]
    by_cases hb : amendedBoundary c0 c = true
    · simp only [hb, if_true, List.map_cons, List.map_append, List.map_nil, toLower_toLower,
        List.cons_append, List.nil_append]
      have : Char.toLower '_' = '_' := by decide
      rw [this]
    · simp only [hb, if_false, List.map_cons, toLower_toLower, List.nil_append,
        Bool.false_eq_true]

/-- C31, counterexample: in `int32x` the digit `2` is directly followed by the
letter `x`, a digit/letter transition; the claimed result has an underscore
there, the result of `convertCamelCase` has none. Likewise in `X1y` neither the
transition from `X` to `1` nor the one from `1` to `y` gets an underscore. -/
theorem C31_no_underscore_after_digit :
    convertCamelCase "int32x" = some "int_32x" ∧
    String.mk (withUnderscores claimedBoundary "int32x".data) = "int_32_x" ∧
    convertCamelCase "X1y" = some "x1y" ∧
    String.mk (withUnderscores claimedBoundary "X1y".data) = "x_1_y" := by
  decide

/-- C31, amended: for every non-empty name, `convertCamelCase` returns the name
in lower case with an underscore inserted exactly between a lower-case letter
and an upper-case letter or digit that directly follows it, and between a digit
and an upper-case letter that directly follows it; `_LowerCamelCase` becomes
`_lower_camel_case`, `timestampMillis` becomes `timestamp_millis`, and
`utf8String` becomes `utf_8_string`. -/
theorem C31_underscores_at_boundaries (c0 : Char) (rest : List Char) :
    convertCamelCase (String.mk (c0 :: rest)) =
      some (String.mk (withUnderscores amendedBoundary (c0 :: rest))) ∧
    convertCamelCase "_LowerCamelCase" = some "_lower_camel_case" ∧
    convertCamelCase "timestampMillis" = some "timestamp_millis" ∧
    convertCamelCase "utf8String" = some "utf_8_string" := by
  refine ⟨?_, by decide, by decide, by decide⟩
  rw [← convertCamelCaseLoop_withUnderscores]
  rfl

theorem toLower_ne_underscore (c : Char) (h : c ≠ '_') : Char.toLower c ≠ '_' := by
  rcases toLower_cases c with h1 | h1
  · exact h1.2.2.2.2
  · rw [h1.2]; exact h

theorem amendedBoundary_ne_underscore (p c : Char) (h : amendedBoundary p c = true) :
    p ≠ '_' := by
  rintro rfl
  have h1 : ('_' : Char).isLower = false := by decide
  have h2 : ('_' : Char).isDigit = false := by decide
  simp [amendedBoundary, h1, h2] at h

/-- The marks of the loop of `convertCamelCase` against what the loop appends,
in lower case. -/
theorem convertCamelCaseLoop_marks (prev : Char) (rest : List Char) :
    (convertCamelCaseMarks prev rest).length =
      ((convertCamelCaseLoop prev rest).map Char.toLower).length ∧
    (∀ p ∈ ((convertCamelCaseLoop prev rest).map Char.toLower).zip
        (convertCamelCaseMarks prev rest), p.2 = true → p.1 = '_') ∧
    ((((convertCamelCaseLoop prev rest).map Char.toLower).zip
        (convertCamelCaseMarks prev rest)).filter (fun p => !p.2)).map Prod.fst =
      rest.map Char.toLower ∧
    rest.length ≤ ((convertCamelCaseLoop prev rest).map Char.toLower).length ∧
    ((convertCamelCaseLoop prev rest).map Char.toLower).length ≤ 2 * rest.length ∧
    (∀ p ∈ (prev.toLower :: (convertCamelCaseLoop prev rest).map Char.toLower).zip
        (convertCamelCaseMarks prev rest), p.2 = true → p.1 ≠ '_') := by
  induction rest generalizing prev with
  | nil => simp [convertCamelCaseLoop, convertCamelCaseMarks]
  | cons c rest ih =>
    obtain ⟨i1, i2, i3, i4, i5, i6⟩ := ih c
    rw [convertCamelCaseLoop_cons, convertCamelCaseMarks_cons]
    have hu : Char.toLower '_' = '_' := by decide
    by_cases hb : amendedBoundary prev c = true
    · simp only [hb, if_true, List.map_cons, List.map_append, List.map_nil, List.cons_append,
        List.nil_append, List.length_cons, List.zip_cons_cons, List.mem_cons, hu,
        List.filter_cons, Bool.not_true, Bool.not_false, Bool.false_eq_true, if_false, if_true]
      refine ⟨by omega, ?_, ?_, by omega, by omega, ?_⟩
      · rintro p (rfl | rfl | hp)
        · intro _; rfl
        · intro h; exact absurd h Bool.false_ne_true
        · exact i2 p hp
      · rw [i3]
      · rintro p (rfl | rfl | hp)
        · intro _; exact toLower_ne_underscore _ (amendedBoundary_ne_underscore _ _ hb)
        · intro h; exact absurd h Bool.false_ne_true
        · exact i6 p hp
    · simp only [hb, if_false, List.map_cons, List.nil_append, List.length_cons,
        List.zip_cons_cons, List.mem_cons, List.filter_cons, Bool.not_false,
        Bool.false_eq_true, if_true]
      refine ⟨by omega, ?_, ?_, by omega, by omega, ?_⟩
      · rintro p (rfl | hp)
        · intro h; exact absurd h Bool.false_ne_true
        · exact i2 p hp
      · rw [i3]
      · rintro p (rfl | hp)
        · intro h; exact absurd h Bool.false_ne_true
        · exact i6 p hp

/-- C38. For the non-empty input `c0 :: rest`, `convertCamelCase` returns a string
`out` such that, with the marks of the underscores that the loop inserted: every
marked position of `out` holds an underscore; the unmarked positions of `out`,
in order, are the input with every character lower-cased; `out` has no
upper-case ASCII letter; the length of `out` is at least the length of the
input and less than twice it; and the character of `out` right before a marked
position is never an underscore. -/
theorem C38_only_lowercases_and_inserts (c0 : Char) (rest : List Char) :
    ∃ out : List Char,
      convertCamelCase (String.mk (c0 :: rest)) = some (String.mk out) ∧
      (false :: convertCamelCaseMarks c0 rest).length = out.length ∧
      (∀ p ∈ out.zip (false :: convertCamelCaseMarks c0 rest), p.2 = true → p.1 = '_') ∧
      ((out.zip (false :: convertCamelCaseMarks c0 rest)).filter (fun p => !p.2)).map
        Prod.fst = (c0 :: rest).map Char.toLower ∧
      (∀ c ∈ out, c.isUpper = false) ∧
      (c0 :: rest).length ≤ out.length ∧
      out.length < 2 * (c0 :: rest).length ∧
      (∀ p ∈ out.zip (convertCamelCaseMarks c0 rest), p.2 = true → p.1 ≠ '_') := by
  obtain ⟨i1, i2, i3, i4, i5, i6⟩ := convertCamelCaseLoop_marks c0 rest
  refine ⟨(c0.toLower :: convertCamelCaseLoop c0 rest).map Char.toLower, rfl, ?_, ?_, ?_, ?_,
    ?_, ?_, ?_⟩
  · simp only [List.map_cons, List.length_cons]; omega
  · simp only [List.map_cons, List.zip_cons_cons, List.mem_cons]
    rintro p (rfl | hp)
    · intro h; exact absurd h Bool.false_ne_true
    · exact i2 p hp
  · simp only [List.map_cons, List.zip_cons_cons, List.filter_cons, Bool.not_false, if_true,
      toLower_toLower]
    rw [i3]
  · intro c hc
    obtain ⟨d, _, rfl⟩ := List.mem_map.1 hc
    exact toLower_isUpper d
  · simp only [List.map_cons, List.length_cons]; omega
  · simp only [List.map_cons, List.length_cons]; omega
  · simp only [List.map_cons, toLower_toLower]
    exact i6

/-! ## The source category `UINT32` -/

/-- C32, amended. A node with source category UINT32 and no override flag is
classified with logical type UINT_32 and physical type INT32, not with the
INT64 of the table in the header comment. -/
theorem C32_uint32_physical_int32 (n : ASTNode)
    (hn : n.is_capnp_type = true) (hnf : n.has_override_flag = false)
    (hc : n.capnp_type_ = .UINT32) :
    classifiedPair n = (.UINT_32, .INT32) ∧ (classifiedPair n).2 ≠ .INT64 ∧
    (classify n).logical_type_ = .UINT_32 ∧ (classify n).physical_type_ = .INT32 := by
  have h := classifiedPair_of_category n hn hnf
  rw [hc] at h
  have h1 : (classify n).logical_type_ = (classifiedPair n).1 := by
    unfold classify classifiedPair
    rw [(applyParquetNodeType_frame _).2.1]
  have h2 : (classify n).physical_type_ = (classifiedPair n).2 := by
    unfold classify classifiedPair
    rw [(applyParquetNodeType_frame _).2.2.1]
  rw [h1, h2, h]
  exact ⟨rfl, fun hh => PhysicalType.noConfusion hh, rfl, rfl⟩

/-- Witness of C32 at the example `UInt32` field node. -/
theorem C32_uint32_physical_int32_witness :
    exampleCountNode.is_capnp_type = true ∧ exampleCountNode.has_override_flag = false ∧
    exampleCountNode.capnp_type_ = .UINT32 ∧
    classifiedPair exampleCountNode = (.UINT_32, .INT32) :=
  ⟨rfl, rfl, rfl, (C32_uint32_physical_int32 exampleCountNode rfl rfl rfl).1⟩

/-- C32, counterexample. The field node of `count :UInt32` after the slot
hook has the source category UINT32 and no flag set, and it is classified with
the physical type INT32, which is not INT64; its logical type is UINT_32. -/
theorem C32_uint32_not_int64 :
    exampleCountNode.is_capnp_type = true ∧ exampleCountNode.has_override_flag = false ∧
    exampleCountNode.capnp_type_ = .UINT32 ∧
    (classify exampleCountNode).physical_type_ = .INT32 ∧
    (classify exampleCountNode).physical_type_ ≠ .INT64 ∧
    (classify exampleCountNode).logical_type_ = .UINT_32 := by
  decide

/-! ## Annotation values: `getAnnotationValueI32` -/

/-- A loop that keeps the value read from the last element that qualifies: the
shape of the loop of `getAnnotationValueI32`. -/
theorem foldlM_last_qualifying (h : Heap) (q : ASTNode → Bool) (f : ASTNode → Int)
    (cs : List Nat) (v0 : Int) (hc : ∀ c ∈ cs, (h.get c).isSome = true) :
    cs.foldlM (fun value c => do
      let child ← h.get c
      if q child then pure (f child) else pure value) v0 =
    some (match ((cs.filterMap h.get).filter q).getLast? with
      | some child => f child
      | none => v0) := by
  induction cs generalizing v0 with
  | nil => rfl
  | cons c cs ih =>
    have hc1 := hc c (List.mem_cons_self _ _)
    obtain ⟨child, hchild⟩ := Option.isSome_iff_exists.1 hc1
    have ih1 := fun v => ih v (fun x hx => hc x (List.mem_cons_of_mem _ hx))
    rw [List.foldlM_cons, hchild]
    simp only [Option.bind_eq_bind, Option.some_bind, List.filterMap_cons, hchild]
    by_cases hq : q child = true
    · rw [if_pos hq, List.filter_cons_of_pos hq]
      refine (ih1 _).trans ?_
      cases hl : ((cs.filterMap h.get).filter q) with
      | nil => simp
      | cons a l =>
        rw [List.getLast?_cons_cons]
        obtain ⟨x, hx⟩ : ∃ x, (a :: l).getLast? = some x :=
          ⟨_, List.getLast?_eq_getLast _ (List.cons_ne_nil _ _)⟩
        rw [hx]
    · rw [if_neg hq, List.filter_cons_of_neg hq]
      exact ih1 _

/-- The conversion to a 32-bit signed integer: the result lies in the signed
range and differs from the argument by a multiple of `2 ^ 32`; an argument in
the signed range is returned as it is. -/
theorem toInt32_spec (v : Int) :
    -2 ^ 31 ≤ toInt32 v ∧ toInt32 v < 2 ^ 31 ∧ (toInt32 v - v) % 2 ^ 32 = 0 ∧
    (-2 ^ 31 ≤ v → v < 2 ^ 31 → toInt32 v = v) := by
  unfold toInt32
  refine ⟨by omega, by omega, by omega, ?_⟩
  intro h1 h2
  omega

/-- C39. For an annotation node whose children are all in the heap,
`getAnnotationValueI32` returns the value read from the last child that is a
VALUE node with a target node and a stored literal, and 0 when no child
qualifies. The value read from a child is the slot selected by its source
category: exact for Int8, Int16, Int32, UInt8 and UInt16 (for a stored value in
the range of the slot), reduced modulo `2 ^ 32` into the signed range for Int64,
UInt64 and UInt32, and 0 for every other category. -/
theorem C39_annotation_value_i32 (h : Heap) (node : Nat) (n : ASTNode)
    (hn : h.get node = some n) (hc : ∀ c ∈ n.children_, (h.get c).isSome = true) :
    getAnnotationValueI32 h node =
      some (match ((n.children_.filterMap h.get).filter (fun c =>
          c.node_.isSome && c.node_type_ == .VALUE && c.is_value)).getLast? with
        | some child => annotationValueI32Of child
        | none => 0) ∧
    (∀ child : ASTNode,
      (child.capnp_type_ = .INT8 → -2 ^ 7 ≤ child.value_.i8 → child.value_.i8 < 2 ^ 7 →
        annotationValueI32Of child = child.value_.i8) ∧
      (child.capnp_type_ = .INT16 → -2 ^ 15 ≤ child.value_.i16 → child.value_.i16 < 2 ^ 15 →
        annotationValueI32Of child = child.value_.i16) ∧
      (child.capnp_type_ = .INT32 → annotationValueI32Of child = child.value_.i32) ∧
      (child.capnp_type_ = .UINT8 → child.value_.ui8 < 2 ^ 8 →
        annotationValueI32Of child = child.value_.ui8) ∧
      (child.capnp_type_ = .UINT16 → child.value_.ui16 < 2 ^ 16 →
        annotationValueI32Of child = child.value_.ui16) ∧
      (child.capnp_type_ = .INT64 →
        annotationValueI32Of child = toInt32 child.value_.i64) ∧
      (child.capnp_type_ = .UINT64 →
        annotationValueI32Of child = toInt32 child.value_.ui64) ∧
      (child.capnp_type_ = .UINT32 →
        annotationValueI32Of child = toInt32 child.value_.ui32) ∧
      (child.capnp_type_ ∉ [TypeWhich.INT8, .INT16, .INT32, .INT64, .UINT8, .UINT16,
          .UINT32, .UINT64] → annotationValueI32Of child = 0)) ∧
    (∀ v : Int,
      -2 ^ 31 ≤ toInt32 v ∧ toInt32 v < 2 ^ 31 ∧ (toInt32 v - v) % 2 ^ 32 = 0) := by
  refine ⟨?_, ?_,
    fun v => ⟨(toInt32_spec v).1, (toInt32_spec v).2.1, (toInt32_spec v).2.2.1⟩⟩
  · unfold getAnnotationValueI32
    rw [hn]
    exact foldlM_last_qualifying h _ _ n.children_ 0 hc
  · intro child
    refine ⟨?_, ?_, ?_, ?_, ?_, ?_, ?_, ?_, ?_⟩
    · intro hk h1 h2
      unfold annotationValueI32Of
      rw [hk]
      exact (toInt32_spec _).2.2.2 (by omega) (by omega)
    · intro hk h1 h2
      unfold annotationValueI32Of
      rw [hk]
      exact (toInt32_spec _).2.2.2 (by omega) (by omega)
    · intro hk
      unfold annotationValueI32Of
      rw [hk]
    · intro hk h1
      unfold annotationValueI32Of
      rw [hk]
      exact (toInt32_spec _).2.2.2 (by omega) (by omega)
    · intro hk h1
      unfold annotationValueI32Of
      rw [hk]
      exact (toInt32_spec _).2.2.2 (by omega) (by omega)
    · intro hk
      unfold annotationValueI32Of
      rw [hk]
    · intro hk
      unfold annotationValueI32Of
      rw [hk]
    · intro hk
      unfold annotationValueI32Of
      rw [hk]
    · intro hk
      unfold annotationValueI32Of
      cases hq : child.capnp_type_ <;>
        first | (rw [hq] at hk; exact absurd (by decide) hk) | rfl

/-- Witness of C39 at the example heap: the last qualifying child of the
annotation node is the Int64 VALUE node holding `2 ^ 32 + 5`, read as 5. -/
theorem C39_annotation_value_i32_witness :
    exampleValueHeap.get 0 = some { (ASTNode.new .ANNOTATION "length") with
      children_ := [1, 2, 3] } ∧
    (∀ c ∈ [1, 2, 3], (exampleValueHeap.get c).isSome = true) ∧
    getAnnotationValueI32 exampleValueHeap 0 = some 5 :=
  ⟨rfl, by decide, (C39_annotation_value_i32 exampleValueHeap 0
    { (ASTNode.new .ANNOTATION "length") with children_ := [1, 2, 3] } rfl
    (by decide)).1.trans rfl⟩

/-! ## The traversal of a value -/

/-- A value that can be read as its type is traversed without a throw: the
traversal with the hooks of `BaseGenerator` returns. -/
theorem traverse_dynamic_value_readable (schema : SchemaInfo) :
    (∀ type value, DynamicValue.readableAs type value = true →
      traverse_dynamic_value baseHooks schema type value () = some (false, ())) ∧
    (∀ fields, readableFields fields = true →
      traverse_dynamic_fields baseHooks schema fields () = some ((), ())) ∧
    (∀ elementType elements, readableList elementType elements = true →
      traverse_dynamic_list baseHooks schema elementType elements () = some ((), ())) := by
  apply traverse_dynamic_value.mutual_induct baseHooks schema
    (fun type value => DynamicValue.readableAs type value = true →
      traverse_dynamic_value baseHooks schema type value () = some (false, ()))
    (fun fields => readableFields fields = true →
      traverse_dynamic_fields baseHooks schema fields () = some ((), ()))
    (fun elementType elements => readableList elementType elements = true →
      traverse_dynamic_list baseHooks schema elementType elements () = some ((), ()))
  · intro type elements ih h
    unfold traverse_dynamic_value
    simp only [baseHooks_apply]
    cases type <;> simp only [DynamicValue.readableAs, Bool.false_eq_true] at h <;>
      first
      | rfl
      | (simp only [Step.bind_run, Step.pure_apply, Option.some_bind, Bool.false_eq_true,
          reduceIte, ih _ h])
  · intro type fields ih h
    unfold traverse_dynamic_value
    simp only [baseHooks_apply]
    cases type <;> simp only [DynamicValue.readableAs, Bool.false_eq_true] at h <;>
      first
      | rfl
      | (simp only [Step.bind_run, Step.pure_apply, Option.some_bind, Bool.false_eq_true,
          reduceIte, ih h])
  · intro type value h1 h2 h
    rw [traverse_dynamic_value]
    · simp only [baseHooks_apply]
      cases type <;> cases value <;>
        first
        | exact (h1 _ rfl).elim
        | exact (h2 _ rfl).elim
        | (simp only [DynamicValue.readableAs, Bool.false_eq_true] at h <;> rfl)
    · exact h1
    · exact h2
  · intro elementType _
    rfl
  · intro elementType element rest ih1 ih2 h
    rw [readableList, Bool.and_eq_true] at h
    unfold traverse_dynamic_list
    simp only [Step.bind_run, ih1 h.1, ih2 h.2, Option.some_bind]
  · intro _
    rfl
  · intro fst rest ih h
    rw [readableFields] at h
    unfold traverse_dynamic_fields
    exact ih h
  · intro fieldType fieldValue rest ih1 ih2 h
    rw [readableFields, Bool.and_eq_true] at h
    unfold traverse_dynamic_fields
    simp only [Step.bind_run, ih1 h.1, ih2 h.2, Option.some_bind]

theorem traverse_dynamic_list_runs (schema : SchemaInfo) (elementType : SchemaType)
    (elements : List DynamicValue)
    (h : (traverse_dynamic_list baseHooks schema elementType elements ()).isSome = true) :
    Runs (traverse_dynamic_list continueHooks schema elementType elements) ()
      (elements.flatMap (fun e =>
        events (traverse_dynamic_value continueHooks schema elementType e))) := by
  induction elements with
  | nil =>
    unfold traverse_dynamic_list
    exact Runs.pure_unit
  | cons d rest ih =>
    obtain ⟨od, hd⟩ := (traverse_dynamic_value_sim schema).1 elementType d
    obtain ⟨orr, hr⟩ := (traverse_dynamic_value_sim schema).2.2 elementType rest
    have key : SimAt (traverse_dynamic_list continueHooks schema elementType (d :: rest))
        (traverse_dynamic_list baseHooks schema elementType (d :: rest)) ()
        (od.bind fun td => orr.map fun tr => td ++ tr) := by
      apply SimAt.congr
      · unfold traverse_dynamic_list
        repeat (first
          | exact SimAt.pure_at _
          | exact hr
          | apply SimAt.bind_at hd
          | apply SimAt.bind_at (SimAt.record_at _)
          | apply SimAt.bind_at (SimAt.pure_at _)
          | apply SimAt.bind_at (SimAt.failure_at ⟨⟩)
          | simp only [Bool.false_eq_true, reduceIte])
      · cases od <;> cases orr <;> simp
    rw [key.isSome] at h
    cases od with
    | none => cases h
    | some td =>
      cases orr with
      | none => cases h
      | some tr =>
        have hrest := ih (by rw [hr.isSome]; rfl)
        have e1 : tr = _ := hr.runs.events.symm.trans hrest.events
        have hk := key.runs
        rw [e1] at hk
        simp only [Option.some_bind, Option.map_some'] at hk
        rw [List.flatMap_cons, hd.runs.events]
        exact hk

theorem traverse_dynamic_fields_runs (schema : SchemaInfo)
    (fields : List (SchemaType × Option DynamicValue))
    (h : (traverse_dynamic_fields baseHooks schema fields ()).isSome = true) :
    Runs (traverse_dynamic_fields continueHooks schema fields) ()
      ((fields.filterMap (fun f => f.2.map (fun v => (f.1, v)))).flatMap (fun c =>
        events (traverse_dynamic_value continueHooks schema c.1 c.2))) := by
  induction fields with
  | nil =>
    unfold traverse_dynamic_fields
    exact Runs.pure_unit
  | cons f rest ih =>
    obtain ⟨ft, fv⟩ := f
    cases fv with
    | none =>
      unfold traverse_dynamic_fields
      unfold traverse_dynamic_fields at h
      simp only [List.filterMap_cons, Option.map_none']
      exact ih h
    | some d =>
      obtain ⟨od, hd⟩ := (traverse_dynamic_value_sim schema).1 ft d
      obtain ⟨orr, hr⟩ := (traverse_dynamic_value_sim schema).2.1 rest
      have key : SimAt (traverse_dynamic_fields continueHooks schema ((ft, some d) :: rest))
          (traverse_dynamic_fields baseHooks schema ((ft, some d) :: rest)) ()
          (od.bind fun td => orr.map fun tr => td ++ tr) := by
        apply SimAt.congr
        · unfold traverse_dynamic_fields
          repeat (first
            | exact SimAt.pure_at _
            | exact hr
            | apply SimAt.bind_at hd
            | apply SimAt.bind_at (SimAt.record_at _)
            | apply SimAt.bind_at (SimAt.pure_at _)
            | apply SimAt.bind_at (SimAt.failure_at ⟨⟩)
            | simp only [Bool.false_eq_true, reduceIte])
        · cases od <;> cases orr <;> simp
      rw [key.isSome] at h
      cases od with
      | none => cases h
      | some td =>
        cases orr with
        | none => cases h
        | some tr =>
          have hrest := ih (by rw [hr.isSome]; rfl)
          have e1 : tr = _ := hr.runs.events.symm.trans hrest.events
          have hk := key.runs
          rw [e1] at hk
          simp only [Option.some_bind, Option.map_some'] at hk
          simp only [List.filterMap_cons, Option.map_some', List.flatMap_cons]
          rw [hd.runs.events]
          exact hk

/-- The traversal of a value that is neither a list nor a struct value. -/
theorem traverse_dynamic_value_leaf {σ : Type} (hk : Hooks σ) (schema : SchemaInfo)
    (type : SchemaType) (value : DynamicValue)
    (h1 : ∀ elements, value = .LIST elements → False)
    (h2 : ∀ fields, value = .STRUCT fields → False) :
    traverse_dynamic_value hk schema type value = (do
      if ← hk.pre_visit_dynamic_value schema type value then return true
      match type with
      | .LIST _ => failure
      | .STRUCT .. => failure
      | _ => pure ()
      if ← hk.post_visit_dynamic_value schema type value then return true
      return false) := by
  rw [traverse_dynamic_value]
  all_goals first | exact h1 | exact h2

/-- The traversal of a value whose type is neither a list nor a struct type
records the entry and the exit hook of the value, whatever the value is. -/
theorem traverse_dynamic_value_plain (schema : SchemaInfo) (type : SchemaType)
    (value : DynamicValue) (hl : ∀ et, type ≠ .LIST et)
    (hs : ∀ id nm, type ≠ .STRUCT id nm) :
    SimAt (traverse_dynamic_value continueHooks schema type value)
      (traverse_dynamic_value baseHooks schema type value) false
      (some [Event.pre .DYNAMIC_VALUE (.type type), Event.post .DYNAMIC_VALUE (.type type)]) := by
  by_cases h1 : ∃ elements, value = .LIST elements
  · obtain ⟨elements, rfl⟩ := h1
    cases type <;> first
      | exact (hl _ rfl).elim
      | exact (hs _ _ rfl).elim
      | (apply SimAt.congr
         · unfold traverse_dynamic_value
           simp only [continueHooks_apply, baseHooks_apply]
           repeat (first
            | exact SimAt.pure_at _
            | apply SimAt.bind_at (SimAt.record_at _)
            | apply SimAt.bind_at (SimAt.pure_at _)
            | simp only [Bool.false_eq_true, reduceIte])
         · rfl)
  · by_cases h2 : ∃ fields, value = .STRUCT fields
    · obtain ⟨fields, rfl⟩ := h2
      cases type <;> first
        | exact (hl _ rfl).elim
        | exact (hs _ _ rfl).elim
        | (apply SimAt.congr
           · unfold traverse_dynamic_value
             simp only [continueHooks_apply, baseHooks_apply]
             repeat (first
              | exact SimAt.pure_at _
              | apply SimAt.bind_at (SimAt.record_at _)
              | apply SimAt.bind_at (SimAt.pure_at _)
              | simp only [Bool.false_eq_true, reduceIte])
           · rfl)
    · have g1 : ∀ elements, value = .LIST elements → False := fun e he => h1 ⟨e, he⟩
      have g2 : ∀ fields, value = .STRUCT fields → False := fun e he => h2 ⟨e, he⟩
      rw [traverse_dynamic_value_leaf _ _ _ _ g1 g2, traverse_dynamic_value_leaf _ _ _ _ g1 g2]
      cases type <;> first
        | exact (hl _ rfl).elim
        | exact (hs _ _ rfl).elim
        | (apply SimAt.congr
           · simp only [continueHooks_apply, baseHooks_apply]
             repeat (first
              | exact SimAt.pure_at _
              | apply SimAt.bind_at (SimAt.record_at _)
              | apply SimAt.bind_at (SimAt.pure_at _)
              | simp only [Bool.false_eq_true, reduceIte])
           · rfl)

/-- No child value is traversed for a type that is neither a list nor a struct
type. -/
theorem dynamicChildren_plain (type : SchemaType) (value : DynamicValue)
    (hl : ∀ et, type ≠ .LIST et) (hs : ∀ id nm, type ≠ .STRUCT id nm) :
    dynamicChildren type value = [] := by
  cases type <;> first
    | exact (hl _ rfl).elim
    | exact (hs _ _ rfl).elim
    | (cases value <;> rfl)

/-- Reading a value as a list or as a struct when it is none throws. -/
theorem traverse_dynamic_value_throws (schema : SchemaInfo) (type : SchemaType)
    (value : DynamicValue)
    (h : (∃ et, type = .LIST et) ∧ (∀ elements, value ≠ .LIST elements) ∨
      (∃ id nm, type = .STRUCT id nm) ∧ (∀ fields, value ≠ .STRUCT fields)) :
    traverse_dynamic_value baseHooks schema type value () = none := by
  by_cases h1 : ∃ elements, value = .LIST elements
  · obtain ⟨elements, rfl⟩ := h1
    rcases h with ⟨_, h⟩ | ⟨⟨id, nm, rfl⟩, _⟩
    · exact (h _ rfl).elim
    · unfold traverse_dynamic_value
      rfl
  · by_cases h2 : ∃ fields, value = .STRUCT fields
    · obtain ⟨fields, rfl⟩ := h2
      rcases h with ⟨⟨et, rfl⟩, _⟩ | ⟨_, h⟩
      · unfold traverse_dynamic_value
        rfl
      · exact (h _ rfl).elim
    · have g1 : ∀ elements, value = .LIST elements → False := fun e he => h1 ⟨e, he⟩
      have g2 : ∀ fields, value = .STRUCT fields → False := fun e he => h2 ⟨e, he⟩
      rw [traverse_dynamic_value_leaf _ _ _ _ g1 g2]
      rcases h with ⟨⟨et, rfl⟩, _⟩ | ⟨⟨id, nm, rfl⟩, _⟩ <;> rfl

/-- The calls of the traversal of a value, given the calls of its children. -/
theorem traverse_dynamic_value_runs (schema : SchemaInfo) (type : SchemaType)
    (value : DynamicValue)
    (h : (traverse_dynamic_value baseHooks schema type value ()).isSome = true) :
    Runs (traverse_dynamic_value continueHooks schema type value) false
      (Event.pre .DYNAMIC_VALUE (.type type) ::
        (dynamicChildren type value).flatMap (fun c =>
          events (traverse_dynamic_value continueHooks schema c.1 c.2)) ++
        [Event.post .DYNAMIC_VALUE (.type type)]) := by
  by_cases hl : ∃ et, type = .LIST et
  · obtain ⟨et, rfl⟩ := hl
    by_cases h1 : ∃ elements, value = .LIST elements
    · obtain ⟨elements, rfl⟩ := h1
      obtain ⟨ol, hl⟩ := (traverse_dynamic_value_sim schema).2.2 et elements
      have key : SimAt (traverse_dynamic_value continueHooks schema (.LIST et) (.LIST elements))
          (traverse_dynamic_value baseHooks schema (.LIST et) (.LIST elements)) false
          (ol.map fun tl => Event.pre .DYNAMIC_VALUE (.type (.LIST et)) :: tl ++
            [Event.post .DYNAMIC_VALUE (.type (.LIST et))]) := by
        apply SimAt.congr
        · unfold traverse_dynamic_value
          simp only [continueHooks_apply, baseHooks_apply]
          repeat (first
            | exact SimAt.pure_at _
            | apply SimAt.bind_at hl
            | apply SimAt.bind_at (SimAt.record_at _)
            | apply SimAt.bind_at (SimAt.pure_at _)
            | apply SimAt.bind_at (SimAt.failure_at ⟨⟩)
            | simp only [Bool.false_eq_true, reduceIte])
        · cases ol <;> simp
      rw [key.isSome] at h
      cases ol with
      | none => cases h
      | some tl =>
        have hlr := traverse_dynamic_list_runs schema et elements (by rw [hl.isSome]; rfl)
        have e1 : tl = _ := hl.runs.events.symm.trans hlr.events
        have hk := key.runs
        rw [e1] at hk
        simp only [Option.map_some'] at hk
        simp only [dynamicChildren, List.flatMap_map]
        exact hk
    · rw [traverse_dynamic_value_throws schema _ value
        (Or.inl ⟨⟨et, rfl⟩, fun e he => h1 ⟨e, he⟩⟩)] at h
      cases h
  · by_cases hs : ∃ id nm, type = .STRUCT id nm
    · obtain ⟨id, nm, rfl⟩ := hs
      by_cases h2 : ∃ fields, value = .STRUCT fields
      · obtain ⟨fields, rfl⟩ := h2
        obtain ⟨ol, hl⟩ := (traverse_dynamic_value_sim schema).2.1 fields
        have key : SimAt
            (traverse_dynamic_value continueHooks schema (.STRUCT id nm) (.STRUCT fields))
            (traverse_dynamic_value baseHooks schema (.STRUCT id nm) (.STRUCT fields)) false
            (ol.map fun tl => Event.pre .DYNAMIC_VALUE (.type (.STRUCT id nm)) :: tl ++
              [Event.post .DYNAMIC_VALUE (.type (.STRUCT id nm))]) := by
          apply SimAt.congr
          · unfold traverse_dynamic_value
            simp only [continueHooks_apply, baseHooks_apply]
            repeat (first
              | exact SimAt.pure_at _
              | apply SimAt.bind_at hl
              | apply SimAt.bind_at (SimAt.record_at _)
              | apply SimAt.bind_at (SimAt.pure_at _)
              | apply SimAt.bind_at (SimAt.failure_at ⟨⟩)
              | simp only [Bool.false_eq_true, reduceIte])
          · cases ol <;> simp
        rw [key.isSome] at h
        cases ol with
        | none => cases h
        | some tl =>
          have hlr := traverse_dynamic_fields_runs schema fields (by rw [hl.isSome]; rfl)
          have e1 : tl = _ := hl.runs.events.symm.trans hlr.events
          have hk := key.runs
          rw [e1] at hk
          simp only [Option.map_some'] at hk
          simp only [dynamicChildren]
          exact hk
      · rw [traverse_dynamic_value_throws schema _ value
          (Or.inr ⟨⟨id, nm, rfl⟩, fun e he => h2 ⟨e, he⟩⟩)] at h
        cases h
    · have gl : ∀ et, type ≠ .LIST et := fun et he => hl ⟨et, he⟩
      have gs : ∀ id nm, type ≠ .STRUCT id nm := fun id nm he => hs ⟨id, nm, he⟩
      rw [dynamicChildren_plain type value gl gs]
      exact (traverse_dynamic_value_plain schema type value gl gs).runs

theorem readableList_mem (elementType : SchemaType) (elements : List DynamicValue)
    (h : readableList elementType elements = true) :
    ∀ e ∈ elements, DynamicValue.readableAs elementType e = true := by
  induction elements with
  | nil => intro e he; cases he
  | cons d rest ih =>
    rw [readableList, Bool.and_eq_true] at h
    intro e he
    rcases List.mem_cons.1 he with rfl | he
    · exact h.1
    · exact ih h.2 e he

theorem readableFields_mem (fields : List (SchemaType × Option DynamicValue))
    (h : readableFields fields = true) :
    ∀ c ∈ fields.filterMap (fun f => f.2.map (fun v => (f.1, v))),
      DynamicValue.readableAs c.1 c.2 = true := by
  induction fields with
  | nil => intro e he; cases he
  | cons f rest ih =>
    obtain ⟨ft, fv⟩ := f
    cases fv with
    | none =>
      rw [readableFields] at h
      simpa only [List.filterMap_cons, Option.map_none'] using ih h
    | some d =>
      rw [readableFields, Bool.and_eq_true] at h
      simp only [List.filterMap_cons, Option.map_some', List.mem_cons]
      rintro c (rfl | hc)
      · exact h.1
      · exact ih h.2 c hc

/-- The children of a readable value are readable as their types. -/
theorem dynamicChildren_readable (type : SchemaType) (value : DynamicValue)
    (h : DynamicValue.readableAs type value = true) :
    ∀ c ∈ dynamicChildren type value, DynamicValue.readableAs c.1 c.2 = true := by
  by_cases hl : ∃ et, type = .LIST et
  · obtain ⟨et, rfl⟩ := hl
    cases value <;> simp only [DynamicValue.readableAs, Bool.false_eq_true] at h
    simp only [dynamicChildren, List.mem_map]
    rintro c ⟨e, he, rfl⟩
    exact readableList_mem _ _ h e he
  · by_cases hs : ∃ id nm, type = .STRUCT id nm
    · obtain ⟨id, nm, rfl⟩ := hs
      cases value <;> simp only [DynamicValue.readableAs, Bool.false_eq_true] at h
      simp only [dynamicChildren]
      exact readableFields_mem _ h
    · rw [dynamicChildren_plain type value (fun et he => hl ⟨et, he⟩)
        (fun id nm he => hs ⟨id, nm, he⟩)]
      intro c hc
      cases hc

/-- C33. With recording hooks that all return continue, `traverse_dynamic_value`
on a value that can be read as its type returns `false` and records the entry
hook of the value, then the calls of the traversal of its child values, then
the exit hook of the value. The child values are: for a list value of a list
type every element in order, traversed with the element type; for a struct
value every field that is present, in field order, traversed with the field's
type; none for every other type, for which the entry hook and the exit hook are
all that is recorded. Every child value can be read as its type, so that its
traversal returns in the same way: the recursion ends on every value. -/
theorem C33_dynamic_value_recursion (schema : SchemaInfo) (type : SchemaType)
    (value : DynamicValue) (h : DynamicValue.readableAs type value = true) :
    Runs (traverse_dynamic_value continueHooks schema type value) false
      (Event.pre .DYNAMIC_VALUE (.type type) ::
        (dynamicChildren type value).flatMap (fun c =>
          events (traverse_dynamic_value continueHooks schema c.1 c.2)) ++
        [Event.post .DYNAMIC_VALUE (.type type)]) ∧
    (∀ c ∈ dynamicChildren type value, DynamicValue.readableAs c.1 c.2 = true ∧
      Runs (traverse_dynamic_value continueHooks schema c.1 c.2) false
        (events (traverse_dynamic_value continueHooks schema c.1 c.2))) ∧
    ((∀ et, type ≠ .LIST et) → (∀ id nm, type ≠ .STRUCT id nm) →
      Runs (traverse_dynamic_value continueHooks schema type value) false
        [Event.pre .DYNAMIC_VALUE (.type type), Event.post .DYNAMIC_VALUE (.type type)]) := by
  refine ⟨?_, ?_, ?_⟩
  · apply traverse_dynamic_value_runs
    rw [(traverse_dynamic_value_readable schema).1 type value h]
    rfl
  · intro c hc
    have hr := dynamicChildren_readable type value h c hc
    refine ⟨hr, ((traverse_dynamic_value_sim schema).1 c.1 c.2).runs_events ?_⟩
    rw [(traverse_dynamic_value_readable schema).1 c.1 c.2 hr]
    rfl
  · intro hl hs
    exact (traverse_dynamic_value_plain schema type value hl hs).runs

/-- Witness of C33: the example value of the type `List(Pair)`, two struct
values of which the first has a list field present. -/
theorem C33_dynamic_value_recursion_witness :
    DynamicValue.readableAs (.LIST (.STRUCT 1 "Pair")) examplePairs = true ∧
    Runs (traverse_dynamic_value continueHooks ⟨1, 0, "pair.capnp:Pair", "Pair"⟩
      (.LIST (.STRUCT 1 "Pair")) examplePairs) false
      [Event.pre .DYNAMIC_VALUE (.type (.LIST (.STRUCT 1 "Pair"))),
        Event.pre .DYNAMIC_VALUE (.type (.STRUCT 1 "Pair")),
        Event.pre .DYNAMIC_VALUE (.type .INT32),
        Event.post .DYNAMIC_VALUE (.type .INT32),
        Event.pre .DYNAMIC_VALUE (.type (.LIST .INT32)),
        Event.pre .DYNAMIC_VALUE (.type .INT32),
        Event.post .DYNAMIC_VALUE (.type .INT32),
        Event.post .DYNAMIC_VALUE (.type (.LIST .INT32)),
        Event.post .DYNAMIC_VALUE (.type (.STRUCT 1 "Pair")),
        Event.pre .DYNAMIC_VALUE (.type (.STRUCT 1 "Pair")),
        Event.pre .DYNAMIC_VALUE (.type .TEXT),
        Event.post .DYNAMIC_VALUE (.type .TEXT),
        Event.post .DYNAMIC_VALUE (.type (.STRUCT 1 "Pair")),
        Event.post .DYNAMIC_VALUE (.type (.LIST (.STRUCT 1 "Pair")))] := by
  have hr : DynamicValue.readableAs (.LIST (.STRUCT 1 "Pair")) examplePairs = true := by
    simp only [examplePairs, DynamicValue.readableAs, readableList, readableFields]
    decide
  have h := (C33_dynamic_value_recursion ⟨1, 0, "pair.capnp:Pair", "Pair"⟩
    (.LIST (.STRUCT 1 "Pair")) examplePairs hr).1
  have e : (dynamicChildren (.LIST (.STRUCT 1 "Pair")) examplePairs).flatMap (fun c =>
      events (traverse_dynamic_value continueHooks ⟨1, 0, "pair.capnp:Pair", "Pair"⟩
        c.1 c.2)) =
      [Event.pre .DYNAMIC_VALUE (.type (.STRUCT 1 "Pair")),
        Event.pre .DYNAMIC_VALUE (.type .INT32),
        Event.post .DYNAMIC_VALUE (.type .INT32),
        Event.pre .DYNAMIC_VALUE (.type (.LIST .INT32)),
        Event.pre .DYNAMIC_VALUE (.type .INT32),
        Event.post .DYNAMIC_VALUE (.type .INT32),
        Event.post .DYNAMIC_VALUE (.type (.LIST .INT32)),
        Event.post .DYNAMIC_VALUE (.type (.STRUCT 1 "Pair")),
        Event.pre .DYNAMIC_VALUE (.type (.STRUCT 1 "Pair")),
        Event.pre .DYNAMIC_VALUE (.type .TEXT),
        Event.post .DYNAMIC_VALUE (.type .TEXT),
        Event.post .DYNAMIC_VALUE (.type (.STRUCT 1 "Pair"))] := by
    simp only [examplePairs, dynamicChildren, events, continueHooks, logHooks,
      traverse_dynamic_value, traverse_dynamic_list, traverse_dynamic_fields, List.map_cons,
      List.map_nil, List.flatMap_cons, List.flatMap_nil]
    decide!
  rw [e] at h
  exact ⟨hr, h⟩

/-! ## The entry hooks of the builder -/

/-- What the state after an attachment holds: the open node has the new node as
its new last child, the new node refers back to it and is the open node, and
no other node changed. -/
theorem CapnpcParquet.attached_spec (g : CapnpcParquet) (p : Nat) (P element : ASTNode)
    (hP : g.heap.get p = some P) :
    ((g.attached p P element).heap.get p).map (fun n => n.children_) =
      some (P.children_ ++ [g.heap.length]) ∧
    ((g.attached p P element).heap.get g.heap.length).map (fun n => n.parent_) =
      some (some p) ∧
    (g.attached p P element).openNode = some g.heap.length ∧
    (g.attached p P element).heap.length = g.heap.length + 1 ∧
    (∀ x, x ≠ p → x < g.heap.length →
      (g.attached p P element).heap.get x = g.heap.get x) := by
  have hp : p < g.heap.length := by
    unfold Heap.get at hP
    exact (List.getElem?_eq_some_iff.1 hP).1
  have hlen : (g.heap.set p (P.push_back_child g.heap.length)).length = g.heap.length :=
    List.length_set _ _ _
  refine ⟨?_, ?_, rfl, ?_, ?_⟩
  · simp only [CapnpcParquet.attached, Heap.get]
    rw [List.getElem?_append_left (by rw [hlen]; exact hp), List.getElem?_set_self hp]
    rfl
  · simp only [CapnpcParquet.attached, Heap.get]
    rw [List.getElem?_append_right (by rw [hlen]), hlen, Nat.sub_self]
    rfl
  · simp only [CapnpcParquet.attached, List.length_append, hlen, List.length_singleton]
  · intro x hx hxl
    simp only [CapnpcParquet.attached, Heap.get]
    rw [List.getElem?_append_left (by rw [hlen]; exact hxl), List.getElem?_set_ne (Ne.symm hx)]

/-- C34. In a state `g` of the builder whose open node is `p` (`currentParent_`,
or the root `document_` when `currentParent_` is null), each entry hook that
creates a node (declaration, enumerant, struct field, applied annotation,
value, type) returns `false` in the state in which the new node is attached:
it is the new last child of `p`, its parent back-reference is `p`, and it is
the open node. For a list type the hook reaches that state, then traverses the
element type from it and returns `true` in the state the element traversal
leaves. The node of `pre_visit_decl` is marked as a declaration and has a
source category exactly for a struct, an enum and an interface. -/
theorem C34_entry_hooks_attach (g : CapnpcParquet) (p : Nat) (P : ASTNode)
    (ho : g.openNode = some p) (hP : g.heap.get p = some P) :
    (∀ schema : Schema, ∃ element : ASTNode,
      CapnpcParquet.pre_visit_decl schema g = some (false, g.attached p P element) ∧
      element.is_decl = true ∧ element.name_ = schema.info.shortDisplayName ∧
      element.node_id_ = schema.info.id ∧ element.scope_id_ = schema.info.scopeId ∧
      (match schema with
        | .STRUCT .. => element.node_type_ = .STRUCT ∧ element.is_capnp_type = true ∧
            element.capnp_type_ = .STRUCT
        | .ENUM .. => element.node_type_ = .ENUM ∧ element.is_capnp_type = true ∧
            element.capnp_type_ = .ENUM
        | .INTERFACE .. => element.node_type_ = .INTERFACE ∧ element.is_capnp_type = true ∧
            element.capnp_type_ = .INTERFACE
        | .FILE .. => element.node_type_ = .FILE ∧ element.is_capnp_type = false
        | .CONST .. => element.node_type_ = .CONST ∧ element.is_capnp_type = false
        | .ANNOTATION .. => element.node_type_ = .ANNOTATION ∧
            element.is_capnp_type = false)) ∧
    (∀ (schema : Schema) (enumerant : Enumerant), ∃ element : ASTNode,
      CapnpcParquet.pre_visit_enumerant schema enumerant g =
        some (false, g.attached p P element) ∧
      element.node_type_ = .ENUMERANT ∧ element.name_ = enumerant.name) ∧
    (∀ (schema : StructSchema) (field : Field), ∃ element : ASTNode,
      CapnpcParquet.pre_visit_struct_field schema field g =
        some (false, g.attached p P element) ∧
      element.node_type_ = .FIELD ∧ element.name_ = field.proto.name) ∧
    (∀ (ann : AnnotationReader) (schema : SchemaInfo), ∃ element : ASTNode,
      CapnpcParquet.pre_visit_annotation ann schema g =
        some (false, g.attached p P element) ∧
      element.node_type_ = .ANNOTATION ∧ element.name_ = ann.declName) ∧
    (∀ (schema : SchemaInfo) (type : SchemaType) (value : DynamicValue) (element : ASTNode),
      CapnpcParquet.setDynamicValue (ASTNode.new .VALUE schema.shortDisplayName) type.which
        value = some element →
      CapnpcParquet.pre_visit_dynamic_value schema type value g =
        some (false, g.attached p P (element.setCapnpType type.which))) ∧
    (∀ (schema : SchemaInfo) (type : SchemaType) (traverseElement : Step CapnpcParquet Bool),
      ∃ element : ASTNode, element.node_type_ = .TYPE ∧
        element.name_ = CapnpcParquet.typeNodeName type.which ∧
        ((∀ elementType, type ≠ .LIST elementType) →
          CapnpcParquet.pre_visit_type schema type traverseElement g =
            some (false, g.attached p P element)) ∧
        (∀ elementType, type = .LIST elementType →
          CapnpcParquet.pre_visit_type schema type traverseElement g =
            (traverseElement (g.attached p P element)).map (fun r => (true, r.2)))) ∧
    (∀ element : ASTNode,
      ((g.attached p P element).heap.get p).map (fun n => n.children_) =
        some (P.children_ ++ [g.heap.length]) ∧
      ((g.attached p P element).heap.get g.heap.length).map (fun n => n.parent_) =
        some (some p) ∧
      (g.attached p P element).openNode = some g.heap.length ∧
      (g.attached p P element).heap.length = g.heap.length + 1 ∧
      (∀ x, x ≠ p → x < g.heap.length →
        (g.attached p P element).heap.get x = g.heap.get x)) := by
  refine ⟨?_, ?_, ?_, ?_, ?_, ?_, fun element => CapnpcParquet.attached_spec g p P element hP⟩
  · intro schema
    cases schema with
    | FILE info anns nodes =>
      refine ⟨(((ASTNode.new .FILE info.shortDisplayName).setNodeId info.id).setScopeId
        info.scopeId).setIsDecl, ?_, rfl, rfl, rfl, rfl, rfl, rfl⟩
      simp only [CapnpcParquet.pre_visit_decl, Step.bind_run,
        CapnpcParquet.attach_head g p P _ ho hP, Option.some_bind, Step.pure_apply]
      rfl
    | CONST info anns nodes t v =>
      refine ⟨(((ASTNode.new .CONST info.shortDisplayName).setNodeId info.id).setScopeId
        info.scopeId).setIsDecl, ?_, rfl, rfl, rfl, rfl, rfl, rfl⟩
      simp only [CapnpcParquet.pre_visit_decl, Step.bind_run,
        CapnpcParquet.attach_head g p P _ ho hP, Option.some_bind, Step.pure_apply]
      rfl
    | ANNOTATION info anns nodes t tg =>
      refine ⟨(((ASTNode.new .ANNOTATION info.shortDisplayName).setNodeId info.id).setScopeId
        info.scopeId).setIsDecl, ?_, rfl, rfl, rfl, rfl, rfl, rfl⟩
      simp only [CapnpcParquet.pre_visit_decl, Step.bind_run,
        CapnpcParquet.attach_head g p P _ ho hP, Option.some_bind, Step.pure_apply]
      rfl
    | STRUCT info anns nodes u f =>
      refine ⟨((((ASTNode.new .STRUCT info.shortDisplayName).setNodeId info.id).setScopeId
        info.scopeId).setIsDecl).setCapnpType .STRUCT, ?_, rfl, rfl, rfl, rfl, rfl, rfl, rfl⟩
      simp only [CapnpcParquet.pre_visit_decl, Step.bind_run,
        CapnpcParquet.attach_head g p P _ ho hP, Option.some_bind, Step.pure_apply]
      rfl
    | ENUM info anns nodes e =>
      refine ⟨((((ASTNode.new .ENUM info.shortDisplayName).setNodeId info.id).setScopeId
        info.scopeId).setIsDecl).setCapnpType .ENUM, ?_, rfl, rfl, rfl, rfl, rfl, rfl, rfl⟩
      simp only [CapnpcParquet.pre_visit_decl, Step.bind_run,
        CapnpcParquet.attach_head g p P _ ho hP, Option.some_bind, Step.pure_apply]
      rfl
    | INTERFACE info anns nodes m =>
      refine ⟨((((ASTNode.new .INTERFACE info.shortDisplayName).setNodeId info.id).setScopeId
        info.scopeId).setIsDecl).setCapnpType .INTERFACE, ?_, rfl, rfl, rfl, rfl, rfl, rfl,
        rfl⟩
      simp only [CapnpcParquet.pre_visit_decl, Step.bind_run,
        CapnpcParquet.attach_head g p P _ ho hP, Option.some_bind, Step.pure_apply]
      rfl
  · intro schema enumerant
    refine ⟨(ASTNode.new .ENUMERANT enumerant.name).setOrdinal enumerant.ordinal, ?_, rfl, rfl⟩
    simp only [CapnpcParquet.pre_visit_enumerant, Step.bind_run,
      CapnpcParquet.attach_head g p P _ ho hP, Option.some_bind, Step.pure_apply]
    rfl
  · intro schema field
    cases hord : field.proto.ordinal with
    | none =>
      refine ⟨ASTNode.new .FIELD field.proto.name, ?_, rfl, rfl⟩
      simp only [CapnpcParquet.pre_visit_struct_field, hord, Step.bind_run,
        CapnpcParquet.attach_head g p P _ ho hP, Option.some_bind, Step.pure_apply]
      rfl
    | some ord =>
      refine ⟨(ASTNode.new .FIELD field.proto.name).setOrdinal ord, ?_, rfl, rfl⟩
      simp only [CapnpcParquet.pre_visit_struct_field, hord, Step.bind_run,
        CapnpcParquet.attach_head g p P _ ho hP, Option.some_bind, Step.pure_apply]
      rfl
  · intro ann schema
    refine ⟨(ASTNode.new .ANNOTATION ann.declName).setNodeId ann.id, ?_, rfl, rfl⟩
    simp only [CapnpcParquet.pre_visit_annotation, Step.bind_run,
      CapnpcParquet.attach_head g p P _ ho hP, Option.some_bind, Step.pure_apply]
    rfl
  · intro schema type value element he
    simp only [CapnpcParquet.pre_visit_dynamic_value, Step.bind_run, he, Step.lift_some,
      CapnpcParquet.attach_head g p P _ ho hP, Option.some_bind, Step.pure_apply]
    rfl
  · intro schema type traverseElement
    refine ⟨(match type with
        | .ENUM typeId name =>
          ((ASTNode.new .TYPE (CapnpcParquet.typeNodeName type.which)).setTypeId
            typeId).setTypeName name
        | .STRUCT typeId name =>
          ((ASTNode.new .TYPE (CapnpcParquet.typeNodeName type.which)).setTypeId
            typeId).setTypeName name
        | .INTERFACE typeId name =>
          ((ASTNode.new .TYPE (CapnpcParquet.typeNodeName type.which)).setTypeId
            typeId).setTypeName name
        | .ANY_POINTER unconstrained =>
          if unconstrained then
            (ASTNode.new .TYPE (CapnpcParquet.typeNodeName type.which)).setIsUnconstrained
          else ASTNode.new .TYPE (CapnpcParquet.typeNodeName type.which)
        | _ => ASTNode.new .TYPE (CapnpcParquet.typeNodeName type.which)).setCapnpType
          type.which, ?_, ?_, ?_, ?_⟩
    · cases type <;> first | rfl | (rename_i u; cases u <;> rfl)
    · cases type <;> first | rfl | (rename_i u; cases u <;> rfl)
    · intro hnl
      cases type <;> first
        | exact (hnl _ rfl).elim
        | (simp only [CapnpcParquet.pre_visit_type, Step.bind_run,
            CapnpcParquet.attach_head g p P _ ho hP, Option.some_bind, Step.pure_apply]
           rfl)
    · intro elementType he
      subst he
      simp only [CapnpcParquet.pre_visit_type, Step.bind_run,
        CapnpcParquet.attach_head g p P _ ho hP, Option.some_bind, Step.pure_apply]
      show (traverseElement (g.attached p P _)).bind _ = _
      generalize traverseElement (g.attached p P _) = r
      cases r <;> rfl

/-- Witness of C34: with no node open, the entry hook of the declaration `Point`
attaches its node under the root. -/
theorem C34_entry_hooks_attach_witness :
    exampleRootOnly.openNode = some 0 ∧
    exampleRootOnly.heap.get 0 = some (ASTNode.new .FILE "shape.capnp") ∧
    ∃ element : ASTNode,
      CapnpcParquet.pre_visit_decl (examplePoint 100) exampleRootOnly =
        some (false, exampleRootOnly.attached 0 (ASTNode.new .FILE "shape.capnp") element) ∧
      element.is_decl = true ∧ element.name_ = "Point" :=
  ⟨rfl, rfl,
    ((C34_entry_hooks_attach exampleRootOnly 0 (ASTNode.new .FILE "shape.capnp") rfl rfl).1
      (examplePoint 100)).imp (fun _ h => ⟨h.1, h.2.1, h.2.2.1⟩)⟩

/-! ## The tree of AST nodes: `addChild` and `removeChild` -/

theorem Heap.backReferencesOk_iff (h : Heap) :
    h.backReferencesOk ↔ ∀ p P, h.get p = some P → ∀ c ∈ P.children_,
      (h.get c).map (fun n => n.parent_) = some (some p) := by
  unfold Heap.backReferencesOk
  constructor
  · intro hb p P hP c hc
    have hp : p < h.length := by
      unfold Heap.get at hP
      exact (List.getElem?_eq_some_iff.1 hP).1
    exact hb p (List.mem_range.2 hp) c (by rw [hP]; exact hc)
  · intro hb p _ c hc
    cases hP : h.get p with
    | none => rw [hP] at hc; cases hc
    | some P =>
      rw [hP] at hc
      exact hb p P hP c hc

theorem Heap.isChild_false (h : Heap) (c : Nat) (hc : h.isChild c = false) :
    ∀ p P, h.get p = some P → c ∉ P.children_ := by
  intro p P hP hmem
  have hPm : P ∈ h := by
    unfold Heap.get at hP
    exact List.mem_iff_getElem?.2 ⟨p, hP⟩
  have : h.isChild c = true := by
    unfold Heap.isChild
    rw [List.any_eq_true]
    exact ⟨P, hPm, by simpa using hmem⟩
  rw [hc] at this
  cases this

theorem Heap.get_update (h h1 : Heap) (p : Nat) (f : ASTNode → ASTNode)
    (hu : h.update p f = some h1) :
    ∃ P, h.get p = some P ∧ h1 = h.set p (f P) := by
  unfold Heap.update at hu
  cases hP : h[p]? with
  | none => rw [hP] at hu; cases hu
  | some P =>
    rw [hP] at hu
    exact ⟨P, hP, (Option.some.inj hu).symm⟩

theorem Heap.get_set (h : Heap) (p x : Nat) (N : ASTNode) :
    Heap.get (h.set p N) x = if p = x then (h.get x).map (fun _ => N) else h.get x := by
  unfold Heap.get
  rw [List.getElem?_set]
  by_cases hpx : p = x
  · subst hpx
    simp only [if_true]
    by_cases hl : p < h.length
    · simp [hl]
    · simp [hl, List.getElem?_eq_none (Nat.le_of_not_lt hl)]
  · simp [hpx]

/-- What `addChild` with a non-null child does to the heap. -/
theorem Heap.addChild_spec (h h1 : Heap) (p c : Nat) (ha : h.addChild p c = some h1) :
    ∃ P C, h.get p = some P ∧ h.get c = some C ∧ h1.length = h.length ∧
      (h1.get p).map (fun n => n.children_) = some (P.children_ ++ [c]) ∧
      (h1.get c).map (fun n => n.parent_) = some (some p) ∧
      (∀ x, x ≠ p → (h1.get x).map (fun n => n.children_) =
        (h.get x).map (fun n => n.children_)) ∧
      (∀ x, x ≠ c → (h1.get x).map (fun n => n.parent_) =
        (h.get x).map (fun n => n.parent_)) := by
  unfold Heap.addChild at ha
  cases hu1 : h.update c (fun c => c.setParent (some p)) with
  | none => rw [hu1] at ha; cases ha
  | some h0 =>
    rw [hu1] at ha
    simp only [Option.bind_eq_bind, Option.some_bind] at ha
    obtain ⟨C, hC, rfl⟩ := Heap.get_update _ _ _ _ hu1
    obtain ⟨P0, hP0, rfl⟩ := Heap.get_update _ _ _ _ ha
    rw [Heap.get_set] at hP0
    have hcl : c < h.length := by
      unfold Heap.get at hC
      exact (List.getElem?_eq_some_iff.1 hC).1
    by_cases hcp : c = p
    · subst hcp
      rw [if_pos rfl, hC] at hP0
      have hP0' : P0 = C.setParent (some c) := (Option.some.inj hP0).symm
      subst hP0'
      refine ⟨C, C, hC, hC, by simp, ?_, ?_, ?_, ?_⟩
      · rw [Heap.get_set, if_pos rfl, Heap.get_set, if_pos rfl, hC]; rfl
      · rw [Heap.get_set, if_pos rfl, Heap.get_set, if_pos rfl, hC]; rfl
      · intro x hx
        rw [Heap.get_set, if_neg (Ne.symm hx), Heap.get_set, if_neg (Ne.symm hx)]
      · intro x hx
        rw [Heap.get_set, if_neg (Ne.symm hx), Heap.get_set, if_neg (Ne.symm hx)]
    · rw [if_neg hcp] at hP0
      refine ⟨P0, C, hP0, hC, by simp, ?_, ?_, ?_, ?_⟩
      · rw [Heap.get_set, if_pos rfl, Heap.get_set, if_neg hcp, hP0]; rfl
      · rw [Heap.get_set, if_neg (Ne.symm hcp), Heap.get_set, if_pos rfl, hC]; rfl
      · intro x hx
        rw [Heap.get_set, if_neg (Ne.symm hx), Heap.get_set]
        by_cases hcx : c = x
        · subst hcx; rw [if_pos rfl, hC]; rfl
        · rw [if_neg hcx]
      · intro x hx
        rw [Heap.get_set]
        by_cases hpx : p = x
        · subst hpx
          rw [if_pos rfl, Heap.get_set, if_neg hcp, hP0]; rfl
        · rw [if_neg hpx, Heap.get_set, if_neg (Ne.symm hx)]

/-- What `removeChild` does to the heap. -/
theorem Heap.removeChild_spec (h h1 : Heap) (p i : Nat) (hr : h.removeChild p i = some h1) :
    ∃ P, h.get p = some P ∧ h1.length = h.length ∧
      (h1.get p).map (fun n => n.children_) =
        some (if i < P.children_.length then P.children_.take i ++ P.children_.drop (i + 1)
          else P.children_) ∧
      (∀ x, x ≠ p → h1.get x = h.get x) ∧
      (∀ x, (h1.get x).map (fun n => n.parent_) = (h.get x).map (fun n => n.parent_)) := by
  unfold Heap.removeChild at hr
  obtain ⟨P, hP, rfl⟩ := Heap.get_update _ _ _ _ hr
  refine ⟨P, hP, by simp, ?_, ?_, ?_⟩
  · rw [Heap.get_set, if_pos rfl, hP]
    unfold ASTNode.erase_child
    by_cases hi : i < P.children_.length
    · simp only [hi, if_true, Option.map_some', List.eraseIdx_eq_take_drop_succ]
    · simp only [hi, if_false, Option.map_some']
  · intro x hx
    rw [Heap.get_set, if_neg (Ne.symm hx)]
  · intro x
    rw [Heap.get_set]
    by_cases hpx : p = x
    · subst hpx
      rw [if_pos rfl, hP]
      unfold ASTNode.erase_child
      by_cases hi : i < P.children_.length
      · simp only [hi, if_true, Option.map_some']
      · simp only [hi, if_false, Option.map_some']
    · rw [if_neg hpx]

theorem Heap.singles_backReferencesOk (h : Heap) (hs : h.singles) : h.backReferencesOk := by
  rw [Heap.backReferencesOk_iff]
  intro p P hP c hc
  have hPm : P ∈ h := by
    unfold Heap.get at hP
    exact List.mem_iff_getElem?.2 ⟨p, hP⟩
  rw [(hs P hPm).1] at hc
  cases hc

/-- The back-references stay right when a node that is in no child list is
added as a child. -/
theorem Heap.addChild_backReferencesOk (h h1 : Heap) (p c : Nat) (hb : h.backReferencesOk)
    (hf : h.isChild c = false) (ha : h.addChild p c = some h1) : h1.backReferencesOk := by
  rw [Heap.backReferencesOk_iff] at hb ⊢
  obtain ⟨P, C, hP, hC, _, hch, hpar, hoc, hop⟩ := Heap.addChild_spec h h1 p c ha
  have hfresh := Heap.isChild_false h c hf
  intro q Q1 hQ1 x hx
  by_cases hqp : q = p
  · subst hqp
    rw [hQ1] at hch
    have e : Q1.children_ = P.children_ ++ [c] := Option.some.inj hch
    rw [e, List.mem_append, List.mem_singleton] at hx
    rcases hx with hx | rfl
    · have hxc : x ≠ c := fun hxc => hfresh q P hP (hxc ▸ hx)
      rw [hop x hxc]
      exact hb q P hP x hx
    · exact hpar
  · have e := hoc q hqp
    rw [hQ1] at e
    cases hQ : h.get q with
    | none => rw [hQ] at e; cases e
    | some Q =>
      rw [hQ] at e
      have e1 : Q1.children_ = Q.children_ := Option.some.inj e
      rw [e1] at hx
      have hxc : x ≠ c := fun hxc => hfresh q Q hQ (hxc ▸ hx)
      rw [hop x hxc]
      exact hb q Q hQ x hx

/-- The back-references stay right when a child is removed. -/
theorem Heap.removeChild_backReferencesOk (h h1 : Heap) (p i : Nat) (hb : h.backReferencesOk)
    (hr : h.removeChild p i = some h1) : h1.backReferencesOk := by
  rw [Heap.backReferencesOk_iff] at hb ⊢
  obtain ⟨P, hP, _, hch, hoth, hpar⟩ := Heap.removeChild_spec h h1 p i hr
  intro q Q1 hQ1 x hx
  rw [hpar x]
  by_cases hqp : q = p
  · subst hqp
    rw [hQ1] at hch
    have e : Q1.children_ = _ := Option.some.inj hch
    rw [e] at hx
    refine hb q P hP x ?_
    by_cases hi : i < P.children_.length
    · rw [if_pos hi, List.mem_append] at hx
      rcases hx with hx | hx
      · exact List.mem_of_mem_take hx
      · exact List.mem_of_mem_drop hx
    · rw [if_neg hi] at hx
      exact hx
  · rw [hoth q hqp] at hQ1
    exact hb q Q1 hQ1 x hx

/-- The back-references stay right along a sequence of calls that add only
nodes that are in no child list. -/
theorem Heap.calls_backReferencesOk (calls : List TreeCall) (h h1 : Heap)
    (hb : h.backReferencesOk) (hf : h.addsFreshChildren calls = true)
    (hc : h.calls calls = some h1) : h1.backReferencesOk := by
  induction calls generalizing h with
  | nil =>
    unfold Heap.calls at hc
    exact Option.some.inj hc ▸ hb
  | cons call rest ih =>
    unfold Heap.calls at hc
    cases h2 : h.call call with
    | none => rw [h2] at hc; cases hc
    | some h0 =>
      rw [h2] at hc
      simp only [Option.some_bind] at hc
      cases call with
      | addChild p child =>
        cases child with
        | none =>
          have e : h0 = h := (Option.some.inj h2).symm
          subst e
          have hf2 : Heap.addsFreshChildren h0 rest = true := by
            rw [Heap.addsFreshChildren] at hf
            · rw [h2] at hf; exact hf
            · intro parent c hcall; cases hcall
          exact ih h0 hb hf2 hc
        | some c =>
          have h2a : h.addChild p c = some h0 := h2
          rw [Heap.addsFreshChildren, h2a, Bool.and_eq_true, Bool.not_eq_true'] at hf
          exact ih h0 (Heap.addChild_backReferencesOk h h0 p c hb hf.1 h2a) hf.2 hc
      | removeChild p i =>
        have hf2 : Heap.addsFreshChildren h0 rest = true := by
          rw [Heap.addsFreshChildren] at hf
          · rw [h2] at hf; exact hf
          · intro parent c hcall; cases hcall
        exact ih h0 (Heap.removeChild_backReferencesOk h h0 p i hb h2) hf2 hc

/-- C35, counterexample: from three single nodes, `A->addChild(c)` followed by
`B->addChild(c)`: both calls return, the child list of `A` (node 0) still holds
`c` (node 2), but the parent back-reference of `c` is `B` (node 1). -/
theorem C35_second_parent_breaks_back_reference :
    exampleSingles.singles ∧
    (exampleSingles.calls [.addChild 0 (some 2), .addChild 1 (some 2)]).map (fun h =>
      ((h.get 0).map (fun n => n.children_), (h.get 2).map (fun n => n.parent_),
        decide h.backReferencesOk)) = some (some [2], some (some 1), false) := by
  decide

/-- C35, amended: starting from single nodes, every sequence of `addChild` and
`removeChild` calls in which each added child is, at the time of the call, in
the child list of no node keeps the property that each child's parent
back-reference is the node whose child list contains it. `addChild(c)` with a
non-null `c` returns, appends `c` as the last child, sets its back-reference
and leaves every other child list as it is; with a null `c` it changes nothing.
`removeChild(i)` returns; with `i < num_children` it removes exactly the child
at index `i` and keeps the order of the others, with `i >= num_children` it
changes nothing; no other node changes. -/
theorem C35_tree_calls (h : Heap) :
    (∀ calls h1, h.singles → h.addsFreshChildren calls = true → h.calls calls = some h1 →
      h1.backReferencesOk) ∧
    (∀ p c P, h.get p = some P → c < h.length →
      ∃ h1, h.addChildPtr p (some c) = some h1 ∧
        (h1.get p).map (fun n => n.children_) = some (P.children_ ++ [c]) ∧
        (h1.get c).map (fun n => n.parent_) = some (some p) ∧
        ∀ x, x ≠ p → (h1.get x).map (fun n => n.children_) =
          (h.get x).map (fun n => n.children_)) ∧
    (∀ p, h.addChildPtr p none = some h) ∧
    (∀ p i P, h.get p = some P →
      ∃ h1, h.removeChild p i = some h1 ∧
        (h1.get p).map (fun n => n.children_) =
          some (if i < P.children_.length then
            P.children_.take i ++ P.children_.drop (i + 1) else P.children_) ∧
        ∀ x, x ≠ p → h1.get x = h.get x) := by
  refine ⟨?_, ?_, fun _ => rfl, ?_⟩
  · intro calls h1 hs hf hc
    exact Heap.calls_backReferencesOk calls h h1 (Heap.singles_backReferencesOk h hs) hf hc
  · intro p c P hP hc
    have hC : ∃ C, h.get c = some C := by
      unfold Heap.get
      exact ⟨h[c], List.getElem?_eq_getElem hc⟩
    obtain ⟨C, hC⟩ := hC
    have h1 : ∃ h1, h.addChild p c = some h1 := by
      unfold Heap.addChild Heap.update
      unfold Heap.get at hC hP
      simp only [hC, Option.bind_eq_bind, Option.some_bind]
      have hp : p < h.length := (List.getElem?_eq_some_iff.1 hP).1
      have : ∃ X, (h.set c (C.setParent (some p)))[p]? = some X :=
        ⟨_, List.getElem?_eq_getElem (by rw [List.length_set]; exact hp)⟩
      obtain ⟨X, hX⟩ := this
      rw [hX]
      exact ⟨_, rfl⟩
    obtain ⟨h1, ha⟩ := h1
    obtain ⟨P2, C2, hP2, _, _, hch, hpar, hoc, _⟩ := Heap.addChild_spec h h1 p c ha
    rw [hP] at hP2
    have e : P = P2 := Option.some.inj hP2
    subst e
    exact ⟨h1, ha, hch, hpar, hoc⟩
  · intro p i P hP
    have h1 : ∃ h1, h.removeChild p i = some h1 := by
      unfold Heap.removeChild Heap.update
      unfold Heap.get at hP
      rw [hP]
      exact ⟨_, rfl⟩
    obtain ⟨h1, hr⟩ := h1
    obtain ⟨P2, hP2, _, hch, hoth, _⟩ := Heap.removeChild_spec h h1 p i hr
    rw [hP] at hP2
    have e : P = P2 := Option.some.inj hP2
    subst e
    exact ⟨h1, hr, hch, hoth⟩

/-! ## The composite node that the flattening builds -/

/-- C36. The search of the flattening for the field `i` (the node `ci`, with the
TYPE child `t`) among the children `pre ++ d :: post` of the element, where `d`
is the first declaration with the category and the name of the type and has the
group `dn` as its target node: the search returns, and the field gets a fresh
group as its target node whose name is `convertCamelCase` of the field's name,
whose repetition kind and logical tag are those of the target node of the
declaration, whatever the field's own are, and whose fields are the fields of
the target node of the declaration in their order; no other node changes. -/
theorem C36_flattened_field_node (h : Heap) (i t d : Nat) (pre post : List Nat)
    (ci D tn : ASTNode) (dn nm : String) (rep : Repetition) (fs : List ParquetNode)
    (lt : LogicalType)
    (hi : h.get i = some ci) (hnm : convertCamelCase ci.name_ = some nm)
    (hpre : h.no_decl_match (some t) pre)
    (hd : h.get d = some D) (hD : D.is_decl = true) (ht : h.get t = some tn)
    (hm : D.capnp_type_ = tn.capnp_type_ ∧ D.name_ = tn.type_name_)
    (hDn : D.node_ = some (.group dn rep fs lt)) :
    ∃ h1 made, flattenSearch h i (some t) (pre ++ d :: post) = some (h1, some D.node_id_) ∧
      h1.get i = some (ci.setNode (some made)) ∧
      made.is_group = true ∧ made.name = nm ∧ made.repetition = rep ∧
      made.logical_type = lt ∧ made.group_fields = some fs ∧
      (∀ x, x ≠ i → h1.get x = h.get x) := by
  refine ⟨h.set i (ci.setNode (some (.group nm rep fs lt))), .group nm rep fs lt, ?_,
    Heap.get_set_self h i ci _ hi, rfl, rfl, rfl, rfl, rfl,
    fun x hx => Heap.get_set_ne h i x _ (Ne.symm hx)⟩
  rw [flattenSearch_hit h i t d pre post D tn hpre hd hD ht hm, hDn]
  simp only [Option.some_bind, ParquetNode.group_fields, ParquetNode.repetition,
    ParquetNode.logical_type, hi, hnm, Heap.update_of_get h i _ ci hi]

/-- Witness of C36: in the example heap the field `origin` (node 2, required)
refers to the declaration `Point` (node 1), whose target node is the optional
group `point(x,y)`: the field gets the optional group `origin(x,y)`, and the
exit hook of `Shape` builds `shape(origin(x,y))` from it. -/
theorem C36_flattened_field_node_witness :
    (exampleRequiredHeap.get 2).map (fun n => (n.name_, n.repetition_type_)) =
      some ("origin", .REQUIRED) ∧
    (∃ h1 made, flattenSearch exampleRequiredHeap 2 (some 3) ([] ++ 1 :: [2]) =
        some (h1, some 101) ∧
      h1.get 2 = some ((exampleOriginField.setIsRequired).setNode (some made)) ∧
      made.is_group = true ∧ made.name = "origin" ∧ made.repetition = .OPTIONAL ∧
      made.logical_type = .NONE ∧
      made.group_fields = some [.primitive "x" .OPTIONAL .INT32 .INT_32 (-1) (-1) (-1),
        .primitive "y" .OPTIONAL .INT32 .INT_32 (-1) (-1) (-1)]) ∧
    ((buildParquetNode exampleRequiredHeap 0).bind (fun h => h.get 0)).map (fun n =>
      n.node_.map ParquetNode.outline) = some (some "shape(origin(x,y))") :=
  ⟨by decide!,
    (C36_flattened_field_node exampleRequiredHeap 2 3 1 [] [2] _ examplePointDecl
      exampleOriginType "point" "origin" .OPTIONAL _ .NONE rfl (by decide!)
      (fun j hj => by cases hj) rfl rfl rfl ⟨rfl, rfl⟩ rfl).imp
      (fun _ hx => hx.imp (fun _ hy => ⟨hy.1, hy.2.1, hy.2.2.1, hy.2.2.2.1, hy.2.2.2.2.1,
        hy.2.2.2.2.2.1, hy.2.2.2.2.2.2.1⟩)),
    by decide!⟩

/-! ## The type lookup of the flattening on a group field -/

/-- With a null `type`, the search of the flattening does not return as soon as
it meets a declaration among the children: the test of the declaration reads
the TYPE node. -/
theorem flattenSearch_null_type (h : Heap) (i j : Nat) (js : List Nat) (cj : ASTNode)
    (hj : h.get j = some cj) (hd : cj.is_decl = true) :
    flattenSearch h i none (j :: js) = none := by
  simp only [flattenSearch, hj, Option.bind_eq_bind, Option.some_bind, hd, if_true,
    Option.none_bind]

/-- C37: the search of the flattening reads a missing TYPE node. The pass on the
example file `struct Person { struct Tag {} address :group { street @0 :Text; } }`,
stopped before the exit hook of `Person` (node 1): the children of `Person` are
the declaration `Tag` (node 2), which has a target node, and the group field
`address` (node 3), a FIELD node with a target node whose only child is the
field `street`; the type lookup on `address` finds no TYPE child (a null
`type`), the search then compares the declaration `Tag` against it, and
`buildParquetNode` on `Person`, hence the whole pass, does not return. Without
the nested declaration the pass returns and `Person` gets the target node
`person(address)`. In general the search with a null `type` does not return
when the first child is a declaration. -/
theorem C37_group_field_type_lookup :
    ((CapnpcParquet.pre_visit_file (exampleGroupFile [exampleTag]) exampleRequest >>= fun _ =>
        CapnpcParquet.pre_visit_decl (exampleGroupStruct [exampleTag]) >>= fun _ =>
        traverse_decl CapnpcParquet.hooks (exampleGroupStruct [exampleTag])) {}).map
      (fun r => (r.2.openNode, r.2.heap.map (fun n => n.name_))) =
      some (some 1, ["shape.capnp", "Person", "Tag", "address", "street", "text"]) ∧
    ((CapnpcParquet.pre_visit_file (exampleGroupFile [exampleTag]) exampleRequest >>= fun _ =>
        CapnpcParquet.pre_visit_decl (exampleGroupStruct [exampleTag]) >>= fun _ =>
        traverse_decl CapnpcParquet.hooks (exampleGroupStruct [exampleTag])) {}).map
      (fun r => r.2.heap.map (fun n => (n.node_type_, n.is_decl, n.children_))) =
      some [(.FILE, false, [1]), (.STRUCT, true, [2, 3]), (.STRUCT, true, []),
        (.FIELD, false, [4]), (.FIELD, false, [5]), (.TYPE, false, [])] ∧
    ((CapnpcParquet.pre_visit_file (exampleGroupFile [exampleTag]) exampleRequest >>= fun _ =>
        CapnpcParquet.pre_visit_decl (exampleGroupStruct [exampleTag]) >>= fun _ =>
        traverse_decl CapnpcParquet.hooks (exampleGroupStruct [exampleTag])) {}).map
      (fun r => r.2.heap.map (fun n => n.node_.map ParquetNode.outline)) =
      some [none, none, some "tag()", some "address", some "street", some "text"] ∧
    ((CapnpcParquet.pre_visit_file (exampleGroupFile [exampleTag]) exampleRequest >>= fun _ =>
        CapnpcParquet.pre_visit_decl (exampleGroupStruct [exampleTag]) >>= fun _ =>
        traverse_decl CapnpcParquet.hooks (exampleGroupStruct [exampleTag])) {}).map
      (fun r => (r.2.heap.get 3).bind (fun n => findTypeChild r.2.heap n)) =
      some (some none) ∧
    ((CapnpcParquet.pre_visit_file (exampleGroupFile [exampleTag]) exampleRequest >>= fun _ =>
        CapnpcParquet.pre_visit_decl (exampleGroupStruct [exampleTag]) >>= fun _ =>
        traverse_decl CapnpcParquet.hooks (exampleGroupStruct [exampleTag])) {}).map
      (fun r => ((flattenSearch r.2.heap 3 none [2, 3]).isSome,
        (buildParquetNode r.2.heap 1).isSome)) =
      some (false, false) ∧
    (traverse_file CapnpcParquet.hooks (exampleGroupFile [exampleTag]) exampleRequest
      {}).isSome = false ∧
    (traverse_file CapnpcParquet.hooks (exampleGroupFile []) exampleRequest {}).map
      (fun r => (r.2.heap.get 1).map (fun n => (n.name_, n.node_.map ParquetNode.outline))) =
      some (some ("Person", some "person(address)")) ∧
    (∀ (h : Heap) (i j : Nat) (js : List Nat) (cj : ASTNode), h.get j = some cj →
      cj.is_decl = true → flattenSearch h i none (j :: js) = none) := by
  refine ⟨?_, ?_, ?_, ?_, ?_, ?_, ?_, flattenSearch_null_type⟩
  · simp only [exampleGroupFile, exampleGroupStruct, exampleTag, traverse_file,
      traverse_imports, traverse_imports_loop, traverse_nested_decls, nested_decls_of,
      traverse_nested_decls_loop, traverse_decl, traverse_struct_fields,
      traverse_struct_field_list, traverse_struct_field, traverse_annotations,
      traverse_annotations_loop,  traverse_annotation, traverse_value,
      traverse_dynamic_value, traverse_type, CapnpcParquet.hooks, exampleRequest,
      List.length_cons, List.length_nil, Schema.info, Schema.annotations, StructSchema.info,
      Field.proto]
    decide!
  · simp only [exampleGroupFile, exampleGroupStruct, exampleTag, traverse_file,
      traverse_imports, traverse_imports_loop, traverse_nested_decls, nested_decls_of,
      traverse_nested_decls_loop, traverse_decl, traverse_struct_fields,
      traverse_struct_field_list, traverse_struct_field, traverse_annotations,
      traverse_annotations_loop,  traverse_annotation, traverse_value,
      traverse_dynamic_value, traverse_type, CapnpcParquet.hooks, exampleRequest,
      List.length_cons, List.length_nil, Schema.info, Schema.annotations, StructSchema.info,
      Field.proto]
    decide!
  · simp only [exampleGroupFile, exampleGroupStruct, exampleTag, traverse_file,
      traverse_imports, traverse_imports_loop, traverse_nested_decls, nested_decls_of,
      traverse_nested_decls_loop, traverse_decl, traverse_struct_fields,
      traverse_struct_field_list, traverse_struct_field, traverse_annotations,
      traverse_annotations_loop,  traverse_annotation, traverse_value,
      traverse_dynamic_value, traverse_type, CapnpcParquet.hooks, exampleRequest,
      List.length_cons, List.length_nil, Schema.info, Schema.annotations, StructSchema.info,
      Field.proto]
    decide!
  · simp only [exampleGroupFile, exampleGroupStruct, exampleTag, traverse_file,
      traverse_imports, traverse_imports_loop, traverse_nested_decls, nested_decls_of,
      traverse_nested_decls_loop, traverse_decl, traverse_struct_fields,
      traverse_struct_field_list, traverse_struct_field, traverse_annotations,
      traverse_annotations_loop,  traverse_annotation, traverse_value,
      traverse_dynamic_value, traverse_type, CapnpcParquet.hooks, exampleRequest,
      List.length_cons, List.length_nil, Schema.info, Schema.annotations, StructSchema.info,
      Field.proto]
    decide!
  · simp only [exampleGroupFile, exampleGroupStruct, exampleTag, traverse_file,
      traverse_imports, traverse_imports_loop, traverse_nested_decls, nested_decls_of,
      traverse_nested_decls_loop, traverse_decl, traverse_struct_fields,
      traverse_struct_field_list, traverse_struct_field, traverse_annotations,
      traverse_annotations_loop,  traverse_annotation, traverse_value,
      traverse_dynamic_value, traverse_type, CapnpcParquet.hooks, exampleRequest,
      List.length_cons, List.length_nil, Schema.info, Schema.annotations, StructSchema.info,
      Field.proto]
    decide!
  · simp only [exampleGroupFile, exampleGroupStruct, exampleTag, traverse_file,
      traverse_imports, traverse_imports_loop, traverse_nested_decls, nested_decls_of,
      traverse_nested_decls_loop, traverse_decl, traverse_struct_fields,
      traverse_struct_field_list, traverse_struct_field, traverse_annotations,
      traverse_annotations_loop,  traverse_annotation, traverse_value,
      traverse_dynamic_value, traverse_type, CapnpcParquet.hooks, exampleRequest,
      List.length_cons, List.length_nil, Schema.info, Schema.annotations, StructSchema.info,
      Field.proto]
    decide!
  · simp only [exampleGroupFile, exampleGroupStruct, exampleTag, traverse_file,
      traverse_imports, traverse_imports_loop, traverse_nested_decls, nested_decls_of,
      traverse_nested_decls_loop, traverse_decl, traverse_struct_fields,
      traverse_struct_field_list, traverse_struct_field, traverse_annotations,
      traverse_annotations_loop,  traverse_annotation, traverse_value,
      traverse_dynamic_value, traverse_type, CapnpcParquet.hooks, exampleRequest,
      List.length_cons, List.length_nil, Schema.info, Schema.annotations, StructSchema.info,
      Field.proto]
    decide!

/-! ## What `applyAnnotations` writes -/

/-- A monadic fold over `Option` returns when every step on an element of the
list returns. -/
theorem foldlM_isSome {α β : Type} (f : β → α → Option β) (l : List α)
    (hf : ∀ x ∈ l, ∀ acc, (f acc x).isSome = true) (init : β) :
    (l.foldlM f init).isSome = true := by
  induction l generalizing init with
  | nil => rfl
  | cons x rest ih =>
    rw [List.foldlM_cons]
    obtain ⟨r, hr⟩ := Option.isSome_iff_exists.1 (hf x (List.mem_cons_self _ _) init)
    rw [hr]
    exact ih (fun y hy => hf y (List.mem_cons_of_mem _ hy)) r

/-- The readers `getAnnotationValueI32` and `getAnnotationValueTEXT` return
on an annotation node whose children are in the heap. -/
theorem getAnnotationValue_total (h : Heap) (c : Nat) (child : ASTNode)
    (hc : h.get c = some child)
    (hg : ∀ gc ∈ child.children_, (h.get gc).isSome = true) :
    (∃ v, getAnnotationValueI32 h c = some v) ∧ ∃ s, getAnnotationValueTEXT h c = some s := by
  constructor
  · apply Option.isSome_iff_exists.1
    unfold getAnnotationValueI32
    simp only [hc, Option.bind_eq_bind, Option.some_bind]
    apply foldlM_isSome
    intro gc hgc acc
    obtain ⟨g, hg1⟩ := Option.isSome_iff_exists.1 (hg gc hgc)
    simp only [hg1, Option.some_bind]
    split <;> rfl
  · apply Option.isSome_iff_exists.1
    unfold getAnnotationValueTEXT
    simp only [hc, Option.bind_eq_bind, Option.some_bind]
    apply foldlM_isSome
    intro gc hgc acc
    obtain ⟨g, hg1⟩ := Option.isSome_iff_exists.1 (hg gc hgc)
    simp only [hg1, Option.some_bind]
    split
    · split <;> rfl
    · rfl

/-- The loop body of `applyAnnotations` on an applied annotation child with a
recognized name, by what it writes: the heap after the step is the heap
before it with the node replaced by the node with one value and its is-set
bit, or one is-set bit, written. -/
theorem applyAnnotationsStep_effect (q : Nat) (h0 : Heap) (c : Nat) (child n0 : ASTNode)
    (hq : h0.get q = some n0) (hc : h0.get c = some child)
    (hd : child.is_decl = false) (hn : child.node_type_ = .ANNOTATION) :
    (child.name_ = "schema" → ∀ v, getAnnotationValueTEXT h0 c = some v →
      applyAnnotationsStep q h0 c = some (h0.set q
        { n0 with schema_name_ := v, isset := { n0.isset with schema_name := true } })) ∧
    (child.name_ = "required" → applyAnnotationsStep q h0 c = some (h0.set q
      { n0 with repetition_type_ := .REQUIRED,
                isset := { n0.isset with repetition_type := true } })) ∧
    (child.name_ = "optional" → applyAnnotationsStep q h0 c = some (h0.set q
      { n0 with repetition_type_ := .OPTIONAL,
                isset := { n0.isset with repetition_type := true } })) ∧
    (child.name_ = "repeated" → applyAnnotationsStep q h0 c = some (h0.set q
      { n0 with repetition_type_ := .REPEATED,
                isset := { n0.isset with repetition_type := true } })) ∧
    (child.name_ = "length" → ∀ v, getAnnotationValueI32 h0 c = some v →
      applyAnnotationsStep q h0 c = some (h0.set q
        { n0 with type_length_ := v, isset := { n0.isset with type_length := true } })) ∧
    (child.name_ = "scale" → ∀ v, getAnnotationValueI32 h0 c = some v →
      applyAnnotationsStep q h0 c = some (h0.set q
        { n0 with scale_ := v, isset := { n0.isset with scale := true } })) ∧
    (child.name_ = "precision" → ∀ v, getAnnotationValueI32 h0 c = some v →
      applyAnnotationsStep q h0 c = some (h0.set q
        { n0 with precision_ := v, isset := { n0.isset with precision := true } })) ∧
    (child.name_ = "decimal" → applyAnnotationsStep q h0 c = some (h0.set q
      { n0 with isset := { n0.isset with decimal := true } })) ∧
    (child.name_ = "date" → applyAnnotationsStep q h0 c = some (h0.set q
      { n0 with isset := { n0.isset with date := true } })) ∧
    (child.name_ = "timeMillis" → applyAnnotationsStep q h0 c = some (h0.set q
      { n0 with isset := { n0.isset with time_millis := true } })) ∧
    (child.name_ = "timeMicros" → applyAnnotationsStep q h0 c = some (h0.set q
      { n0 with isset := { n0.isset with time_micros := true } })) ∧
    (child.name_ = "timestampMillis" → applyAnnotationsStep q h0 c = some (h0.set q
      { n0 with isset := { n0.isset with timestamp_millis := true } })) ∧
    (child.name_ = "timestampMicros" → applyAnnotationsStep q h0 c = some (h0.set q
      { n0 with isset := { n0.isset with timestamp_micros := true } })) ∧
    (child.name_ = "bson" → applyAnnotationsStep q h0 c = some (h0.set q
      { n0 with isset := { n0.isset with bson := true } })) ∧
    (child.name_ = "json" → applyAnnotationsStep q h0 c = some (h0.set q
      { n0 with isset := { n0.isset with json := true } })) ∧
    (child.name_ = "interval" → applyAnnotationsStep q h0 c = some (h0.set q
      { n0 with isset := { n0.isset with interval := true } })) ∧
    (child.name_ = "fixed" → applyAnnotationsStep q h0 c = some (h0.set q
      { n0 with isset := { n0.isset with fixed_len_byte_array := true } })) ∧
    (child.name_ = "map" → applyAnnotationsStep q h0 c = some (h0.set q
      { n0 with isset := { n0.isset with map := true } })) ∧
    (child.name_ = "mapKeyValue" → applyAnnotationsStep q h0 c = some (h0.set q
      { n0 with isset := { n0.isset with map_key_value := true } })) ∧
    (child.name_ = "list" → applyAnnotationsStep q h0 c = some (h0.set q
      { n0 with isset := { n0.isset with list := true } })) := by
  obtain ⟨r1, r2, r3, r4, r5, r6, r7, r8, r9, r10, r11, r12, r13, r14, r15, r16, r17, r18,
    r19, r20⟩ := applyAnnotationsStep_recognized q h0 c child hc hd hn
  refine ⟨?_, ?_, ?_, ?_, ?_, ?_, ?_, ?_, ?_, ?_, ?_, ?_, ?_, ?_, ?_, ?_, ?_, ?_, ?_, ?_⟩
  · intro hname v hv
    rw [r1 hname, hv]
    exact Heap.update_of_get h0 q _ n0 hq
  · exact fun hname => (r2 hname).trans (Heap.update_of_get h0 q _ n0 hq)
  · exact fun hname => (r3 hname).trans (Heap.update_of_get h0 q _ n0 hq)
  · exact fun hname => (r4 hname).trans (Heap.update_of_get h0 q _ n0 hq)
  · intro hname v hv
    rw [r5 hname, hv]
    exact Heap.update_of_get h0 q _ n0 hq
  · intro hname v hv
    rw [r6 hname, hv]
    exact Heap.update_of_get h0 q _ n0 hq
  · intro hname v hv
    rw [r7 hname, hv]
    exact Heap.update_of_get h0 q _ n0 hq
  · exact fun hname => (r8 hname).trans (Heap.update_of_get h0 q _ n0 hq)
  · exact fun hname => (r9 hname).trans (Heap.update_of_get h0 q _ n0 hq)
  · exact fun hname => (r10 hname).trans (Heap.update_of_get h0 q _ n0 hq)
  · exact fun hname => (r11 hname).trans (Heap.update_of_get h0 q _ n0 hq)
  · exact fun hname => (r12 hname).trans (Heap.update_of_get h0 q _ n0 hq)
  · exact fun hname => (r13 hname).trans (Heap.update_of_get h0 q _ n0 hq)
  · exact fun hname => (r14 hname).trans (Heap.update_of_get h0 q _ n0 hq)
  · exact fun hname => (r15 hname).trans (Heap.update_of_get h0 q _ n0 hq)
  · exact fun hname => (r16 hname).trans (Heap.update_of_get h0 q _ n0 hq)
  · exact fun hname => (r17 hname).trans (Heap.update_of_get h0 q _ n0 hq)
  · exact fun hname => (r18 hname).trans (Heap.update_of_get h0 q _ n0 hq)
  · exact fun hname => (r19 hname).trans (Heap.update_of_get h0 q _ n0 hq)
  · exact fun hname => (r20 hname).trans (Heap.update_of_get h0 q _ n0 hq)

theorem ASTNode.flags_within_refl (a : ASTNode) : a.flags_within a :=
  ⟨id, id, id, id, id, id, id, id, id, id, id, id, id, id, id, id, id, id⟩

theorem ASTNode.flags_within_trans {a b c : ASTNode} (h1 : a.flags_within b)
    (h2 : b.flags_within c) : a.flags_within c := by
  unfold ASTNode.flags_within at *
  obtain ⟨a1, a2, a3, a4, a5, a6, a7, a8, a9, a10, a11, a12, a13, a14, a15, a16, a17,
    a18⟩ := h1
  obtain ⟨b1, b2, b3, b4, b5, b6, b7, b8, b9, b10, b11, b12, b13, b14, b15, b16, b17,
    b18⟩ := h2
  exact ⟨b1 ∘ a1, b2 ∘ a2, b3 ∘ a3, b4 ∘ a4, b5 ∘ a5, b6 ∘ a6, b7 ∘ a7, b8 ∘ a8, b9 ∘ a9,
    b10 ∘ a10, b11 ∘ a11, b12 ∘ a12, b13 ∘ a13, b14 ∘ a14, b15 ∘ a15, b16 ∘ a16, b17 ∘ a17,
    b18 ∘ a18⟩

/-- A flag that stands for an annotation name and is set on a node is set on
every node that has the flags of that node. -/
theorem ASTNode.has_annotation_flag_mono {a b : ASTNode} (hw : a.flags_within b)
    (name : String) (ha : a.has_annotation_flag name = true) :
    b.has_annotation_flag name = true := by
  unfold ASTNode.flags_within at hw
  obtain ⟨a1, a2, a3, a4, a5, a6, a7, a8, a9, a10, a11, a12, a13, a14, a15, a16, a17,
    a18⟩ := hw
  unfold ASTNode.has_annotation_flag at ha ⊢
  by_cases c1 : name = "schema"
  · rw [if_pos c1] at ha ⊢
    exact a1 ha
  rw [if_neg c1] at ha ⊢
  by_cases c2 : name = "required" ∨ name = "optional" ∨ name = "repeated"
  · rw [if_pos c2] at ha ⊢
    exact a2 ha
  rw [if_neg c2] at ha ⊢
  by_cases c3 : name = "length"
  · rw [if_pos c3] at ha ⊢
    exact a3 ha
  rw [if_neg c3] at ha ⊢
  by_cases c4 : name = "scale"
  · rw [if_pos c4] at ha ⊢
    exact a4 ha
  rw [if_neg c4] at ha ⊢
  by_cases c5 : name = "precision"
  · rw [if_pos c5] at ha ⊢
    exact a5 ha
  rw [if_neg c5] at ha ⊢
  by_cases c6 : name = "decimal"
  · rw [if_pos c6] at ha ⊢
    exact a6 ha
  rw [if_neg c6] at ha ⊢
  by_cases c7 : name = "date"
  · rw [if_pos c7] at ha ⊢
    exact a7 ha
  rw [if_neg c7] at ha ⊢
  by_cases c8 : name = "timeMillis"
  · rw [if_pos c8] at ha ⊢
    exact a8 ha
  rw [if_neg c8] at ha ⊢
  by_cases c9 : name = "timeMicros"
  · rw [if_pos c9] at ha ⊢
    exact a9 ha
  rw [if_neg c9] at ha ⊢
  by_cases c10 : name = "timestampMillis"
  · rw [if_pos c10] at ha ⊢
    exact a10 ha
  rw [if_neg c10] at ha ⊢
  by_cases c11 : name = "timestampMicros"
  · rw [if_pos c11] at ha ⊢
    exact a11 ha
  rw [if_neg c11] at ha ⊢
  by_cases c12 : name = "bson"
  · rw [if_pos c12] at ha ⊢
    exact a12 ha
  rw [if_neg c12] at ha ⊢
  by_cases c13 : name = "json"
  · rw [if_pos c13] at ha ⊢
    exact a13 ha
  rw [if_neg c13] at ha ⊢
  by_cases c14 : name = "interval"
  · rw [if_pos c14] at ha ⊢
    exact a14 ha
  rw [if_neg c14] at ha ⊢
  by_cases c15 : name = "fixed"
  · rw [if_pos c15] at ha ⊢
    exact a15 ha
  rw [if_neg c15] at ha ⊢
  by_cases c16 : name = "map"
  · rw [if_pos c16] at ha ⊢
    exact a16 ha
  rw [if_neg c16] at ha ⊢
  by_cases c17 : name = "mapKeyValue"
  · rw [if_pos c17] at ha ⊢
    exact a17 ha
  rw [if_neg c17] at ha ⊢
  by_cases c18 : name = "list"
  · rw [if_pos c18] at ha ⊢
    exact a18 ha
  rw [if_neg c18] at ha ⊢

/-- The loop body of `applyAnnotations` returns on a child that is in the
heap together with its own children: the heap changes at the node only, the
node keeps its identity and the flags it has, and on an applied annotation the
flag that stands for its name is set afterwards. -/
theorem applyAnnotationsStep_total (q : Nat) (h0 : Heap) (c : Nat) (child n0 : ASTNode)
    (hq : h0.get q = some n0) (hc : h0.get c = some child)
    (hg : ∀ gc ∈ child.children_, (h0.get gc).isSome = true) :
    ∃ n1, applyAnnotationsStep q h0 c = some (h0.set q n1) ∧ n1.same_identity n0 ∧
      n0.flags_within n1 ∧
      (child.is_decl = false → child.node_type_ = .ANNOTATION →
        n1.has_annotation_flag child.name_ = true) := by
  have hsame : h0.set q n0 = h0 := Heap.set_get_self h0 q n0 hq
  by_cases hd : child.is_decl = false
  swap
  · refine ⟨n0, ?_, ASTNode.same_identity_refl n0, ASTNode.flags_within_refl n0,
      fun hd2 => absurd hd2 hd⟩
    rw [hsame]
    exact applyAnnotationsStep_other q h0 c child hc (Or.inl (by simpa using hd))
  by_cases hn : child.node_type_ = .ANNOTATION
  swap
  · refine ⟨n0, ?_, ASTNode.same_identity_refl n0, ASTNode.flags_within_refl n0,
      fun _ hn2 => absurd hn2 hn⟩
    rw [hsame]
    exact applyAnnotationsStep_other q h0 c child hc (Or.inr hn)
  by_cases hname : child.name_ ∈ recognizedAnnotations
  swap
  · refine ⟨n0, ?_, ASTNode.same_identity_refl n0, ASTNode.flags_within_refl n0, fun _ _ => ?_⟩
    · rw [hsame]
      exact applyAnnotationsStep_unrecognized q h0 c child hc hname
    · simp only [recognizedAnnotations, List.mem_cons, List.mem_singleton, List.not_mem_nil,
        or_false, not_or] at hname
      obtain ⟨n1, n2, n3, n4, n5, n6, n7, n8, n9, n10, n11, n12, n13, n14, n15, n16, n17, n18,
        n19, n20⟩ := hname
      simp only [ASTNode.has_annotation_flag, n1, n2, n3, n4, n5, n6, n7, n8, n9, n10, n11,
        n12, n13, n14, n15, n16, n17, n18, n19, n20, or_self, if_false]
  obtain ⟨⟨v, hv⟩, ⟨s, hs⟩⟩ := getAnnotationValue_total h0 c child hc hg
  obtain ⟨e1, e2, e3, e4, e5, e6, e7, e8, e9, e10, e11, e12, e13, e14, e15, e16, e17, e18,
    e19, e20⟩ := applyAnnotationsStep_effect q h0 c child n0 hq hc hd hn
  simp only [recognizedAnnotations, List.mem_cons, List.mem_singleton, List.not_mem_nil,
    or_false] at hname
  have fin : ∀ n1 : ASTNode, applyAnnotationsStep q h0 c = some (h0.set q n1) →
      n1.same_identity n0 → n0.flags_within n1 → n1.has_annotation_flag child.name_ = true →
      ∃ n1, applyAnnotationsStep q h0 c = some (h0.set q n1) ∧ n1.same_identity n0 ∧
        n0.flags_within n1 ∧
        (child.is_decl = false → child.node_type_ = .ANNOTATION →
          n1.has_annotation_flag child.name_ = true) :=
    fun n1 a b c d => ⟨n1, a, b, c, fun _ _ => d⟩
  rcases hname with hname | hname | hname | hname | hname | hname | hname | hname | hname |
    hname | hname | hname | hname | hname | hname | hname | hname | hname | hname | hname
  · refine fin _ (e1 hname s hs) ⟨rfl, rfl, rfl, rfl, rfl, rfl, rfl, rfl, rfl, rfl, rfl, rfl, rfl, rfl, rfl⟩ ?_ (by rw [hname]; rfl)
    unfold ASTNode.flags_within
    refine ⟨?_, ?_, ?_, ?_, ?_, ?_, ?_, ?_, ?_, ?_, ?_, ?_, ?_, ?_, ?_, ?_, ?_, ?_⟩ <;>
      intro hx <;> first | exact hx | rfl
  · refine fin _ (e2 hname) ⟨rfl, rfl, rfl, rfl, rfl, rfl, rfl, rfl, rfl, rfl, rfl, rfl, rfl, rfl, rfl⟩ ?_ (by rw [hname]; rfl)
    unfold ASTNode.flags_within
    refine ⟨?_, ?_, ?_, ?_, ?_, ?_, ?_, ?_, ?_, ?_, ?_, ?_, ?_, ?_, ?_, ?_, ?_, ?_⟩ <;>
      intro hx <;> first | exact hx | rfl
  · refine fin _ (e3 hname) ⟨rfl, rfl, rfl, rfl, rfl, rfl, rfl, rfl, rfl, rfl, rfl, rfl, rfl, rfl, rfl⟩ ?_ (by rw [hname]; rfl)
    unfold ASTNode.flags_within
    refine ⟨?_, ?_, ?_, ?_, ?_, ?_, ?_, ?_, ?_, ?_, ?_, ?_, ?_, ?_, ?_, ?_, ?_, ?_⟩ <;>
      intro hx <;> first | exact hx | rfl
  · refine fin _ (e4 hname) ⟨rfl, rfl, rfl, rfl, rfl, rfl, rfl, rfl, rfl, rfl, rfl, rfl, rfl, rfl, rfl⟩ ?_ (by rw [hname]; rfl)
    unfold ASTNode.flags_within
    refine ⟨?_, ?_, ?_, ?_, ?_, ?_, ?_, ?_, ?_, ?_, ?_, ?_, ?_, ?_, ?_, ?_, ?_, ?_⟩ <;>
      intro hx <;> first | exact hx | rfl
  · refine fin _ (e5 hname v hv) ⟨rfl, rfl, rfl, rfl, rfl, rfl, rfl, rfl, rfl, rfl, rfl, rfl, rfl, rfl, rfl⟩ ?_ (by rw [hname]; rfl)
    unfold ASTNode.flags_within
    refine ⟨?_, ?_, ?_, ?_, ?_, ?_, ?_, ?_, ?_, ?_, ?_, ?_, ?_, ?_, ?_, ?_, ?_, ?_⟩ <;>
      intro hx <;> first | exact hx | rfl
  · refine fin _ (e6 hname v hv) ⟨rfl, rfl, rfl, rfl, rfl, rfl, rfl, rfl, rfl, rfl, rfl, rfl, rfl, rfl, rfl⟩ ?_ (by rw [hname]; rfl)
    unfold ASTNode.flags_within
    refine ⟨?_, ?_, ?_, ?_, ?_, ?_, ?_, ?_, ?_, ?_, ?_, ?_, ?_, ?_, ?_, ?_, ?_, ?_⟩ <;>
      intro hx <;> first | exact hx | rfl
  · refine fin _ (e7 hname v hv) ⟨rfl, rfl, rfl, rfl, rfl, rfl, rfl, rfl, rfl, rfl, rfl, rfl, rfl, rfl, rfl⟩ ?_ (by rw [hname]; rfl)
    unfold ASTNode.flags_within
    refine ⟨?_, ?_, ?_, ?_, ?_, ?_, ?_, ?_, ?_, ?_, ?_, ?_, ?_, ?_, ?_, ?_, ?_, ?_⟩ <;>
      intro hx <;> first | exact hx | rfl
  · refine fin _ (e8 hname) ⟨rfl, rfl, rfl, rfl, rfl, rfl, rfl, rfl, rfl, rfl, rfl, rfl, rfl, rfl, rfl⟩ ?_ (by rw [hname]; rfl)
    unfold ASTNode.flags_within
    refine ⟨?_, ?_, ?_, ?_, ?_, ?_, ?_, ?_, ?_, ?_, ?_, ?_, ?_, ?_, ?_, ?_, ?_, ?_⟩ <;>
      intro hx <;> first | exact hx | rfl
  · refine fin _ (e9 hname) ⟨rfl, rfl, rfl, rfl, rfl, rfl, rfl, rfl, rfl, rfl, rfl, rfl, rfl, rfl, rfl⟩ ?_ (by rw [hname]; rfl)
    unfold ASTNode.flags_within
    refine ⟨?_, ?_, ?_, ?_, ?_, ?_, ?_, ?_, ?_, ?_, ?_, ?_, ?_, ?_, ?_, ?_, ?_, ?_⟩ <;>
      intro hx <;> first | exact hx | rfl
  · refine fin _ (e10 hname) ⟨rfl, rfl, rfl, rfl, rfl, rfl, rfl, rfl, rfl, rfl, rfl, rfl, rfl, rfl, rfl⟩ ?_ (by rw [hname]; rfl)
    unfold ASTNode.flags_within
    refine ⟨?_, ?_, ?_, ?_, ?_, ?_, ?_, ?_, ?_, ?_, ?_, ?_, ?_, ?_, ?_, ?_, ?_, ?_⟩ <;>
      intro hx <;> first | exact hx | rfl
  · refine fin _ (e11 hname) ⟨rfl, rfl, rfl, rfl, rfl, rfl, rfl, rfl, rfl, rfl, rfl, rfl, rfl, rfl, rfl⟩ ?_ (by rw [hname]; rfl)
    unfold ASTNode.flags_within
    refine ⟨?_, ?_, ?_, ?_, ?_, ?_, ?_, ?_, ?_, ?_, ?_, ?_, ?_, ?_, ?_, ?_, ?_, ?_⟩ <;>
      intro hx <;> first | exact hx | rfl
  · refine fin _ (e12 hname) ⟨rfl, rfl, rfl, rfl, rfl, rfl, rfl, rfl, rfl, rfl, rfl, rfl, rfl, rfl, rfl⟩ ?_ (by rw [hname]; rfl)
    unfold ASTNode.flags_within
    refine ⟨?_, ?_, ?_, ?_, ?_, ?_, ?_, ?_, ?_, ?_, ?_, ?_, ?_, ?_, ?_, ?_, ?_, ?_⟩ <;>
      intro hx <;> first | exact hx | rfl
  · refine fin _ (e13 hname) ⟨rfl, rfl, rfl, rfl, rfl, rfl, rfl, rfl, rfl, rfl, rfl, rfl, rfl, rfl, rfl⟩ ?_ (by rw [hname]; rfl)
    unfold ASTNode.flags_within
    refine ⟨?_, ?_, ?_, ?_, ?_, ?_, ?_, ?_, ?_, ?_, ?_, ?_, ?_, ?_, ?_, ?_, ?_, ?_⟩ <;>
      intro hx <;> first | exact hx | rfl
  · refine fin _ (e14 hname) ⟨rfl, rfl, rfl, rfl, rfl, rfl, rfl, rfl, rfl, rfl, rfl, rfl, rfl, rfl, rfl⟩ ?_ (by rw [hname]; rfl)
    unfold ASTNode.flags_within
    refine ⟨?_, ?_, ?_, ?_, ?_, ?_, ?_, ?_, ?_, ?_, ?_, ?_, ?_, ?_, ?_, ?_, ?_, ?_⟩ <;>
      intro hx <;> first | exact hx | rfl
  · refine fin _ (e15 hname) ⟨rfl, rfl, rfl, rfl, rfl, rfl, rfl, rfl, rfl, rfl, rfl, rfl, rfl, rfl, rfl⟩ ?_ (by rw [hname]; rfl)
    unfold ASTNode.flags_within
    refine ⟨?_, ?_, ?_, ?_, ?_, ?_, ?_, ?_, ?_, ?_, ?_, ?_, ?_, ?_, ?_, ?_, ?_, ?_⟩ <;>
      intro hx <;> first | exact hx | rfl
  · refine fin _ (e16 hname) ⟨rfl, rfl, rfl, rfl, rfl, rfl, rfl, rfl, rfl, rfl, rfl, rfl, rfl, rfl, rfl⟩ ?_ (by rw [hname]; rfl)
    unfold ASTNode.flags_within
    refine ⟨?_, ?_, ?_, ?_, ?_, ?_, ?_, ?_, ?_, ?_, ?_, ?_, ?_, ?_, ?_, ?_, ?_, ?_⟩ <;>
      intro hx <;> first | exact hx | rfl
  · refine fin _ (e17 hname) ⟨rfl, rfl, rfl, rfl, rfl, rfl, rfl, rfl, rfl, rfl, rfl, rfl, rfl, rfl, rfl⟩ ?_ (by rw [hname]; rfl)
    unfold ASTNode.flags_within
    refine ⟨?_, ?_, ?_, ?_, ?_, ?_, ?_, ?_, ?_, ?_, ?_, ?_, ?_, ?_, ?_, ?_, ?_, ?_⟩ <;>
      intro hx <;> first | exact hx | rfl
  · refine fin _ (e18 hname) ⟨rfl, rfl, rfl, rfl, rfl, rfl, rfl, rfl, rfl, rfl, rfl, rfl, rfl, rfl, rfl⟩ ?_ (by rw [hname]; rfl)
    unfold ASTNode.flags_within
    refine ⟨?_, ?_, ?_, ?_, ?_, ?_, ?_, ?_, ?_, ?_, ?_, ?_, ?_, ?_, ?_, ?_, ?_, ?_⟩ <;>
      intro hx <;> first | exact hx | rfl
  · refine fin _ (e19 hname) ⟨rfl, rfl, rfl, rfl, rfl, rfl, rfl, rfl, rfl, rfl, rfl, rfl, rfl, rfl, rfl⟩ ?_ (by rw [hname]; rfl)
    unfold ASTNode.flags_within
    refine ⟨?_, ?_, ?_, ?_, ?_, ?_, ?_, ?_, ?_, ?_, ?_, ?_, ?_, ?_, ?_, ?_, ?_, ?_⟩ <;>
      intro hx <;> first | exact hx | rfl
  · refine fin _ (e20 hname) ⟨rfl, rfl, rfl, rfl, rfl, rfl, rfl, rfl, rfl, rfl, rfl, rfl, rfl, rfl, rfl⟩ ?_ (by rw [hname]; rfl)
    unfold ASTNode.flags_within
    refine ⟨?_, ?_, ?_, ?_, ?_, ?_, ?_, ?_, ?_, ?_, ?_, ?_, ?_, ?_, ?_, ?_, ?_, ?_⟩ <;>
      intro hx <;> first | exact hx | rfl

/-- The loop of `applyAnnotations` over a list of children that are in the
heap together with their own children, started on the heap with the node
replaced by a node of the same identity: it returns, the heap differs from
the first one at the node only, the node keeps its identity and its flags, and
for every applied annotation in the list the flag that stands for its name is
set at the end. -/
theorem applyAnnotations_fold (q : Nat) (h : Heap) (n : ASTNode) (hn : h.get q = some n)
    (cs : List Nat) :
    ∀ n0 : ASTNode, n0.same_identity n →
    (∀ c ∈ cs, ∃ child, h.get c = some child ∧
      ∀ gc ∈ child.children_, (h.get gc).isSome = true) →
    ∃ n1, cs.foldlM (applyAnnotationsStep q) (h.set q n0) = some (h.set q n1) ∧
      n1.same_identity n ∧ n0.flags_within n1 ∧
      ∀ c ∈ cs, ∀ child, h.get c = some child → child.is_decl = false →
        child.node_type_ = .ANNOTATION → n1.has_annotation_flag child.name_ = true := by
  induction cs with
  | nil =>
    intro n0 hid _
    exact ⟨n0, rfl, hid, ASTNode.flags_within_refl n0, fun c hc => absurd hc (List.not_mem_nil c)⟩
  | cons c rest ih =>
    intro n0 hid hwf
    obtain ⟨child, hc, hg⟩ := hwf c (List.mem_cons_self _ _)
    have hq0 : Heap.get (h.set q n0) q = some n0 := Heap.get_set_self h q n n0 hn
    have hsome : ∀ x, (h.get x).isSome = true → (Heap.get (h.set q n0) x).isSome = true := by
      intro x hx
      obtain ⟨y, hy⟩ := Option.isSome_iff_exists.1 hx
      rw [Heap.get_set, hy]
      split <;> rfl
    obtain ⟨child0, hc0, hid0⟩ : ∃ child0, Heap.get (h.set q n0) c = some child0 ∧
        child0.same_identity child := by
      by_cases hcq : c = q
      · subst hcq
        rw [hn] at hc
        cases hc
        exact ⟨n0, hq0, hid⟩
      · exact ⟨child, by rw [Heap.get_set_ne h q c n0 (Ne.symm hcq)]; exact hc,
          ASTNode.same_identity_refl child⟩
    obtain ⟨i1, i2, i3, _, _, _, _, i8, _⟩ := hid0
    obtain ⟨n1, hs1, hid1, hf1, hflag1⟩ := applyAnnotationsStep_total q (h.set q n0) c child0 n0
      hq0 hc0 (fun gc hgc => hsome gc (hg gc (i3 ▸ hgc)))
    rw [Heap.set_set] at hs1
    obtain ⟨n2, hs2, hid2, hf2, hflag2⟩ := ih n1 (ASTNode.same_identity_trans hid1 hid)
      (fun c2 h2 => hwf c2 (List.mem_cons_of_mem _ h2))
    refine ⟨n2, ?_, hid2, ASTNode.flags_within_trans hf1 hf2, ?_⟩
    · rw [List.foldlM_cons, hs1]
      exact hs2
    · intro c2 hc2 child2 hch2 hd2 hn2
      rcases List.mem_cons.1 hc2 with rfl | hin
      · rw [hc] at hch2
        cases hch2
        apply ASTNode.has_annotation_flag_mono hf2
        rw [← i2]
        exact hflag1 (i8.trans hd2) (i1.trans hn2)
      · exact hflag2 c2 hin child2 hch2 hd2 hn2

/-- C19. `applyAnnotations` is the loop of `applyAnnotationsStep` over the
children, in child order. On a child that is a declaration, or not of the
ANNOTATION category, or whose name is not recognized, the step leaves the heap
as it is; on an applied annotation with a recognized name it applies the
corresponding setter to the node (with the value read from the annotation's
children for `schema`, `length`, `scale` and `precision`). When
`applyAnnotations` returns, the heap differs at the node only, and the node
keeps its category, name, children, target node and parent; when no child is an
applied annotation with a recognized name, the heap is returned unchanged.
What the step writes, for each of the 20 recognized names: the heap after the
step on an applied annotation is the heap before it with the node replaced by
the node with the value and its is-set bit written (`schema`, `length`,
`scale`, `precision`), with the repetition kind and its is-set bit written
(`required`, `optional`, `repeated`), or with the flag of that name set (the
13 other names). When the children of the node and their own children are in
the heap, `applyAnnotations` returns, the heap differs at the node only, the
node keeps the attributes that are not annotation settings, and for every
applied annotation among the children the is-set bit or flag of its name is
set on the node at the end. -/
theorem C19_applyAnnotations_frame (h : Heap) (q : Nat) (n : ASTNode)
    (hn : h.get q = some n) :
    applyAnnotations h q = n.children_.foldlM (applyAnnotationsStep q) h ∧
    (∀ (h0 : Heap) (c : Nat) (child : ASTNode), h0.get c = some child →
      ((child.is_decl = true ∨ child.node_type_ ≠ .ANNOTATION ∨
          child.name_ ∉ recognizedAnnotations) →
        applyAnnotationsStep q h0 c = some h0) ∧
      (child.is_decl = false → child.node_type_ = .ANNOTATION →
        (child.name_ = "schema" → applyAnnotationsStep q h0 c =
          (getAnnotationValueTEXT h0 c).bind
            (fun v => h0.update q (fun n => n.setSchemaName v))) ∧
        (child.name_ = "required" → applyAnnotationsStep q h0 c =
          h0.update q ASTNode.setIsRequired) ∧
        (child.name_ = "optional" → applyAnnotationsStep q h0 c =
          h0.update q ASTNode.setIsOptional) ∧
        (child.name_ = "repeated" → applyAnnotationsStep q h0 c =
          h0.update q ASTNode.setIsRepeated) ∧
        (child.name_ = "length" → applyAnnotationsStep q h0 c =
          (getAnnotationValueI32 h0 c).bind
            (fun v => h0.update q (fun n => n.setTypeLength v))) ∧
        (child.name_ = "scale" → applyAnnotationsStep q h0 c =
          (getAnnotationValueI32 h0 c).bind (fun v => h0.update q (fun n => n.setScale v))) ∧
        (child.name_ = "precision" → applyAnnotationsStep q h0 c =
          (getAnnotationValueI32 h0 c).bind
            (fun v => h0.update q (fun n => n.setPrecision v))) ∧
        (child.name_ = "decimal" → applyAnnotationsStep q h0 c =
          h0.update q ASTNode.setIsDecimal) ∧
        (child.name_ = "date" → applyAnnotationsStep q h0 c =
          h0.update q ASTNode.setIsDate) ∧
        (child.name_ = "timeMillis" → applyAnnotationsStep q h0 c =
          h0.update q ASTNode.setIsTimeMillis) ∧
        (child.name_ = "timeMicros" → applyAnnotationsStep q h0 c =
          h0.update q ASTNode.setIsTimeMicros) ∧
        (child.name_ = "timestampMillis" → applyAnnotationsStep q h0 c =
          h0.update q ASTNode.setIsTimestampMillis) ∧
        (child.name_ = "timestampMicros" → applyAnnotationsStep q h0 c =
          h0.update q ASTNode.setIsTimestampMicros) ∧
        (child.name_ = "bson" → applyAnnotationsStep q h0 c =
          h0.update q ASTNode.setIsBson) ∧
        (child.name_ = "json" → applyAnnotationsStep q h0 c =
          h0.update q ASTNode.setIsJson) ∧
        (child.name_ = "interval" → applyAnnotationsStep q h0 c =
          h0.update q ASTNode.setIsInterval) ∧
        (child.name_ = "fixed" → applyAnnotationsStep q h0 c =
          h0.update q ASTNode.setIsFixedLenByteArray) ∧
        (child.name_ = "map" → applyAnnotationsStep q h0 c =
          h0.update q ASTNode.setIsMap) ∧
        (child.name_ = "mapKeyValue" → applyAnnotationsStep q h0 c =
          h0.update q ASTNode.setIsMapKeyValue) ∧
        (child.name_ = "list" → applyAnnotationsStep q h0 c =
          h0.update q ASTNode.setIsList))) ∧
    (∀ h1, applyAnnotations h q = some h1 →
      (∀ i, i ≠ q → h1.get i = h.get i) ∧
      ∃ n1, h1.get q = some n1 ∧ n1.node_type_ = n.node_type_ ∧ n1.name_ = n.name_ ∧
        n1.children_ = n.children_ ∧ n1.node_ = n.node_ ∧ n1.parent_ = n.parent_) ∧
    ((∀ c ∈ n.children_, ∃ child, h.get c = some child ∧
        (child.is_decl = true ∨ child.node_type_ ≠ .ANNOTATION ∨
          child.name_ ∉ recognizedAnnotations)) →
      applyAnnotations h q = some h) ∧
    (∀ (h0 : Heap) (c : Nat) (child n0 : ASTNode), h0.get q = some n0 →
      h0.get c = some child → child.is_decl = false → child.node_type_ = .ANNOTATION →
      (child.name_ = "schema" → ∀ v, getAnnotationValueTEXT h0 c = some v →
        applyAnnotationsStep q h0 c = some (h0.set q
          { n0 with schema_name_ := v, isset := { n0.isset with schema_name := true } })) ∧
      (child.name_ = "required" → applyAnnotationsStep q h0 c = some (h0.set q
        { n0 with repetition_type_ := .REQUIRED,
                  isset := { n0.isset with repetition_type := true } })) ∧
      (child.name_ = "optional" → applyAnnotationsStep q h0 c = some (h0.set q
        { n0 with repetition_type_ := .OPTIONAL,
                  isset := { n0.isset with repetition_type := true } })) ∧
      (child.name_ = "repeated" → applyAnnotationsStep q h0 c = some (h0.set q
        { n0 with repetition_type_ := .REPEATED,
                  isset := { n0.isset with repetition_type := true } })) ∧
      (child.name_ = "length" → ∀ v, getAnnotationValueI32 h0 c = some v →
        applyAnnotationsStep q h0 c = some (h0.set q
          { n0 with type_length_ := v, isset := { n0.isset with type_length := true } })) ∧
      (child.name_ = "scale" → ∀ v, getAnnotationValueI32 h0 c = some v →
        applyAnnotationsStep q h0 c = some (h0.set q
          { n0 with scale_ := v, isset := { n0.isset with scale := true } })) ∧
      (child.name_ = "precision" → ∀ v, getAnnotationValueI32 h0 c = some v →
        applyAnnotationsStep q h0 c = some (h0.set q
          { n0 with precision_ := v, isset := { n0.isset with precision := true } })) ∧
      (child.name_ = "decimal" → applyAnnotationsStep q h0 c = some (h0.set q
        { n0 with isset := { n0.isset with decimal := true } })) ∧
      (child.name_ = "date" → applyAnnotationsStep q h0 c = some (h0.set q
        { n0 with isset := { n0.isset with date := true } })) ∧
      (child.name_ = "timeMillis" → applyAnnotationsStep q h0 c = some (h0.set q
        { n0 with isset := { n0.isset with time_millis := true } })) ∧
      (child.name_ = "timeMicros" → applyAnnotationsStep q h0 c = some (h0.set q
        { n0 with isset := { n0.isset with time_micros := true } })) ∧
      (child.name_ = "timestampMillis" → applyAnnotationsStep q h0 c = some (h0.set q
        { n0 with isset := { n0.isset with timestamp_millis := true } })) ∧
      (child.name_ = "timestampMicros" → applyAnnotationsStep q h0 c = some (h0.set q
        { n0 with isset := { n0.isset with timestamp_micros := true } })) ∧
      (child.name_ = "bson" → applyAnnotationsStep q h0 c = some (h0.set q
        { n0 with isset := { n0.isset with bson := true } })) ∧
      (child.name_ = "json" → applyAnnotationsStep q h0 c = some (h0.set q
        { n0 with isset := { n0.isset with json := true } })) ∧
      (child.name_ = "interval" → applyAnnotationsStep q h0 c = some (h0.set q
        { n0 with isset := { n0.isset with interval := true } })) ∧
      (child.name_ = "fixed" → applyAnnotationsStep q h0 c = some (h0.set q
        { n0 with isset := { n0.isset with fixed_len_byte_array := true } })) ∧
      (child.name_ = "map" → applyAnnotationsStep q h0 c = some (h0.set q
        { n0 with isset := { n0.isset with map := true } })) ∧
      (child.name_ = "mapKeyValue" → applyAnnotationsStep q h0 c = some (h0.set q
        { n0 with isset := { n0.isset with map_key_value := true } })) ∧
      (child.name_ = "list" → applyAnnotationsStep q h0 c = some (h0.set q
        { n0 with isset := { n0.isset with list := true } }))) ∧
    ((∀ c ∈ n.children_, ∃ child, h.get c = some child ∧
        ∀ gc ∈ child.children_, (h.get gc).isSome = true) →
      ∃ n1, applyAnnotations h q = some (h.set q n1) ∧ n1.same_identity n ∧
        ∀ c ∈ n.children_, ∀ child, h.get c = some child → child.is_decl = false →
          child.node_type_ = .ANNOTATION →
          (child.name_ = "schema" → n1.is_schema_name = true) ∧
          (child.name_ = "required" → n1.isset.repetition_type = true) ∧
          (child.name_ = "optional" → n1.isset.repetition_type = true) ∧
          (child.name_ = "repeated" → n1.isset.repetition_type = true) ∧
          (child.name_ = "length" → n1.is_type_length = true) ∧
          (child.name_ = "scale" → n1.isset.scale = true) ∧
          (child.name_ = "precision" → n1.isset.precision = true) ∧
          (child.name_ = "decimal" → n1.is_decimal = true) ∧
          (child.name_ = "date" → n1.is_date = true) ∧
          (child.name_ = "timeMillis" → n1.is_time_millis = true) ∧
          (child.name_ = "timeMicros" → n1.is_time_micros = true) ∧
          (child.name_ = "timestampMillis" → n1.is_timestamp_millis = true) ∧
          (child.name_ = "timestampMicros" → n1.is_timestamp_micros = true) ∧
          (child.name_ = "bson" → n1.is_bson = true) ∧
          (child.name_ = "json" → n1.is_json = true) ∧
          (child.name_ = "interval" → n1.is_interval = true) ∧
          (child.name_ = "fixed" → n1.is_fixed_len_byte_array = true) ∧
          (child.name_ = "map" → n1.is_map = true) ∧
          (child.name_ = "mapKeyValue" → n1.is_map_key_value = true) ∧
          (child.name_ = "list" → n1.is_list = true)) := by
  have hloop : applyAnnotations h q = n.children_.foldlM (applyAnnotationsStep q) h := by
    unfold applyAnnotations
    rw [hn]
    rfl
  have hskip : ∀ (h0 : Heap) (c : Nat) (child : ASTNode), h0.get c = some child →
      (child.is_decl = true ∨ child.node_type_ ≠ .ANNOTATION ∨
          child.name_ ∉ recognizedAnnotations) →
        applyAnnotationsStep q h0 c = some h0 := by
    intro h0 c child hc hx
    rcases hx with hd | hn | hname
    · exact applyAnnotationsStep_other q h0 c child hc (Or.inl hd)
    · exact applyAnnotationsStep_other q h0 c child hc (Or.inr hn)
    · exact applyAnnotationsStep_unrecognized q h0 c child hc hname
  refine ⟨hloop, ?_, ?_, ?_, ?_, ?_⟩
  · intro h0 c child hc
    exact ⟨hskip h0 c child hc, applyAnnotationsStep_recognized q h0 c child hc⟩
  · intro h1 ha
    obtain ⟨n1, rfl, hs⟩ := applyAnnotations_frame h h1 q n hn ha
    unfold ASTNode.same_identity at hs
    refine ⟨?_, n1, Heap.get_set_self h q n n1 hn, hs.1, hs.2.1, hs.2.2.1, hs.2.2.2.1,
      hs.2.2.2.2.1⟩
    intro i hi
    unfold Heap.get
    rw [List.getElem?_set_ne (Ne.symm hi)]
  · intro hall
    rw [hloop]
    have fold : ∀ cs : List Nat, (∀ c ∈ cs, ∃ child, h.get c = some child ∧
        (child.is_decl = true ∨ child.node_type_ ≠ .ANNOTATION ∨
          child.name_ ∉ recognizedAnnotations)) →
        cs.foldlM (applyAnnotationsStep q) h = some h := by
      intro cs
      induction cs with
      | nil => intro _; rfl
      | cons c rest ih =>
        intro hcs
        obtain ⟨child, hc, hx⟩ := hcs c (List.mem_cons_self _ _)
        rw [List.foldlM_cons, hskip h c child hc hx]
        exact ih (fun c2 h2 => hcs c2 (List.mem_cons_of_mem _ h2))
    exact fold n.children_ hall
  · intro h0 c child n0 hq hc hd hnn
    exact applyAnnotationsStep_effect q h0 c child n0 hq hc hd hnn
  · intro hwf
    obtain ⟨n1, hs, hid, _, hflag⟩ := applyAnnotations_fold q h n hn n.children_ n
      (ASTNode.same_identity_refl n) hwf
    rw [Heap.set_get_self h q n hn] at hs
    refine ⟨n1, hloop.trans hs, hid, ?_⟩
    intro c hc child hch hd hnn
    have hf := hflag c hc child hch hd hnn
    refine ⟨?_, ?_, ?_, ?_, ?_, ?_, ?_, ?_, ?_, ?_, ?_, ?_, ?_, ?_, ?_, ?_, ?_, ?_, ?_, ?_⟩ <;>
    · intro hname
      rw [hname] at hf
      exact hf

/-- Witness of C19: the example field `amount` in its example heap. The step
on the annotation `decimal` sets the flag, the step on `precision` writes the
value 20 read from the VALUE child and its is-set bit, the step on `remark`
leaves the heap as it is, and the whole loop returns with both settings on the
node. -/
theorem C19_applyAnnotations_frame_witness :
    exampleAmountHeap.get 0 = some exampleAmountField ∧
    applyAnnotations exampleAmountHeap 0 =
      exampleAmountField.children_.foldlM (applyAnnotationsStep 0) exampleAmountHeap ∧
    (∀ h1, applyAnnotations exampleAmountHeap 0 = some h1 →
      (∀ i, i ≠ 0 → h1.get i = exampleAmountHeap.get i) ∧
      ∃ n1, h1.get 0 = some n1 ∧ n1.node_type_ = exampleAmountField.node_type_ ∧
        n1.name_ = exampleAmountField.name_ ∧
        n1.children_ = exampleAmountField.children_ ∧
        n1.node_ = exampleAmountField.node_ ∧
        n1.parent_ = exampleAmountField.parent_) ∧
    applyAnnotationsStep 0 exampleAmountHeap 1 = some (exampleAmountHeap.set 0
      { exampleAmountField with isset := { exampleAmountField.isset with decimal := true } }) ∧
    applyAnnotationsStep 0 exampleAmountHeap 2 = some (exampleAmountHeap.set 0
      { exampleAmountField with
        precision_ := 20, isset := { exampleAmountField.isset with precision := true } }) ∧
    applyAnnotationsStep 0 exampleAmountHeap 4 = some exampleAmountHeap ∧
    (∃ n1, applyAnnotations exampleAmountHeap 0 = some (exampleAmountHeap.set 0 n1) ∧
      n1.is_decimal = true ∧ n1.isset.precision = true) ∧
    ((applyAnnotations exampleAmountHeap 0).bind (fun h1 => h1.get 0)).map
      (fun n1 => (n1.is_decimal, n1.precision_, n1.isset.precision)) = some (true, 20, true) :=
  ⟨rfl, (C19_applyAnnotations_frame exampleAmountHeap 0 exampleAmountField rfl).1,
    (C19_applyAnnotations_frame exampleAmountHeap 0 exampleAmountField rfl).2.2.1,
    ((C19_applyAnnotations_frame exampleAmountHeap 0 exampleAmountField rfl).2.2.2.2.1
      exampleAmountHeap 1 _ exampleAmountField rfl rfl rfl rfl).2.2.2.2.2.2.2.1 rfl,
    ((C19_applyAnnotations_frame exampleAmountHeap 0 exampleAmountField rfl).2.2.2.2.1
      exampleAmountHeap 2 _ exampleAmountField rfl rfl rfl rfl).2.2.2.2.2.2.1 rfl 20 rfl,
    ((C19_applyAnnotations_frame exampleAmountHeap 0 exampleAmountField rfl).2.1
      exampleAmountHeap 4 _ rfl).1 (Or.inr (Or.inr (by decide))),
    ((C19_applyAnnotations_frame exampleAmountHeap 0 exampleAmountField rfl).2.2.2.2.2
      (by
        intro c hc
        simp only [exampleAmountField, List.mem_cons, List.mem_singleton, List.not_mem_nil,
          or_false] at hc
        rcases hc with rfl | rfl | rfl
        · exact ⟨_, rfl, fun gc hgc => absurd hgc (List.not_mem_nil gc)⟩
        · refine ⟨_, rfl, fun gc hgc => ?_⟩
          rw [List.mem_singleton.1 (show gc ∈ [3] from hgc)]
          rfl
        · exact ⟨_, rfl, fun gc hgc => absurd hgc (List.not_mem_nil gc)⟩)).imp
      (fun n1 hx => ⟨hx.1,
        (hx.2.2 1 (by decide) _ rfl rfl rfl).2.2.2.2.2.2.2.1 rfl,
        (hx.2.2 2 (by decide) _ rfl rfl rfl).2.2.2.2.2.2.1 rfl⟩),
    rfl⟩

/-! ## Nodes of the categories INTERFACE and ANY_POINTER -/

end capnpparquet
